import Mathlib

/-! # Rendering buckets of the game engine rasterizer

A shallow embedding of `RAS_BucketManager.cpp`, `RAS_MaterialBucket.cpp` and
`RAS_DisplayArrayBucket.cpp`.

Conventions of the embedding.

* Objects live in a heap indexed by addresses (natural numbers); every C++
  pointer is an address and pointer comparison (`==`, `<`) is comparison of addresses.
  `operator new` is a bump allocator (`Heap.next`); `delete` clears the
  liveness bit of the address and appends a record to the destruction log.
* `MT_Scalar` is a floating-point type: a value is NaN or a number. The
  numbers (the finite values and the two infinities) are linearly ordered and
  an integer stands for a number, in that order; every comparison with NaN is
  false. The results of the multiplication and of the addition of scalars are
  given by the floating-point unit `Heap.fp`, of which nothing is assumed: a
  result may be rounded, overflow to an infinity, or be NaN. The unit of the
  scenarios computes exactly, as the machine does on small integers.
* `std::sort` is the insertion sort that the GNU library runs on a range of
  at most 16 elements. The theorems use of it only that the result is a
  permutation of the range and that it is sorted when no depth is NaN (the
  comparator is then a strict weak ordering); the scenarios sort at most four
  elements.
* Sizes of `std::vector` are natural numbers, `m_refcount` is an
  `unsigned int` and wraps modulo `2 ^ 32`.
* The material, mesh-slot and display-array classes are declared in headers
  that are not among the sources; the members used by the code are fields of
  the records below, the virtual queries of the material are the fields of
  `Materials`.
-/

namespace RAS

/-! ## Addresses and scalars -/

/-- The null pointer. Addresses are natural numbers. -/
def NULL : Nat := 0

/-- Modelled from the spec: `MT_Scalar` of the Moto library (not among the
sources), a floating-point number: NaN, or a number. The numbers are the
finite values and the two infinities; they are linearly ordered, and `num x`
is the number of rank `x` in that order (in the scenarios, the integer `x`). -/
inductive MT_Scalar where
  | nan
  | num (x : Int)
deriving DecidableEq, Repr

/-- A numeric literal is the number of that value. -/
instance (n : Nat) : OfNat MT_Scalar n := ⟨MT_Scalar.num n⟩

/-- The operator `a < b` of floating-point numbers: false when an operand is
NaN. -/
def MT_Scalar.lt : MT_Scalar → MT_Scalar → Bool
  | MT_Scalar.num x, MT_Scalar.num y => decide (x < y)
  | _, _ => false

/-- The operator `a > b` of floating-point numbers: false when an operand is
NaN. -/
def MT_Scalar.gt : MT_Scalar → MT_Scalar → Bool
  | MT_Scalar.num x, MT_Scalar.num y => decide (x > y)
  | _, _ => false

/-- The operator `a == b` of floating-point numbers: false when an operand is
NaN. -/
def MT_Scalar.eq : MT_Scalar → MT_Scalar → Bool
  | MT_Scalar.num x, MT_Scalar.num y => decide (x = y)
  | _, _ => false

/-- The operator `a <= b` of floating-point numbers: false when an operand is
NaN. -/
def MT_Scalar.le : MT_Scalar → MT_Scalar → Bool
  | MT_Scalar.num x, MT_Scalar.num y => decide (x ≤ y)
  | _, _ => false

/-- The rank of a number; 0 for NaN. -/
def MT_Scalar.val : MT_Scalar → Int
  | MT_Scalar.num x => x
  | MT_Scalar.nan => 0

/-- The exact product of two numbers; NaN when an operand is NaN. -/
def MT_Scalar.mulExact : MT_Scalar → MT_Scalar → MT_Scalar
  | MT_Scalar.num x, MT_Scalar.num y => MT_Scalar.num (x * y)
  | _, _ => MT_Scalar.nan

/-- The exact sum of two numbers; NaN when an operand is NaN. -/
def MT_Scalar.addExact : MT_Scalar → MT_Scalar → MT_Scalar
  | MT_Scalar.num x, MT_Scalar.num y => MT_Scalar.num (x + y)
  | _, _ => MT_Scalar.nan

/-- Modelled from the spec: the floating-point unit, the operators `a * b` and
`a + b` of `MT_Scalar`. Nothing is assumed of the results: they may be
rounded, an infinity, or NaN. The default unit computes exactly. -/
structure FloatingPoint where
  mul : MT_Scalar → MT_Scalar → MT_Scalar := MT_Scalar.mulExact
  add : MT_Scalar → MT_Scalar → MT_Scalar := MT_Scalar.addExact

/-- Modelled from the spec: `MT_Vector3` of the Moto library (not among the
sources), a triple of scalars. -/
structure MT_Vector3 where
  x : MT_Scalar
  y : MT_Scalar
  z : MT_Scalar
deriving DecidableEq, Repr

/-- A point is a vector (`MT_Point3` derives from `MT_Vector3`). -/
abbrev MT_Point3 := MT_Vector3

/-- Modelled from the spec: `MT_dot` of the Moto library (not among the
sources), the dot product `a.x * b.x + a.y * b.y + a.z * b.z` computed by the
floating-point unit `fp`. -/
def MT_dot (fp : FloatingPoint) (a b : MT_Vector3) : MT_Scalar :=
  fp.add (fp.add (fp.mul a.x b.x) (fp.mul a.y b.y)) (fp.mul a.z b.z)

/-- Modelled from the spec: `MT_Matrix3x3` of the Moto library (not among the
sources), a matrix given by its three rows. -/
structure MT_Matrix3x3 where
  row0 : MT_Vector3
  row1 : MT_Vector3
  row2 : MT_Vector3
deriving DecidableEq, Repr

/-- Row access `m[i]` of a `MT_Matrix3x3`. -/
def MT_Matrix3x3.get (m : MT_Matrix3x3) (i : Nat) : MT_Vector3 :=
  match i with
  | 0 => m.row0
  | 1 => m.row1
  | _ => m.row2

/-- Modelled from the spec: `MT_Transform` of the Moto library (not among the
sources), a basis and an origin. -/
structure MT_Transform where
  m_basis : MT_Matrix3x3
  m_origin : MT_Point3
deriving DecidableEq, Repr

/-- Accessor `MT_Transform::getBasis`. -/
def MT_Transform.getBasis (t : MT_Transform) : MT_Matrix3x3 := t.m_basis

/-! ## Objects -/

/-- The members of `RAS_MeshSlot` the bucket code reads and writes. -/
structure RAS_MeshSlot where
  m_OpenGLMatrix : Nat → MT_Scalar := fun _ => 0
  m_clientObj : Nat := 0
  m_mesh : Nat := 0
  m_pDeformer : Nat := 0
  m_DisplayList : Nat := 0
  m_pDerivedMesh : Nat := 0
  m_displayArray : Nat := 0
  m_bDisplayList : Bool := true
  m_bObjectColor : Bool := false
  m_bCulled : Bool := true

/-- The content of a `RAS_DisplayArray`: vertices and indices. -/
structure RAS_DisplayArray where
  m_vertexes : List Int := []
  m_indexes : List Nat := []
deriving DecidableEq, Repr

/-- The members of `RAS_DisplayArrayBucket`. -/
structure RAS_DisplayArrayBucket where
  m_refcount : Nat := 1
  m_bucket : Nat := 0
  m_displayArray : Nat := 0
  m_activeMeshSlots : List Nat := []
deriving DecidableEq, Repr

/-- The members of `RAS_MaterialBucket`. -/
structure RAS_MaterialBucket where
  m_material : Nat := 0
  m_meshSlots : List Nat := []
  m_displayArrayBucketList : List Nat := []
deriving DecidableEq, Repr

/-- The members of `RAS_BucketManager`. -/
structure RAS_BucketManager where
  m_SolidBuckets : List Nat := []
  m_AlphaBuckets : List Nat := []
deriving DecidableEq, Repr

/-- A record of the destruction log: which object a `delete` destroyed. -/
inductive Destroyed where
  | displayArrayBucket (p : Nat)
  | displayArray (p : Nat)
  | materialBucket (p : Nat)
  | meshSlot (p : Nat)
deriving DecidableEq, Repr

/-- The heap: the allocator, the liveness of every address, the objects, and
the log of destructions in the order in which they happened; with it the
floating-point unit `fp` of the machine, which no operation changes. -/
structure Heap where
  fp : FloatingPoint := {}
  next : Nat := 1
  live : Nat → Bool := fun _ => false
  meshSlot : Nat → RAS_MeshSlot := fun _ => {}
  displayArray : Nat → RAS_DisplayArray := fun _ => {}
  displayArrayBucket : Nat → RAS_DisplayArrayBucket := fun _ => {}
  materialBucket : Nat → RAS_MaterialBucket := fun _ => {}
  destroyed : List Destroyed := []

/-- Overwrite one cell of a heap component. -/
def store {α : Type} (f : Nat → α) (p : Nat) (v : α) : Nat → α :=
  fun q => if q = p then v else f q

/-- The virtual queries of `RAS_IPolyMaterial` (declared in a header that is
not among the sources), indexed by the address of the material. `equals a b`
is `*a == *b`. -/
structure Materials where
  equals : Nat → Nat → Bool
  IsAlpha : Nat → Bool
  IsZSort : Nat → Bool := fun _ => false
  CastsShadows : Nat → Bool := fun _ => true
  OnlyShadow : Nat → Bool := fun _ => false
  UsesObjectColor : Nat → Bool := fun _ => false
  UsesLighting : Nat → Bool := fun _ => true
  GetDrawingMode : Nat → Nat := fun _ => 0

/-! ## RAS_DisplayArrayBucket: the active mesh slots -/

/-- Method `RAS_DisplayArrayBucket::GetActiveMeshSlots`. -/
def GetActiveMeshSlots (h : Heap) (self : Nat) : List Nat :=
  (h.displayArrayBucket self).m_activeMeshSlots

/-- Method `RAS_DisplayArrayBucket::GetNumActiveMeshSlots`. -/
def GetNumActiveMeshSlots (h : Heap) (self : Nat) : Nat :=
  (h.displayArrayBucket self).m_activeMeshSlots.length

/-- Method `RAS_DisplayArrayBucket::RemoveActiveMeshSlots`. -/
def RemoveActiveMeshSlots (h : Heap) (self : Nat) : Heap :=
  { h with
    displayArrayBucket :=
      store h.displayArrayBucket self
        { (h.displayArrayBucket self) with m_activeMeshSlots := [] } }

/-- Method `RAS_DisplayArrayBucket::ActivateMesh`. -/
def ActivateMesh (h : Heap) (self slot : Nat) : Heap :=
  { h with
    displayArrayBucket :=
      store h.displayArrayBucket self
        { (h.displayArrayBucket self) with
          m_activeMeshSlots := (h.displayArrayBucket self).m_activeMeshSlots ++ [slot] } }

/-- Method `RAS_MaterialBucket::GetDisplayArrayBucketList`. -/
def GetDisplayArrayBucketList (h : Heap) (self : Nat) : List Nat :=
  (h.materialBucket self).m_displayArrayBucketList

/-! ## RAS_BucketManager: sorting -/

/-- The struct `RAS_BucketManager::sortedmeshslot`. -/
structure sortedmeshslot where
  m_z : MT_Scalar
  m_ms : Nat
  m_bucket : Nat
deriving DecidableEq, Repr

/-- The default constructor `sortedmeshslot() {}` leaves the members
indeterminate; this value stands for such an element. -/
def sortedmeshslot.indeterminate : sortedmeshslot := ⟨0, 0, 0⟩

/-- Method `sortedmeshslot::set`. -/
def sortedmeshslot.set (h : Heap) (ms bucket : Nat) (pnorm : MT_Vector3) : sortedmeshslot :=
  let pos : MT_Point3 :=
    ⟨(h.meshSlot ms).m_OpenGLMatrix 12, (h.meshSlot ms).m_OpenGLMatrix 13,
      (h.meshSlot ms).m_OpenGLMatrix 14⟩
  { m_z := MT_dot h.fp pnorm pos, m_ms := ms, m_bucket := bucket }

/-- The comparator `RAS_BucketManager::backtofront`. -/
def backtofront (a b : sortedmeshslot) : Bool :=
  MT_Scalar.lt a.m_z b.m_z || (MT_Scalar.eq a.m_z b.m_z && decide (a.m_ms < b.m_ms))

/-- The comparator `RAS_BucketManager::fronttoback`. -/
def fronttoback (a b : sortedmeshslot) : Bool :=
  MT_Scalar.gt a.m_z b.m_z || (MT_Scalar.eq a.m_z b.m_z && decide (a.m_ms > b.m_ms))

/-- The library routine `std::__unguarded_linear_insert` of the GNU library,
on the sorted range given from its last element back to its first: `val`
moves towards the front past every element it is `comp`-before and stops
behind the first element it is not `comp`-before. -/
def unguarded_linear_insert (comp : sortedmeshslot → sortedmeshslot → Bool)
    (val : sortedmeshslot) : List sortedmeshslot → List sortedmeshslot
  | [] => [val]
  | next :: rest =>
    if comp val next then next :: unguarded_linear_insert comp val rest
    else val :: next :: rest

/-- One round of the loop of `std::__insertion_sort` of the GNU library, on
the range `sorted` already treated: an element that is `comp`-before the first
element becomes the first element, any other element is inserted from the
end. -/
def insertion_sort_round (comp : sortedmeshslot → sortedmeshslot → Bool)
    (sorted : List sortedmeshslot) (val : sortedmeshslot) : List sortedmeshslot :=
  match sorted with
  | [] => [val]
  | first :: _ =>
    if comp val first then val :: sorted
    else (unguarded_linear_insert comp val sorted.reverse).reverse

/-- The library routine `std::__insertion_sort` of the GNU library. -/
def insertion_sort (comp : sortedmeshslot → sortedmeshslot → Bool) :
    List sortedmeshslot → List sortedmeshslot
  | [] => []
  | first :: rest => rest.foldl (insertion_sort_round comp) [first]

/-- The library routine `std::sort(first, last, comp)`: the insertion sort
that the GNU library runs on a range of at most 16 elements; it consults only
the comparator. When the comparator is a strict weak ordering of the elements,
no element of the result is `comp`-before an element that precedes it. -/
def std_sort (comp : sortedmeshslot → sortedmeshslot → Bool) (v : List sortedmeshslot) :
    List sortedmeshslot :=
  insertion_sort comp v

/-- The library routine `std::vector::resize(n)`: truncate, or pad with
default-constructed elements. -/
def vector_resize (v : List sortedmeshslot) (n : Nat) : List sortedmeshslot :=
  v.take n ++ List.replicate (n - v.length) sortedmeshslot.indeterminate

/-- First loop nest of `OrderBuckets`: the sum of the numbers of active mesh
slots of the display array buckets of one material bucket, added to `size`. -/
def OrderBuckets.sizeArrays (h : Heap) : List Nat → Nat → Nat
  | [], size => size
  | dbit :: rest, size => OrderBuckets.sizeArrays h rest (size + GetNumActiveMeshSlots h dbit)

/-- First loop nest of `OrderBuckets`, outer loop over the buckets. -/
def OrderBuckets.sizeBuckets (h : Heap) : List Nat → Nat → Nat
  | [], size => size
  | bit :: rest, size =>
    OrderBuckets.sizeBuckets h rest
      (OrderBuckets.sizeArrays h (GetDisplayArrayBucketList h bit) size)

/-- Second loop nest of `OrderBuckets`, innermost loop:
`slots[i++].set(*it, bucket, pnorm)` for every active mesh slot. -/
def OrderBuckets.fillSlots (h : Heap) (bucket : Nat) (pnorm : MT_Vector3) :
    List Nat → List sortedmeshslot → Nat → List sortedmeshslot × Nat
  | [], slots, i => (slots, i)
  | it :: rest, slots, i =>
    OrderBuckets.fillSlots h bucket pnorm rest
      (slots.set i (sortedmeshslot.set h it bucket pnorm)) (i + 1)

/-- Second loop nest of `OrderBuckets`, loop over the display array buckets of
one material bucket: queue the active slots, then clear them. -/
def OrderBuckets.fillArrays (bucket : Nat) (pnorm : MT_Vector3) :
    List Nat → Heap → List sortedmeshslot → Nat → Heap × List sortedmeshslot × Nat
  | [], h, slots, i => (h, slots, i)
  | dbit :: rest, h, slots, i =>
    OrderBuckets.fillArrays bucket pnorm rest (RemoveActiveMeshSlots h dbit)
      (OrderBuckets.fillSlots h bucket pnorm (GetActiveMeshSlots h dbit) slots i).1
      (OrderBuckets.fillSlots h bucket pnorm (GetActiveMeshSlots h dbit) slots i).2

/-- Second loop nest of `OrderBuckets`, outer loop over the buckets. -/
def OrderBuckets.fillBuckets (pnorm : MT_Vector3) :
    List Nat → Heap → List sortedmeshslot → Nat → Heap × List sortedmeshslot × Nat
  | [], h, slots, i => (h, slots, i)
  | bit :: rest, h, slots, i =>
    OrderBuckets.fillBuckets pnorm rest
      (OrderBuckets.fillArrays bit pnorm (GetDisplayArrayBucketList h bit) h slots i).1
      (OrderBuckets.fillArrays bit pnorm (GetDisplayArrayBucketList h bit) h slots i).2.1
      (OrderBuckets.fillArrays bit pnorm (GetDisplayArrayBucketList h bit) h slots i).2.2

/-- Method `RAS_BucketManager::OrderBuckets`. The result is the heap after the
call and the vector `slots`. -/
def OrderBuckets (h : Heap) (cameratrans : MT_Transform) (buckets : List Nat)
    (slots : List sortedmeshslot) (alpha : Bool) : Heap × List sortedmeshslot :=
  let pnorm := cameratrans.getBasis.get 2
  let size := OrderBuckets.sizeBuckets h buckets 0
  let filled := OrderBuckets.fillBuckets pnorm buckets h (vector_resize slots size) 0
  if alpha then (filled.1, std_sort backtofront filled.2.1)
  else (filled.1, std_sort fronttoback filled.2.1)

/-! ## What a call of OrderBuckets finds queued -/

/-- Depth of a mesh slot: the dot product of the third row of the camera basis
with the translation `m_OpenGLMatrix[12..14]` of the slot. -/
def slotDepth (h : Heap) (cameratrans : MT_Transform) (ms : Nat) : MT_Scalar :=
  MT_dot h.fp (cameratrans.getBasis.get 2)
    ⟨(h.meshSlot ms).m_OpenGLMatrix 12, (h.meshSlot ms).m_OpenGLMatrix 13,
      (h.meshSlot ms).m_OpenGLMatrix 14⟩

/-- The entries of the active mesh slots of one display array bucket `dbit` of
the material bucket `bucket`, in activation order. -/
def queuedOfArray (h : Heap) (pnorm : MT_Vector3) (bucket dbit : Nat) : List sortedmeshslot :=
  (GetActiveMeshSlots h dbit).map (fun ms => sortedmeshslot.set h ms bucket pnorm)

/-- The entries of the active mesh slots of the display array buckets `ds` of
the material bucket `bucket`. -/
def queuedOfArrays (h : Heap) (pnorm : MT_Vector3) (bucket : Nat) (ds : List Nat) :
    List sortedmeshslot :=
  ds.flatMap (queuedOfArray h pnorm bucket)

/-- The entries of all active mesh slots of a bucket collection. -/
def queued (h : Heap) (pnorm : MT_Vector3) (buckets : List Nat) : List sortedmeshslot :=
  buckets.flatMap (fun bit => queuedOfArrays h pnorm bit (GetDisplayArrayBucketList h bit))

/-- The display array buckets of a bucket collection, in iteration order. -/
def displayArrayBucketsOf (h : Heap) (buckets : List Nat) : List Nat :=
  buckets.flatMap (GetDisplayArrayBucketList h)

/-- The total number of active mesh slots over all display array buckets of
all buckets of a collection. -/
def numActiveMeshSlots (h : Heap) (buckets : List Nat) : Nat :=
  ((displayArrayBucketsOf h buckets).map (GetNumActiveMeshSlots h)).sum

/-- Clearing the active mesh slots of a list of display array buckets. -/
def clearedArrays (h : Heap) (ds : List Nat) : Heap :=
  ds.foldl RemoveActiveMeshSlots h

/-! ## Allocation and destruction -/

/-- The number of values of an `unsigned int`. -/
def UINT_SIZE : Nat := 4294967296

/-- The library routine `operator new`: hands out the next address, which
becomes live. The result is the address and the heap after the allocation. -/
def operator_new (h : Heap) : Nat × Heap :=
  (h.next, { h with next := h.next + 1, live := store h.live h.next true })

/-- The expression `delete array` for a `RAS_DisplayArray` (its destructor is
not among the sources): the array is no longer live and its destruction is
logged. -/
def delete_RAS_DisplayArray (h : Heap) (array : Nat) : Heap :=
  { h with
    live := store h.live array false
    destroyed := h.destroyed ++ [Destroyed.displayArray array] }

/-- The expression `delete ms` for a `RAS_MeshSlot` (its destructor is not
among the sources): the slot is no longer live and its destruction is logged. -/
def delete_RAS_MeshSlot (h : Heap) (ms : Nat) : Heap :=
  { h with
    live := store h.live ms false
    destroyed := h.destroyed ++ [Destroyed.meshSlot ms] }

/-! ## RAS_MaterialBucket -/

/-- The constructor `RAS_MaterialBucket::RAS_MaterialBucket(mat)` on the
storage at `self`. -/
def RAS_MaterialBucket.ctor (h : Heap) (self mat : Nat) : Heap :=
  { h with
    materialBucket :=
      store h.materialBucket self
        { m_material := mat, m_meshSlots := [], m_displayArrayBucketList := [] } }

/-- The expression `new RAS_MaterialBucket(mat)`: the heap after it and the
address of the new bucket. -/
def new_RAS_MaterialBucket (h : Heap) (mat : Nat) : Heap × Nat :=
  (RAS_MaterialBucket.ctor (operator_new h).2 (operator_new h).1 mat, (operator_new h).1)

/-- The destructor `RAS_MaterialBucket::~RAS_MaterialBucket`: deletes every
mesh slot of the bucket. -/
def RAS_MaterialBucket.dtor (h : Heap) (self : Nat) : Heap :=
  (h.materialBucket self).m_meshSlots.foldl delete_RAS_MeshSlot h

/-- The expression `delete bucket` for a `RAS_MaterialBucket`: the destructor
runs, then the bucket is no longer live and its destruction is logged. -/
def delete_RAS_MaterialBucket (h : Heap) (bucket : Nat) : Heap :=
  { RAS_MaterialBucket.dtor h bucket with
    live := store (RAS_MaterialBucket.dtor h bucket).live bucket false
    destroyed := (RAS_MaterialBucket.dtor h bucket).destroyed ++ [Destroyed.materialBucket bucket] }

/-- Method `RAS_MaterialBucket::GetPolyMaterial`. -/
def GetPolyMaterial (h : Heap) (self : Nat) : Nat :=
  (h.materialBucket self).m_material

/-- Method `RAS_MaterialBucket::IsAlpha`. -/
def RAS_MaterialBucket.IsAlpha (M : Materials) (h : Heap) (self : Nat) : Bool :=
  M.IsAlpha (h.materialBucket self).m_material

/-- Method `RAS_MaterialBucket::AddDisplayArrayBucket`. -/
def AddDisplayArrayBucket (h : Heap) (self bucket : Nat) : Heap :=
  { h with
    materialBucket :=
      store h.materialBucket self
        { (h.materialBucket self) with
          m_displayArrayBucketList :=
            (h.materialBucket self).m_displayArrayBucketList ++ [bucket] } }

/-- Method `RAS_MaterialBucket::RemoveDisplayArrayBucket`: `std::find`, then
`erase` of the position found, if any. -/
def RemoveDisplayArrayBucket (h : Heap) (self bucket : Nat) : Heap :=
  { h with
    materialBucket :=
      store h.materialBucket self
        { (h.materialBucket self) with
          m_displayArrayBucketList :=
            (h.materialBucket self).m_displayArrayBucketList.erase bucket } }

/-! ## RAS_DisplayArrayBucket: life cycle -/

/-- The constructor `RAS_DisplayArrayBucket(bucket, array)` on the storage at
`self`. -/
def RAS_DisplayArrayBucket.ctor (h : Heap) (self bucket array : Nat) : Heap :=
  AddDisplayArrayBucket
    { h with
      displayArrayBucket :=
        store h.displayArrayBucket self
          { m_refcount := 1, m_bucket := bucket, m_displayArray := array,
            m_activeMeshSlots := [] } }
    bucket self

/-- The expression `new RAS_DisplayArrayBucket(bucket, array)`: the heap after
it and the address of the new display array bucket. -/
def new_RAS_DisplayArrayBucket (h : Heap) (bucket array : Nat) : Heap × Nat :=
  (RAS_DisplayArrayBucket.ctor (operator_new h).2 (operator_new h).1 bucket array,
    (operator_new h).1)

/-- The destructor `RAS_DisplayArrayBucket::~RAS_DisplayArrayBucket`. -/
def RAS_DisplayArrayBucket.dtor (h : Heap) (self : Nat) : Heap :=
  if (h.displayArrayBucket self).m_displayArray ≠ NULL then
    delete_RAS_DisplayArray
      (RemoveDisplayArrayBucket h (h.displayArrayBucket self).m_bucket self)
      (h.displayArrayBucket self).m_displayArray
  else
    RemoveDisplayArrayBucket h (h.displayArrayBucket self).m_bucket self

/-- The expression `delete this` for a `RAS_DisplayArrayBucket`: the destructor
runs, then the bucket is no longer live and its destruction is logged. -/
def delete_RAS_DisplayArrayBucket (h : Heap) (self : Nat) : Heap :=
  { RAS_DisplayArrayBucket.dtor h self with
    live := store (RAS_DisplayArrayBucket.dtor h self).live self false
    destroyed :=
      (RAS_DisplayArrayBucket.dtor h self).destroyed ++ [Destroyed.displayArrayBucket self] }

/-- Method `RAS_DisplayArrayBucket::AddRef`: the heap after the call and the
pointer returned. -/
def AddRef (h : Heap) (self : Nat) : Heap × Nat :=
  ({ h with
      displayArrayBucket :=
        store h.displayArrayBucket self
          { (h.displayArrayBucket self) with
            m_refcount := ((h.displayArrayBucket self).m_refcount + 1) % UINT_SIZE } },
    self)

/-- The first statement of `Release`: `--m_refcount`. -/
def Release.decrement (h : Heap) (self : Nat) : Heap :=
  { h with
    displayArrayBucket :=
      store h.displayArrayBucket self
        { (h.displayArrayBucket self) with
          m_refcount :=
            ((h.displayArrayBucket self).m_refcount + UINT_SIZE - 1) % UINT_SIZE } }

/-- Method `RAS_DisplayArrayBucket::Release`: the heap after the call and the
pointer returned. -/
def Release (h : Heap) (self : Nat) : Heap × Nat :=
  if ((Release.decrement h self).displayArrayBucket self).m_refcount = 0 then
    (delete_RAS_DisplayArrayBucket (Release.decrement h self) self, NULL)
  else
    (Release.decrement h self, self)

/-- Method `RAS_DisplayArrayBucket::GetRefCount`. -/
def GetRefCount (h : Heap) (self : Nat) : Nat :=
  (h.displayArrayBucket self).m_refcount

/-- Method `RAS_DisplayArrayBucket::GetDisplayArray`. -/
def GetDisplayArray (h : Heap) (self : Nat) : Nat :=
  (h.displayArrayBucket self).m_displayArray

/-- The expression `new RAS_DisplayArray(*array)`: a copy of the content at a
new address. -/
def new_RAS_DisplayArray_copy (h : Heap) (array : Nat) : Heap × Nat :=
  ({ (operator_new h).2 with
      displayArray := store (operator_new h).2.displayArray (operator_new h).1 (h.displayArray array) },
    (operator_new h).1)

/-- The second and third statements of `ProcessReplica`: replace the display
array, when there is one, by a copy of it. -/
def ProcessReplica.copyArray (h : Heap) (self : Nat) : Heap :=
  if (h.displayArrayBucket self).m_displayArray ≠ NULL then
    { (new_RAS_DisplayArray_copy h (h.displayArrayBucket self).m_displayArray).1 with
      displayArrayBucket :=
        store h.displayArrayBucket self
          { (h.displayArrayBucket self) with
            m_displayArray :=
              (new_RAS_DisplayArray_copy h (h.displayArrayBucket self).m_displayArray).2 } }
  else h

/-- Method `RAS_DisplayArrayBucket::ProcessReplica`. -/
def ProcessReplica (h : Heap) (self : Nat) : Heap :=
  AddDisplayArrayBucket
    (ProcessReplica.copyArray
      { h with
        displayArrayBucket :=
          store h.displayArrayBucket self
            { (h.displayArrayBucket self) with m_refcount := 1, m_activeMeshSlots := [] } }
      self)
    (h.displayArrayBucket self).m_bucket self

/-- Method `RAS_DisplayArrayBucket::GetReplica`: the implicit copy constructor
copies the members to new storage, then `ProcessReplica` runs on the copy. The
result is the heap after the call and the replica. -/
def GetReplica (h : Heap) (self : Nat) : Heap × Nat :=
  (ProcessReplica
      { (operator_new h).2 with
        displayArrayBucket :=
          store h.displayArrayBucket (operator_new h).1 (h.displayArrayBucket self) }
      (operator_new h).1,
    (operator_new h).1)

/-! ## RAS_BucketManager: the collections -/

/-- What `FindBucket` leaves behind: the heap, the manager, the bucket
returned and the output flag `bucketCreated`. -/
structure FindBucketResult where
  heap : Heap
  manager : RAS_BucketManager
  bucket : Nat
  bucketCreated : Bool

/-- Method `RAS_BucketManager::FindBucket`. -/
def FindBucket (M : Materials) (h : Heap) (self : RAS_BucketManager) (material : Nat) :
    FindBucketResult :=
  match self.m_SolidBuckets.find? (fun it => M.equals (GetPolyMaterial h it) material) with
  | some it => { heap := h, manager := self, bucket := it, bucketCreated := false }
  | none =>
    match self.m_AlphaBuckets.find? (fun it => M.equals (GetPolyMaterial h it) material) with
    | some it => { heap := h, manager := self, bucket := it, bucketCreated := false }
    | none =>
      if RAS_MaterialBucket.IsAlpha M (new_RAS_MaterialBucket h material).1
          (new_RAS_MaterialBucket h material).2 then
        { heap := (new_RAS_MaterialBucket h material).1
          manager :=
            { self with
              m_AlphaBuckets := self.m_AlphaBuckets ++ [(new_RAS_MaterialBucket h material).2] }
          bucket := (new_RAS_MaterialBucket h material).2
          bucketCreated := true }
      else
        { heap := (new_RAS_MaterialBucket h material).1
          manager :=
            { self with
              m_SolidBuckets := self.m_SolidBuckets ++ [(new_RAS_MaterialBucket h material).2] }
          bucket := (new_RAS_MaterialBucket h material).2
          bucketCreated := true }

/-- The loops of `RemoveMaterial` over one collection `v`, from index `i`:
a bucket whose material pointer is `mat` is erased and deleted and the index
stays (`i--` followed by the `i++` of the loop), otherwise the index advances. -/
def RemoveMaterial.loop (mat : Nat) (h : Heap) (v : List Nat) (i : Nat) : Heap × List Nat :=
  if hi : i < v.length then
    if mat = GetPolyMaterial h v[i] then
      RemoveMaterial.loop mat (delete_RAS_MaterialBucket h v[i]) (v.eraseIdx i) i
    else
      RemoveMaterial.loop mat h v (i + 1)
  else (h, v)
termination_by v.length - i
decreasing_by
  · simp only [List.length_eraseIdx, hi, if_true]; omega
  · omega

/-- Method `RAS_BucketManager::RemoveMaterial`: the heap and the manager after
the call. -/
def RemoveMaterial (h : Heap) (self : RAS_BucketManager) (mat : Nat) :
    Heap × RAS_BucketManager :=
  ((RemoveMaterial.loop mat (RemoveMaterial.loop mat h self.m_SolidBuckets 0).1
      self.m_AlphaBuckets 0).1,
    { m_SolidBuckets := (RemoveMaterial.loop mat h self.m_SolidBuckets 0).2
      m_AlphaBuckets :=
        (RemoveMaterial.loop mat (RemoveMaterial.loop mat h self.m_SolidBuckets 0).1
          self.m_AlphaBuckets 0).2 })

/-- Method `RAS_BucketManager::MergeBucketManager` for a manager `other` that
is another object than `self`: the two managers after the call. -/
def MergeBucketManager (self other : RAS_BucketManager) :
    RAS_BucketManager × RAS_BucketManager :=
  ({ m_SolidBuckets := self.m_SolidBuckets ++ other.m_SolidBuckets
     m_AlphaBuckets := self.m_AlphaBuckets ++ other.m_AlphaBuckets },
   { m_SolidBuckets := []
     m_AlphaBuckets := [] })

/-- The constructor `RAS_BucketManager::RAS_BucketManager`: both collections
are empty. -/
def RAS_BucketManager.ctor : RAS_BucketManager :=
  { m_SolidBuckets := [], m_AlphaBuckets := [] }

/-- The invariant of the manager: no two distinct buckets of the solid and
alpha collections have materials that compare equal. -/
def MaterialsUnique (M : Materials) (h : Heap) (self : RAS_BucketManager) : Prop :=
  ∀ a ∈ self.m_SolidBuckets ++ self.m_AlphaBuckets,
    ∀ b ∈ self.m_SolidBuckets ++ self.m_AlphaBuckets,
      a ≠ b → M.equals (GetPolyMaterial h a) (GetPolyMaterial h b) = false

instance (M : Materials) (h : Heap) (self : RAS_BucketManager) :
    Decidable (MaterialsUnique M h self) := by
  unfold MaterialsUnique; infer_instance

/-! ## Sequences of calls on handles -/

/-- A heap in which the reference count of the display array bucket `p` is
set to `n`. -/
def setRefCount (h : Heap) (p n : Nat) : Heap :=
  { h with
    displayArrayBucket :=
      store h.displayArrayBucket p { (h.displayArrayBucket p) with m_refcount := n } }

/-- The heap after `k` successive calls of `AddRef` on `p`. -/
def addRefs (h : Heap) (p : Nat) : Nat → Heap
  | 0 => h
  | k + 1 => (AddRef (addRefs h p k) p).1

/-- The heap after `j` successive calls of `Release` on `p`. -/
def releases (h : Heap) (p : Nat) : Nat → Heap
  | 0 => h
  | j + 1 => (Release (releases h p j) p).1

/-- The heap after `n` successive calls of `GetReplica` on `b`, and the
replicas in the order of their creation. -/
def replicas (h : Heap) (b : Nat) : Nat → Heap × List Nat
  | 0 => (h, [])
  | n + 1 =>
    ((replicas (GetReplica h b).1 b n).1, (GetReplica h b).2 :: (replicas (GetReplica h b).1 b n).2)

/-- The heap after one call of `Release` on each handle of a list, in order. -/
def releaseAll (h : Heap) : List Nat → Heap
  | [] => h
  | p :: rest => releaseAll (Release h p).1 rest

/-- The display array buckets a destruction log records, in order. -/
def destroyedArrayBuckets (log : List Destroyed) : List Nat :=
  log.filterMap (fun d =>
    match d with
    | Destroyed.displayArrayBucket p => some p
    | _ => none)

/-- Method `RAS_BucketManager::MergeBucketManager` on managers kept in a store
and named by their addresses: the four statements in order. (For
`self = other` the C++ `insert` of a vector into itself is undefined; the
store then holds what inserting a copy would give.) -/
def MergeBucketManager.inStore (m : Nat → RAS_BucketManager) (self other : Nat) :
    Nat → RAS_BucketManager :=
  let m1 := store m self
    { (m self) with m_SolidBuckets := (m self).m_SolidBuckets ++ (m other).m_SolidBuckets }
  let m2 := store m1 other { (m1 other) with m_SolidBuckets := [] }
  let m3 := store m2 self
    { (m2 self) with m_AlphaBuckets := (m2 self).m_AlphaBuckets ++ (m2 other).m_AlphaBuckets }
  store m3 other { (m3 other) with m_AlphaBuckets := [] }

/-! ## RAS_MaterialBucket: mesh slots and display array buckets -/

/-- Method `RAS_MaterialBucket::FindDisplayArrayBucket`: the heap after the
call and the display array bucket returned. -/
def FindDisplayArrayBucket (h : Heap) (self array : Nat) : Heap × Nat :=
  match (GetDisplayArrayBucketList h self).find?
      (fun displayArrayBucket => decide (GetDisplayArray h displayArrayBucket = array)) with
  | some displayArrayBucket => (h, displayArrayBucket)
  | none => new_RAS_DisplayArrayBucket h self array

/-- Method `RAS_MaterialBucket::RemoveMesh`: `std::find`, then `erase` of the
position found and `delete` of the mesh slot, if it was found. -/
def RemoveMesh (h : Heap) (self ms : Nat) : Heap :=
  if ms ∈ (h.materialBucket self).m_meshSlots then
    delete_RAS_MeshSlot
      { h with
        materialBucket :=
          store h.materialBucket self
            { (h.materialBucket self) with
              m_meshSlots := (h.materialBucket self).m_meshSlots.erase ms } }
      ms
  else h

/-- The invariant of a display array bucket `p`: its reference count is at
least 1, it occurs once in the child list of its parent and in the child list
of no other material bucket. -/
def ArrayBucketInvariant (h : Heap) (p : Nat) : Prop :=
  1 ≤ GetRefCount h p
  ∧ (GetDisplayArrayBucketList h (h.displayArrayBucket p).m_bucket).count p = 1
  ∧ ∀ b, b ≠ (h.displayArrayBucket p).m_bucket → p ∉ GetDisplayArrayBucketList h b

/-- Every display array bucket registered in a child list is allocated. -/
def ChildrenAllocated (h : Heap) : Prop :=
  ∀ b, ∀ x ∈ GetDisplayArrayBucketList h b, x < h.next

/-! ## The rasterizer and the calls of a frame -/

/-- Modelled from the spec: the drawing mode `KX_SOLID` of `RAS_IRasterizer`
(its header is not among the sources); the modes are numbered in the order of
their declaration, bounding box, wireframe, solid, shaded, textured, shadow. -/
def KX_SOLID : Nat := 3

/-- Modelled from the spec: the drawing mode `KX_SHADOW` of `RAS_IRasterizer`,
the shadow pass. -/
def KX_SHADOW : Nat := 6

/-- Modelled from the spec: the bit `RAS_RENDER_3DPOLYGON_TEXT` of the drawing
mode of a material (text drawn with faces). -/
def RAS_RENDER_3DPOLYGON_TEXT : Nat := 64

/-- Modelled from the spec: the bit `RAS_MeshObject::MESH_MODIFIED` of the
modified flag of a mesh object. -/
def MESH_MODIFIED : Nat := 1

/-- A call of the frame: the calls on the rasterizer, on the material, the
deformer, the mesh object and the display list of a mesh slot, and the two
calls `ActivateMaterial` and `RenderMeshSlot` of the render loop of a mesh
slot `ms`; `ActivateMaterial` is recorded when it returns, with its result,
`RenderMeshSlot` when it is entered. `SetDepthMask true` is
`SetDepthMask(KX_DEPTHMASK_ENABLED)`. -/
inductive Call where
  | ClearCachingInfo
  | SetDepthMask (enabled : Bool)
  | SetClientObject (obj : Nat)
  | BindPrimitives (array : Nat)
  | UnbindPrimitives (array : Nat)
  | SetMaterial (mat : Nat) (accepted : Bool)
  | ProcessLighting (uselights : Bool)
  | PushMatrix
  | PopMatrix
  | applyTransform (ms mode : Nat)
  | IndexPrimitives (ms : Nat)
  | IndexPrimitives_3DText (ms mat : Nat)
  | ActivateMeshSlot (mat ms : Nat)
  | Apply (deformer mat : Nat)
  | SortPolygons (mesh ms : Nat)
  | SetModified (list flag : Nat)
  | SetModifiedFlag (mesh flag : Nat)
  | ActivateMaterial (bucket ms : Nat) (result : Bool)
  | RenderMeshSlot (bucket ms : Nat)
deriving DecidableEq, Repr

/-- The device `RAS_IRasterizer` (declared in a header that is not among the
sources): its drawing mode, the answer of `QueryLists`, and its answers to
`SetMaterial`: `accepts n mat` is the answer to call number `n` when the
material is `mat`, `numSetMaterial` is the number of calls so far. -/
structure RAS_IRasterizer where
  m_drawingmode : Nat := KX_SOLID
  m_queryLists : Bool := false
  accepts : Nat → Nat → Bool := fun _ _ => false
  numSetMaterial : Nat := 0

/-- The virtual queries of `RAS_Deformer` (declared in a header that is not
among the sources), indexed by the address of the deformer. -/
structure Deformers where
  IsDynamic : Nat → Bool := fun _ => false
  SkipVertexTransform : Nat → Bool := fun _ => false

/-- The state of a frame: the heap, the rasterizer, the modified flag of every
mesh object and the calls made so far, in order. -/
structure RenderState where
  heap : Heap := {}
  rasty : RAS_IRasterizer := {}
  modifiedFlag : Nat → Nat := fun _ => 0
  calls : List Call := []

/-- Record a call. -/
def RenderState.call (w : RenderState) (c : Call) : RenderState :=
  { w with calls := w.calls ++ [c] }

/-- The call `rasty->SetMaterial(mat)`: the state after the call and the
answer of the device. -/
def SetMaterial (w : RenderState) (mat : Nat) : RenderState × Bool :=
  ({ w with
      rasty := { w.rasty with numSetMaterial := w.rasty.numSetMaterial + 1 }
      calls := w.calls ++ [Call.SetMaterial mat (w.rasty.accepts w.rasty.numSetMaterial mat)] },
    w.rasty.accepts w.rasty.numSetMaterial mat)

/-- Method `RAS_MeshSlot::SetCulled` (declared in a header that is not among
the sources): sets the culled flag of the mesh slot. -/
def SetCulled (h : Heap) (ms : Nat) (culled : Bool) : Heap :=
  { h with meshSlot := store h.meshSlot ms { (h.meshSlot ms) with m_bCulled := culled } }

/-- Method `RAS_MeshObject::SetModifiedFlag` (declared in a header that is not
among the sources): sets the modified flag of the mesh object. -/
def SetModifiedFlag (w : RenderState) (mesh flag : Nat) : RenderState :=
  { w with
    modifiedFlag := store w.modifiedFlag mesh flag
    calls := w.calls ++ [Call.SetModifiedFlag mesh flag] }

/-! ## RAS_MaterialBucket: drawing -/

/-- Method `RAS_MaterialBucket::ActivateMaterial`: the state after the call
and the value returned. -/
def ActivateMaterial (M : Materials) (w : RenderState) (self : Nat)
    (cameratrans : MT_Transform) : RenderState × Bool :=
  if w.rasty.m_drawingmode = KX_SHADOW ∧ M.CastsShadows (GetPolyMaterial w.heap self) = false then
    (w, false)
  else if w.rasty.m_drawingmode ≠ KX_SHADOW ∧ M.OnlyShadow (GetPolyMaterial w.heap self) = true then
    (w, false)
  else if (SetMaterial w (GetPolyMaterial w.heap self)).2 = false then
    ((SetMaterial w (GetPolyMaterial w.heap self)).1, false)
  else
    ((SetMaterial w (GetPolyMaterial w.heap self)).1.call
      (Call.ProcessLighting (M.UsesLighting (GetPolyMaterial w.heap self))), true)

/-- Method `RAS_MaterialBucket::IsZSort`. -/
def RAS_MaterialBucket.IsZSort (M : Materials) (h : Heap) (self : Nat) : Bool :=
  M.IsZSort (h.materialBucket self).m_material

/-- The value `RenderMeshSlot` gives to the flag `m_bDisplayList` of the mesh
slot: the chain of tests of the source. -/
def RenderMeshSlot.displayList (M : Materials) (D : Deformers) (w : RenderState)
    (self ms : Nat) : Bool :=
  if (w.heap.meshSlot ms).m_pDeformer ≠ NULL
      ∧ D.IsDynamic (w.heap.meshSlot ms).m_pDeformer = true then false
  else if (w.heap.meshSlot ms).m_DisplayList = NULL ∧ w.rasty.m_drawingmode = KX_SHADOW then false
  else if RAS_MaterialBucket.IsZSort M w.heap self = true then false
  else if M.UsesObjectColor (GetPolyMaterial w.heap self) = true
      ∧ (w.heap.meshSlot ms).m_bObjectColor = true then false
  else if (w.heap.meshSlot ms).m_pDerivedMesh ≠ NULL then false
  else true

/-- The calls made by `RenderMeshSlot`, in order. -/
def RenderMeshSlot.calls (M : Materials) (D : Deformers) (w : RenderState)
    (self ms : Nat) : List Call :=
  [Call.RenderMeshSlot self ms, Call.ActivateMeshSlot (GetPolyMaterial w.heap self) ms]
  ++ (if (w.heap.meshSlot ms).m_pDeformer ≠ NULL then
        [Call.Apply (w.heap.meshSlot ms).m_pDeformer (GetPolyMaterial w.heap self)]
      else [])
  ++ (if RAS_MaterialBucket.IsZSort M w.heap self = true ∧ KX_SOLID ≤ w.rasty.m_drawingmode then
        [Call.SortPolygons (w.heap.meshSlot ms).m_mesh ms]
      else [])
  ++ [Call.PushMatrix]
  ++ (if (w.heap.meshSlot ms).m_pDeformer = NULL
          ∨ D.SkipVertexTransform (w.heap.meshSlot ms).m_pDeformer = false then
        [Call.applyTransform ms (M.GetDrawingMode (GetPolyMaterial w.heap self))]
      else [])
  ++ (if w.rasty.m_queryLists = true ∧ (w.heap.meshSlot ms).m_DisplayList ≠ NULL then
        [Call.SetModified (w.heap.meshSlot ms).m_DisplayList
          (Nat.land (w.modifiedFlag (w.heap.meshSlot ms).m_mesh) MESH_MODIFIED)]
      else [])
  ++ (if Nat.land (M.GetDrawingMode (GetPolyMaterial w.heap self)) RAS_RENDER_3DPOLYGON_TEXT ≠ 0
      then [Call.IndexPrimitives_3DText ms (GetPolyMaterial w.heap self)]
      else [Call.IndexPrimitives ms])
  ++ [Call.PopMatrix]

/-- Method `RAS_MaterialBucket::RenderMeshSlot`: the calls are recorded and the
flag `m_bDisplayList` of the mesh slot is set. -/
def RenderMeshSlot (M : Materials) (D : Deformers) (w : RenderState) (self : Nat)
    (cameratrans : MT_Transform) (ms : Nat) : RenderState :=
  { w with
    heap :=
      { w.heap with
        meshSlot :=
          store w.heap.meshSlot ms
            { (w.heap.meshSlot ms) with
              m_bDisplayList := RenderMeshSlot.displayList M D w self ms } }
    calls := w.calls ++ RenderMeshSlot.calls M D w self ms }

/-! ## RAS_BucketManager: the render passes -/

/-- A `for` loop whose body may fail to return: the body is run on every
element in order, and the loop returns when every run of the body does. -/
def forEach {α : Type} (body : RenderState → α → Option RenderState) :
    List α → RenderState → Option RenderState
  | [], w => some w
  | a :: rest, w => (body w a).bind (forEach body rest)

/-- The loop `while (bucket->ActivateMaterial(...)) bucket->RenderMeshSlot(...)`
of the render passes for the mesh slot `ms`, run for at most `fuel` tests: the
state in which the loop ends, if it ends within `fuel` tests. -/
def whileActivateMaterial (M : Materials) (D : Deformers) (cameratrans : MT_Transform)
    (bucket ms : Nat) : Nat → RenderState → Option RenderState
  | 0, _ => none
  | fuel + 1, w =>
    if (ActivateMaterial M w bucket cameratrans).2 = true then
      whileActivateMaterial M D cameratrans bucket ms fuel
        (RenderMeshSlot M D
          ((ActivateMaterial M w bucket cameratrans).1.call
            (Call.ActivateMaterial bucket ms true))
          bucket cameratrans ms)
    else
      some ((ActivateMaterial M w bucket cameratrans).1.call
        (Call.ActivateMaterial bucket ms false))

/-- The body of the innermost loop of `RenderSolidBuckets` for the mesh slot
`ms` of the bucket `bucket`. -/
def RenderSolidBuckets.slot (M : Materials) (D : Deformers) (cameratrans : MT_Transform)
    (fuel bucket : Nat) (w : RenderState) (ms : Nat) : Option RenderState :=
  (whileActivateMaterial M D cameratrans bucket ms fuel
      (w.call (Call.SetClientObject (w.heap.meshSlot ms).m_clientObj))).map
    (fun w1 => { w1 with heap := SetCulled w1.heap ms true })

/-- The body of the loop of `RenderSolidBuckets` over the display array
buckets of the bucket `bucket`. -/
def RenderSolidBuckets.array (M : Materials) (D : Deformers) (cameratrans : MT_Transform)
    (fuel bucket : Nat) (w : RenderState) (displayArrayBucket : Nat) : Option RenderState :=
  if GetNumActiveMeshSlots w.heap displayArrayBucket = 0 then some w
  else
    (forEach (RenderSolidBuckets.slot M D cameratrans fuel bucket)
        (GetActiveMeshSlots w.heap displayArrayBucket)
        (w.call (Call.BindPrimitives (GetDisplayArray w.heap displayArrayBucket)))).map
      (fun w1 =>
        { w1 with
          heap := RemoveActiveMeshSlots w1.heap displayArrayBucket
          calls :=
            w1.calls ++ [Call.UnbindPrimitives (GetDisplayArray w.heap displayArrayBucket)] })

/-- The body of the loop of `RenderSolidBuckets` over the solid buckets. -/
def RenderSolidBuckets.bucket (M : Materials) (D : Deformers) (cameratrans : MT_Transform)
    (fuel : Nat) (w : RenderState) (bucket : Nat) : Option RenderState :=
  forEach (RenderSolidBuckets.array M D cameratrans fuel bucket)
    (GetDisplayArrayBucketList w.heap bucket) w

/-- Method `RAS_BucketManager::RenderSolidBuckets`, every `while` loop run
for at most `fuel` tests. -/
def RenderSolidBuckets (M : Materials) (D : Deformers) (self : RAS_BucketManager)
    (cameratrans : MT_Transform) (fuel : Nat) (w : RenderState) : Option RenderState :=
  forEach (RenderSolidBuckets.bucket M D cameratrans fuel) self.m_SolidBuckets
    (w.call (Call.SetDepthMask true))

/-- The body of the loop of `RenderAlphaBuckets` for the entry `sit` of the
sorted vector. -/
def RenderAlphaBuckets.slot (M : Materials) (D : Deformers) (cameratrans : MT_Transform)
    (fuel : Nat) (w : RenderState) (sit : sortedmeshslot) : Option RenderState :=
  (whileActivateMaterial M D cameratrans sit.m_bucket sit.m_ms fuel
      ((w.call (Call.SetClientObject (w.heap.meshSlot sit.m_ms).m_clientObj)).call
        (Call.BindPrimitives (w.heap.meshSlot sit.m_ms).m_displayArray))).map
    (fun w1 =>
      { w1 with
        heap := SetCulled w1.heap sit.m_ms true
        calls := w1.calls ++ [Call.UnbindPrimitives (w.heap.meshSlot sit.m_ms).m_displayArray] })

/-- The first statement of `RenderAlphaBuckets`: the depth mask is disabled
outside the shadow pass. -/
def RenderAlphaBuckets.depthMask (w : RenderState) : RenderState :=
  if w.rasty.m_drawingmode ≠ KX_SHADOW then w.call (Call.SetDepthMask false) else w

/-- Method `RAS_BucketManager::RenderAlphaBuckets`, every `while` loop run
for at most `fuel` tests. -/
def RenderAlphaBuckets (M : Materials) (D : Deformers) (self : RAS_BucketManager)
    (cameratrans : MT_Transform) (fuel : Nat) (w : RenderState) : Option RenderState :=
  (forEach (RenderAlphaBuckets.slot M D cameratrans fuel)
      (OrderBuckets (RenderAlphaBuckets.depthMask w).heap cameratrans self.m_AlphaBuckets []
        true).2
      { RenderAlphaBuckets.depthMask w with
        heap :=
          (OrderBuckets (RenderAlphaBuckets.depthMask w).heap cameratrans self.m_AlphaBuckets []
            true).1 }).map
    (fun w1 => w1.call (Call.SetDepthMask true))

/-- The loops of `Renderbuckets` over the mesh slots of one bucket:
`SetModifiedFlag(0)` on the mesh object of every mesh slot. -/
def Renderbuckets.resetSlots (w : RenderState) (slots : List Nat) : RenderState :=
  slots.foldl (fun w1 mit => SetModifiedFlag w1 (w1.heap.meshSlot mit).m_mesh 0) w

/-- The loops of `Renderbuckets` over the buckets of one collection. -/
def Renderbuckets.resetBuckets (w : RenderState) (buckets : List Nat) : RenderState :=
  buckets.foldl
    (fun w1 bit => Renderbuckets.resetSlots w1 (w1.heap.materialBucket bit).m_meshSlots) w

/-- The end of `Renderbuckets`, after the two render passes. -/
def Renderbuckets.finish (self : RAS_BucketManager) (w : RenderState) : RenderState :=
  if w.rasty.m_drawingmode ≠ KX_SHADOW then
    (Renderbuckets.resetBuckets (Renderbuckets.resetBuckets w self.m_SolidBuckets)
      self.m_AlphaBuckets).call (Call.SetClientObject NULL)
  else
    w.call (Call.SetClientObject NULL)

/-- Method `RAS_BucketManager::Renderbuckets`, every `while` loop run for at
most `fuel` tests. -/
def Renderbuckets (M : Materials) (D : Deformers) (self : RAS_BucketManager)
    (cameratrans : MT_Transform) (fuel : Nat) (w : RenderState) : Option RenderState :=
  ((RenderSolidBuckets M D self cameratrans fuel (w.call Call.ClearCachingInfo)).bind
      (RenderAlphaBuckets M D self cameratrans fuel)).map
    (Renderbuckets.finish self)

/-! ## Reading the calls of a frame -/

/-- The call is a `RenderMeshSlot` for the mesh slot `ms`. -/
def Call.isRenderMeshSlot (ms : Nat) : Call → Bool
  | Call.RenderMeshSlot _ s => decide (s = ms)
  | _ => false

/-- The call is an `ActivateMaterial` of the render loop of the mesh slot `ms`
that returned `result`. -/
def Call.isActivateMaterial (ms : Nat) (result : Bool) : Call → Bool
  | Call.ActivateMaterial _ s r => decide (s = ms ∧ r = result)
  | _ => false

/-- The call is a `SetModifiedFlag` on some mesh object. -/
def Call.isSetModifiedFlag : Call → Bool
  | Call.SetModifiedFlag _ _ => true
  | _ => false

/-- The call is a `SetMaterial` on the device. -/
def Call.isSetMaterial : Call → Bool
  | Call.SetMaterial _ _ => true
  | _ => false

/-- The call is a `ProcessLighting` on the device. -/
def Call.isProcessLighting : Call → Bool
  | Call.ProcessLighting _ => true
  | _ => false

/-- The mesh slots owned by the buckets of a collection, in the order of the
loops over `msBegin() .. msEnd()`. -/
def meshSlotsOf (h : Heap) (buckets : List Nat) : List Nat :=
  buckets.flatMap (fun bit => (h.materialBucket bit).m_meshSlots)

/-- The device does not accept a material for ever: for every material, after
any number of calls of `SetMaterial` a later call is rejected. -/
def EventuallyRejects (rasty : RAS_IRasterizer) : Prop :=
  ∀ mat n, ∃ k, rasty.accepts (n + k) mat = false

/-- What no step of a render pass changes between the states `w` and `r`: the
answers and the mode of the device, the material buckets, the mesh objects of
the mesh slots and the modified flags; a list of active mesh slots is kept or
emptied, a culled mesh slot stays culled, and the calls made in between hold
no `SetModifiedFlag` and as many `RenderMeshSlot` for a mesh slot as
`ActivateMaterial` returned true for it. -/
structure Frame (w r : RenderState) : Prop where
  accepts : r.rasty.accepts = w.rasty.accepts
  drawingmode : r.rasty.m_drawingmode = w.rasty.m_drawingmode
  materialBucket : r.heap.materialBucket = w.heap.materialBucket
  active : ∀ d, GetActiveMeshSlots r.heap d = GetActiveMeshSlots w.heap d
    ∨ GetActiveMeshSlots r.heap d = []
  mesh : ∀ s, (r.heap.meshSlot s).m_mesh = (w.heap.meshSlot s).m_mesh
  culled : ∀ s, (w.heap.meshSlot s).m_bCulled = true → (r.heap.meshSlot s).m_bCulled = true
  modifiedFlag : r.modifiedFlag = w.modifiedFlag
  calls : ∃ made, r.calls = w.calls ++ made
    ∧ made.filter Call.isSetModifiedFlag = []
    ∧ ∀ ms, made.countP (Call.isRenderMeshSlot ms)
        = made.countP (Call.isActivateMaterial ms true)

/-- A step of the solid pass between the states `w` and `r`: a list of active
mesh slots is emptied only after its mesh slots are culled. -/
def SolidFrame (w r : RenderState) : Prop :=
  Frame w r
  ∧ ∀ d, GetActiveMeshSlots r.heap d = GetActiveMeshSlots w.heap d
      ∨ (GetActiveMeshSlots r.heap d = []
          ∧ ∀ s ∈ GetActiveMeshSlots w.heap d, (r.heap.meshSlot s).m_bCulled = true)

/-- The call is neither a `SetModifiedFlag` nor one of the two calls
`ActivateMaterial` and `RenderMeshSlot` of the render loop. -/
def Call.isExternal : Call → Bool
  | Call.SetModifiedFlag _ _ => false
  | Call.ActivateMaterial _ _ _ => false
  | Call.RenderMeshSlot _ _ => false
  | _ => true

/-- A step of the render loop of a mesh slot between the states `w` and `r`:
a `Frame` that leaves the display array buckets as they are. -/
def DrawFrame (w r : RenderState) : Prop :=
  Frame w r ∧ r.heap.displayArrayBucket = w.heap.displayArrayBucket

/-- The number of render loops of the mesh slot `ms` that have ended among the
calls: a loop ends when `ActivateMaterial` returns false. -/
def loopsEnded (ms : Nat) (calls : List Call) : Nat :=
  calls.countP (Call.isActivateMaterial ms false)

/-- The render loops of the mesh slot `ms` that have ended in the state `x`,
plus the entries of `ms` that are still in the lists of active mesh slots of
the display array buckets `ds`. -/
def loopsEndedOrQueued (ms : Nat) (ds : List Nat) (x : RenderState) : Nat :=
  loopsEnded ms x.calls + (ds.flatMap (GetActiveMeshSlots x.heap)).count ms

/-! ## Sequences of activations -/

/-- The heap after one call of `ActivateMesh` on the display array bucket
`self` for each mesh slot of a list, in order. -/
def activateAll (h : Heap) (self : Nat) (slots : List Nat) : Heap :=
  slots.foldl (fun h1 slot => ActivateMesh h1 self slot) h

/-! ## RAS_BucketManager: releasing display lists and materials -/

/-- The body of the loops of `ReleaseDisplayLists` over the mesh slots of a
bucket: when the mesh slot has a display list, `Release` is called on it and
the pointer is set to NULL. The state is the heap and the display lists on
which `Release` has been called, in order. -/
def ReleaseDisplayLists.slot (st : Heap × List Nat) (ms : Nat) : Heap × List Nat :=
  if (st.1.meshSlot ms).m_DisplayList ≠ NULL then
    ({ st.1 with
        meshSlot := store st.1.meshSlot ms { (st.1.meshSlot ms) with m_DisplayList := NULL } },
      st.2 ++ [(st.1.meshSlot ms).m_DisplayList])
  else st

/-- The body of the loops of `ReleaseDisplayLists` over the buckets of a
collection. -/
def ReleaseDisplayLists.bucket (mat : Nat) (st : Heap × List Nat) (bit : Nat) :
    Heap × List Nat :=
  if mat = NULL ∨ mat = GetPolyMaterial st.1 bit then
    (st.1.materialBucket bit).m_meshSlots.foldl ReleaseDisplayLists.slot st
  else st

/-- Method `RAS_BucketManager::ReleaseDisplayLists`: the heap after the call
and the display lists on which `Release` was called, in order. -/
def ReleaseDisplayLists (h : Heap) (self : RAS_BucketManager) (mat : Nat) : Heap × List Nat :=
  self.m_AlphaBuckets.foldl (ReleaseDisplayLists.bucket mat)
    (self.m_SolidBuckets.foldl (ReleaseDisplayLists.bucket mat) (h, []))

/-- The body of the loops of `ReleaseMaterials` over the buckets of a
collection; the state is the list of the materials on which `ReleaseMaterial`
has been called, in order. -/
def ReleaseMaterials.bucket (h : Heap) (mat : Nat) (released : List Nat) (bit : Nat) :
    List Nat :=
  if mat = NULL ∨ mat = GetPolyMaterial h bit then released ++ [GetPolyMaterial h bit]
  else released

/-- Method `RAS_BucketManager::ReleaseMaterials`: it writes to no member of the
manager, the buckets or the mesh slots; the result is the list of the
materials on which `ReleaseMaterial` was called, in order. -/
def ReleaseMaterials (h : Heap) (self : RAS_BucketManager) (mat : Nat) : List Nat :=
  self.m_AlphaBuckets.foldl (ReleaseMaterials.bucket h mat)
    (self.m_SolidBuckets.foldl (ReleaseMaterials.bucket h mat) [])

/-- The rule of the specification for both operations: with `mat = NULL` every
bucket of both collections, otherwise the buckets whose material pointer is
`mat`; solid buckets first, in the order of the collections. -/
def selectedBuckets (h : Heap) (self : RAS_BucketManager) (mat : Nat) : List Nat :=
  (self.m_SolidBuckets ++ self.m_AlphaBuckets).filter
    (fun b => decide (mat = NULL ∨ GetPolyMaterial h b = mat))

/-! ## The order of the calls on the device -/

/-- The pass type excludes the material of the bucket: the device is in the
shadow pass and the material does not cast shadows, or the device is in
another mode and the material is shadow-only. -/
def excludedFromPass (M : Materials) (w : RenderState) (bucket : Nat) : Prop :=
  (w.rasty.m_drawingmode = KX_SHADOW ∧ M.CastsShadows (GetPolyMaterial w.heap bucket) = false)
  ∨ (w.rasty.m_drawingmode ≠ KX_SHADOW ∧ M.OnlyShadow (GetPolyMaterial w.heap bucket) = true)

/-- The device precondition of the specification: for every bucket of the two
collections that has an active mesh slot, the device accepts the material of
the bucket only finitely many times in succession (after any number of calls
of `SetMaterial` a later call is rejected). -/
def AcceptsFinitely (w : RenderState) (self : RAS_BucketManager) : Prop :=
  ∀ b ∈ self.m_SolidBuckets ++ self.m_AlphaBuckets,
    (∃ d ∈ GetDisplayArrayBucketList w.heap b, GetActiveMeshSlots w.heap d ≠ []) →
    ∀ n, ∃ k, w.rasty.accepts (n + k) (GetPolyMaterial w.heap b) = false

/-- The calls made between the states `x` and `y` hold no `RenderMeshSlot` for
a bucket whose material the pass type excludes; the mode of the device and the
material buckets are the same in both states. -/
def Drawn (M : Materials) (x y : RenderState) : Prop :=
  y.rasty.m_drawingmode = x.rasty.m_drawingmode
  ∧ y.heap.materialBucket = x.heap.materialBucket
  ∧ ∃ made, y.calls = x.calls ++ made
      ∧ ∀ b ms, Call.RenderMeshSlot b ms ∈ made → ¬ excludedFromPass M x b

/-! ## Scenarios -/

/-- A mesh slot whose world position is `(0, 0, z)`. -/
def slotAt (z : MT_Scalar) : RAS_MeshSlot :=
  { m_OpenGLMatrix := fun k => if k = 14 then z else 0 }

/-- A camera whose basis is the identity: the third row is `(0, 0, 1)`. -/
def identityCamera : MT_Transform :=
  { m_basis := ⟨⟨1, 0, 0⟩, ⟨0, 1, 0⟩, ⟨0, 0, 1⟩⟩, m_origin := ⟨0, 0, 0⟩ }

/-- One alpha bucket (address 1) with one display array bucket (address 2)
whose active mesh slots 11, 12, 13, 14 lie at depths 5, 2, 2, 8. -/
def heapDepths5228 : Heap :=
  { next := 20
    live := fun p => decide (p = 1 ∨ p = 2 ∨ (11 ≤ p ∧ p ≤ 14))
    meshSlot := fun p =>
      if p = 11 then slotAt 5 else if p = 12 then slotAt 2
      else if p = 13 then slotAt 2 else if p = 14 then slotAt 8 else {}
    displayArrayBucket := fun p =>
      if p = 2 then { m_bucket := 1, m_activeMeshSlots := [11, 12, 13, 14] } else {}
    materialBucket := fun p =>
      if p = 1 then { m_material := 3, m_displayArrayBucketList := [2] } else {} }

/-- One alpha bucket (address 1) with one display array bucket (address 2)
whose active mesh slots 21, 22, 23 lie at depths 1, 3, 3. -/
def heapDepths133 : Heap :=
  { next := 30
    live := fun p => decide (p = 1 ∨ p = 2 ∨ (21 ≤ p ∧ p ≤ 23))
    meshSlot := fun p =>
      if p = 21 then slotAt 1 else if p = 22 then slotAt 3
      else if p = 23 then slotAt 3 else {}
    displayArrayBucket := fun p =>
      if p = 2 then { m_bucket := 1, m_activeMeshSlots := [21, 22, 23] } else {}
    materialBucket := fun p =>
      if p = 1 then { m_material := 3, m_displayArrayBucketList := [2] } else {} }

/-- One alpha bucket (address 1) with one display array bucket (address 2)
and nothing queued; the mesh slot 11 lies at depth 3. -/
def heapNothingQueued : Heap :=
  { next := 20
    live := fun p => decide (p = 1 ∨ p = 2 ∨ p = 11)
    meshSlot := fun p => if p = 11 then slotAt 3 else {}
    displayArrayBucket := fun p =>
      if p = 2 then { m_bucket := 1, m_activeMeshSlots := [] } else {}
    materialBucket := fun p =>
      if p = 1 then { m_material := 3, m_displayArrayBucketList := [2] } else {} }

/-- The mesh slot 11 activated twice in the display array bucket 2. -/
def heapQueuedTwice : Heap :=
  ActivateMesh (ActivateMesh heapNothingQueued 2 11) 2 11

/-- Materials whose value is the tens digit of their address: 11 and 12 are
equal by value without being identical, 21 is another material; the materials
from 20 on are alpha-blended. -/
def materialsByTens : Materials :=
  { equals := fun a b => decide (a / 10 = b / 10)
    IsAlpha := fun a => decide (20 ≤ a) }

/-- Four material buckets at the addresses 1 to 4: the buckets 1, 3 and 4 hold
the material 11, the bucket 2 holds the material 12. -/
def heapFourBuckets : Heap :=
  { next := 5
    live := fun p => decide (1 ≤ p ∧ p ≤ 4)
    materialBucket := fun p =>
      if p = 2 then { m_material := 12 }
      else if 1 ≤ p ∧ p ≤ 4 then { m_material := 11 } else {} }

/-- A manager whose solid collection lists the four buckets. -/
def managerFourSolid : RAS_BucketManager :=
  { m_SolidBuckets := [1, 2, 3, 4], m_AlphaBuckets := [] }

/-- A manager whose solid collection lists the bucket 1 only. -/
def managerOne : RAS_BucketManager :=
  { m_SolidBuckets := [1], m_AlphaBuckets := [] }

/-- A manager whose solid collection lists the bucket 2 only. -/
def managerTwo : RAS_BucketManager :=
  { m_SolidBuckets := [2], m_AlphaBuckets := [] }

/-- One material bucket (address 1) whose child list holds the display array
bucket 2; the display array bucket has three handles, the active mesh slots 11
and 12 and the display array 4. -/
def heapOneArrayBucket : Heap :=
  { next := 20
    live := fun p => decide (p = 1 ∨ p = 2 ∨ p = 4 ∨ p = 11 ∨ p = 12)
    displayArray := fun p =>
      if p = 4 then { m_vertexes := [1, 2, 3], m_indexes := [0, 1, 2] } else {}
    displayArrayBucket := fun p =>
      if p = 2 then
        { m_refcount := 3, m_bucket := 1, m_displayArray := 4, m_activeMeshSlots := [11, 12] }
      else {}
    materialBucket := fun p =>
      if p = 1 then { m_material := 3, m_displayArrayBucketList := [2] } else {} }

/-- The active mesh slots of a bucket collection, in iteration order. -/
def activeMeshSlotsOf (h : Heap) (buckets : List Nat) : List Nat :=
  (displayArrayBucketsOf h buckets).flatMap (GetActiveMeshSlots h)

/-- A store with the manager of the buckets 1, 2 (solid) and 5 (alpha) at the
address 100 and the manager of the buckets 3 (solid) and 6, 7 (alpha) at the
address 200. -/
def storeTwoManagers : Nat → RAS_BucketManager :=
  fun a =>
    if a = 100 then { m_SolidBuckets := [1, 2], m_AlphaBuckets := [5] }
    else if a = 200 then { m_SolidBuckets := [3], m_AlphaBuckets := [6, 7] }
    else {}

/-- The scenario of the depths 5, 2, 2, 8 with the active mesh slots of the
display array bucket in another order. -/
def heapDepths5228Permuted : Heap :=
  { heapDepths5228 with
    displayArrayBucket := fun p =>
      if p = 2 then { m_bucket := 1, m_activeMeshSlots := [14, 13, 11, 12] } else {} }

/-- One material bucket (address 1) that owns the mesh slots 11, 12, 11 and
whose child list holds the display array buckets 2 (display array 4) and 3
(display array 5). -/
def heapTwoArrayBuckets : Heap :=
  { next := 20
    live := fun p => decide (1 ≤ p ∧ p ≤ 5 ∨ p = 11 ∨ p = 12)
    displayArrayBucket := fun p =>
      if p = 2 then { m_refcount := 2, m_bucket := 1, m_displayArray := 4 }
      else if p = 3 then { m_refcount := 1, m_bucket := 1, m_displayArray := 5 }
      else {}
    materialBucket := fun p =>
      if p = 1 then
        { m_material := 3, m_meshSlots := [11, 12, 11], m_displayArrayBucketList := [2, 3] }
      else {} }

/-- A material set with the materials 10 (solid) and 20 (alpha, shadow-only
is false); the material 30 does not cast shadows and the material 40 is
shadow-only. -/
def materialsOfFrame : Materials :=
  { equals := fun a b => decide (a = b)
    IsAlpha := fun m => decide (m = 20)
    CastsShadows := fun m => decide (m ≠ 30)
    OnlyShadow := fun m => decide (m = 40) }

/-- One solid bucket (address 1, material 10) whose display array bucket 3
has the active mesh slots 11 and 12, and one alpha bucket (address 2,
material 20) whose display array bucket 4 has the active mesh slot 13. The
mesh slots 11 and 12 are two parts of the mesh object 50, the mesh slot 13
belongs to the mesh object 51. -/
def heapOfFrame : Heap :=
  { next := 100
    live := fun p => decide (1 ≤ p ∧ p ≤ 4 ∨ 11 ≤ p ∧ p ≤ 13)
    meshSlot := fun p =>
      if p = 11 then { m_mesh := 50, m_clientObj := 61, m_displayArray := 30, m_bCulled := false }
      else if p = 12 then
        { m_mesh := 50, m_clientObj := 62, m_displayArray := 30, m_bCulled := false }
      else if p = 13 then
        { m_mesh := 51, m_clientObj := 63, m_displayArray := 40, m_bCulled := false }
      else {}
    displayArrayBucket := fun p =>
      if p = 3 then { m_bucket := 1, m_displayArray := 30, m_activeMeshSlots := [11, 12] }
      else if p = 4 then { m_bucket := 2, m_displayArray := 40, m_activeMeshSlots := [13] }
      else {}
    materialBucket := fun p =>
      if p = 1 then { m_material := 10, m_meshSlots := [11, 12], m_displayArrayBucketList := [3] }
      else if p = 2 then { m_material := 20, m_meshSlots := [13], m_displayArrayBucketList := [4] }
      else {} }

/-- The bucket manager of `heapOfFrame`. -/
def managerOfFrame : RAS_BucketManager :=
  { m_SolidBuckets := [1], m_AlphaBuckets := [2] }

/-- A device that accepts a material on every even call of `SetMaterial` and
rejects it on every odd call: a material drawn in one pass. -/
def singlePassDevice : RAS_IRasterizer :=
  { accepts := fun n _ => decide (n % 2 = 0) }

/-- The frame of `heapOfFrame` on `singlePassDevice`, in the mode `KX_SOLID`;
the mesh objects 50 and 51 are modified. -/
def stateOfFrame : RenderState :=
  { heap := heapOfFrame
    rasty := singlePassDevice
    modifiedFlag := fun m => if m = 50 ∨ m = 51 then 1 else 0 }

/-- The frame of `heapOfFrame` in the shadow pass, the material of the solid
bucket being the material 30, which does not cast shadows. -/
def stateOfShadowPass : RenderState :=
  { heap :=
      { heapOfFrame with
        materialBucket := store heapOfFrame.materialBucket 1
          { (heapOfFrame.materialBucket 1) with m_material := 30 } }
    rasty := { singlePassDevice with m_drawingmode := KX_SHADOW } }

/-- A device that accepts a material on two calls of `SetMaterial` out of
three: a material drawn in two passes. -/
def twoPassDevice : RAS_IRasterizer :=
  { accepts := fun n _ => decide (n % 3 ≠ 2) }

/-- The frame `stateOfFrame` after the mesh slot 11 has been activated once
more on the display array bucket 3: its active mesh slots are 11, 12, 11. -/
def stateQueuedTwice : RenderState :=
  { stateOfFrame with heap := ActivateMesh stateOfFrame.heap 3 11 }

/-- Three buckets: the solid buckets 1 (material 10) and 2 (material 11) and
the alpha bucket 3 (material 20). The mesh slots 11 and 12 of the bucket 1
have the display lists 71 and 72, the mesh slot 13 of the bucket 2 has the
display list 73, and the mesh slot 14 of the bucket 3 has none. -/
def heapOfDisplayLists : Heap :=
  { next := 100
    live := fun p => decide (1 ≤ p ∧ p ≤ 3 ∨ 11 ≤ p ∧ p ≤ 14)
    meshSlot := fun p =>
      if p = 11 then { m_DisplayList := 71 }
      else if p = 12 then { m_DisplayList := 72 }
      else if p = 13 then { m_DisplayList := 73 }
      else {}
    materialBucket := fun p =>
      if p = 1 then { m_material := 10, m_meshSlots := [11, 12] }
      else if p = 2 then { m_material := 11, m_meshSlots := [13] }
      else if p = 3 then { m_material := 20, m_meshSlots := [14] }
      else {} }

/-- The bucket manager of `heapOfDisplayLists`. -/
def managerOfDisplayLists : RAS_BucketManager :=
  { m_SolidBuckets := [1, 2], m_AlphaBuckets := [3] }

/-- A device that accepts every material on every call. -/
def acceptingDevice : RAS_IRasterizer :=
  { accepts := fun _ _ => true }

/-- Four material buckets at the addresses 1 to 4 whose materials 5, 11, 21
and 31 are pairwise different by value; the materials 21 and 31 are alpha
materials. -/
def heapDistinctMaterials : Heap :=
  { next := 5
    live := fun p => decide (1 ≤ p ∧ p ≤ 4)
    materialBucket := fun p =>
      if p = 1 then { m_material := 5 }
      else if p = 2 then { m_material := 11 }
      else if p = 3 then { m_material := 21 }
      else if p = 4 then { m_material := 31 } else {} }

/-- A manager with the solid buckets 1 and 2 and the alpha bucket 3. -/
def managerThree : RAS_BucketManager :=
  { m_SolidBuckets := [1, 2], m_AlphaBuckets := [3] }

/-- A manager with the alpha bucket 4 only. -/
def managerFourth : RAS_BucketManager :=
  { m_SolidBuckets := [], m_AlphaBuckets := [4] }

/-- One alpha bucket (address 1) with one display array bucket (address 2)
whose active mesh slots are 11, whose position has a NaN component, and 12, at
depth 3. -/
def heapDepthNaN : Heap :=
  { next := 20
    live := fun p => decide (p = 1 ∨ p = 2 ∨ p = 11 ∨ p = 12)
    meshSlot := fun p =>
      if p = 11 then slotAt MT_Scalar.nan else if p = 12 then slotAt 3 else {}
    displayArrayBucket := fun p =>
      if p = 2 then { m_bucket := 1, m_activeMeshSlots := [11, 12] } else {}
    materialBucket := fun p =>
      if p = 1 then { m_material := 3, m_displayArrayBucketList := [2] } else {} }

/-- The scenario of the NaN depth with the active mesh slots of the display
array bucket in the other order. -/
def heapDepthNaNPermuted : Heap :=
  { heapDepthNaN with
    displayArrayBucket := fun p =>
      if p = 2 then { m_bucket := 1, m_activeMeshSlots := [12, 11] } else {} }

/-! ## Lemmas on OrderBuckets -/

theorem fillSlots_eq (h : Heap) (bucket : Nat) (pnorm : MT_Vector3) :
    ∀ (act : List Nat) (slots : List sortedmeshslot) (i : Nat),
      i + act.length ≤ slots.length →
      OrderBuckets.fillSlots h bucket pnorm act slots i =
        (slots.take i ++ act.map (fun ms => sortedmeshslot.set h ms bucket pnorm)
          ++ slots.drop (i + act.length), i + act.length) := by
  intro act
  induction act with
  | nil => intro slots i _; simp [OrderBuckets.fillSlots]
  | cons it rest ih =>
    intro slots i hlen
    simp only [List.length_cons] at hlen
    have hi : i < slots.length := by omega
    rw [OrderBuckets.fillSlots, ih _ _ (by simp; omega)]
    have h1 : (slots.set i (sortedmeshslot.set h it bucket pnorm)).take (i + 1)
        = slots.take i ++ [sortedmeshslot.set h it bucket pnorm] := by
      rw [List.set_eq_take_append_cons_drop, if_pos hi]
      rw [List.take_append_eq_append_take]
      simp [List.length_take, Nat.min_eq_left (Nat.le_of_lt hi)]
    have h2 : (slots.set i (sortedmeshslot.set h it bucket pnorm)).drop (i + 1 + rest.length)
        = slots.drop (i + (rest.length + 1)) := by
      rw [List.drop_set_of_lt _ _ (by omega)]
      congr 1; omega
    rw [h1, h2]
    simp [List.length_cons, Nat.add_assoc, Nat.add_comm 1]

theorem getActive_remove (h : Heap) (d e : Nat) :
    GetActiveMeshSlots (RemoveActiveMeshSlots h d) e
      = if e = d then [] else GetActiveMeshSlots h e := by
  unfold GetActiveMeshSlots RemoveActiveMeshSlots store
  by_cases hed : e = d <;> simp [hed]

theorem clearedArrays_meshSlot (ds : List Nat) :
    ∀ h : Heap, (clearedArrays h ds).meshSlot = h.meshSlot := by
  induction ds with
  | nil => intro h; rfl
  | cons d rest ih => intro h; simp only [clearedArrays, List.foldl_cons] at ih ⊢; rw [ih]; rfl

theorem clearedArrays_fp (ds : List Nat) :
    ∀ h : Heap, (clearedArrays h ds).fp = h.fp := by
  induction ds with
  | nil => intro h; rfl
  | cons d rest ih => intro h; simp only [clearedArrays, List.foldl_cons] at ih ⊢; rw [ih]; rfl

theorem clearedArrays_materialBucket (ds : List Nat) :
    ∀ h : Heap, (clearedArrays h ds).materialBucket = h.materialBucket := by
  induction ds with
  | nil => intro h; rfl
  | cons d rest ih => intro h; simp only [clearedArrays, List.foldl_cons] at ih ⊢; rw [ih]; rfl

theorem getActive_clearedArrays (ds : List Nat) :
    ∀ (h : Heap) (e : Nat), GetActiveMeshSlots (clearedArrays h ds) e
      = if e ∈ ds then [] else GetActiveMeshSlots h e := by
  induction ds with
  | nil => intro h e; simp [clearedArrays]
  | cons d rest ih =>
    intro h e
    have ih2 := ih (RemoveActiveMeshSlots h d) e
    simp only [clearedArrays, List.foldl_cons] at ih2 ⊢
    rw [ih2, getActive_remove]
    by_cases h1 : e ∈ rest <;> by_cases h2 : e = d <;> simp [h1, h2]

theorem getArrays_clearedArrays (ds : List Nat) (h : Heap) (b : Nat) :
    GetDisplayArrayBucketList (clearedArrays h ds) b = GetDisplayArrayBucketList h b := by
  unfold GetDisplayArrayBucketList
  rw [clearedArrays_materialBucket]

theorem queuedOfArray_congr (h k : Heap) (pnorm : MT_Vector3) (bucket d : Nat)
    (hm : k.meshSlot = h.meshSlot) (hf : k.fp = h.fp)
    (ha : GetActiveMeshSlots k d = GetActiveMeshSlots h d) :
    queuedOfArray k pnorm bucket d = queuedOfArray h pnorm bucket d := by
  unfold queuedOfArray sortedmeshslot.set
  rw [ha, hm, hf]

theorem queuedOfArrays_congr (h k : Heap) (pnorm : MT_Vector3) (bucket : Nat) (ds : List Nat)
    (hm : k.meshSlot = h.meshSlot) (hf : k.fp = h.fp)
    (ha : ∀ d ∈ ds, GetActiveMeshSlots k d = GetActiveMeshSlots h d) :
    queuedOfArrays k pnorm bucket ds = queuedOfArrays h pnorm bucket ds := by
  induction ds with
  | nil => rfl
  | cons d rest ih =>
    simp only [queuedOfArrays, List.flatMap_cons] at ih ⊢
    rw [queuedOfArray_congr h k pnorm bucket d hm hf (ha d (List.mem_cons_self _ _)),
      ih (fun e he => ha e (List.mem_cons_of_mem _ he))]

theorem fillArrays_heap (bucket : Nat) (pnorm : MT_Vector3) :
    ∀ (ds : List Nat) (h : Heap) (slots : List sortedmeshslot) (i : Nat),
      (OrderBuckets.fillArrays bucket pnorm ds h slots i).1 = clearedArrays h ds := by
  intro ds
  induction ds with
  | nil => intro h slots i; rfl
  | cons d rest ih =>
    intro h slots i
    rw [OrderBuckets.fillArrays, ih]
    rfl

theorem fillArrays_slots (bucket : Nat) (pnorm : MT_Vector3) :
    ∀ (ds : List Nat) (h : Heap) (slots : List sortedmeshslot) (i : Nat),
      ds.Nodup → i + (queuedOfArrays h pnorm bucket ds).length ≤ slots.length →
      (OrderBuckets.fillArrays bucket pnorm ds h slots i).2 =
        (slots.take i ++ queuedOfArrays h pnorm bucket ds
          ++ slots.drop (i + (queuedOfArrays h pnorm bucket ds).length),
         i + (queuedOfArrays h pnorm bucket ds).length) := by
  intro ds
  induction ds with
  | nil => intro h slots i _ _; simp [OrderBuckets.fillArrays, queuedOfArrays]
  | cons d rest ih =>
    intro h slots i hnd hlen
    have hd : d ∉ rest := (List.nodup_cons.mp hnd).1
    have hrest : rest.Nodup := (List.nodup_cons.mp hnd).2
    have hq : queuedOfArrays (RemoveActiveMeshSlots h d) pnorm bucket rest
        = queuedOfArrays h pnorm bucket rest := by
      refine queuedOfArrays_congr h (RemoveActiveMeshSlots h d) pnorm bucket rest rfl rfl ?_
      intro e he
      rw [getActive_remove, if_neg (fun hed : e = d => hd (hed ▸ he))]
    have hcons : queuedOfArrays h pnorm bucket (d :: rest)
        = queuedOfArray h pnorm bucket d ++ queuedOfArrays h pnorm bucket rest := by
      simp [queuedOfArrays]
    rw [hcons] at hlen ⊢
    simp only [List.length_append] at hlen ⊢
    have hla : (GetActiveMeshSlots h d).length = (queuedOfArray h pnorm bucket d).length := by
      simp [queuedOfArray]
    rw [OrderBuckets.fillArrays, fillSlots_eq _ _ _ _ _ _ (by omega)]
    simp only []
    rw [ih _ _ _ hrest (by rw [hq]; simp; omega), hq]
    have hmap : (GetActiveMeshSlots h d).map (fun ms => sortedmeshslot.set h ms bucket pnorm)
        = queuedOfArray h pnorm bucket d := rfl
    rw [hmap, hla]
    have hi : i ≤ slots.length := by omega
    have e1 : (slots.take i ++ queuedOfArray h pnorm bucket d
          ++ slots.drop (i + (queuedOfArray h pnorm bucket d).length)).take
          (i + (queuedOfArray h pnorm bucket d).length)
        = slots.take i ++ queuedOfArray h pnorm bucket d := by
      apply List.take_left'
      simp [Nat.min_eq_left hi]
    have e2 : (slots.take i ++ queuedOfArray h pnorm bucket d
          ++ slots.drop (i + (queuedOfArray h pnorm bucket d).length)).drop
          (i + (queuedOfArray h pnorm bucket d).length
            + (queuedOfArrays h pnorm bucket rest).length)
        = slots.drop (i + ((queuedOfArray h pnorm bucket d).length
            + (queuedOfArrays h pnorm bucket rest).length)) := by
      rw [← List.drop_drop, List.drop_left' (by simp [Nat.min_eq_left hi]), List.drop_drop]
      congr 1; omega
    rw [e1, e2]
    simp [Nat.add_assoc]

theorem clearedArrays_append (l₁ l₂ : List Nat) (h : Heap) :
    clearedArrays h (l₁ ++ l₂) = clearedArrays (clearedArrays h l₁) l₂ := by
  simp [clearedArrays, List.foldl_append]

theorem displayArrayBucketsOf_congr (h k : Heap) (bs : List Nat)
    (hm : k.materialBucket = h.materialBucket) :
    displayArrayBucketsOf k bs = displayArrayBucketsOf h bs := by
  unfold displayArrayBucketsOf
  have : GetDisplayArrayBucketList k = GetDisplayArrayBucketList h := by
    funext b; unfold GetDisplayArrayBucketList; rw [hm]
  rw [this]

theorem queued_congr (h k : Heap) (pnorm : MT_Vector3) (bs : List Nat)
    (hs : k.meshSlot = h.meshSlot) (hf : k.fp = h.fp)
    (hm : k.materialBucket = h.materialBucket)
    (ha : ∀ d ∈ displayArrayBucketsOf h bs, GetActiveMeshSlots k d = GetActiveMeshSlots h d) :
    queued k pnorm bs = queued h pnorm bs := by
  induction bs with
  | nil => rfl
  | cons b rest ih =>
    have hl : GetDisplayArrayBucketList k b = GetDisplayArrayBucketList h b := by
      unfold GetDisplayArrayBucketList; rw [hm]
    simp only [queued, displayArrayBucketsOf, List.flatMap_cons, List.mem_append] at ih ha ⊢
    rw [hl, queuedOfArrays_congr h k pnorm b _ hs hf (fun d hd => ha d (Or.inl hd)),
      ih (fun d hd => ha d (Or.inr hd))]

theorem sizeArrays_eq (h : Heap) (pnorm : MT_Vector3) (bucket : Nat) :
    ∀ (ds : List Nat) (size : Nat),
      OrderBuckets.sizeArrays h ds size = size + (queuedOfArrays h pnorm bucket ds).length := by
  intro ds
  induction ds with
  | nil => intro size; simp [OrderBuckets.sizeArrays, queuedOfArrays]
  | cons d rest ih =>
    intro size
    rw [OrderBuckets.sizeArrays, ih]
    simp [queuedOfArrays, queuedOfArray, GetNumActiveMeshSlots, GetActiveMeshSlots, Nat.add_assoc]

theorem sizeBuckets_eq (h : Heap) (pnorm : MT_Vector3) :
    ∀ (bs : List Nat) (size : Nat),
      OrderBuckets.sizeBuckets h bs size = size + (queued h pnorm bs).length := by
  intro bs
  induction bs with
  | nil => intro size; simp [OrderBuckets.sizeBuckets, queued]
  | cons b rest ih =>
    intro size
    rw [OrderBuckets.sizeBuckets, ih, sizeArrays_eq h pnorm b]
    simp [queued, Nat.add_assoc]

theorem length_queued (h : Heap) (pnorm : MT_Vector3) (bs : List Nat) :
    (queued h pnorm bs).length = numActiveMeshSlots h bs := by
  induction bs with
  | nil => rfl
  | cons b rest ih =>
    simp only [queued, numActiveMeshSlots, displayArrayBucketsOf, List.flatMap_cons,
      List.length_append, List.map_append, List.sum_append] at ih ⊢
    rw [ih]
    congr 1
    generalize GetDisplayArrayBucketList h b = ds
    induction ds with
    | nil => rfl
    | cons d ds ihd =>
      simp only [queuedOfArrays, List.flatMap_cons, List.length_append, List.map_cons,
        List.sum_cons] at ihd ⊢
      rw [ihd]
      simp [queuedOfArray, GetNumActiveMeshSlots, GetActiveMeshSlots]

theorem fillBuckets_heap (pnorm : MT_Vector3) :
    ∀ (bs : List Nat) (h : Heap) (slots : List sortedmeshslot) (i : Nat),
      (OrderBuckets.fillBuckets pnorm bs h slots i).1
        = clearedArrays h (displayArrayBucketsOf h bs) := by
  intro bs
  induction bs with
  | nil => intro h slots i; rfl
  | cons b rest ih =>
    intro h slots i
    rw [OrderBuckets.fillBuckets, ih, fillArrays_heap]
    rw [displayArrayBucketsOf_congr h _ rest (clearedArrays_materialBucket _ h)]
    simp only [displayArrayBucketsOf, List.flatMap_cons]
    rw [clearedArrays_append]

theorem fillBuckets_slots (pnorm : MT_Vector3) :
    ∀ (bs : List Nat) (h : Heap) (slots : List sortedmeshslot) (i : Nat),
      (displayArrayBucketsOf h bs).Nodup → i + (queued h pnorm bs).length ≤ slots.length →
      (OrderBuckets.fillBuckets pnorm bs h slots i).2 =
        (slots.take i ++ queued h pnorm bs ++ slots.drop (i + (queued h pnorm bs).length),
         i + (queued h pnorm bs).length) := by
  intro bs
  induction bs with
  | nil => intro h slots i _ _; simp [OrderBuckets.fillBuckets, queued]
  | cons b rest ih =>
    intro h slots i hnd hlen
    have hsplit : displayArrayBucketsOf h (b :: rest)
        = GetDisplayArrayBucketList h b ++ displayArrayBucketsOf h rest := by
      simp [displayArrayBucketsOf]
    rw [hsplit, List.nodup_append] at hnd
    obtain ⟨hnd1, hnd2, hdisj⟩ := hnd
    have hcons : queued h pnorm (b :: rest)
        = queuedOfArrays h pnorm b (GetDisplayArrayBucketList h b) ++ queued h pnorm rest := by
      simp [queued]
    rw [hcons] at hlen ⊢
    simp only [List.length_append] at hlen ⊢
    have hk : displayArrayBucketsOf (clearedArrays h (GetDisplayArrayBucketList h b)) rest
        = displayArrayBucketsOf h rest :=
      displayArrayBucketsOf_congr h _ rest (clearedArrays_materialBucket _ h)
    have hq : queued (clearedArrays h (GetDisplayArrayBucketList h b)) pnorm rest
        = queued h pnorm rest := by
      refine queued_congr h _ pnorm rest (clearedArrays_meshSlot _ h) (clearedArrays_fp _ h)
        (clearedArrays_materialBucket _ h) ?_
      intro d hd
      rw [getActive_clearedArrays, if_neg (fun hmem => hdisj hmem hd)]
    rw [OrderBuckets.fillBuckets, fillArrays_heap, fillArrays_slots _ _ _ _ _ _ hnd1 (by omega)]
    simp only []
    rw [ih _ _ _ (by rw [hk]; exact hnd2) (by rw [hq]; simp; omega), hq]
    have hi : i ≤ slots.length := by omega
    generalize queuedOfArrays h pnorm b (GetDisplayArrayBucketList h b) = qa
    generalize queued h pnorm rest = qr
    have e1 : (slots.take i ++ qa ++ slots.drop (i + qa.length)).take (i + qa.length)
        = slots.take i ++ qa := by
      apply List.take_left'
      simp [Nat.min_eq_left hi]
    have e2 : (slots.take i ++ qa ++ slots.drop (i + qa.length)).drop
          (i + qa.length + qr.length)
        = slots.drop (i + (qa.length + qr.length)) := by
      rw [← List.drop_drop, List.drop_left' (by simp [Nat.min_eq_left hi]), List.drop_drop]
      congr 1; omega
    rw [e1, e2]
    simp [Nat.add_assoc]

theorem length_vector_resize (v : List sortedmeshslot) (n : Nat) :
    (vector_resize v n).length = n := by
  simp [vector_resize]; omega

/-- With every display array bucket visited once, the vector is filled with
exactly the queued entries before it is sorted. -/
theorem OrderBuckets_eq (h : Heap) (cameratrans : MT_Transform) (buckets : List Nat)
    (slots : List sortedmeshslot) (alpha : Bool)
    (hnd : (displayArrayBucketsOf h buckets).Nodup) :
    OrderBuckets h cameratrans buckets slots alpha =
      (clearedArrays h (displayArrayBucketsOf h buckets),
        std_sort (if alpha then backtofront else fronttoback)
          (queued h (cameratrans.getBasis.get 2) buckets)) := by
  have hsize := sizeBuckets_eq h (cameratrans.getBasis.get 2) buckets 0
  rw [Nat.zero_add] at hsize
  have hfill := fillBuckets_slots (cameratrans.getBasis.get 2) buckets h
    (vector_resize slots (OrderBuckets.sizeBuckets h buckets 0)) 0 hnd
    (by rw [length_vector_resize, hsize]; omega)
  have hheap := fillBuckets_heap (cameratrans.getBasis.get 2) buckets h
    (vector_resize slots (OrderBuckets.sizeBuckets h buckets 0)) 0
  have hdrop : (vector_resize slots (OrderBuckets.sizeBuckets h buckets 0)).drop
      (0 + (queued h (cameratrans.getBasis.get 2) buckets).length) = [] := by
    apply List.drop_eq_nil_of_le
    rw [length_vector_resize, hsize]; omega
  rw [hdrop] at hfill
  simp only [List.take_zero, List.nil_append, List.append_nil] at hfill
  unfold OrderBuckets
  simp only []
  cases alpha <;> simp [hfill, hheap]

/-! ## Lemmas on the comparators and on std_sort -/


theorem MT_Scalar_eq_num (a : MT_Scalar) (ha : a ≠ MT_Scalar.nan) :
    a = MT_Scalar.num a.val := by
  cases a with
  | nan => exact absurd rfl ha
  | num x => rfl

theorem MT_Scalar_le_iff (a b : MT_Scalar) (ha : a ≠ MT_Scalar.nan) (hb : b ≠ MT_Scalar.nan) :
    MT_Scalar.le a b = true ↔ a.val ≤ b.val := by
  rw [MT_Scalar_eq_num a ha, MT_Scalar_eq_num b hb]
  simp [MT_Scalar.le, MT_Scalar.val]

theorem MT_Scalar_val_inj (a b : MT_Scalar) (ha : a ≠ MT_Scalar.nan) (hb : b ≠ MT_Scalar.nan) :
    a = b ↔ a.val = b.val := by
  constructor
  · intro h; rw [h]
  · intro h; rw [MT_Scalar_eq_num a ha, MT_Scalar_eq_num b hb, h]

theorem backtofront_eq_true_iff (a b : sortedmeshslot)
    (ha : a.m_z ≠ MT_Scalar.nan) (hb : b.m_z ≠ MT_Scalar.nan) :
    backtofront a b = true
      ↔ (a.m_z.val < b.m_z.val ∨ (a.m_z.val = b.m_z.val ∧ a.m_ms < b.m_ms)) := by
  unfold backtofront
  rw [MT_Scalar_eq_num a.m_z ha, MT_Scalar_eq_num b.m_z hb]
  simp [MT_Scalar.lt, MT_Scalar.eq, MT_Scalar.val]

theorem fronttoback_eq_true_iff (a b : sortedmeshslot)
    (ha : a.m_z ≠ MT_Scalar.nan) (hb : b.m_z ≠ MT_Scalar.nan) :
    fronttoback a b = true
      ↔ (b.m_z.val < a.m_z.val ∨ (a.m_z.val = b.m_z.val ∧ b.m_ms < a.m_ms)) := by
  unfold fronttoback
  rw [MT_Scalar_eq_num a.m_z ha, MT_Scalar_eq_num b.m_z hb]
  simp [MT_Scalar.gt, MT_Scalar.eq, MT_Scalar.val]

theorem backtofront_false_iff (a b : sortedmeshslot)
    (ha : a.m_z ≠ MT_Scalar.nan) (hb : b.m_z ≠ MT_Scalar.nan) :
    backtofront a b = false
      ↔ ¬ (a.m_z.val < b.m_z.val ∨ (a.m_z.val = b.m_z.val ∧ a.m_ms < b.m_ms)) := by
  rw [← backtofront_eq_true_iff a b ha hb, Bool.not_eq_true]

theorem fronttoback_false_iff (a b : sortedmeshslot)
    (ha : a.m_z ≠ MT_Scalar.nan) (hb : b.m_z ≠ MT_Scalar.nan) :
    fronttoback a b = false
      ↔ ¬ (b.m_z.val < a.m_z.val ∨ (a.m_z.val = b.m_z.val ∧ b.m_ms < a.m_ms)) := by
  rw [← fronttoback_eq_true_iff a b ha hb, Bool.not_eq_true]

theorem backtofront_eq_false_iff (a b : sortedmeshslot)
    (ha : a.m_z ≠ MT_Scalar.nan) (hb : b.m_z ≠ MT_Scalar.nan) :
    backtofront b a = false
      ↔ (a.m_z.val < b.m_z.val ∨ (a.m_z.val = b.m_z.val ∧ a.m_ms ≤ b.m_ms)) := by
  rw [backtofront_false_iff b a hb ha]
  constructor <;> intro h <;> omega

theorem fronttoback_eq_false_iff (a b : sortedmeshslot)
    (ha : a.m_z ≠ MT_Scalar.nan) (hb : b.m_z ≠ MT_Scalar.nan) :
    fronttoback b a = false
      ↔ (b.m_z.val < a.m_z.val ∨ (a.m_z.val = b.m_z.val ∧ b.m_ms ≤ a.m_ms)) := by
  rw [fronttoback_false_iff b a hb ha]
  constructor <;> intro h <;> omega

theorem unguarded_linear_insert_perm (comp : sortedmeshslot → sortedmeshslot → Bool)
    (val : sortedmeshslot) (l : List sortedmeshslot) :
    (unguarded_linear_insert comp val l).Perm (val :: l) := by
  induction l with
  | nil => exact List.Perm.refl _
  | cons next rest ih =>
    unfold unguarded_linear_insert
    by_cases hc : comp val next = true
    · rw [if_pos hc]
      exact ((List.Perm.cons next ih).trans (List.Perm.swap val next rest))
    · rw [if_neg hc]

theorem insertion_sort_round_perm (comp : sortedmeshslot → sortedmeshslot → Bool)
    (sorted : List sortedmeshslot) (val : sortedmeshslot) :
    (insertion_sort_round comp sorted val).Perm (val :: sorted) := by
  cases sorted with
  | nil => exact List.Perm.refl _
  | cons first rest =>
    unfold insertion_sort_round
    by_cases hc : comp val first = true
    · simp only [hc, if_true]
      exact List.Perm.refl _
    · simp only [hc]
      refine (List.reverse_perm _).trans ((unguarded_linear_insert_perm comp val _).trans ?_)
      exact List.Perm.cons val (List.reverse_perm _)

theorem foldl_insertion_sort_round_perm (comp : sortedmeshslot → sortedmeshslot → Bool)
    (rest : List sortedmeshslot) :
    ∀ sorted : List sortedmeshslot,
      (rest.foldl (insertion_sort_round comp) sorted).Perm (sorted ++ rest) := by
  induction rest with
  | nil => intro sorted; simp
  | cons val rest ih =>
    intro sorted
    rw [List.foldl_cons]
    refine (ih _).trans ?_
    refine ((insertion_sort_round_perm comp sorted val).append_right rest).trans ?_
    exact (List.perm_middle.symm)

theorem std_sort_perm (comp : sortedmeshslot → sortedmeshslot → Bool) (v : List sortedmeshslot) :
    (std_sort comp v).Perm v := by
  cases v with
  | nil => exact List.Perm.refl _
  | cons first rest =>
    exact foldl_insertion_sort_round_perm comp rest [first]

/-- The insertion from the end keeps a range sorted, when `comp` is asymmetric
and "not `comp`-before" is transitive on the elements that satisfy `P`. -/
theorem unguarded_linear_insert_sorted (comp : sortedmeshslot → sortedmeshslot → Bool)
    (P : sortedmeshslot → Prop)
    (hasym : ∀ a b, P a → P b → comp a b = true → comp b a = false)
    (htrans : ∀ a b c, P a → P b → P c → comp b a = false → comp c b = false → comp c a = false)
    (val : sortedmeshslot) (hval : P val) :
    ∀ l : List sortedmeshslot, (∀ e ∈ l, P e) →
      l.Pairwise (fun a b => comp a b = false) →
      (unguarded_linear_insert comp val l).Pairwise (fun a b => comp a b = false) := by
  intro l
  induction l with
  | nil => intro _ _; simp [unguarded_linear_insert]
  | cons next rest ih =>
    intro hP hs
    have hnext : P next := hP next (List.mem_cons_self _ _)
    have hrest : ∀ e ∈ rest, P e := fun e he => hP e (List.mem_cons_of_mem _ he)
    obtain ⟨hhead, htail⟩ := List.pairwise_cons.mp hs
    unfold unguarded_linear_insert
    by_cases hc : comp val next = true
    · rw [if_pos hc]
      refine List.pairwise_cons.mpr ⟨?_, ih hrest htail⟩
      intro z hz
      rcases List.mem_cons.mp ((unguarded_linear_insert_perm comp val rest).mem_iff.mp hz)
        with hzv | hzr
      · rw [hzv]; exact hasym val next hval hnext hc
      · exact hhead z hzr
    · rw [if_neg hc]
      have hc2 : comp val next = false := by
        cases hv : comp val next with
        | false => rfl
        | true => exact absurd hv hc
      refine List.pairwise_cons.mpr ⟨?_, hs⟩
      intro y hy
      rcases List.mem_cons.mp hy with hyn | hyr
      · rw [hyn]; exact hc2
      · exact htrans y next val (hrest y hyr) hnext hval (hhead y hyr) hc2

theorem insertion_sort_round_sorted (comp : sortedmeshslot → sortedmeshslot → Bool)
    (P : sortedmeshslot → Prop)
    (hasym : ∀ a b, P a → P b → comp a b = true → comp b a = false)
    (htrans : ∀ a b c, P a → P b → P c → comp b a = false → comp c b = false → comp c a = false)
    (sorted : List sortedmeshslot) (val : sortedmeshslot) (hval : P val)
    (hP : ∀ e ∈ sorted, P e) (hs : sorted.Pairwise (fun a b => comp b a = false)) :
    (insertion_sort_round comp sorted val).Pairwise (fun a b => comp b a = false) := by
  cases sorted with
  | nil => simp [insertion_sort_round]
  | cons first rest =>
    have hfirst : P first := hP first (List.mem_cons_self _ _)
    unfold insertion_sort_round
    by_cases hc : comp val first = true
    · simp only [hc, if_true]
      refine List.pairwise_cons.mpr ⟨?_, hs⟩
      intro x hx
      have hvf : comp first val = false := hasym val first hval hfirst hc
      rcases List.mem_cons.mp hx with hxf | hxr
      · rw [hxf]; exact hvf
      · exact htrans val first x hval hfirst (hP x hx) hvf
          ((List.pairwise_cons.mp hs).1 x hxr)
    · simp only [hc]
      refine List.pairwise_reverse.mpr ?_
      refine unguarded_linear_insert_sorted comp P hasym htrans val hval _ ?_ ?_
      · intro e he
        exact hP e (List.mem_reverse.mp he)
      · exact List.pairwise_reverse.mpr hs

theorem foldl_insertion_sort_round_sorted (comp : sortedmeshslot → sortedmeshslot → Bool)
    (P : sortedmeshslot → Prop)
    (hasym : ∀ a b, P a → P b → comp a b = true → comp b a = false)
    (htrans : ∀ a b c, P a → P b → P c → comp b a = false → comp c b = false → comp c a = false)
    (rest : List sortedmeshslot) (hrest : ∀ e ∈ rest, P e) :
    ∀ sorted : List sortedmeshslot, (∀ e ∈ sorted, P e) →
      sorted.Pairwise (fun a b => comp b a = false) →
      (rest.foldl (insertion_sort_round comp) sorted).Pairwise (fun a b => comp b a = false) := by
  induction rest with
  | nil => intro sorted _ hs; exact hs
  | cons val rest ih =>
    intro sorted hP hs
    rw [List.foldl_cons]
    have hval : P val := hrest val (List.mem_cons_self _ _)
    refine ih (fun e he => hrest e (List.mem_cons_of_mem _ he)) _ ?_
      (insertion_sort_round_sorted comp P hasym htrans sorted val hval hP hs)
    intro e he
    rcases List.mem_cons.mp ((insertion_sort_round_perm comp sorted val).mem_iff.mp he)
      with hev | hes
    · rw [hev]; exact hval
    · exact hP e hes

/-- The result of `std_sort` is sorted when `comp` is asymmetric and "not
`comp`-before" is transitive on the elements of the range. -/
theorem std_sort_sorted_of (comp : sortedmeshslot → sortedmeshslot → Bool)
    (P : sortedmeshslot → Prop)
    (hasym : ∀ a b, P a → P b → comp a b = true → comp b a = false)
    (htrans : ∀ a b c, P a → P b → P c → comp b a = false → comp c b = false → comp c a = false)
    (v : List sortedmeshslot) (hv : ∀ e ∈ v, P e) :
    (std_sort comp v).Pairwise (fun a b => comp b a = false) := by
  cases v with
  | nil => exact List.Pairwise.nil
  | cons first rest =>
    refine foldl_insertion_sort_round_sorted comp P hasym htrans rest
      (fun e he => hv e (List.mem_cons_of_mem _ he)) [first] ?_ (List.pairwise_singleton _ _)
    intro e he
    rw [List.mem_singleton.mp he]
    exact hv first (List.mem_cons_self _ _)

theorem std_sort_sorted (alpha : Bool) (v : List sortedmeshslot)
    (hv : ∀ e ∈ v, e.m_z ≠ MT_Scalar.nan) :
    (std_sort (if alpha then backtofront else fronttoback) v).Pairwise
      (fun a b => (if alpha then backtofront else fronttoback) b a = false) := by
  cases alpha
  · simp only [Bool.false_eq_true, if_false]
    refine std_sort_sorted_of fronttoback (fun e => e.m_z ≠ MT_Scalar.nan) ?_ ?_ v hv
    · intro a b ha hb hab
      rw [fronttoback_eq_true_iff a b ha hb] at hab
      rw [fronttoback_false_iff b a hb ha]
      omega
    · intro a b c ha hb hc h1 h2
      rw [fronttoback_false_iff b a hb ha] at h1
      rw [fronttoback_false_iff c b hc hb] at h2
      rw [fronttoback_false_iff c a hc ha]
      omega
  · simp only [if_true]
    refine std_sort_sorted_of backtofront (fun e => e.m_z ≠ MT_Scalar.nan) ?_ ?_ v hv
    · intro a b ha hb hab
      rw [backtofront_eq_true_iff a b ha hb] at hab
      rw [backtofront_false_iff b a hb ha]
      omega
    · intro a b c ha hb hc h1 h2
      rw [backtofront_false_iff b a hb ha] at h1
      rw [backtofront_false_iff c b hc hb] at h2
      rw [backtofront_false_iff c a hc ha]
      omega

theorem std_sort_backtofront_sorted (v : List sortedmeshslot)
    (hv : ∀ e ∈ v, e.m_z ≠ MT_Scalar.nan) :
    (std_sort backtofront v).Pairwise
      (fun a b => a.m_z.val < b.m_z.val ∨ (a.m_z.val = b.m_z.val ∧ a.m_ms ≤ b.m_ms)) := by
  have hmem : ∀ e ∈ std_sort backtofront v, e.m_z ≠ MT_Scalar.nan :=
    fun e he => hv e ((std_sort_perm _ v).mem_iff.mp he)
  refine (std_sort_sorted true v hv).imp_of_mem ?_
  intro a b ha hb hab
  exact (backtofront_eq_false_iff a b (hmem a ha) (hmem b hb)).mp hab

theorem std_sort_fronttoback_sorted (v : List sortedmeshslot)
    (hv : ∀ e ∈ v, e.m_z ≠ MT_Scalar.nan) :
    (std_sort fronttoback v).Pairwise
      (fun a b => b.m_z.val < a.m_z.val ∨ (a.m_z.val = b.m_z.val ∧ b.m_ms ≤ a.m_ms)) := by
  have hmem : ∀ e ∈ std_sort fronttoback v, e.m_z ≠ MT_Scalar.nan :=
    fun e he => hv e ((std_sort_perm _ v).mem_iff.mp he)
  refine (std_sort_sorted false v hv).imp_of_mem ?_
  intro a b ha hb hab
  exact (fronttoback_eq_false_iff a b (hmem a ha) (hmem b hb)).mp hab

theorem fillSlots_length (h : Heap) (bucket : Nat) (pnorm : MT_Vector3) :
    ∀ (act : List Nat) (slots : List sortedmeshslot) (i : Nat),
      (OrderBuckets.fillSlots h bucket pnorm act slots i).1.length = slots.length := by
  intro act
  induction act with
  | nil => intro slots i; rfl
  | cons it rest ih => intro slots i; rw [OrderBuckets.fillSlots, ih, List.length_set]

theorem fillArrays_length (bucket : Nat) (pnorm : MT_Vector3) :
    ∀ (ds : List Nat) (h : Heap) (slots : List sortedmeshslot) (i : Nat),
      (OrderBuckets.fillArrays bucket pnorm ds h slots i).2.1.length = slots.length := by
  intro ds
  induction ds with
  | nil => intro h slots i; rfl
  | cons d rest ih => intro h slots i; rw [OrderBuckets.fillArrays, ih, fillSlots_length]

theorem fillBuckets_length (pnorm : MT_Vector3) :
    ∀ (bs : List Nat) (h : Heap) (slots : List sortedmeshslot) (i : Nat),
      (OrderBuckets.fillBuckets pnorm bs h slots i).2.1.length = slots.length := by
  intro bs
  induction bs with
  | nil => intro h slots i; rfl
  | cons b rest ih => intro h slots i; rw [OrderBuckets.fillBuckets, ih, fillArrays_length]

theorem OrderBuckets_length (h : Heap) (cameratrans : MT_Transform) (buckets : List Nat)
    (slots : List sortedmeshslot) (alpha : Bool) :
    (OrderBuckets h cameratrans buckets slots alpha).2.length = numActiveMeshSlots h buckets := by
  have hsize := sizeBuckets_eq h (cameratrans.getBasis.get 2) buckets 0
  rw [Nat.zero_add, length_queued] at hsize
  unfold OrderBuckets
  cases alpha <;>
    simp [(std_sort_perm _ _).length_eq, fillBuckets_length, length_vector_resize, hsize]

theorem OrderBuckets_heap (h : Heap) (cameratrans : MT_Transform) (buckets : List Nat)
    (slots : List sortedmeshslot) (alpha : Bool) :
    (OrderBuckets h cameratrans buckets slots alpha).1
      = clearedArrays h (displayArrayBucketsOf h buckets) := by
  unfold OrderBuckets
  cases alpha <;> simp [fillBuckets_heap]

theorem OrderBuckets_alpha_sorted (h : Heap) (cameratrans : MT_Transform) (buckets : List Nat)
    (slots : List sortedmeshslot)
    (hnan : ∀ e ∈ (OrderBuckets h cameratrans buckets slots true).2, e.m_z ≠ MT_Scalar.nan) :
    (OrderBuckets h cameratrans buckets slots true).2.Pairwise
      (fun a b => a.m_z.val < b.m_z.val ∨ (a.m_z.val = b.m_z.val ∧ a.m_ms ≤ b.m_ms)) := by
  unfold OrderBuckets at hnan ⊢
  simp only [if_true] at hnan ⊢
  exact std_sort_backtofront_sorted _
    (fun e he => hnan e ((std_sort_perm _ _).mem_iff.mpr he))

theorem mem_queued (h : Heap) (cameratrans : MT_Transform) (buckets : List Nat)
    (e : sortedmeshslot) (he : e ∈ queued h (cameratrans.getBasis.get 2) buckets) :
    e.m_z = slotDepth h cameratrans e.m_ms ∧ e.m_bucket ∈ buckets
      ∧ ∃ d ∈ GetDisplayArrayBucketList h e.m_bucket, e.m_ms ∈ GetActiveMeshSlots h d := by
  simp only [queued, queuedOfArrays, queuedOfArray, List.mem_flatMap, List.mem_map] at he
  obtain ⟨b, hb, d, hd, ms, hms, rfl⟩ := he
  exact ⟨rfl, hb, d, hd, hms⟩

theorem mem_OrderBuckets (h : Heap) (cameratrans : MT_Transform) (buckets : List Nat)
    (slots : List sortedmeshslot) (alpha : Bool)
    (hnd : (displayArrayBucketsOf h buckets).Nodup) (e : sortedmeshslot)
    (he : e ∈ (OrderBuckets h cameratrans buckets slots alpha).2) :
    e ∈ queued h (cameratrans.getBasis.get 2) buckets := by
  rw [OrderBuckets_eq h cameratrans buckets slots alpha hnd] at he
  exact (std_sort_perm _ _).mem_iff.mp he

theorem map_ms_queued (h : Heap) (pnorm : MT_Vector3) (buckets : List Nat) :
    (queued h pnorm buckets).map (fun e => e.m_ms) = activeMeshSlotsOf h buckets := by
  induction buckets with
  | nil => rfl
  | cons b rest ih =>
    simp only [queued, activeMeshSlotsOf, displayArrayBucketsOf, List.flatMap_cons,
      List.map_append, List.flatMap_append] at ih ⊢
    rw [ih]
    congr 1
    generalize GetDisplayArrayBucketList h b = ds
    induction ds with
    | nil => rfl
    | cons d ds ihd =>
      simp only [queuedOfArrays, List.flatMap_cons, List.map_append] at ihd ⊢
      rw [ihd]
      simp [queuedOfArray, sortedmeshslot.set, Function.comp_def]

/-! ## Lemmas on RemoveMaterial -/

theorem foldl_delete_RAS_MeshSlot_materialBucket (l : List Nat) :
    ∀ h : Heap, (l.foldl delete_RAS_MeshSlot h).materialBucket = h.materialBucket := by
  induction l with
  | nil => intro h; rfl
  | cons a l ih => intro h; rw [List.foldl_cons, ih]; rfl

theorem delete_RAS_MaterialBucket_materialBucket (h : Heap) (b : Nat) :
    (delete_RAS_MaterialBucket h b).materialBucket = h.materialBucket := by
  unfold delete_RAS_MaterialBucket RAS_MaterialBucket.dtor
  exact foldl_delete_RAS_MeshSlot_materialBucket _ h

theorem RemoveMaterial_loop_materialBucket (mat : Nat) (h : Heap) (v : List Nat) (i : Nat) :
    (RemoveMaterial.loop mat h v i).1.materialBucket = h.materialBucket := by
  induction h, v, i using RemoveMaterial.loop.induct mat with
  | case1 h v i hi hm ih =>
    rw [RemoveMaterial.loop, dif_pos hi, if_pos hm, ih, delete_RAS_MaterialBucket_materialBucket]
  | case2 h v i hi hm ih =>
    rw [RemoveMaterial.loop, dif_pos hi, if_neg hm, ih]
  | case3 h v i hi =>
    rw [RemoveMaterial.loop, dif_neg hi]

theorem RemoveMaterial_loop_eq (mat : Nat) (h : Heap) (v : List Nat) (i : Nat) :
    (RemoveMaterial.loop mat h v i).2
      = v.take i ++ (v.drop i).filter (fun b => decide (GetPolyMaterial h b ≠ mat)) := by
  induction h, v, i using RemoveMaterial.loop.induct mat with
  | case1 h v i hi hm ih =>
    rw [RemoveMaterial.loop, dif_pos hi, if_pos hm, ih]
    have hg : ∀ b, GetPolyMaterial (delete_RAS_MaterialBucket h v[i]) b = GetPolyMaterial h b := by
      intro b; unfold GetPolyMaterial; rw [delete_RAS_MaterialBucket_materialBucket]
    simp only [hg]
    rw [List.eraseIdx_eq_take_drop_succ]
    have hlen : (v.take i).length = i := by rw [List.length_take]; omega
    rw [List.take_left' hlen, List.drop_left' hlen]
    congr 1
    rw [List.drop_eq_getElem_cons hi, List.filter_cons_of_neg]
    simp [hm]
  | case2 h v i hi hm ih =>
    rw [RemoveMaterial.loop, dif_pos hi, if_neg hm, ih]
    rw [List.drop_eq_getElem_cons hi, List.filter_cons_of_pos (by simpa using fun e => hm e.symm)]
    rw [List.take_succ, List.getElem?_eq_getElem hi]
    simp only [Option.toList, List.append_assoc, List.singleton_append]
  | case3 h v i hi =>
    rw [RemoveMaterial.loop, dif_neg hi]
    have : v.length ≤ i := by omega
    simp [List.take_of_length_le this, List.drop_eq_nil_of_le this]

theorem RemoveMaterial_loop_zero (mat : Nat) (h : Heap) (v : List Nat) :
    (RemoveMaterial.loop mat h v 0).2
      = v.filter (fun b => decide (GetPolyMaterial h b ≠ mat)) := by
  rw [RemoveMaterial_loop_eq]; simp

/-! ## Lemmas on FindBucket -/

theorem GetPolyMaterial_new_self (h : Heap) (mat : Nat) :
    GetPolyMaterial (new_RAS_MaterialBucket h mat).1 (new_RAS_MaterialBucket h mat).2 = mat := by
  simp [GetPolyMaterial, new_RAS_MaterialBucket, RAS_MaterialBucket.ctor, operator_new, store]

theorem GetPolyMaterial_new_other (h : Heap) (mat b : Nat) (hb : b ≠ h.next) :
    GetPolyMaterial (new_RAS_MaterialBucket h mat).1 b = GetPolyMaterial h b := by
  simp [GetPolyMaterial, new_RAS_MaterialBucket, RAS_MaterialBucket.ctor, operator_new, store, hb]

theorem find?_first {p : Nat → Bool} {l pre post : List Nat} {b : Nat}
    (hl : l = pre ++ b :: post) (hpre : ∀ x ∈ pre, p x = false) (hb : p b = true) :
    l.find? p = some b := by
  rw [List.find?_eq_some]
  exact ⟨hb, pre, post, hl, fun a ha => by simp [hpre a ha]⟩

theorem find?_none_of_false {p : Nat → Bool} {l : List Nat} (hl : ∀ x ∈ l, p x = false) :
    l.find? p = none := by
  rw [List.find?_eq_none]
  intro x hx; simp [hl x hx]

theorem find?_congr_mem {p q : Nat → Bool} {l : List Nat} (hpq : ∀ x ∈ l, p x = q x) :
    l.find? p = l.find? q := by
  induction l with
  | nil => rfl
  | cons a l ih =>
    simp only [List.find?_cons, hpq a (List.mem_cons_self _ _)]
    rw [ih (fun x hx => hpq x (List.mem_cons_of_mem _ hx))]

theorem FindBucket_of_solid (M : Materials) (h : Heap) (self : RAS_BucketManager)
    (material b : Nat)
    (hs : self.m_SolidBuckets.find? (fun it => M.equals (GetPolyMaterial h it) material) = some b) :
    FindBucket M h self material
      = { heap := h, manager := self, bucket := b, bucketCreated := false } := by
  simp only [FindBucket, hs]

theorem FindBucket_of_alpha (M : Materials) (h : Heap) (self : RAS_BucketManager)
    (material b : Nat)
    (hs : self.m_SolidBuckets.find? (fun it => M.equals (GetPolyMaterial h it) material) = none)
    (ha : self.m_AlphaBuckets.find? (fun it => M.equals (GetPolyMaterial h it) material) = some b) :
    FindBucket M h self material
      = { heap := h, manager := self, bucket := b, bucketCreated := false } := by
  simp only [FindBucket, hs, ha]

theorem FindBucket_of_none (M : Materials) (h : Heap) (self : RAS_BucketManager)
    (material : Nat)
    (hs : self.m_SolidBuckets.find? (fun it => M.equals (GetPolyMaterial h it) material) = none)
    (ha : self.m_AlphaBuckets.find? (fun it => M.equals (GetPolyMaterial h it) material) = none) :
    FindBucket M h self material
      = if M.IsAlpha material = true then
          { heap := (new_RAS_MaterialBucket h material).1
            manager := { self with m_AlphaBuckets := self.m_AlphaBuckets ++ [h.next] }
            bucket := h.next
            bucketCreated := true }
        else
          { heap := (new_RAS_MaterialBucket h material).1
            manager := { self with m_SolidBuckets := self.m_SolidBuckets ++ [h.next] }
            bucket := h.next
            bucketCreated := true } := by
  have halpha : RAS_MaterialBucket.IsAlpha M (new_RAS_MaterialBucket h material).1
      (new_RAS_MaterialBucket h material).2 = M.IsAlpha material := by
    have := GetPolyMaterial_new_self h material
    unfold GetPolyMaterial at this
    unfold RAS_MaterialBucket.IsAlpha
    rw [this]
  simp only [FindBucket, hs, ha, halpha]
  rfl

theorem FindBucket_cases (M : Materials) (h : Heap) (self : RAS_BucketManager) (material : Nat) :
    (∃ b ∈ self.m_SolidBuckets ++ self.m_AlphaBuckets,
        M.equals (GetPolyMaterial h b) material = true
        ∧ FindBucket M h self material
            = { heap := h, manager := self, bucket := b, bucketCreated := false })
    ∨ ((∀ x ∈ self.m_SolidBuckets ++ self.m_AlphaBuckets,
          M.equals (GetPolyMaterial h x) material = false)
        ∧ FindBucket M h self material
            = if M.IsAlpha material = true then
                { heap := (new_RAS_MaterialBucket h material).1
                  manager := { self with m_AlphaBuckets := self.m_AlphaBuckets ++ [h.next] }
                  bucket := h.next
                  bucketCreated := true }
              else
                { heap := (new_RAS_MaterialBucket h material).1
                  manager := { self with m_SolidBuckets := self.m_SolidBuckets ++ [h.next] }
                  bucket := h.next
                  bucketCreated := true }) := by
  cases hs : self.m_SolidBuckets.find? (fun it => M.equals (GetPolyMaterial h it) material) with
  | some b =>
    left
    have hpb : M.equals (GetPolyMaterial h b) material = true :=
      (List.find?_eq_some.mp hs).1
    exact ⟨b, List.mem_append_left _ (List.mem_of_find?_eq_some hs), hpb,
      FindBucket_of_solid M h self material b hs⟩
  | none =>
    cases ha : self.m_AlphaBuckets.find? (fun it => M.equals (GetPolyMaterial h it) material) with
    | some b =>
      left
      have hpb : M.equals (GetPolyMaterial h b) material = true :=
        (List.find?_eq_some.mp ha).1
      exact ⟨b, List.mem_append_right _ (List.mem_of_find?_eq_some ha), hpb,
        FindBucket_of_alpha M h self material b hs ha⟩
    | none =>
      right
      refine ⟨?_, FindBucket_of_none M h self material hs ha⟩
      intro x hx
      rw [List.find?_eq_none] at hs ha
      rcases List.mem_append.mp hx with hx | hx
      · simpa using hs x hx
      · simpa using ha x hx

/-- The bucket returned by FindBucket is listed in the manager afterwards. -/
theorem FindBucket_bucket_mem (M : Materials) (h : Heap) (self : RAS_BucketManager)
    (material : Nat) :
    (FindBucket M h self material).bucket
      ∈ (FindBucket M h self material).manager.m_SolidBuckets
        ++ (FindBucket M h self material).manager.m_AlphaBuckets := by
  rcases FindBucket_cases M h self material with ⟨b, hb, _, heq⟩ | ⟨_, heq⟩
  · rw [heq]; exact hb
  · rw [heq]; split <;> simp

/-- The material of the bucket returned by FindBucket compares equal to the
argument. -/
theorem FindBucket_bucket_equals (M : Materials) (h : Heap) (self : RAS_BucketManager)
    (material : Nat) (hrefl : M.equals material material = true) :
    M.equals (GetPolyMaterial (FindBucket M h self material).heap
      (FindBucket M h self material).bucket) material = true := by
  rcases FindBucket_cases M h self material with ⟨b, _, hb, heq⟩ | ⟨_, heq⟩
  · rw [heq]; exact hb
  · have hnew := GetPolyMaterial_new_self h material
    have hp : (new_RAS_MaterialBucket h material).2 = h.next := rfl
    rw [hp] at hnew
    rw [heq]; split <;> simp only [hnew, hrefl]

/-- FindBucket does not change the material of an allocated bucket. -/
theorem FindBucket_material_frame (M : Materials) (h : Heap) (self : RAS_BucketManager)
    (material x : Nat) (hx : x < h.next) :
    GetPolyMaterial (FindBucket M h self material).heap x = GetPolyMaterial h x := by
  rcases FindBucket_cases M h self material with ⟨b, _, _, heq⟩ | ⟨_, heq⟩
  · rw [heq]
  · rw [heq]; split <;> exact GetPolyMaterial_new_other h material x (Nat.ne_of_lt hx)

/-- The allocator is monotone under FindBucket. -/
theorem FindBucket_next (M : Materials) (h : Heap) (self : RAS_BucketManager) (material : Nat) :
    h.next ≤ (FindBucket M h self material).heap.next := by
  rcases FindBucket_cases M h self material with ⟨b, _, _, heq⟩ | ⟨_, heq⟩
  · rw [heq]
  · rw [heq]; split <;> simp [new_RAS_MaterialBucket, RAS_MaterialBucket.ctor, operator_new]

/-- The buckets listed after FindBucket are allocated when those listed before
were. -/
theorem FindBucket_fresh (M : Materials) (h : Heap) (self : RAS_BucketManager)
    (material : Nat)
    (hfresh : ∀ b ∈ self.m_SolidBuckets ++ self.m_AlphaBuckets, b < h.next) :
    ∀ b ∈ (FindBucket M h self material).manager.m_SolidBuckets
        ++ (FindBucket M h self material).manager.m_AlphaBuckets,
      b < (FindBucket M h self material).heap.next := by
  rcases FindBucket_cases M h self material with ⟨b, _, _, heq⟩ | ⟨_, heq⟩
  · rw [heq]; exact hfresh
  · have hn : (new_RAS_MaterialBucket h material).1.next = h.next + 1 := rfl
    rw [heq]
    split
    · intro b hb
      simp only [List.mem_append, List.mem_singleton, hn] at hb ⊢
      rcases hb with hb | hb | hb
      · exact Nat.lt_succ_of_lt (hfresh b (List.mem_append_left _ hb))
      · exact Nat.lt_succ_of_lt (hfresh b (List.mem_append_right _ hb))
      · omega
    · intro b hb
      simp only [List.mem_append, List.mem_singleton, hn] at hb ⊢
      rcases hb with (hb | hb) | hb
      · exact Nat.lt_succ_of_lt (hfresh b (List.mem_append_left _ hb))
      · omega
      · exact Nat.lt_succ_of_lt (hfresh b (List.mem_append_right _ hb))

/-- A second lookup of the same material finds the bucket of the first. -/
theorem FindBucket_again (M : Materials) (h : Heap) (self : RAS_BucketManager)
    (material : Nat) (hrefl : M.equals material material = true)
    (hfresh : ∀ b ∈ self.m_SolidBuckets ++ self.m_AlphaBuckets, b < h.next) :
    FindBucket M (FindBucket M h self material).heap (FindBucket M h self material).manager
        material
      = { heap := (FindBucket M h self material).heap
          manager := (FindBucket M h self material).manager
          bucket := (FindBucket M h self material).bucket
          bucketCreated := false } := by
  rcases FindBucket_cases M h self material with ⟨b, _, _, heq⟩ | ⟨hnone, heq⟩
  · rw [heq]; exact heq
  · have hnew := GetPolyMaterial_new_self h material
    have hp : (new_RAS_MaterialBucket h material).2 = h.next := rfl
    rw [hp] at hnew
    have hold : ∀ x ∈ self.m_SolidBuckets ++ self.m_AlphaBuckets,
        M.equals (GetPolyMaterial (new_RAS_MaterialBucket h material).1 x) material = false := by
      intro x hx
      rw [GetPolyMaterial_new_other h material x (Nat.ne_of_lt (hfresh x hx))]
      exact hnone x hx
    have hsolid : self.m_SolidBuckets.find?
        (fun it => M.equals (GetPolyMaterial (new_RAS_MaterialBucket h material).1 it) material)
        = none := find?_none_of_false (fun x hx => hold x (List.mem_append_left _ hx))
    have halpha : self.m_AlphaBuckets.find?
        (fun it => M.equals (GetPolyMaterial (new_RAS_MaterialBucket h material).1 it) material)
        = none := find?_none_of_false (fun x hx => hold x (List.mem_append_right _ hx))
    rw [heq]
    split
    · dsimp only
      refine FindBucket_of_alpha M _
        { m_SolidBuckets := self.m_SolidBuckets, m_AlphaBuckets := self.m_AlphaBuckets ++ [h.next] }
        material h.next hsolid ?_
      simp only [List.find?_append, halpha, List.find?_cons, hnew, hrefl]
      rfl
    · dsimp only
      refine FindBucket_of_solid M _
        { m_SolidBuckets := self.m_SolidBuckets ++ [h.next], m_AlphaBuckets := self.m_AlphaBuckets }
        material h.next ?_
      simp only [List.find?_append, hsolid, List.find?_cons, hnew, hrefl]
      rfl

/-! ## Lemmas on the life cycle of display array buckets -/

theorem GetReplica_replica (h : Heap) (b : Nat) : (GetReplica h b).2 = h.next := rfl

theorem GetReplica_object (h : Heap) (b : Nat) :
    (GetReplica h b).1.displayArrayBucket h.next
      = { m_refcount := 1
          m_bucket := (h.displayArrayBucket b).m_bucket
          m_displayArray :=
            if (h.displayArrayBucket b).m_displayArray ≠ NULL then h.next + 1 else NULL
          m_activeMeshSlots := [] } := by
  unfold GetReplica ProcessReplica ProcessReplica.copyArray new_RAS_DisplayArray_copy
    AddDisplayArrayBucket operator_new
  by_cases ha : (h.displayArrayBucket b).m_displayArray = NULL
  · simp [store, ha]
  · simp [store, ha]

theorem GetReplica_frame (h : Heap) (b q : Nat) (hq : q ≠ h.next) :
    (GetReplica h b).1.displayArrayBucket q = h.displayArrayBucket q := by
  unfold GetReplica ProcessReplica ProcessReplica.copyArray new_RAS_DisplayArray_copy
    AddDisplayArrayBucket operator_new
  by_cases ha : (h.displayArrayBucket b).m_displayArray = NULL
  · simp [store, ha, hq]
  · simp [store, ha, hq]

theorem GetReplica_next (h : Heap) (b : Nat) :
    (GetReplica h b).1.next
      = if (h.displayArrayBucket b).m_displayArray ≠ NULL then h.next + 2 else h.next + 1 := by
  unfold GetReplica ProcessReplica ProcessReplica.copyArray new_RAS_DisplayArray_copy
    AddDisplayArrayBucket operator_new
  by_cases ha : (h.displayArrayBucket b).m_displayArray = NULL
  · simp [store, ha]
  · simp [store, ha]

theorem GetReplica_destroyed (h : Heap) (b : Nat) :
    (GetReplica h b).1.destroyed = h.destroyed := by
  unfold GetReplica ProcessReplica ProcessReplica.copyArray new_RAS_DisplayArray_copy
    AddDisplayArrayBucket operator_new
  by_cases ha : (h.displayArrayBucket b).m_displayArray = NULL
  · simp [store, ha]
  · simp [store, ha]

theorem GetReplica_parent (h : Heap) (b : Nat) :
    (GetReplica h b).1.materialBucket
      = store h.materialBucket (h.displayArrayBucket b).m_bucket
          { (h.materialBucket (h.displayArrayBucket b).m_bucket) with
            m_displayArrayBucketList :=
              (h.materialBucket (h.displayArrayBucket b).m_bucket).m_displayArrayBucketList
                ++ [h.next] } := by
  unfold GetReplica ProcessReplica ProcessReplica.copyArray new_RAS_DisplayArray_copy
    AddDisplayArrayBucket operator_new
  by_cases ha : (h.displayArrayBucket b).m_displayArray = NULL
  · simp [store, ha]
  · simp [store, ha]

theorem GetReplica_displayArray (h : Heap) (b : Nat) :
    (GetReplica h b).1.displayArray
      = if (h.displayArrayBucket b).m_displayArray ≠ NULL then
          store h.displayArray (h.next + 1) (h.displayArray (h.displayArrayBucket b).m_displayArray)
        else h.displayArray := by
  unfold GetReplica ProcessReplica ProcessReplica.copyArray new_RAS_DisplayArray_copy
    AddDisplayArrayBucket operator_new
  by_cases ha : (h.displayArrayBucket b).m_displayArray = NULL
  · simp [store, ha]
  · simp [store, ha]

theorem GetReplica_live (h : Heap) (b : Nat) :
    (GetReplica h b).1.live
      = if (h.displayArrayBucket b).m_displayArray ≠ NULL then
          store (store h.live h.next true) (h.next + 1) true
        else store h.live h.next true := by
  unfold GetReplica ProcessReplica ProcessReplica.copyArray new_RAS_DisplayArray_copy
    AddDisplayArrayBucket operator_new
  by_cases ha : (h.displayArrayBucket b).m_displayArray = NULL
  · simp [store, ha]
  · simp [store, ha]

theorem store_store {α : Type} (f : Nat → α) (p : Nat) (v w : α) :
    store (store f p v) p w = store f p w := by
  funext q; unfold store; split <;> rfl

theorem store_self {α : Type} (f : Nat → α) (p : Nat) : store f p (f p) = f := by
  funext q; unfold store; split
  · next hq => rw [hq]
  · rfl

theorem GetRefCount_setRefCount (h : Heap) (p n : Nat) :
    GetRefCount (setRefCount h p n) p = n := by
  simp [GetRefCount, setRefCount, store]

theorem setRefCount_setRefCount (h : Heap) (p n m : Nat) :
    setRefCount (setRefCount h p n) p m = setRefCount h p m := by
  unfold setRefCount
  simp [store_store, store]

theorem setRefCount_self (h : Heap) (p : Nat) : setRefCount h p (GetRefCount h p) = h := by
  unfold setRefCount GetRefCount
  simp [store_self]

theorem AddRef_eq (h : Heap) (p : Nat) (hmax : GetRefCount h p + 1 < UINT_SIZE) :
    AddRef h p = (setRefCount h p (GetRefCount h p + 1), p) := by
  unfold AddRef setRefCount
  unfold GetRefCount at hmax ⊢
  rw [Nat.mod_eq_of_lt hmax]

theorem decrement_eq (h : Heap) (p : Nat) (hr : 1 ≤ GetRefCount h p)
    (hmax : GetRefCount h p < UINT_SIZE) :
    Release.decrement h p = setRefCount h p (GetRefCount h p - 1) := by
  unfold Release.decrement setRefCount
  unfold GetRefCount at hr hmax ⊢
  have : ((h.displayArrayBucket p).m_refcount + UINT_SIZE - 1) % UINT_SIZE
      = (h.displayArrayBucket p).m_refcount - 1 := by
    unfold UINT_SIZE at hmax ⊢
    omega
  rw [this]

theorem Release_of_last (h : Heap) (p : Nat) (hr : GetRefCount h p = 1) :
    Release h p = (delete_RAS_DisplayArrayBucket (setRefCount h p 0) p, NULL) := by
  have hd := decrement_eq h p (by omega) (by rw [hr]; decide)
  rw [hr] at hd
  unfold Release
  rw [hd]
  have := GetRefCount_setRefCount h p 0
  unfold GetRefCount at this
  rw [if_pos this]

theorem Release_of_more (h : Heap) (p : Nat) (hr : 2 ≤ GetRefCount h p)
    (hmax : GetRefCount h p < UINT_SIZE) :
    Release h p = (setRefCount h p (GetRefCount h p - 1), p) := by
  have hd := decrement_eq h p (by omega) hmax
  unfold Release
  rw [hd]
  have hc : ((setRefCount h p (GetRefCount h p - 1)).displayArrayBucket p).m_refcount
      = GetRefCount h p - 1 := GetRefCount_setRefCount h p (GetRefCount h p - 1)
  rw [if_neg (by rw [hc]; omega)]

theorem addRefs_eq (h : Heap) (p : Nat) :
    ∀ k, GetRefCount h p + k < UINT_SIZE →
      addRefs h p k = setRefCount h p (GetRefCount h p + k) := by
  intro k
  induction k with
  | zero => intro _; rw [addRefs, Nat.add_zero, setRefCount_self]
  | succ k ih =>
    intro hk
    rw [addRefs, ih (by omega), AddRef_eq _ _ (by rw [GetRefCount_setRefCount]; omega)]
    rw [GetRefCount_setRefCount, setRefCount_setRefCount]
    rfl

theorem releases_eq (h : Heap) (p : Nat) (hmax : GetRefCount h p < UINT_SIZE) :
    ∀ j, j < GetRefCount h p →
      releases h p j = setRefCount h p (GetRefCount h p - j) := by
  intro j
  induction j with
  | zero => intro _; rw [releases, Nat.sub_zero, setRefCount_self]
  | succ j ih =>
    intro hj
    rw [releases, ih (by omega),
      Release_of_more _ _ (by rw [GetRefCount_setRefCount]; omega)
        (by rw [GetRefCount_setRefCount]; omega)]
    rw [GetRefCount_setRefCount, setRefCount_setRefCount]
    congr 1

theorem destroyed_delete_RAS_DisplayArrayBucket (h : Heap) (p : Nat) :
    (delete_RAS_DisplayArrayBucket h p).destroyed
      = h.destroyed
        ++ (if GetDisplayArray h p ≠ NULL then [Destroyed.displayArray (GetDisplayArray h p)]
            else [])
        ++ [Destroyed.displayArrayBucket p] := by
  unfold delete_RAS_DisplayArrayBucket RAS_DisplayArrayBucket.dtor GetDisplayArray
  by_cases ha : (h.displayArrayBucket p).m_displayArray = NULL
  · simp [ha, RemoveDisplayArrayBucket]
  · simp [ha, RemoveDisplayArrayBucket, delete_RAS_DisplayArray]

theorem displayArrayBucket_delete_RAS_DisplayArrayBucket (h : Heap) (p : Nat) :
    (delete_RAS_DisplayArrayBucket h p).displayArrayBucket = h.displayArrayBucket := by
  unfold delete_RAS_DisplayArrayBucket RAS_DisplayArrayBucket.dtor
  by_cases ha : (h.displayArrayBucket p).m_displayArray = NULL
  · simp [ha, RemoveDisplayArrayBucket]
  · simp [ha, RemoveDisplayArrayBucket, delete_RAS_DisplayArray]

theorem materialBucket_delete_RAS_DisplayArrayBucket (h : Heap) (p : Nat) :
    (delete_RAS_DisplayArrayBucket h p).materialBucket
      = (RemoveDisplayArrayBucket h (h.displayArrayBucket p).m_bucket p).materialBucket := by
  unfold delete_RAS_DisplayArrayBucket RAS_DisplayArrayBucket.dtor
  by_cases ha : (h.displayArrayBucket p).m_displayArray = NULL
  · simp [ha]
  · simp [ha, delete_RAS_DisplayArray]

theorem live_delete_RAS_DisplayArrayBucket (h : Heap) (p : Nat) :
    (delete_RAS_DisplayArrayBucket h p).live
      = store (if GetDisplayArray h p ≠ NULL then store h.live (GetDisplayArray h p) false
               else h.live) p false := by
  unfold delete_RAS_DisplayArrayBucket RAS_DisplayArrayBucket.dtor GetDisplayArray
  by_cases ha : (h.displayArrayBucket p).m_displayArray = NULL
  · simp [ha, RemoveDisplayArrayBucket]
  · simp [ha, RemoveDisplayArrayBucket, delete_RAS_DisplayArray]

theorem destroyedArrayBuckets_append (l₁ l₂ : List Destroyed) :
    destroyedArrayBuckets (l₁ ++ l₂) = destroyedArrayBuckets l₁ ++ destroyedArrayBuckets l₂ := by
  simp [destroyedArrayBuckets, List.filterMap_append]

theorem Release_last_destroyedArrayBuckets (h : Heap) (p : Nat) (hr : GetRefCount h p = 1) :
    destroyedArrayBuckets (Release h p).1.destroyed
      = destroyedArrayBuckets h.destroyed ++ [p] := by
  rw [Release_of_last h p hr]
  simp only []
  rw [destroyed_delete_RAS_DisplayArrayBucket, destroyedArrayBuckets_append,
    destroyedArrayBuckets_append]
  have h1 : (setRefCount h p 0).destroyed = h.destroyed := rfl
  rw [h1]
  split <;> simp [destroyedArrayBuckets]

theorem Release_last_frame (h : Heap) (p q : Nat) (hr : GetRefCount h p = 1) (hq : q ≠ p) :
    (Release h p).1.displayArrayBucket q = h.displayArrayBucket q := by
  rw [Release_of_last h p hr]
  simp only []
  rw [displayArrayBucket_delete_RAS_DisplayArrayBucket]
  simp [setRefCount, store, hq]

theorem releaseAll_destroyedArrayBuckets :
    ∀ (rs : List Nat) (h : Heap), rs.Nodup → (∀ p ∈ rs, GetRefCount h p = 1) →
      destroyedArrayBuckets (releaseAll h rs).destroyed
        = destroyedArrayBuckets h.destroyed ++ rs := by
  intro rs
  induction rs with
  | nil => intro h _ _; simp [releaseAll]
  | cons p rest ih =>
    intro h hnd hone
    have hp : p ∉ rest := (List.nodup_cons.mp hnd).1
    rw [releaseAll, ih _ (List.nodup_cons.mp hnd).2, Release_last_destroyedArrayBuckets h p
      (hone p (List.mem_cons_self _ _))]
    · simp
    · intro q hq
      have hqp : q ≠ p := fun e => hp (e ▸ hq)
      unfold GetRefCount
      rw [Release_last_frame h p q (hone p (List.mem_cons_self _ _)) hqp]
      exact hone q (List.mem_cons_of_mem _ hq)

theorem lt_GetReplica_next (h : Heap) (b : Nat) : h.next < (GetReplica h b).1.next := by
  rw [GetReplica_next]; split <;> omega

theorem replicas_spec (b : Nat) :
    ∀ (n : Nat) (h : Heap),
      (replicas h b n).2.length = n
      ∧ (replicas h b n).2.Nodup
      ∧ (∀ p ∈ (replicas h b n).2, h.next ≤ p)
      ∧ (∀ p ∈ (replicas h b n).2, GetRefCount (replicas h b n).1 p = 1)
      ∧ (replicas h b n).1.destroyed = h.destroyed
      ∧ (∀ q < h.next, (replicas h b n).1.displayArrayBucket q = h.displayArrayBucket q) := by
  intro n
  induction n with
  | zero => intro h; simp [replicas]
  | succ n ih =>
    intro h
    obtain ⟨hlen, hnd, hge, hone, hdes, hframe⟩ := ih (GetReplica h b).1
    have hlt := lt_GetReplica_next h b
    have hfirst : (replicas (GetReplica h b).1 b n).1.displayArrayBucket h.next
        = (GetReplica h b).1.displayArrayBucket h.next := hframe h.next hlt
    simp only [replicas, GetReplica_replica]
    refine ⟨by simp [hlen], ?_, ?_, ?_, ?_, ?_⟩
    · rw [List.nodup_cons]
      refine ⟨fun hmem => ?_, hnd⟩
      have := hge _ hmem
      omega
    · intro p hp
      rcases List.mem_cons.mp hp with hp | hp
      · omega
      · have := hge p hp; omega
    · intro p hp
      rcases List.mem_cons.mp hp with hp | hp
      · rw [hp]; unfold GetRefCount; rw [hfirst, GetReplica_object]
      · exact hone p hp
    · rw [hdes, GetReplica_destroyed]
    · intro q hq
      rw [hframe q (by omega), GetReplica_frame h b q (by omega)]

/-! ## Lemmas on the uniqueness of the sorted sequence -/

theorem sorted_perm_unique {r : sortedmeshslot → sortedmeshslot → Prop}
    {l₁ l₂ : List sortedmeshslot} (hp : l₁.Perm l₂)
    (hs₁ : l₁.Pairwise r) (hs₂ : l₂.Pairwise r)
    (hanti : ∀ a ∈ l₁, ∀ b ∈ l₁, r a b → r b a → a = b) : l₁ = l₂ := by
  haveI : IsAntisymm sortedmeshslot (fun a b => r a b ∧ a ∈ l₁ ∧ b ∈ l₁) :=
    ⟨fun a b hab hba => hanti a hab.2.1 b hab.2.2 hab.1 hba.1⟩
  have h1 : l₁.Sorted (fun a b => r a b ∧ a ∈ l₁ ∧ b ∈ l₁) :=
    hs₁.imp_of_mem (fun {a b} ha hb hab => ⟨hab, ha, hb⟩)
  have h2 : l₂.Sorted (fun a b => r a b ∧ a ∈ l₁ ∧ b ∈ l₁) :=
    hs₂.imp_of_mem (fun {a b} ha hb hab => ⟨hab, hp.mem_iff.mpr ha, hp.mem_iff.mpr hb⟩)
  exact List.eq_of_perm_of_sorted hp h1 h2

theorem comparator_antisymm (alpha : Bool) (a b : sortedmeshslot)
    (ha : a.m_z ≠ MT_Scalar.nan) (hb : b.m_z ≠ MT_Scalar.nan)
    (hab : (if alpha then backtofront else fronttoback) b a = false)
    (hba : (if alpha then backtofront else fronttoback) a b = false) :
    a.m_ms = b.m_ms := by
  cases alpha
  · simp only [Bool.false_eq_true, if_false] at hab hba
    rw [fronttoback_eq_false_iff a b ha hb] at hab
    rw [fronttoback_eq_false_iff b a hb ha] at hba
    omega
  · simp only [if_true] at hab hba
    rw [backtofront_eq_false_iff a b ha hb] at hab
    rw [backtofront_eq_false_iff b a hb ha] at hba
    omega

/-- Two vectors with the same entries, none of them at a NaN depth and no two
of them for the same mesh slot, are sorted into the same sequence. -/
theorem std_sort_perm_eq (alpha : Bool) (v₁ v₂ : List sortedmeshslot) (hp : v₁.Perm v₂)
    (hnan : ∀ e ∈ v₁, e.m_z ≠ MT_Scalar.nan)
    (hnd : (v₁.map (fun e => e.m_ms)).Nodup) :
    std_sort (if alpha then backtofront else fronttoback) v₁
      = std_sort (if alpha then backtofront else fronttoback) v₂ := by
  refine sorted_perm_unique (((std_sort_perm _ v₁).trans hp).trans (std_sort_perm _ v₂).symm)
    (std_sort_sorted alpha v₁ hnan)
    (std_sort_sorted alpha v₂ (fun e he => hnan e (hp.mem_iff.mpr he))) ?_
  intro a ha b hb hab hba
  have ha1 : a ∈ v₁ := (std_sort_perm _ v₁).mem_iff.mp ha
  have hb1 : b ∈ v₁ := (std_sort_perm _ v₁).mem_iff.mp hb
  exact List.inj_on_of_nodup_map hnd ha1 hb1
    (comparator_antisymm alpha a b (hnan a ha1) (hnan b hb1) hab hba)

theorem queued_perm (h k : Heap) (pnorm : MT_Vector3) (bs cs : List Nat)
    (hms : k.meshSlot = h.meshSlot) (hfp : k.fp = h.fp) (hb : cs.Perm bs)
    (hd : ∀ b, (GetDisplayArrayBucketList k b).Perm (GetDisplayArrayBucketList h b))
    (ha : ∀ d, (GetActiveMeshSlots k d).Perm (GetActiveMeshSlots h d)) :
    (queued k pnorm cs).Perm (queued h pnorm bs) := by
  have hset : ∀ ms b, sortedmeshslot.set k ms b pnorm = sortedmeshslot.set h ms b pnorm := by
    intro ms b; unfold sortedmeshslot.set; rw [hms, hfp]
  unfold queued
  refine (List.Perm.flatMap_right _ hb).trans (List.Perm.flatMap_left _ ?_)
  intro b _
  unfold queuedOfArrays
  refine (List.Perm.flatMap_right _ (hd b)).trans (List.Perm.flatMap_left _ ?_)
  intro d _
  unfold queuedOfArray
  simp only [hset]
  exact (ha d).map _

theorem displayArrayBucketsOf_perm (h k : Heap) (bs cs : List Nat) (hb : cs.Perm bs)
    (hd : ∀ b, (GetDisplayArrayBucketList k b).Perm (GetDisplayArrayBucketList h b)) :
    (displayArrayBucketsOf k cs).Perm (displayArrayBucketsOf h bs) := by
  unfold displayArrayBucketsOf
  exact (List.Perm.flatMap_right _ hb).trans (List.Perm.flatMap_left _ (fun b _ => hd b))

/-! ## Lemmas on the lists of a material bucket -/

theorem erase_first_occurrence {l pre post : List Nat} {x : Nat}
    (hl : l = pre ++ x :: post) (hpre : x ∉ pre) : l.erase x = pre ++ post := by
  subst hl
  induction pre with
  | nil => simp
  | cons a pre ih =>
    have hne : a ≠ x := fun e => hpre (e ▸ List.mem_cons_self _ _)
    have hpre2 : x ∉ pre := fun hm => hpre (List.mem_cons_of_mem _ hm)
    simp only [List.cons_append]
    rw [List.erase_cons_tail (by simpa using hne), ih hpre2]

theorem FindDisplayArrayBucket_of_some (h : Heap) (self array d : Nat)
    (hf : (GetDisplayArrayBucketList h self).find?
      (fun x => decide (GetDisplayArray h x = array)) = some d) :
    FindDisplayArrayBucket h self array = (h, d) := by
  simp only [FindDisplayArrayBucket, hf]

theorem FindDisplayArrayBucket_of_none (h : Heap) (self array : Nat)
    (hf : (GetDisplayArrayBucketList h self).find?
      (fun x => decide (GetDisplayArray h x = array)) = none) :
    FindDisplayArrayBucket h self array = new_RAS_DisplayArrayBucket h self array := by
  simp only [FindDisplayArrayBucket, hf]

theorem new_RAS_DisplayArrayBucket_object (h : Heap) (bucket array : Nat) :
    (new_RAS_DisplayArrayBucket h bucket array).1.displayArrayBucket h.next
      = { m_refcount := 1, m_bucket := bucket, m_displayArray := array,
          m_activeMeshSlots := [] } := by
  simp [new_RAS_DisplayArrayBucket, RAS_DisplayArrayBucket.ctor, AddDisplayArrayBucket,
    operator_new, store]

theorem new_RAS_DisplayArrayBucket_frame (h : Heap) (bucket array q : Nat) (hq : q ≠ h.next) :
    (new_RAS_DisplayArrayBucket h bucket array).1.displayArrayBucket q
      = h.displayArrayBucket q := by
  simp [new_RAS_DisplayArrayBucket, RAS_DisplayArrayBucket.ctor, AddDisplayArrayBucket,
    operator_new, store, hq]

theorem new_RAS_DisplayArrayBucket_list (h : Heap) (bucket array b : Nat) :
    GetDisplayArrayBucketList (new_RAS_DisplayArrayBucket h bucket array).1 b
      = if b = bucket then GetDisplayArrayBucketList h bucket ++ [h.next]
        else GetDisplayArrayBucketList h b := by
  unfold GetDisplayArrayBucketList
  by_cases hb : b = bucket
  · subst hb
    simp [new_RAS_DisplayArrayBucket, RAS_DisplayArrayBucket.ctor, AddDisplayArrayBucket,
      operator_new, store]
  · simp [new_RAS_DisplayArrayBucket, RAS_DisplayArrayBucket.ctor, AddDisplayArrayBucket,
      operator_new, store, hb]

/-! ## Lemmas on the invariant of display array buckets -/

/-- The invariant of `p` is carried over to a heap in which `p` has a reference
count of at least 1, the same parent and as many registrations in every child
list. -/
theorem ArrayBucketInvariant_of_count (h k : Heap) (p : Nat)
    (hr : 1 ≤ GetRefCount k p)
    (hb : (k.displayArrayBucket p).m_bucket = (h.displayArrayBucket p).m_bucket)
    (hl : ∀ b, (GetDisplayArrayBucketList k b).count p = (GetDisplayArrayBucketList h b).count p)
    (hinv : ArrayBucketInvariant h p) : ArrayBucketInvariant k p := by
  obtain ⟨_, h2, h3⟩ := hinv
  refine ⟨hr, ?_, ?_⟩
  · rw [hb, hl, h2]
  · intro b hbne
    rw [hb] at hbne
    have := h3 b hbne
    rw [← List.count_eq_zero] at this ⊢
    rw [hl, this]

theorem count_append_singleton_ne (l : List Nat) (p q : Nat) (hpq : p ≠ q) :
    (l ++ [q]).count p = l.count p := by
  rw [List.count_append, List.count_singleton]
  have : (q == p) = false := by simpa using fun e => hpq e.symm
  simp [this]

theorem AddDisplayArrayBucket_list (h : Heap) (self bucket b : Nat) :
    GetDisplayArrayBucketList (AddDisplayArrayBucket h self bucket) b
      = if b = self then GetDisplayArrayBucketList h self ++ [bucket]
        else GetDisplayArrayBucketList h b := by
  unfold GetDisplayArrayBucketList AddDisplayArrayBucket store
  by_cases hb : b = self
  · subst hb; simp
  · simp [hb]

theorem RemoveDisplayArrayBucket_list (h : Heap) (self bucket b : Nat) :
    GetDisplayArrayBucketList (RemoveDisplayArrayBucket h self bucket) b
      = if b = self then (GetDisplayArrayBucketList h self).erase bucket
        else GetDisplayArrayBucketList h b := by
  unfold GetDisplayArrayBucketList RemoveDisplayArrayBucket store
  by_cases hb : b = self
  · subst hb; simp
  · simp [hb]

theorem GetReplica_list (h : Heap) (d b : Nat) :
    GetDisplayArrayBucketList (GetReplica h d).1 b
      = if b = (h.displayArrayBucket d).m_bucket then
          GetDisplayArrayBucketList h b ++ [h.next]
        else GetDisplayArrayBucketList h b := by
  unfold GetDisplayArrayBucketList
  rw [GetReplica_parent]
  unfold store
  by_cases hb : b = (h.displayArrayBucket d).m_bucket
  · subst hb; simp
  · simp [hb]

theorem Release_last_list (h : Heap) (q b : Nat) (hr : GetRefCount h q = 1) :
    GetDisplayArrayBucketList (Release h q).1 b
      = if b = (h.displayArrayBucket q).m_bucket then (GetDisplayArrayBucketList h b).erase q
        else GetDisplayArrayBucketList h b := by
  rw [Release_of_last h q hr]
  have hpar : ((setRefCount h q 0).displayArrayBucket q).m_bucket
      = (h.displayArrayBucket q).m_bucket := by
    simp [setRefCount, store]
  unfold GetDisplayArrayBucketList
  simp only []
  rw [materialBucket_delete_RAS_DisplayArrayBucket, hpar]
  have := RemoveDisplayArrayBucket_list (setRefCount h q 0) (h.displayArrayBucket q).m_bucket q b
  unfold GetDisplayArrayBucketList at this
  rw [this]
  by_cases hb : b = (h.displayArrayBucket q).m_bucket
  · subst hb; simp [setRefCount]
  · simp [hb, setRefCount]

theorem heapTwoArrayBuckets_invariant :
    ∀ p, p = 2 ∨ p = 3 → ArrayBucketInvariant heapTwoArrayBuckets p := by
  have hlist : ∀ b, b ≠ 1 → GetDisplayArrayBucketList heapTwoArrayBuckets b = [] := by
    intro b hb
    simp [GetDisplayArrayBucketList, heapTwoArrayBuckets, hb]
  intro p hp
  rcases hp with rfl | rfl
  · exact ⟨by decide, by decide, fun b hb => by rw [hlist b hb]; simp⟩
  · exact ⟨by decide, by decide, fun b hb => by rw [hlist b hb]; simp⟩

theorem heapTwoArrayBuckets_allocated : ChildrenAllocated heapTwoArrayBuckets := by
  intro b x hx
  by_cases hb : b = 1
  · subst hb
    have : x ∈ [2, 3] := hx
    have h20 : heapTwoArrayBuckets.next = 20 := rfl
    simp at this
    omega
  · simp [GetDisplayArrayBucketList, heapTwoArrayBuckets, hb] at hx

/-! ## Lemmas on the render passes -/

theorem Frame_refl (w : RenderState) : Frame w w :=
  ⟨rfl, rfl, rfl, fun _ => Or.inl rfl, fun _ => rfl, fun _ h => h, rfl,
    ⟨[], by simp, rfl, fun _ => rfl⟩⟩

theorem Frame_trans {a b c : RenderState} (h1 : Frame a b) (h2 : Frame b c) : Frame a c := by
  obtain ⟨m1, hm1, hf1, hc1⟩ := h1.calls
  obtain ⟨m2, hm2, hf2, hc2⟩ := h2.calls
  refine ⟨h2.accepts.trans h1.accepts, h2.drawingmode.trans h1.drawingmode,
    h2.materialBucket.trans h1.materialBucket, ?_, fun s => (h2.mesh s).trans (h1.mesh s),
    fun s h => h2.culled s (h1.culled s h), h2.modifiedFlag.trans h1.modifiedFlag,
    ⟨m1 ++ m2, ?_, ?_, ?_⟩⟩
  · intro d
    rcases h2.active d with h | h
    · rw [h]; exact h1.active d
    · exact Or.inr h
  · rw [hm2, hm1, List.append_assoc]
  · rw [List.filter_append, hf1, hf2]; rfl
  · intro ms; rw [List.countP_append, List.countP_append, hc1, hc2]

theorem DrawFrame_refl (w : RenderState) : DrawFrame w w :=
  ⟨Frame_refl w, rfl⟩

theorem DrawFrame_trans {a b c : RenderState} (h1 : DrawFrame a b) (h2 : DrawFrame b c) :
    DrawFrame a c :=
  ⟨Frame_trans h1.1 h2.1, h2.2.trans h1.2⟩

theorem external_counts (made : List Call) (h : ∀ c ∈ made, Call.isExternal c = true) :
    made.filter Call.isSetModifiedFlag = []
    ∧ (∀ ms, made.countP (Call.isRenderMeshSlot ms) = 0)
    ∧ ∀ ms b, made.countP (Call.isActivateMaterial ms b) = 0 := by
  refine ⟨?_, ?_, ?_⟩
  · rw [List.filter_eq_nil_iff]
    intro c hc
    have := h c hc
    cases c <;> simp_all [Call.isExternal, Call.isSetModifiedFlag]
  · intro ms
    rw [List.countP_eq_zero]
    intro c hc
    have := h c hc
    cases c <;> simp_all [Call.isExternal, Call.isRenderMeshSlot]
  · intro ms b
    rw [List.countP_eq_zero]
    intro c hc
    have := h c hc
    cases c <;> simp_all [Call.isExternal, Call.isActivateMaterial]

theorem RenderMeshSlot_calls (M : Materials) (D : Deformers) (w : RenderState)
    (self ms : Nat) :
    ∃ rest, RenderMeshSlot.calls M D w self ms = Call.RenderMeshSlot self ms :: rest
      ∧ ∀ c ∈ rest, Call.isExternal c = true := by
  unfold RenderMeshSlot.calls
  simp only [List.cons_append, List.nil_append, List.append_assoc]
  refine ⟨_, rfl, ?_⟩
  intro c hc
  simp only [List.mem_append, List.mem_cons, List.mem_singleton,
    List.mem_ite_nil_right, List.not_mem_nil, or_false] at hc
  rcases hc with hc | hc | hc | hc | hc | hc | hc | hc
  all_goals first
    | (subst hc; rfl)
    | (obtain ⟨_, hc⟩ := hc; subst hc; rfl)
    | (split_ifs at hc <;> simp at hc <;> subst hc <;> rfl)

theorem ActivateMaterial_state (M : Materials) (w : RenderState) (self : Nat)
    (cameratrans : MT_Transform) :
    ∃ made n,
      (ActivateMaterial M w self cameratrans).1
        = { w with
            rasty := { w.rasty with numSetMaterial := n }
            calls := w.calls ++ made }
      ∧ (∀ c ∈ made, Call.isExternal c = true)
      ∧ ((ActivateMaterial M w self cameratrans).2 = true →
          n = w.rasty.numSetMaterial + 1
          ∧ w.rasty.accepts w.rasty.numSetMaterial (GetPolyMaterial w.heap self) = true) := by
  unfold ActivateMaterial
  split_ifs with h1 h2 h3
  · exact ⟨[], w.rasty.numSetMaterial, by simp, by simp, by simp⟩
  · exact ⟨[], w.rasty.numSetMaterial, by simp, by simp, by simp⟩
  · refine ⟨[Call.SetMaterial (GetPolyMaterial w.heap self)
        (w.rasty.accepts w.rasty.numSetMaterial (GetPolyMaterial w.heap self))],
      w.rasty.numSetMaterial + 1, rfl, ?_, by simp⟩
    intro c hc
    simp only [List.mem_singleton] at hc
    subst hc; rfl
  · refine ⟨[Call.SetMaterial (GetPolyMaterial w.heap self)
        (w.rasty.accepts w.rasty.numSetMaterial (GetPolyMaterial w.heap self)),
        Call.ProcessLighting (M.UsesLighting (GetPolyMaterial w.heap self))],
      w.rasty.numSetMaterial + 1, ?_, ?_, ?_⟩
    · simp [SetMaterial, RenderState.call]
    · intro c hc
      simp only [List.mem_cons, List.mem_singleton, List.not_mem_nil, or_false] at hc
      rcases hc with hc | hc <;> subst hc <;> rfl
    · intro _
      refine ⟨rfl, ?_⟩
      simpa [SetMaterial] using h3

theorem DrawFrame_calls (w : RenderState) (made : List Call)
    (h : ∀ c ∈ made, Call.isExternal c = true) :
    DrawFrame w { w with calls := w.calls ++ made } := by
  obtain ⟨hf, hr, ha⟩ := external_counts made h
  exact ⟨⟨rfl, rfl, rfl, fun _ => Or.inl rfl, fun _ => rfl, fun _ h => h, rfl,
    ⟨made, rfl, hf, fun s => by rw [hr, ha]⟩⟩, rfl⟩

theorem DrawFrame_call (w : RenderState) (c : Call) (h : Call.isExternal c = true) :
    DrawFrame w (w.call c) :=
  DrawFrame_calls w [c] (fun d hd => by rw [List.mem_singleton] at hd; rw [hd]; exact h)

theorem DrawFrame_SetCulled (w : RenderState) (ms : Nat) :
    DrawFrame w { w with heap := SetCulled w.heap ms true } := by
  refine ⟨⟨rfl, rfl, rfl, fun _ => Or.inl rfl, ?_, ?_, rfl, ⟨[], by simp, rfl, fun _ => rfl⟩⟩,
    rfl⟩
  · intro s
    simp only [SetCulled, store]
    split_ifs with hs
    · rw [hs]
    · rfl
  · intro s hs
    simp only [SetCulled, store]
    split_ifs with hs2
    · rfl
    · exact hs

theorem loop_body_false (M : Materials) (cameratrans : MT_Transform) (bucket ms : Nat)
    (w : RenderState) :
    DrawFrame w ((ActivateMaterial M w bucket cameratrans).1.call
      (Call.ActivateMaterial bucket ms false)) := by
  obtain ⟨made, n, hst, hext, _⟩ := ActivateMaterial_state M w bucket cameratrans
  rw [hst]
  obtain ⟨hf, hr, ha⟩ := external_counts made hext
  refine ⟨⟨rfl, rfl, rfl, fun _ => Or.inl rfl, fun _ => rfl, fun _ h => h, rfl,
    ⟨made ++ [Call.ActivateMaterial bucket ms false], ?_, ?_, ?_⟩⟩, rfl⟩
  · simp [RenderState.call]
  · rw [List.filter_append, hf]; rfl
  · intro s
    rw [List.countP_append, List.countP_append, hr, ha]
    simp [Call.isRenderMeshSlot, Call.isActivateMaterial]

theorem loop_body_true (M : Materials) (D : Deformers) (cameratrans : MT_Transform)
    (bucket ms : Nat) (w : RenderState) :
    DrawFrame w
      (RenderMeshSlot M D
        ((ActivateMaterial M w bucket cameratrans).1.call
          (Call.ActivateMaterial bucket ms true))
        bucket cameratrans ms) := by
  obtain ⟨made, n, hst, hext, _⟩ := ActivateMaterial_state M w bucket cameratrans
  obtain ⟨rest, hrest, hrext⟩ := RenderMeshSlot_calls M D
    ((ActivateMaterial M w bucket cameratrans).1.call (Call.ActivateMaterial bucket ms true))
    bucket ms
  obtain ⟨hf, hr, ha⟩ := external_counts made hext
  obtain ⟨hf2, hr2, ha2⟩ := external_counts rest hrext
  unfold RenderMeshSlot
  rw [hrest]
  rw [hst]
  refine ⟨⟨rfl, rfl, rfl, fun _ => Or.inl rfl, ?_, ?_, rfl,
    ⟨made ++ Call.ActivateMaterial bucket ms true :: Call.RenderMeshSlot bucket ms :: rest,
      ?_, ?_, ?_⟩⟩, rfl⟩
  · intro s
    simp only [store, RenderState.call]
    split_ifs with hs
    · rw [hs]
    · rfl
  · intro s hs
    simp only [store, RenderState.call]
    split_ifs with hs2
    · rw [hs2] at hs; exact hs
    · exact hs
  · simp [RenderState.call]
  · rw [List.filter_append, hf, List.filter_cons, List.filter_cons, hf2]; rfl
  · intro s
    rw [List.countP_append, List.countP_append, hr, ha, List.countP_cons, List.countP_cons,
      List.countP_cons, List.countP_cons, hr2, ha2]
    simp [Call.isRenderMeshSlot, Call.isActivateMaterial]

theorem whileActivateMaterial_frame (M : Materials) (D : Deformers)
    (cameratrans : MT_Transform) (bucket ms : Nat) :
    ∀ (fuel : Nat) (w r : RenderState),
      whileActivateMaterial M D cameratrans bucket ms fuel w = some r → DrawFrame w r := by
  intro fuel
  induction fuel with
  | zero => intro w r h; simp [whileActivateMaterial] at h
  | succ fuel ih =>
    intro w r h
    unfold whileActivateMaterial at h
    split_ifs at h with hacc
    · exact DrawFrame_trans (loop_body_true M D cameratrans bucket ms w) (ih _ _ h)
    · rw [Option.some.injEq] at h
      rw [← h]
      exact loop_body_false M cameratrans bucket ms w

theorem forEach_spec {α : Type} (body : RenderState → α → Option RenderState)
    (R : RenderState → RenderState → Prop) (Q : α → RenderState → Prop)
    (hrefl : ∀ w, R w w) (htrans : ∀ a b c, R a b → R b c → R a c)
    (hstable : ∀ a w r, Q a w → R w r → Q a r) :
    ∀ (l : List α), (∀ a ∈ l, ∀ w r, body w a = some r → R w r ∧ Q a r) →
      ∀ w r, forEach body l w = some r → R w r ∧ ∀ a ∈ l, Q a r := by
  intro l
  induction l with
  | nil =>
    intro _ w r h
    simp only [forEach, Option.some.injEq] at h
    rw [← h]
    exact ⟨hrefl w, fun a ha => absurd ha (List.not_mem_nil a)⟩
  | cons a rest ih =>
    intro hbody w r h
    simp only [forEach, Option.bind_eq_some] at h
    obtain ⟨w1, h1, h2⟩ := h
    obtain ⟨hR1, hQ1⟩ := hbody a (List.mem_cons_self a rest) w w1 h1
    obtain ⟨hR2, hQ2⟩ := ih (fun b hb => hbody b (List.mem_cons_of_mem a hb)) w1 r h2
    refine ⟨htrans _ _ _ hR1 hR2, ?_⟩
    intro b hb
    rcases List.mem_cons.mp hb with hb | hb
    · rw [hb]; exact hstable a w1 r hQ1 hR2
    · exact hQ2 b hb

theorem SolidFrame_refl (w : RenderState) : SolidFrame w w :=
  ⟨Frame_refl w, fun _ => Or.inl rfl⟩

theorem SolidFrame_trans {a b c : RenderState} (h1 : SolidFrame a b) (h2 : SolidFrame b c) :
    SolidFrame a c := by
  refine ⟨Frame_trans h1.1 h2.1, ?_⟩
  intro d
  rcases h2.2 d with h | ⟨h, hc⟩
  · rcases h1.2 d with h3 | ⟨h3, hc3⟩
    · exact Or.inl (h.trans h3)
    · exact Or.inr ⟨h.trans h3, fun s hs => h2.1.culled s (hc3 s hs)⟩
  · rcases h1.2 d with h3 | ⟨h3, hc3⟩
    · exact Or.inr ⟨h, fun s hs => hc s (by rw [h3]; exact hs)⟩
    · exact Or.inr ⟨h, fun s hs => h2.1.culled s (hc3 s hs)⟩

theorem DrawFrame_solid {w r : RenderState} (h : DrawFrame w r) : SolidFrame w r :=
  ⟨h.1, fun d => Or.inl (by unfold GetActiveMeshSlots; rw [h.2])⟩

theorem RenderSolidBuckets_slot_spec (M : Materials) (D : Deformers)
    (cameratrans : MT_Transform) (fuel bucket : Nat) (w : RenderState) (ms : Nat)
    (r : RenderState) (h : RenderSolidBuckets.slot M D cameratrans fuel bucket w ms = some r) :
    DrawFrame w r ∧ (r.heap.meshSlot ms).m_bCulled = true := by
  simp only [RenderSolidBuckets.slot, Option.map_eq_some'] at h
  obtain ⟨w1, h1, h2⟩ := h
  have hf := whileActivateMaterial_frame M D cameratrans bucket ms fuel _ _ h1
  rw [← h2]
  refine ⟨DrawFrame_trans
    (DrawFrame_trans (DrawFrame_call w (Call.SetClientObject (w.heap.meshSlot ms).m_clientObj)
      rfl) hf) (DrawFrame_SetCulled w1 ms), ?_⟩
  simp [SetCulled, store]

theorem RenderSolidBuckets_array_spec (M : Materials) (D : Deformers)
    (cameratrans : MT_Transform) (fuel bucket : Nat) (w : RenderState) (d : Nat)
    (r : RenderState) (h : RenderSolidBuckets.array M D cameratrans fuel bucket w d = some r) :
    SolidFrame w r ∧ GetActiveMeshSlots r.heap d = [] := by
  unfold RenderSolidBuckets.array at h
  split_ifs at h with hnum
  · rw [Option.some.injEq] at h
    rw [← h]
    exact ⟨SolidFrame_refl w, List.length_eq_zero.mp hnum⟩
  · simp only [Option.map_eq_some'] at h
    obtain ⟨w1, h1, h2⟩ := h
    obtain ⟨hdraw, hculled⟩ := forEach_spec (RenderSolidBuckets.slot M D cameratrans fuel bucket)
      DrawFrame (fun s x => (x.heap.meshSlot s).m_bCulled = true) DrawFrame_refl
      (fun _ _ _ => DrawFrame_trans) (fun s _ _ hs hf => hf.1.culled s hs)
      (GetActiveMeshSlots w.heap d)
      (fun s _ x y hxy => RenderSolidBuckets_slot_spec M D cameratrans fuel bucket x s y hxy)
      _ _ h1
    have hw1 : DrawFrame w w1 :=
      DrawFrame_trans (DrawFrame_call w (Call.BindPrimitives (GetDisplayArray w.heap d)) rfl)
        hdraw
    have hlast : Frame w1 r := by
      rw [← h2]
      refine ⟨rfl, rfl, rfl, ?_, fun _ => rfl, fun _ hs => hs, rfl,
        ⟨[Call.UnbindPrimitives (GetDisplayArray w.heap d)], rfl, rfl, fun _ => rfl⟩⟩
      intro e
      simp only [GetActiveMeshSlots, RemoveActiveMeshSlots, store]
      split_ifs with he
      · exact Or.inr rfl
      · exact Or.inl rfl
    have hact : ∀ e, GetActiveMeshSlots r.heap e
        = if e = d then [] else GetActiveMeshSlots w.heap e := by
      intro e
      rw [← h2]
      simp only [GetActiveMeshSlots, RemoveActiveMeshSlots, store]
      split_ifs with he
      · rfl
      · rw [hw1.2]
    refine ⟨⟨Frame_trans hw1.1 hlast, ?_⟩, ?_⟩
    · intro e
      rw [hact e]
      by_cases he : e = d
      · rw [if_pos he, he]
        refine Or.inr ⟨rfl, fun s hs => ?_⟩
        rw [← h2]
        exact hculled s hs
      · rw [if_neg he]
        exact Or.inl rfl
    · rw [hact d, if_pos rfl]

theorem RenderSolidBuckets_bucket_spec (M : Materials) (D : Deformers)
    (cameratrans : MT_Transform) (fuel : Nat) (w : RenderState) (bucket : Nat)
    (r : RenderState) (h : RenderSolidBuckets.bucket M D cameratrans fuel w bucket = some r) :
    SolidFrame w r
    ∧ ∀ d ∈ GetDisplayArrayBucketList r.heap bucket, GetActiveMeshSlots r.heap d = [] := by
  unfold RenderSolidBuckets.bucket at h
  obtain ⟨hframe, hq⟩ := forEach_spec (RenderSolidBuckets.array M D cameratrans fuel bucket)
    SolidFrame (fun d x => GetActiveMeshSlots x.heap d = []) SolidFrame_refl
    (fun _ _ _ => SolidFrame_trans)
    (fun d x y hx hf => by
      rcases hf.1.active d with hd | hd
      · rw [hd]; exact hx
      · exact hd)
    (GetDisplayArrayBucketList w.heap bucket)
    (fun d _ x y hxy => RenderSolidBuckets_array_spec M D cameratrans fuel bucket x d y hxy)
    _ _ h
  refine ⟨hframe, ?_⟩
  intro d hd
  unfold GetDisplayArrayBucketList at hd
  rw [hframe.1.materialBucket] at hd
  exact hq d hd

theorem RenderSolidBuckets_spec (M : Materials) (D : Deformers) (self : RAS_BucketManager)
    (cameratrans : MT_Transform) (fuel : Nat) (w r : RenderState)
    (h : RenderSolidBuckets M D self cameratrans fuel w = some r) :
    SolidFrame w r
    ∧ ∀ b ∈ self.m_SolidBuckets, ∀ d ∈ GetDisplayArrayBucketList r.heap b,
        GetActiveMeshSlots r.heap d = [] := by
  unfold RenderSolidBuckets at h
  obtain ⟨hframe, hq⟩ := forEach_spec (RenderSolidBuckets.bucket M D cameratrans fuel)
    SolidFrame
    (fun b x => ∀ d ∈ GetDisplayArrayBucketList x.heap b, GetActiveMeshSlots x.heap d = [])
    SolidFrame_refl (fun _ _ _ => SolidFrame_trans)
    (fun b x y hx hf => by
      intro d hd
      unfold GetDisplayArrayBucketList at hd
      rw [hf.1.materialBucket] at hd
      rcases hf.1.active d with h1 | h1
      · rw [h1]; exact hx d hd
      · exact h1)
    self.m_SolidBuckets
    (fun b _ x y hxy => RenderSolidBuckets_bucket_spec M D cameratrans fuel x b y hxy)
    _ _ h
  exact ⟨SolidFrame_trans (DrawFrame_solid (DrawFrame_call w (Call.SetDepthMask true) rfl))
    hframe, hq⟩

theorem RenderAlphaBuckets_slot_spec (M : Materials) (D : Deformers)
    (cameratrans : MT_Transform) (fuel : Nat) (w : RenderState) (sit : sortedmeshslot)
    (r : RenderState) (h : RenderAlphaBuckets.slot M D cameratrans fuel w sit = some r) :
    DrawFrame w r ∧ (r.heap.meshSlot sit.m_ms).m_bCulled = true := by
  simp only [RenderAlphaBuckets.slot, Option.map_eq_some'] at h
  obtain ⟨w1, h1, h2⟩ := h
  have hf := whileActivateMaterial_frame M D cameratrans sit.m_bucket sit.m_ms fuel _ _ h1
  have h0 : DrawFrame w
      ((w.call (Call.SetClientObject (w.heap.meshSlot sit.m_ms).m_clientObj)).call
        (Call.BindPrimitives (w.heap.meshSlot sit.m_ms).m_displayArray)) :=
    DrawFrame_trans
      (DrawFrame_call w (Call.SetClientObject (w.heap.meshSlot sit.m_ms).m_clientObj) rfl)
      (DrawFrame_call _ (Call.BindPrimitives (w.heap.meshSlot sit.m_ms).m_displayArray) rfl)
  have hlast : DrawFrame w1 r := by
    rw [← h2]
    exact DrawFrame_trans (DrawFrame_SetCulled w1 sit.m_ms)
      (DrawFrame_calls _ [Call.UnbindPrimitives (w.heap.meshSlot sit.m_ms).m_displayArray]
        (fun c hc => by rw [List.mem_singleton] at hc; rw [hc]; rfl))
  refine ⟨DrawFrame_trans (DrawFrame_trans h0 hf) hlast, ?_⟩
  rw [← h2]
  simp [SetCulled, store]

theorem RenderAlphaBuckets_depthMask_frame (w : RenderState) :
    DrawFrame w (RenderAlphaBuckets.depthMask w) := by
  unfold RenderAlphaBuckets.depthMask
  split_ifs
  · exact DrawFrame_call w (Call.SetDepthMask false) rfl
  · exact DrawFrame_refl w

theorem Frame_clearedArrays (w : RenderState) (ds : List Nat) :
    Frame w { w with heap := clearedArrays w.heap ds } := by
  refine ⟨rfl, rfl, clearedArrays_materialBucket ds w.heap, ?_, ?_, ?_, rfl,
    ⟨[], by simp, rfl, fun _ => rfl⟩⟩
  · intro d
    rw [getActive_clearedArrays]
    split_ifs
    · exact Or.inr rfl
    · exact Or.inl rfl
  · intro s
    show ((clearedArrays w.heap ds).meshSlot s).m_mesh = _
    rw [clearedArrays_meshSlot]
  · intro s hs
    show ((clearedArrays w.heap ds).meshSlot s).m_bCulled = true
    rw [clearedArrays_meshSlot]
    exact hs

theorem RenderAlphaBuckets_spec (M : Materials) (D : Deformers) (self : RAS_BucketManager)
    (cameratrans : MT_Transform) (fuel : Nat) (w r : RenderState)
    (h : RenderAlphaBuckets M D self cameratrans fuel w = some r) :
    Frame w r
    ∧ ∀ b ∈ self.m_AlphaBuckets, ∀ d ∈ GetDisplayArrayBucketList r.heap b,
        GetActiveMeshSlots r.heap d = [] := by
  simp only [RenderAlphaBuckets, Option.map_eq_some'] at h
  obtain ⟨w1, h1, h2⟩ := h
  rw [OrderBuckets_heap] at h1
  have h0 := RenderAlphaBuckets_depthMask_frame w
  have hcl := Frame_clearedArrays (RenderAlphaBuckets.depthMask w)
    (displayArrayBucketsOf (RenderAlphaBuckets.depthMask w).heap self.m_AlphaBuckets)
  obtain ⟨hdraw, _⟩ := forEach_spec (RenderAlphaBuckets.slot M D cameratrans fuel)
    DrawFrame (fun _ _ => True) DrawFrame_refl (fun _ _ _ => DrawFrame_trans)
    (fun _ _ _ _ _ => trivial) _
    (fun s _ x y hxy =>
      ⟨(RenderAlphaBuckets_slot_spec M D cameratrans fuel x s y hxy).1, trivial⟩)
    _ _ h1
  have hlast : DrawFrame w1 r := by
    rw [← h2]
    exact DrawFrame_call w1 (Call.SetDepthMask true) rfl
  have hframe : Frame w r :=
    Frame_trans (Frame_trans (Frame_trans h0.1 hcl) hdraw.1) hlast.1
  refine ⟨hframe, ?_⟩
  intro b hb d hd
  unfold GetDisplayArrayBucketList at hd
  rw [hframe.materialBucket, ← h0.1.materialBucket] at hd
  have hmem : d ∈ displayArrayBucketsOf (RenderAlphaBuckets.depthMask w).heap
      self.m_AlphaBuckets := by
    unfold displayArrayBucketsOf
    rw [List.mem_flatMap]
    exact ⟨b, hb, hd⟩
  unfold GetActiveMeshSlots
  rw [hlast.2, hdraw.2]
  have := getActive_clearedArrays
    (displayArrayBucketsOf (RenderAlphaBuckets.depthMask w).heap self.m_AlphaBuckets)
    (RenderAlphaBuckets.depthMask w).heap d
  rw [if_pos hmem] at this
  exact this

theorem resetSlots_spec (slots : List Nat) :
    ∀ w : RenderState,
      (Renderbuckets.resetSlots w slots).heap = w.heap
      ∧ (Renderbuckets.resetSlots w slots).rasty = w.rasty
      ∧ (Renderbuckets.resetSlots w slots).calls
          = w.calls ++ slots.map (fun s => Call.SetModifiedFlag (w.heap.meshSlot s).m_mesh 0)
      ∧ ∀ m, (Renderbuckets.resetSlots w slots).modifiedFlag m
          = if m ∈ slots.map (fun s => (w.heap.meshSlot s).m_mesh) then 0
            else w.modifiedFlag m := by
  induction slots with
  | nil => intro w; simp [Renderbuckets.resetSlots]
  | cons s rest ih =>
    intro w
    obtain ⟨h1, h2, h3, h4⟩ := ih (SetModifiedFlag w (w.heap.meshSlot s).m_mesh 0)
    simp only [Renderbuckets.resetSlots, List.foldl_cons] at h1 h2 h3 h4 ⊢
    refine ⟨h1, h2, ?_, ?_⟩
    · rw [h3]
      simp [SetModifiedFlag]
    · intro m
      rw [h4 m]
      simp only [SetModifiedFlag, store, List.map_cons, List.mem_cons]
      by_cases hm : m = (w.heap.meshSlot s).m_mesh
      · simp [hm]
      · simp [hm]

theorem resetBuckets_spec (buckets : List Nat) :
    ∀ w : RenderState,
      (Renderbuckets.resetBuckets w buckets).heap = w.heap
      ∧ (Renderbuckets.resetBuckets w buckets).rasty = w.rasty
      ∧ (Renderbuckets.resetBuckets w buckets).calls
          = w.calls ++ (meshSlotsOf w.heap buckets).map
              (fun s => Call.SetModifiedFlag (w.heap.meshSlot s).m_mesh 0)
      ∧ ∀ m, (Renderbuckets.resetBuckets w buckets).modifiedFlag m
          = if m ∈ (meshSlotsOf w.heap buckets).map (fun s => (w.heap.meshSlot s).m_mesh)
            then 0 else w.modifiedFlag m := by
  induction buckets with
  | nil => intro w; simp [Renderbuckets.resetBuckets, meshSlotsOf]
  | cons b rest ih =>
    intro w
    obtain ⟨s1, s2, s3, s4⟩ := resetSlots_spec (w.heap.materialBucket b).m_meshSlots w
    obtain ⟨h1, h2, h3, h4⟩ :=
      ih (Renderbuckets.resetSlots w (w.heap.materialBucket b).m_meshSlots)
    simp only [Renderbuckets.resetBuckets, List.foldl_cons] at h1 h2 h3 h4 ⊢
    refine ⟨h1.trans s1, h2.trans s2, ?_, ?_⟩
    · rw [h3, s3, s1]
      simp [meshSlotsOf, List.flatMap_cons]
    · intro m
      rw [h4 m, s4 m, s1]
      simp only [meshSlotsOf, List.flatMap_cons, List.map_append, List.mem_append]
      by_cases hm1 : m ∈ (rest.flatMap
          (fun bit => (w.heap.materialBucket bit).m_meshSlots)).map
            (fun s => (w.heap.meshSlot s).m_mesh)
      · simp [hm1]
      · simp [hm1]

theorem ActivateMaterial_false_of_rejected (M : Materials) (w : RenderState) (bucket : Nat)
    (cameratrans : MT_Transform)
    (hk : w.rasty.accepts w.rasty.numSetMaterial (GetPolyMaterial w.heap bucket) = false) :
    (ActivateMaterial M w bucket cameratrans).2 = false := by
  obtain ⟨made, n, _, _, htrue⟩ := ActivateMaterial_state M w bucket cameratrans
  cases hres : (ActivateMaterial M w bucket cameratrans).2
  · rfl
  · have h2 := (htrue hres).2
    rw [hk] at h2
    exact absurd h2 (by decide)

theorem whileActivateMaterial_of_false (M : Materials) (D : Deformers)
    (cameratrans : MT_Transform) (bucket ms : Nat) (w : RenderState)
    (hres : (ActivateMaterial M w bucket cameratrans).2 = false) (fuel : Nat)
    (hf : 1 ≤ fuel) :
    whileActivateMaterial M D cameratrans bucket ms fuel w
      = some ((ActivateMaterial M w bucket cameratrans).1.call
          (Call.ActivateMaterial bucket ms false)) := by
  obtain ⟨f, rfl⟩ : ∃ f, fuel = f + 1 := ⟨fuel - 1, by omega⟩
  unfold whileActivateMaterial
  rw [if_neg (by rw [hres]; decide)]

theorem whileActivateMaterial_terminates (M : Materials) (D : Deformers)
    (cameratrans : MT_Transform) (bucket ms : Nat) :
    ∀ (k : Nat) (w : RenderState),
      w.rasty.accepts (w.rasty.numSetMaterial + k) (GetPolyMaterial w.heap bucket) = false →
      ∃ r, ∀ fuel, k + 1 ≤ fuel →
        whileActivateMaterial M D cameratrans bucket ms fuel w = some r := by
  intro k
  induction k with
  | zero =>
    intro w hk
    rw [Nat.add_zero] at hk
    exact ⟨_, fun fuel hf => whileActivateMaterial_of_false M D cameratrans bucket ms w
      (ActivateMaterial_false_of_rejected M w bucket cameratrans hk) fuel (by omega)⟩
  | succ k ih =>
    intro w hk
    cases hres : (ActivateMaterial M w bucket cameratrans).2
    · exact ⟨_, fun fuel hf => whileActivateMaterial_of_false M D cameratrans bucket ms w
        hres fuel (by omega)⟩
    · obtain ⟨made, n, hst, _, htrue⟩ := ActivateMaterial_state M w bucket cameratrans
      obtain ⟨hn, _⟩ := htrue hres
      have hframe := loop_body_true M D cameratrans bucket ms w
      have hnum : (RenderMeshSlot M D
          ((ActivateMaterial M w bucket cameratrans).1.call
            (Call.ActivateMaterial bucket ms true)) bucket cameratrans ms).rasty.numSetMaterial
          = w.rasty.numSetMaterial + 1 := by
        show (ActivateMaterial M w bucket cameratrans).1.rasty.numSetMaterial = _
        rw [hst]
        exact hn
      have hnext : (RenderMeshSlot M D
          ((ActivateMaterial M w bucket cameratrans).1.call
            (Call.ActivateMaterial bucket ms true)) bucket cameratrans ms).rasty.accepts
          ((RenderMeshSlot M D
            ((ActivateMaterial M w bucket cameratrans).1.call
              (Call.ActivateMaterial bucket ms true)) bucket cameratrans ms).rasty.numSetMaterial
            + k)
          (GetPolyMaterial (RenderMeshSlot M D
            ((ActivateMaterial M w bucket cameratrans).1.call
              (Call.ActivateMaterial bucket ms true)) bucket cameratrans ms).heap bucket)
          = false := by
        rw [hnum, hframe.1.accepts]
        unfold GetPolyMaterial
        rw [hframe.1.materialBucket]
        have : w.rasty.numSetMaterial + 1 + k = w.rasty.numSetMaterial + (k + 1) := by omega
        rw [this]
        exact hk
      obtain ⟨r, hr⟩ := ih _ hnext
      refine ⟨r, fun fuel hf => ?_⟩
      obtain ⟨f, rfl⟩ : ∃ f, fuel = f + 1 := ⟨fuel - 1, by omega⟩
      unfold whileActivateMaterial
      rw [if_pos hres]
      exact hr f (by omega)

theorem whileActivateMaterial_total (M : Materials) (D : Deformers)
    (cameratrans : MT_Transform) (bucket ms : Nat) (w : RenderState)
    (hev : EventuallyRejects w.rasty) :
    ∃ F r, (∀ fuel, F ≤ fuel → whileActivateMaterial M D cameratrans bucket ms fuel w = some r)
      ∧ EventuallyRejects r.rasty := by
  obtain ⟨k, hk⟩ := hev (GetPolyMaterial w.heap bucket) w.rasty.numSetMaterial
  obtain ⟨r, hr⟩ := whileActivateMaterial_terminates M D cameratrans bucket ms k w hk
  refine ⟨k + 1, r, hr, ?_⟩
  have hframe := whileActivateMaterial_frame M D cameratrans bucket ms (k + 1) w r
    (hr (k + 1) (Nat.le_refl _))
  intro mat n
  rw [hframe.1.accepts]
  exact hev mat n

theorem forEach_total {α : Type} (body : Nat → RenderState → α → Option RenderState)
    (Inv : RenderState → Prop) :
    ∀ (l : List α),
      (∀ a ∈ l, ∀ w, Inv w →
        ∃ F r, (∀ fuel, F ≤ fuel → body fuel w a = some r) ∧ Inv r) →
      ∀ w, Inv w →
        ∃ F r, (∀ fuel, F ≤ fuel → forEach (body fuel) l w = some r) ∧ Inv r := by
  intro l
  induction l with
  | nil => intro _ w hw; exact ⟨0, w, fun _ _ => rfl, hw⟩
  | cons a rest ih =>
    intro hbody w hw
    obtain ⟨F1, r1, h1, hinv1⟩ := hbody a (List.mem_cons_self a rest) w hw
    obtain ⟨F2, r2, h2, hinv2⟩ :=
      ih (fun b hb => hbody b (List.mem_cons_of_mem a hb)) r1 hinv1
    refine ⟨max F1 F2, r2, fun fuel hf => ?_, hinv2⟩
    simp only [forEach]
    rw [h1 fuel (le_trans (le_max_left F1 F2) hf)]
    exact h2 fuel (le_trans (le_max_right F1 F2) hf)

theorem RenderSolidBuckets_slot_total (M : Materials) (D : Deformers)
    (cameratrans : MT_Transform) (bucket : Nat) (w : RenderState) (ms : Nat)
    (hev : EventuallyRejects w.rasty) :
    ∃ F r, (∀ fuel, F ≤ fuel →
        RenderSolidBuckets.slot M D cameratrans fuel bucket w ms = some r)
      ∧ EventuallyRejects r.rasty := by
  obtain ⟨F, r, hr, hinv⟩ := whileActivateMaterial_total M D cameratrans bucket ms
    (w.call (Call.SetClientObject (w.heap.meshSlot ms).m_clientObj)) hev
  refine ⟨F, { r with heap := SetCulled r.heap ms true }, fun fuel hf => ?_, hinv⟩
  unfold RenderSolidBuckets.slot
  rw [hr fuel hf]
  rfl

theorem RenderSolidBuckets_array_total (M : Materials) (D : Deformers)
    (cameratrans : MT_Transform) (bucket : Nat) (w : RenderState) (d : Nat)
    (hev : EventuallyRejects w.rasty) :
    ∃ F r, (∀ fuel, F ≤ fuel →
        RenderSolidBuckets.array M D cameratrans fuel bucket w d = some r)
      ∧ EventuallyRejects r.rasty := by
  by_cases hnum : GetNumActiveMeshSlots w.heap d = 0
  · refine ⟨0, w, fun fuel _ => ?_, hev⟩
    unfold RenderSolidBuckets.array
    rw [if_pos hnum]
  · obtain ⟨F, r, hr, hinv⟩ := forEach_total
      (fun fuel => RenderSolidBuckets.slot M D cameratrans fuel bucket)
      (fun x => EventuallyRejects x.rasty) (GetActiveMeshSlots w.heap d)
      (fun s _ x hx => RenderSolidBuckets_slot_total M D cameratrans bucket x s hx)
      (w.call (Call.BindPrimitives (GetDisplayArray w.heap d))) hev
    refine ⟨F, { r with
        heap := RemoveActiveMeshSlots r.heap d
        calls := r.calls ++ [Call.UnbindPrimitives (GetDisplayArray w.heap d)] },
      fun fuel hf => ?_, hinv⟩
    unfold RenderSolidBuckets.array
    rw [if_neg hnum, hr fuel hf]
    rfl

theorem RenderSolidBuckets_bucket_total (M : Materials) (D : Deformers)
    (cameratrans : MT_Transform) (w : RenderState) (bucket : Nat)
    (hev : EventuallyRejects w.rasty) :
    ∃ F r, (∀ fuel, F ≤ fuel →
        RenderSolidBuckets.bucket M D cameratrans fuel w bucket = some r)
      ∧ EventuallyRejects r.rasty :=
  forEach_total (fun fuel => RenderSolidBuckets.array M D cameratrans fuel bucket)
    (fun x => EventuallyRejects x.rasty) (GetDisplayArrayBucketList w.heap bucket)
    (fun d _ x hx => RenderSolidBuckets_array_total M D cameratrans bucket x d hx) w hev

theorem RenderSolidBuckets_total (M : Materials) (D : Deformers) (self : RAS_BucketManager)
    (cameratrans : MT_Transform) (w : RenderState) (hev : EventuallyRejects w.rasty) :
    ∃ F r, (∀ fuel, F ≤ fuel → RenderSolidBuckets M D self cameratrans fuel w = some r)
      ∧ EventuallyRejects r.rasty :=
  forEach_total (fun fuel => RenderSolidBuckets.bucket M D cameratrans fuel)
    (fun x => EventuallyRejects x.rasty) self.m_SolidBuckets
    (fun b _ x hx => RenderSolidBuckets_bucket_total M D cameratrans x b hx)
    (w.call (Call.SetDepthMask true)) hev

theorem RenderAlphaBuckets_slot_total (M : Materials) (D : Deformers)
    (cameratrans : MT_Transform) (w : RenderState) (sit : sortedmeshslot)
    (hev : EventuallyRejects w.rasty) :
    ∃ F r, (∀ fuel, F ≤ fuel → RenderAlphaBuckets.slot M D cameratrans fuel w sit = some r)
      ∧ EventuallyRejects r.rasty := by
  obtain ⟨F, r, hr, hinv⟩ := whileActivateMaterial_total M D cameratrans sit.m_bucket sit.m_ms
    ((w.call (Call.SetClientObject (w.heap.meshSlot sit.m_ms).m_clientObj)).call
      (Call.BindPrimitives (w.heap.meshSlot sit.m_ms).m_displayArray)) hev
  refine ⟨F, { r with
      heap := SetCulled r.heap sit.m_ms true
      calls := r.calls ++ [Call.UnbindPrimitives (w.heap.meshSlot sit.m_ms).m_displayArray] },
    fun fuel hf => ?_, hinv⟩
  unfold RenderAlphaBuckets.slot
  rw [hr fuel hf]
  rfl

theorem RenderAlphaBuckets_total (M : Materials) (D : Deformers) (self : RAS_BucketManager)
    (cameratrans : MT_Transform) (w : RenderState) (hev : EventuallyRejects w.rasty) :
    ∃ F r, (∀ fuel, F ≤ fuel → RenderAlphaBuckets M D self cameratrans fuel w = some r)
      ∧ EventuallyRejects r.rasty := by
  have hev0 : EventuallyRejects (RenderAlphaBuckets.depthMask w).rasty := by
    intro mat n
    rw [(RenderAlphaBuckets_depthMask_frame w).1.accepts]
    exact hev mat n
  obtain ⟨F, r, hr, hinv⟩ := forEach_total
    (fun fuel => RenderAlphaBuckets.slot M D cameratrans fuel)
    (fun x => EventuallyRejects x.rasty)
    (OrderBuckets (RenderAlphaBuckets.depthMask w).heap cameratrans self.m_AlphaBuckets []
      true).2
    (fun s _ x hx => RenderAlphaBuckets_slot_total M D cameratrans x s hx)
    { RenderAlphaBuckets.depthMask w with
      heap :=
        (OrderBuckets (RenderAlphaBuckets.depthMask w).heap cameratrans self.m_AlphaBuckets []
          true).1 }
    hev0
  refine ⟨F, r.call (Call.SetDepthMask true), fun fuel hf => ?_, hinv⟩
  unfold RenderAlphaBuckets
  rw [hr fuel hf]
  rfl

theorem Renderbuckets_total (M : Materials) (D : Deformers) (self : RAS_BucketManager)
    (cameratrans : MT_Transform) (w : RenderState) (hev : EventuallyRejects w.rasty) :
    ∃ F r, ∀ fuel, F ≤ fuel → Renderbuckets M D self cameratrans fuel w = some r := by
  obtain ⟨F1, r1, h1, hinv1⟩ := RenderSolidBuckets_total M D self cameratrans
    (w.call Call.ClearCachingInfo) hev
  obtain ⟨F2, r2, h2, _⟩ := RenderAlphaBuckets_total M D self cameratrans r1 hinv1
  refine ⟨max F1 F2, Renderbuckets.finish self r2, fun fuel hf => ?_⟩
  unfold Renderbuckets
  rw [h1 fuel (le_trans (le_max_left F1 F2) hf)]
  simp only [Option.some_bind]
  rw [h2 fuel (le_trans (le_max_right F1 F2) hf)]
  rfl

theorem Renderbuckets_spec (M : Materials) (D : Deformers) (self : RAS_BucketManager)
    (cameratrans : MT_Transform) (fuel : Nat) (w r : RenderState)
    (h : Renderbuckets M D self cameratrans fuel w = some r) :
    ∃ r2, r = Renderbuckets.finish self r2
      ∧ Frame w r2
      ∧ ∀ b ∈ self.m_SolidBuckets ++ self.m_AlphaBuckets,
          ∀ d ∈ GetDisplayArrayBucketList r2.heap b, GetActiveMeshSlots r2.heap d = [] := by
  simp only [Renderbuckets, Option.map_eq_some', Option.bind_eq_some] at h
  obtain ⟨r2, ⟨r1, h1, h2⟩, h3⟩ := h
  obtain ⟨hf1, hq1⟩ := RenderSolidBuckets_spec M D self cameratrans fuel _ r1 h1
  obtain ⟨hf2, hq2⟩ := RenderAlphaBuckets_spec M D self cameratrans fuel r1 r2 h2
  refine ⟨r2, h3.symm,
    Frame_trans (Frame_trans (DrawFrame_call w Call.ClearCachingInfo rfl).1 hf1.1) hf2, ?_⟩
  intro b hb d hd
  rcases List.mem_append.mp hb with hb | hb
  · have hd1 : d ∈ GetDisplayArrayBucketList r1.heap b := by
      unfold GetDisplayArrayBucketList at hd ⊢
      rw [← hf2.materialBucket]
      exact hd
    rcases hf2.active d with ha | ha
    · rw [ha]; exact hq1 b hb d hd1
    · exact ha
  · exact hq2 b hb d hd

theorem finish_heap (self : RAS_BucketManager) (w : RenderState) :
    (Renderbuckets.finish self w).heap = w.heap := by
  unfold Renderbuckets.finish
  split_ifs
  · show (Renderbuckets.resetBuckets (Renderbuckets.resetBuckets w self.m_SolidBuckets)
      self.m_AlphaBuckets).heap = _
    rw [(resetBuckets_spec _ _).1, (resetBuckets_spec _ _).1]
  · rfl

theorem finish_spec (self : RAS_BucketManager) (w : RenderState)
    (hmode : w.rasty.m_drawingmode ≠ KX_SHADOW) :
    (Renderbuckets.finish self w).calls
      = w.calls
        ++ ((meshSlotsOf w.heap (self.m_SolidBuckets ++ self.m_AlphaBuckets)).map
            (fun s => Call.SetModifiedFlag (w.heap.meshSlot s).m_mesh 0)
          ++ [Call.SetClientObject NULL])
    ∧ ∀ m, (Renderbuckets.finish self w).modifiedFlag m
        = if m ∈ (meshSlotsOf w.heap (self.m_SolidBuckets ++ self.m_AlphaBuckets)).map
              (fun s => (w.heap.meshSlot s).m_mesh)
          then 0 else w.modifiedFlag m := by
  obtain ⟨a1, _, a3, a4⟩ := resetBuckets_spec self.m_SolidBuckets w
  obtain ⟨b1, _, b3, b4⟩ := resetBuckets_spec self.m_AlphaBuckets
    (Renderbuckets.resetBuckets w self.m_SolidBuckets)
  unfold Renderbuckets.finish
  rw [if_pos hmode]
  constructor
  · show (Renderbuckets.resetBuckets (Renderbuckets.resetBuckets w self.m_SolidBuckets)
      self.m_AlphaBuckets).calls ++ [Call.SetClientObject NULL] = _
    rw [b3, a3, a1]
    simp [meshSlotsOf, List.flatMap_append]
  · intro m
    show (Renderbuckets.resetBuckets (Renderbuckets.resetBuckets w self.m_SolidBuckets)
      self.m_AlphaBuckets).modifiedFlag m = _
    rw [b4 m, a4 m, a1]
    simp only [meshSlotsOf, List.flatMap_append, List.map_append, List.mem_append]
    by_cases h1 : m ∈ (self.m_AlphaBuckets.flatMap
        (fun bit => (w.heap.materialBucket bit).m_meshSlots)).map
          (fun s => (w.heap.meshSlot s).m_mesh)
    · rw [if_pos h1, if_pos (Or.inr h1)]
    · rw [if_neg h1]
      simp only [h1, or_false]

theorem singlePassDevice_rejects : EventuallyRejects singlePassDevice := by
  intro mat n
  by_cases h : n % 2 = 0
  · refine ⟨1, ?_⟩
    simp only [singlePassDevice, decide_eq_false_iff_not]
    omega
  · refine ⟨0, ?_⟩
    simp only [singlePassDevice, decide_eq_false_iff_not]
    omega

theorem loop_body_false_ended (M : Materials) (cameratrans : MT_Transform) (bucket ms : Nat)
    (w : RenderState) (s : Nat) :
    loopsEnded s ((ActivateMaterial M w bucket cameratrans).1.call
        (Call.ActivateMaterial bucket ms false)).calls
      = loopsEnded s w.calls + (if ms = s then 1 else 0) := by
  obtain ⟨made, n, hst, hext, _⟩ := ActivateMaterial_state M w bucket cameratrans
  rw [hst]
  obtain ⟨_, _, ha⟩ := external_counts made hext
  simp only [loopsEnded, RenderState.call, List.countP_append, ha, List.countP_cons,
    List.countP_nil, Call.isActivateMaterial]
  by_cases h : ms = s <;> simp [h]

theorem loop_body_true_ended (M : Materials) (D : Deformers) (cameratrans : MT_Transform)
    (bucket ms : Nat) (w : RenderState) (s : Nat) :
    loopsEnded s
        (RenderMeshSlot M D
          ((ActivateMaterial M w bucket cameratrans).1.call
            (Call.ActivateMaterial bucket ms true))
          bucket cameratrans ms).calls
      = loopsEnded s w.calls := by
  obtain ⟨made, n, hst, hext, _⟩ := ActivateMaterial_state M w bucket cameratrans
  obtain ⟨rest, hrest, hrext⟩ := RenderMeshSlot_calls M D
    ((ActivateMaterial M w bucket cameratrans).1.call (Call.ActivateMaterial bucket ms true))
    bucket ms
  obtain ⟨_, _, ha⟩ := external_counts made hext
  obtain ⟨_, _, ha2⟩ := external_counts rest hrext
  unfold RenderMeshSlot
  rw [hrest]
  rw [hst]
  simp only [loopsEnded, RenderState.call, List.countP_append, ha, ha2, List.countP_cons,
    List.countP_nil, Call.isActivateMaterial]
  simp

theorem whileActivateMaterial_ended (M : Materials) (D : Deformers)
    (cameratrans : MT_Transform) (bucket ms s : Nat) :
    ∀ (fuel : Nat) (w r : RenderState),
      whileActivateMaterial M D cameratrans bucket ms fuel w = some r →
      loopsEnded s r.calls = loopsEnded s w.calls + (if ms = s then 1 else 0) := by
  intro fuel
  induction fuel with
  | zero => intro w r h; simp [whileActivateMaterial] at h
  | succ fuel ih =>
    intro w r h
    unfold whileActivateMaterial at h
    split_ifs at h with hacc
    · rw [ih _ _ h, loop_body_true_ended]
    · rw [Option.some.injEq] at h
      rw [← h]
      exact loop_body_false_ended M cameratrans bucket ms w s

theorem forEach_sum {α : Type} (body : RenderState → α → Option RenderState)
    (μ : RenderState → Nat) (c : α → Nat) :
    ∀ (l : List α), (∀ a ∈ l, ∀ w r, body w a = some r → μ r = μ w + c a) →
      ∀ w r, forEach body l w = some r → μ r = μ w + (l.map c).sum := by
  intro l
  induction l with
  | nil =>
    intro _ w r h
    simp only [forEach, Option.some.injEq] at h
    rw [← h]
    simp
  | cons a rest ih =>
    intro hbody w r h
    simp only [forEach, Option.bind_eq_some] at h
    obtain ⟨w1, h1, h2⟩ := h
    rw [ih (fun b hb => hbody b (List.mem_cons_of_mem a hb)) w1 r h2,
      hbody a (List.mem_cons_self a rest) w w1 h1, List.map_cons, List.sum_cons, Nat.add_assoc]

theorem sum_indicator_eq_count (s : Nat) (l : List Nat) :
    (l.map (fun a => if a = s then 1 else 0)).sum = l.count s := by
  induction l with
  | nil => rfl
  | cons a rest ih =>
    rw [List.map_cons, List.sum_cons, ih]
    by_cases h : a = s
    · rw [if_pos h, h, List.count_cons_self, Nat.add_comm]
    · rw [if_neg h, List.count_cons_of_ne (fun h2 => h h2.symm), Nat.zero_add]

theorem RenderSolidBuckets_slot_ended (M : Materials) (D : Deformers)
    (cameratrans : MT_Transform) (fuel bucket : Nat) (w : RenderState) (ms : Nat)
    (r : RenderState) (s : Nat)
    (h : RenderSolidBuckets.slot M D cameratrans fuel bucket w ms = some r) :
    loopsEnded s r.calls = loopsEnded s w.calls + (if ms = s then 1 else 0) := by
  simp only [RenderSolidBuckets.slot, Option.map_eq_some'] at h
  obtain ⟨w1, h1, h2⟩ := h
  have hw := whileActivateMaterial_ended M D cameratrans bucket ms s fuel _ _ h1
  rw [← h2]
  show loopsEnded s w1.calls = _
  rw [hw]
  simp [loopsEnded, RenderState.call, List.countP_append, Call.isActivateMaterial]

theorem RenderSolidBuckets_array_ended (M : Materials) (D : Deformers)
    (cameratrans : MT_Transform) (fuel bucket : Nat) (w : RenderState) (d : Nat)
    (r : RenderState) (s : Nat)
    (h : RenderSolidBuckets.array M D cameratrans fuel bucket w d = some r) :
    loopsEnded s r.calls = loopsEnded s w.calls + (GetActiveMeshSlots w.heap d).count s
    ∧ (∀ e, GetActiveMeshSlots r.heap e = if e = d then [] else GetActiveMeshSlots w.heap e)
    ∧ r.heap.materialBucket = w.heap.materialBucket := by
  have hspec := RenderSolidBuckets_array_spec M D cameratrans fuel bucket w d r h
  unfold RenderSolidBuckets.array at h
  split_ifs at h with hnum
  · rw [Option.some.injEq] at h
    have hnil : GetActiveMeshSlots w.heap d = [] := List.length_eq_zero.mp hnum
    rw [← h, hnil]
    refine ⟨rfl, ?_, rfl⟩
    intro e
    by_cases he : e = d
    · rw [if_pos he, he, hnil]
    · rw [if_neg he]
  · simp only [Option.map_eq_some'] at h
    obtain ⟨w1, h1, h2⟩ := h
    have hsum := forEach_sum (RenderSolidBuckets.slot M D cameratrans fuel bucket)
      (fun x => loopsEnded s x.calls) (fun a => if a = s then 1 else 0)
      (GetActiveMeshSlots w.heap d)
      (fun a _ x y hxy => RenderSolidBuckets_slot_ended M D cameratrans fuel bucket x a y s hxy)
      _ _ h1
    obtain ⟨hdraw, _⟩ := forEach_spec (RenderSolidBuckets.slot M D cameratrans fuel bucket)
      DrawFrame (fun _ _ => True) DrawFrame_refl (fun _ _ _ => DrawFrame_trans)
      (fun _ _ _ _ _ => trivial) (GetActiveMeshSlots w.heap d)
      (fun a _ x y hxy =>
        ⟨(RenderSolidBuckets_slot_spec M D cameratrans fuel bucket x a y hxy).1, trivial⟩)
      _ _ h1
    refine ⟨?_, ?_, hspec.1.1.materialBucket⟩
    · rw [← h2]
      show loopsEnded s (w1.calls ++ [Call.UnbindPrimitives (GetDisplayArray w.heap d)]) = _
      simp only [loopsEnded, List.countP_append] at hsum ⊢
      rw [hsum, sum_indicator_eq_count]
      simp [RenderState.call, List.countP_append, Call.isActivateMaterial]
    · intro e
      rw [← h2]
      simp only [GetActiveMeshSlots, RemoveActiveMeshSlots, store]
      split_ifs with he
      · rfl
      · rw [hdraw.2]
        rfl

theorem count_flatMap_emptied (s d : Nat) (f g : Nat → List Nat)
    (hg : ∀ e, g e = if e = d then [] else f e) :
    ∀ l : List Nat,
      (l.flatMap f).count s = l.count d * (f d).count s + (l.flatMap g).count s := by
  intro l
  induction l with
  | nil => simp
  | cons e rest ih =>
    rw [List.flatMap_cons, List.flatMap_cons, List.count_append, List.count_append, ih, hg e]
    by_cases he : e = d
    · rw [if_pos he, he, List.count_cons_self, List.count_nil, Nat.add_mul]
      omega
    · rw [if_neg he, List.count_cons_of_ne (fun h2 => he h2.symm)]
      omega

theorem RenderSolidBuckets_array_balance (M : Materials) (D : Deformers)
    (cameratrans : MT_Transform) (fuel bucket : Nat) (w : RenderState) (d : Nat)
    (r : RenderState) (s : Nat) (ds : List Nat) (hd : ds.count d = 1)
    (h : RenderSolidBuckets.array M D cameratrans fuel bucket w d = some r) :
    r.heap.materialBucket = w.heap.materialBucket
    ∧ loopsEndedOrQueued s ds r = loopsEndedOrQueued s ds w := by
  obtain ⟨h1, h2, h3⟩ := RenderSolidBuckets_array_ended M D cameratrans fuel bucket w d r s h
  refine ⟨h3, ?_⟩
  unfold loopsEndedOrQueued
  rw [h1, count_flatMap_emptied s d (GetActiveMeshSlots w.heap) (GetActiveMeshSlots r.heap) h2 ds,
    hd]
  omega

theorem RenderSolidBuckets_bucket_balance (M : Materials) (D : Deformers)
    (cameratrans : MT_Transform) (fuel : Nat) (w : RenderState) (bucket : Nat)
    (r : RenderState) (s : Nat) (ds : List Nat) (hnd : ds.Nodup)
    (hsub : ∀ d ∈ GetDisplayArrayBucketList w.heap bucket, d ∈ ds)
    (h : RenderSolidBuckets.bucket M D cameratrans fuel w bucket = some r) :
    r.heap.materialBucket = w.heap.materialBucket
    ∧ loopsEndedOrQueued s ds r = loopsEndedOrQueued s ds w := by
  unfold RenderSolidBuckets.bucket at h
  exact (forEach_spec (RenderSolidBuckets.array M D cameratrans fuel bucket)
    (fun x y => y.heap.materialBucket = x.heap.materialBucket
      ∧ loopsEndedOrQueued s ds y = loopsEndedOrQueued s ds x)
    (fun _ _ => True) (fun _ => ⟨rfl, rfl⟩)
    (fun _ _ _ h1 h2 => ⟨h2.1.trans h1.1, h2.2.trans h1.2⟩)
    (fun _ _ _ _ _ => trivial) (GetDisplayArrayBucketList w.heap bucket)
    (fun d hd x y hxy =>
      ⟨RenderSolidBuckets_array_balance M D cameratrans fuel bucket x d y s ds
        (List.count_eq_one_of_mem hnd (hsub d hd)) hxy, trivial⟩)
    _ _ h).1

theorem RenderSolidBuckets_ended (M : Materials) (D : Deformers) (self : RAS_BucketManager)
    (cameratrans : MT_Transform) (fuel : Nat) (w r : RenderState) (s : Nat)
    (hnd : (displayArrayBucketsOf w.heap self.m_SolidBuckets).Nodup)
    (h : RenderSolidBuckets M D self cameratrans fuel w = some r) :
    loopsEnded s r.calls
      = loopsEnded s w.calls + (activeMeshSlotsOf w.heap self.m_SolidBuckets).count s := by
  obtain ⟨_, hempty⟩ := RenderSolidBuckets_spec M D self cameratrans fuel w r h
  unfold RenderSolidBuckets at h
  have hbal := (forEach_spec (RenderSolidBuckets.bucket M D cameratrans fuel)
    (fun x y => x.heap.materialBucket = w.heap.materialBucket →
      y.heap.materialBucket = w.heap.materialBucket
      ∧ loopsEndedOrQueued s (displayArrayBucketsOf w.heap self.m_SolidBuckets) y
        = loopsEndedOrQueued s (displayArrayBucketsOf w.heap self.m_SolidBuckets) x)
    (fun _ _ => True) (fun _ hx => ⟨hx, rfl⟩)
    (fun _ _ _ h1 h2 hx => ⟨(h2 (h1 hx).1).1, ((h2 (h1 hx).1).2).trans (h1 hx).2⟩)
    (fun _ _ _ _ _ => trivial) self.m_SolidBuckets
    (fun b hb x y hxy =>
      ⟨fun hx => by
        have hsub : ∀ d ∈ GetDisplayArrayBucketList x.heap b,
            d ∈ displayArrayBucketsOf w.heap self.m_SolidBuckets := by
          intro d hd
          unfold GetDisplayArrayBucketList at hd
          rw [hx] at hd
          unfold displayArrayBucketsOf
          rw [List.mem_flatMap]
          exact ⟨b, hb, hd⟩
        obtain ⟨k1, k2⟩ := RenderSolidBuckets_bucket_balance M D cameratrans fuel x b y s
          (displayArrayBucketsOf w.heap self.m_SolidBuckets) hnd hsub hxy
        exact ⟨k1.trans hx, k2⟩, trivial⟩)
    _ _ h).1 rfl
  obtain ⟨hmb, hT⟩ := hbal
  have hnil : (displayArrayBucketsOf w.heap self.m_SolidBuckets).flatMap
      (GetActiveMeshSlots r.heap) = [] := by
    rw [List.flatMap_eq_nil_iff]
    intro d hd
    unfold displayArrayBucketsOf at hd
    rw [List.mem_flatMap] at hd
    obtain ⟨b, hb, hdb⟩ := hd
    refine hempty b hb d ?_
    unfold GetDisplayArrayBucketList at hdb ⊢
    rw [hmb]
    exact hdb
  unfold loopsEndedOrQueued at hT
  rw [hnil, List.count_nil, Nat.add_zero] at hT
  rw [hT]
  have hcall : loopsEnded s (w.call (Call.SetDepthMask true)).calls = loopsEnded s w.calls := by
    simp [loopsEnded, RenderState.call, List.countP_append, Call.isActivateMaterial]
  rw [hcall]
  rfl

/-! ## Lemmas on sequences of activations -/

theorem getActive_ActivateMesh (h : Heap) (d s e : Nat) :
    GetActiveMeshSlots (ActivateMesh h d s) e
      = if e = d then GetActiveMeshSlots h d ++ [s] else GetActiveMeshSlots h e := by
  unfold GetActiveMeshSlots ActivateMesh store
  by_cases hed : e = d <;> simp [hed]

theorem getActive_activateAll (d : Nat) (slots : List Nat) :
    ∀ (h : Heap) (e : Nat), GetActiveMeshSlots (activateAll h d slots) e
      = if e = d then GetActiveMeshSlots h d ++ slots else GetActiveMeshSlots h e := by
  induction slots with
  | nil => intro h e; by_cases hed : e = d <;> simp [activateAll, hed]
  | cons s rest ih =>
    intro h e
    have ih2 := ih (ActivateMesh h d s) e
    simp only [activateAll, List.foldl_cons] at ih2 ⊢
    rw [ih2, getActive_ActivateMesh, getActive_ActivateMesh]
    by_cases hed : e = d
    · simp [hed]
    · simp [hed]

theorem activateAll_frame (d : Nat) (slots : List Nat) :
    ∀ (h : Heap),
      GetRefCount (activateAll h d slots) d = GetRefCount h d
      ∧ GetDisplayArray (activateAll h d slots) d = GetDisplayArray h d
      ∧ (activateAll h d slots).materialBucket = h.materialBucket
      ∧ (activateAll h d slots).meshSlot = h.meshSlot
      ∧ ∀ e, e ≠ d → (activateAll h d slots).displayArrayBucket e = h.displayArrayBucket e := by
  induction slots with
  | nil => intro h; exact ⟨rfl, rfl, rfl, rfl, fun _ _ => rfl⟩
  | cons s rest ih =>
    intro h
    obtain ⟨h1, h2, h3, h4, h5⟩ := ih (ActivateMesh h d s)
    simp only [activateAll, List.foldl_cons] at h1 h2 h3 h4 h5 ⊢
    refine ⟨h1.trans ?_, h2.trans ?_, h3, h4, fun e he => (h5 e he).trans ?_⟩
    · simp [GetRefCount, ActivateMesh, store]
    · simp [GetDisplayArray, ActivateMesh, store]
    · simp [ActivateMesh, store, he]

theorem Renderbuckets_passes (M : Materials) (D : Deformers) (self : RAS_BucketManager)
    (cameratrans : MT_Transform) (fuel : Nat) (w r : RenderState)
    (h : Renderbuckets M D self cameratrans fuel w = some r) :
    ∃ r2, (RenderSolidBuckets M D self cameratrans fuel (w.call Call.ClearCachingInfo)).bind
          (RenderAlphaBuckets M D self cameratrans fuel) = some r2
      ∧ r = Renderbuckets.finish self r2
      ∧ Frame w r2 := by
  simp only [Renderbuckets, Option.map_eq_some'] at h
  obtain ⟨r2, h2, h3⟩ := h
  refine ⟨r2, h2, h3.symm, ?_⟩
  simp only [Option.bind_eq_some] at h2
  obtain ⟨r1, h1, h4⟩ := h2
  obtain ⟨hf1, _⟩ := RenderSolidBuckets_spec M D self cameratrans fuel _ r1 h1
  obtain ⟨hf2, _⟩ := RenderAlphaBuckets_spec M D self cameratrans fuel r1 r2 h4
  exact Frame_trans (Frame_trans (DrawFrame_call w Call.ClearCachingInfo rfl).1 hf1.1) hf2

theorem finish_rasty (self : RAS_BucketManager) (w : RenderState) :
    (Renderbuckets.finish self w).rasty = w.rasty := by
  unfold Renderbuckets.finish
  split_ifs
  · show (Renderbuckets.resetBuckets (Renderbuckets.resetBuckets w self.m_SolidBuckets)
      self.m_AlphaBuckets).rasty = _
    rw [(resetBuckets_spec _ _).2.1, (resetBuckets_spec _ _).2.1]
  · rfl

/-! ## Lemmas on ReleaseDisplayLists and ReleaseMaterials -/

theorem clear_display_list_of_null (x : RAS_MeshSlot) (hx : x.m_DisplayList = NULL) :
    { x with m_DisplayList := NULL } = x := by
  cases x
  simp only at hx
  subst hx
  rfl

theorem ReleaseDisplayLists_slot_spec (st : Heap × List Nat) (a : Nat) :
    (∀ ms, (ReleaseDisplayLists.slot st a).1.meshSlot ms
        = if ms = a then { (st.1.meshSlot ms) with m_DisplayList := NULL }
          else st.1.meshSlot ms)
    ∧ (ReleaseDisplayLists.slot st a).1.materialBucket = st.1.materialBucket
    ∧ (ReleaseDisplayLists.slot st a).1.displayArrayBucket = st.1.displayArrayBucket
    ∧ (ReleaseDisplayLists.slot st a).1.displayArray = st.1.displayArray
    ∧ (ReleaseDisplayLists.slot st a).1.live = st.1.live
    ∧ (ReleaseDisplayLists.slot st a).1.next = st.1.next
    ∧ (ReleaseDisplayLists.slot st a).1.destroyed = st.1.destroyed
    ∧ (ReleaseDisplayLists.slot st a).2
        = if (st.1.meshSlot a).m_DisplayList ≠ NULL
          then st.2 ++ [(st.1.meshSlot a).m_DisplayList] else st.2 := by
  unfold ReleaseDisplayLists.slot
  by_cases hd : (st.1.meshSlot a).m_DisplayList ≠ NULL
  · rw [if_pos hd, if_pos hd]
    refine ⟨?_, rfl, rfl, rfl, rfl, rfl, rfl, rfl⟩
    intro ms
    simp only [store]
    by_cases hms : ms = a
    · rw [if_pos hms, if_pos hms, hms]
    · rw [if_neg hms, if_neg hms]
  · rw [if_neg hd, if_neg hd]
    refine ⟨?_, rfl, rfl, rfl, rfl, rfl, rfl, rfl⟩
    intro ms
    by_cases hms : ms = a
    · rw [if_pos hms, hms, clear_display_list_of_null _ (not_not.mp hd)]
    · rw [if_neg hms]

theorem ReleaseDisplayLists_slots_spec (l : List Nat) :
    ∀ st : Heap × List Nat,
      (∀ ms, (l.foldl ReleaseDisplayLists.slot st).1.meshSlot ms
          = if ms ∈ l then { (st.1.meshSlot ms) with m_DisplayList := NULL }
            else st.1.meshSlot ms)
      ∧ (l.foldl ReleaseDisplayLists.slot st).1.materialBucket = st.1.materialBucket
      ∧ (l.foldl ReleaseDisplayLists.slot st).1.displayArrayBucket = st.1.displayArrayBucket
      ∧ (l.foldl ReleaseDisplayLists.slot st).1.displayArray = st.1.displayArray
      ∧ (l.foldl ReleaseDisplayLists.slot st).1.live = st.1.live
      ∧ (l.foldl ReleaseDisplayLists.slot st).1.next = st.1.next
      ∧ (l.foldl ReleaseDisplayLists.slot st).1.destroyed = st.1.destroyed
      ∧ ∀ dl, dl ∈ (l.foldl ReleaseDisplayLists.slot st).2
          ↔ dl ∈ st.2 ∨ (dl ≠ NULL ∧ ∃ ms ∈ l, (st.1.meshSlot ms).m_DisplayList = dl) := by
  induction l with
  | nil =>
    intro st
    refine ⟨fun ms => by simp, rfl, rfl, rfl, rfl, rfl, rfl, fun dl => by simp⟩
  | cons a rest ih =>
    intro st
    obtain ⟨h1, h2, h3, h4, h5, h6, h7, h8⟩ := ih (ReleaseDisplayLists.slot st a)
    obtain ⟨s1, s2, s3, s4, s5, s6, s7, s8⟩ := ReleaseDisplayLists_slot_spec st a
    rw [List.foldl_cons]
    refine ⟨?_, h2.trans s2, h3.trans s3, h4.trans s4, h5.trans s5, h6.trans s6,
      h7.trans s7, ?_⟩
    · intro ms
      rw [h1 ms, s1 ms]
      by_cases hms : ms = a
      · by_cases hr : ms ∈ rest
        · rw [if_pos hr, if_pos hms, if_pos (List.mem_cons_of_mem a hr)]
        · rw [if_neg hr, if_pos hms, if_pos (by rw [hms]; exact List.mem_cons_self a rest)]
      · by_cases hr : ms ∈ rest
        · rw [if_pos hr, if_neg hms, if_pos (List.mem_cons_of_mem a hr)]
        · rw [if_neg hr, if_neg hms, if_neg]
          intro hmem
          rcases List.mem_cons.mp hmem with hm | hm
          · exact hms hm
          · exact hr hm
    · intro dl
      rw [h8 dl, s8]
      constructor
      · rintro (hin | ⟨hnz, ms, hms, hdl⟩)
        · by_cases hd : (st.1.meshSlot a).m_DisplayList ≠ NULL
          · rw [if_pos hd, List.mem_append, List.mem_singleton] at hin
            rcases hin with hin | hin
            · exact Or.inl hin
            · exact Or.inr ⟨by rw [hin]; exact hd, a, List.mem_cons_self a rest, hin.symm⟩
          · rw [if_neg hd] at hin
            exact Or.inl hin
        · rw [s1 ms] at hdl
          by_cases hma : ms = a
          · rw [if_pos hma] at hdl
            exact absurd hdl.symm hnz
          · rw [if_neg hma] at hdl
            exact Or.inr ⟨hnz, ms, List.mem_cons_of_mem a hms, hdl⟩
      · rintro (hin | ⟨hnz, ms, hms, hdl⟩)
        · left
          by_cases hd : (st.1.meshSlot a).m_DisplayList ≠ NULL
          · rw [if_pos hd, List.mem_append]
            exact Or.inl hin
          · rw [if_neg hd]
            exact hin
        · by_cases hma : ms = a
          · left
            rw [hma] at hdl
            have hd : (st.1.meshSlot a).m_DisplayList ≠ NULL := by rw [hdl]; exact hnz
            rw [if_pos hd, List.mem_append, List.mem_singleton]
            exact Or.inr hdl.symm
          · right
            rcases List.mem_cons.mp hms with hm | hm
            · exact absurd hm hma
            · refine ⟨hnz, ms, hm, ?_⟩
              rw [s1 ms, if_neg hma]
              exact hdl

theorem ReleaseDisplayLists_buckets_spec (mat : Nat) (buckets : List Nat) :
    ∀ st : Heap × List Nat,
      (∀ ms, (buckets.foldl (ReleaseDisplayLists.bucket mat) st).1.meshSlot ms
          = if ms ∈ meshSlotsOf st.1
                (buckets.filter (fun b => decide (mat = NULL ∨ GetPolyMaterial st.1 b = mat)))
            then { (st.1.meshSlot ms) with m_DisplayList := NULL }
            else st.1.meshSlot ms)
      ∧ (buckets.foldl (ReleaseDisplayLists.bucket mat) st).1.materialBucket
          = st.1.materialBucket
      ∧ (buckets.foldl (ReleaseDisplayLists.bucket mat) st).1.displayArrayBucket
          = st.1.displayArrayBucket
      ∧ (buckets.foldl (ReleaseDisplayLists.bucket mat) st).1.displayArray
          = st.1.displayArray
      ∧ (buckets.foldl (ReleaseDisplayLists.bucket mat) st).1.live = st.1.live
      ∧ (buckets.foldl (ReleaseDisplayLists.bucket mat) st).1.next = st.1.next
      ∧ (buckets.foldl (ReleaseDisplayLists.bucket mat) st).1.destroyed = st.1.destroyed
      ∧ ∀ dl, dl ∈ (buckets.foldl (ReleaseDisplayLists.bucket mat) st).2
          ↔ dl ∈ st.2 ∨ (dl ≠ NULL
              ∧ ∃ ms ∈ meshSlotsOf st.1
                  (buckets.filter
                    (fun b => decide (mat = NULL ∨ GetPolyMaterial st.1 b = mat))),
                (st.1.meshSlot ms).m_DisplayList = dl) := by
  induction buckets with
  | nil =>
    intro st
    refine ⟨fun ms => by simp [meshSlotsOf], rfl, rfl, rfl, rfl, rfl, rfl,
      fun dl => by simp [meshSlotsOf]⟩
  | cons b rest ih =>
    intro st
    obtain ⟨h1, h2, h3, h4, h5, h6, h7, h8⟩ := ih (ReleaseDisplayLists.bucket mat st b)
    have hstep : (∀ ms, (ReleaseDisplayLists.bucket mat st b).1.meshSlot ms
          = if ms ∈ (if mat = NULL ∨ GetPolyMaterial st.1 b = mat
                then (st.1.materialBucket b).m_meshSlots else [])
            then { (st.1.meshSlot ms) with m_DisplayList := NULL }
            else st.1.meshSlot ms)
        ∧ (ReleaseDisplayLists.bucket mat st b).1.materialBucket = st.1.materialBucket
        ∧ (ReleaseDisplayLists.bucket mat st b).1.displayArrayBucket
            = st.1.displayArrayBucket
        ∧ (ReleaseDisplayLists.bucket mat st b).1.displayArray = st.1.displayArray
        ∧ (ReleaseDisplayLists.bucket mat st b).1.live = st.1.live
        ∧ (ReleaseDisplayLists.bucket mat st b).1.next = st.1.next
        ∧ (ReleaseDisplayLists.bucket mat st b).1.destroyed = st.1.destroyed
        ∧ ∀ dl, dl ∈ (ReleaseDisplayLists.bucket mat st b).2
            ↔ dl ∈ st.2 ∨ (dl ≠ NULL
                ∧ ∃ ms ∈ (if mat = NULL ∨ GetPolyMaterial st.1 b = mat
                    then (st.1.materialBucket b).m_meshSlots else []),
                  (st.1.meshSlot ms).m_DisplayList = dl) := by
      unfold ReleaseDisplayLists.bucket
      by_cases hsel : mat = NULL ∨ mat = GetPolyMaterial st.1 b
      · have hsel2 : mat = NULL ∨ GetPolyMaterial st.1 b = mat :=
          hsel.imp id (fun e => e.symm)
        rw [if_pos hsel, if_pos hsel2]
        exact ReleaseDisplayLists_slots_spec _ st
      · have hsel2 : ¬ (mat = NULL ∨ GetPolyMaterial st.1 b = mat) :=
          fun e => hsel (e.imp id (fun e2 => e2.symm))
        rw [if_neg hsel, if_neg hsel2]
        exact ⟨fun ms => by simp, rfl, rfl, rfl, rfl, rfl, rfl, fun dl => by simp⟩
    obtain ⟨s1, s2, s3, s4, s5, s6, s7, s8⟩ := hstep
    have hfilter : rest.filter (fun c => decide (mat = NULL
          ∨ GetPolyMaterial (ReleaseDisplayLists.bucket mat st b).1 c = mat))
        = rest.filter (fun c => decide (mat = NULL ∨ GetPolyMaterial st.1 c = mat)) := by
      unfold GetPolyMaterial
      rw [s2]
    have hslots : ∀ l, meshSlotsOf (ReleaseDisplayLists.bucket mat st b).1 l
        = meshSlotsOf st.1 l := by
      intro l
      unfold meshSlotsOf
      rw [s2]
    have hmem : ∀ ms, ms ∈ meshSlotsOf st.1
          ((b :: rest).filter (fun c => decide (mat = NULL ∨ GetPolyMaterial st.1 c = mat)))
        ↔ ms ∈ (if mat = NULL ∨ GetPolyMaterial st.1 b = mat
                then (st.1.materialBucket b).m_meshSlots else [])
          ∨ ms ∈ meshSlotsOf st.1
              (rest.filter (fun c => decide (mat = NULL ∨ GetPolyMaterial st.1 c = mat))) := by
      intro ms
      by_cases hsel : mat = NULL ∨ GetPolyMaterial st.1 b = mat
      · rw [List.filter_cons_of_pos (by simpa using hsel), if_pos hsel]
        simp [meshSlotsOf, List.flatMap_cons]
      · rw [List.filter_cons_of_neg (by simpa using hsel), if_neg hsel]
        simp
    rw [List.foldl_cons]
    rw [hfilter, hslots] at h1 h8
    refine ⟨?_, h2.trans s2, h3.trans s3, h4.trans s4, h5.trans s5, h6.trans s6,
      h7.trans s7, ?_⟩
    · intro ms
      rw [h1 ms, s1 ms]
      by_cases ha : ms ∈ (if mat = NULL ∨ GetPolyMaterial st.1 b = mat
          then (st.1.materialBucket b).m_meshSlots else [])
      · rw [if_pos ha, if_pos ((hmem ms).mpr (Or.inl ha))]
        split_ifs <;> rfl
      · rw [if_neg ha]
        by_cases hr : ms ∈ meshSlotsOf st.1
            (rest.filter (fun c => decide (mat = NULL ∨ GetPolyMaterial st.1 c = mat)))
        · rw [if_pos hr, if_pos ((hmem ms).mpr (Or.inr hr))]
        · rw [if_neg hr, if_neg]
          intro hm
          rcases (hmem ms).mp hm with hm | hm
          · exact ha hm
          · exact hr hm
    · intro dl
      rw [h8 dl, s8 dl]
      constructor
      · rintro ((hin | ⟨hnz, ms, hms, hdl⟩) | ⟨hnz, ms, hms, hdl⟩)
        · exact Or.inl hin
        · exact Or.inr ⟨hnz, ms, (hmem ms).mpr (Or.inl hms), hdl⟩
        · rw [s1 ms] at hdl
          by_cases ha : ms ∈ (if mat = NULL ∨ GetPolyMaterial st.1 b = mat
              then (st.1.materialBucket b).m_meshSlots else [])
          · rw [if_pos ha] at hdl
            exact absurd hdl.symm hnz
          · rw [if_neg ha] at hdl
            exact Or.inr ⟨hnz, ms, (hmem ms).mpr (Or.inr hms), hdl⟩
      · rintro (hin | ⟨hnz, ms, hms, hdl⟩)
        · exact Or.inl (Or.inl hin)
        · by_cases ha : ms ∈ (if mat = NULL ∨ GetPolyMaterial st.1 b = mat
              then (st.1.materialBucket b).m_meshSlots else [])
          · exact Or.inl (Or.inr ⟨hnz, ms, ha, hdl⟩)
          · rcases (hmem ms).mp hms with hm | hm
            · exact absurd hm ha
            · refine Or.inr ⟨hnz, ms, hm, ?_⟩
              rw [s1 ms, if_neg ha]
              exact hdl

theorem ReleaseMaterials_buckets_spec (h : Heap) (mat : Nat) (buckets : List Nat) :
    ∀ released : List Nat,
      buckets.foldl (ReleaseMaterials.bucket h mat) released
        = released
          ++ (buckets.filter (fun b => decide (mat = NULL ∨ GetPolyMaterial h b = mat))).map
              (GetPolyMaterial h) := by
  induction buckets with
  | nil => intro released; simp
  | cons b rest ih =>
    intro released
    rw [List.foldl_cons, ih]
    unfold ReleaseMaterials.bucket
    by_cases hsel : mat = NULL ∨ mat = GetPolyMaterial h b
    · have hsel2 : mat = NULL ∨ GetPolyMaterial h b = mat := hsel.imp id (fun e => e.symm)
      rw [if_pos hsel, List.filter_cons_of_pos (by simpa using hsel2)]
      simp
    · have hsel2 : ¬ (mat = NULL ∨ GetPolyMaterial h b = mat) :=
        fun e => hsel (e.imp id (fun e2 => e2.symm))
      rw [if_neg hsel, List.filter_cons_of_neg (by simpa using hsel2)]

theorem meshSlotsOf_append (h : Heap) (l1 l2 : List Nat) :
    meshSlotsOf h (l1 ++ l2) = meshSlotsOf h l1 ++ meshSlotsOf h l2 := by
  unfold meshSlotsOf
  rw [List.flatMap_append]

theorem ReleaseDisplayLists_spec (h : Heap) (self : RAS_BucketManager) (mat : Nat) :
    (∀ ms, (ReleaseDisplayLists h self mat).1.meshSlot ms
        = if ms ∈ meshSlotsOf h (selectedBuckets h self mat)
          then { (h.meshSlot ms) with m_DisplayList := NULL }
          else h.meshSlot ms)
    ∧ (ReleaseDisplayLists h self mat).1.materialBucket = h.materialBucket
    ∧ (ReleaseDisplayLists h self mat).1.displayArrayBucket = h.displayArrayBucket
    ∧ (ReleaseDisplayLists h self mat).1.displayArray = h.displayArray
    ∧ (ReleaseDisplayLists h self mat).1.live = h.live
    ∧ (ReleaseDisplayLists h self mat).1.next = h.next
    ∧ (ReleaseDisplayLists h self mat).1.destroyed = h.destroyed
    ∧ ∀ dl, dl ∈ (ReleaseDisplayLists h self mat).2
        ↔ dl ≠ NULL ∧ ∃ ms ∈ meshSlotsOf h (selectedBuckets h self mat),
            (h.meshSlot ms).m_DisplayList = dl := by
  obtain ⟨a1, a2, a3, a4, a5, a6, a7, a8⟩ :=
    ReleaseDisplayLists_buckets_spec mat self.m_SolidBuckets (h, [])
  obtain ⟨b1, b2, b3, b4, b5, b6, b7, b8⟩ :=
    ReleaseDisplayLists_buckets_spec mat self.m_AlphaBuckets
      (self.m_SolidBuckets.foldl (ReleaseDisplayLists.bucket mat) (h, []))
  have hfilter : self.m_AlphaBuckets.filter (fun c => decide (mat = NULL
        ∨ GetPolyMaterial (self.m_SolidBuckets.foldl (ReleaseDisplayLists.bucket mat)
            (h, [])).1 c = mat))
      = self.m_AlphaBuckets.filter (fun c => decide (mat = NULL ∨ GetPolyMaterial h c = mat)) := by
    unfold GetPolyMaterial
    rw [a2]
  have hslots : ∀ l, meshSlotsOf (self.m_SolidBuckets.foldl (ReleaseDisplayLists.bucket mat)
        (h, [])).1 l = meshSlotsOf h l := by
    intro l
    unfold meshSlotsOf
    rw [a2]
  rw [hfilter, hslots] at b1 b8
  simp only at a1 a2 a3 a4 a5 a6 a7 a8
  have hmem : ∀ ms, ms ∈ meshSlotsOf h (selectedBuckets h self mat)
      ↔ ms ∈ meshSlotsOf h (self.m_SolidBuckets.filter
            (fun c => decide (mat = NULL ∨ GetPolyMaterial h c = mat)))
        ∨ ms ∈ meshSlotsOf h (self.m_AlphaBuckets.filter
            (fun c => decide (mat = NULL ∨ GetPolyMaterial h c = mat))) := by
    intro ms
    unfold selectedBuckets
    rw [List.filter_append, meshSlotsOf_append, List.mem_append]
  unfold ReleaseDisplayLists
  refine ⟨?_, b2.trans a2, b3.trans a3, b4.trans a4, b5.trans a5, b6.trans a6, b7.trans a7, ?_⟩
  · intro ms
    rw [b1 ms, a1 ms]
    by_cases hs : ms ∈ meshSlotsOf h (self.m_SolidBuckets.filter
        (fun c => decide (mat = NULL ∨ GetPolyMaterial h c = mat)))
    · rw [if_pos hs, if_pos ((hmem ms).mpr (Or.inl hs))]
      split_ifs <;> rfl
    · rw [if_neg hs]
      by_cases ha : ms ∈ meshSlotsOf h (self.m_AlphaBuckets.filter
          (fun c => decide (mat = NULL ∨ GetPolyMaterial h c = mat)))
      · rw [if_pos ha, if_pos ((hmem ms).mpr (Or.inr ha))]
      · rw [if_neg ha, if_neg]
        intro hm
        rcases (hmem ms).mp hm with hm | hm
        · exact hs hm
        · exact ha hm
  · intro dl
    rw [b8 dl, a8 dl]
    constructor
    · rintro ((hin | ⟨hnz, ms, hms, hdl⟩) | ⟨hnz, ms, hms, hdl⟩)
      · exact absurd hin (List.not_mem_nil dl)
      · exact ⟨hnz, ms, (hmem ms).mpr (Or.inl hms), hdl⟩
      · rw [a1 ms] at hdl
        by_cases hs : ms ∈ meshSlotsOf h (self.m_SolidBuckets.filter
            (fun c => decide (mat = NULL ∨ GetPolyMaterial h c = mat)))
        · rw [if_pos hs] at hdl
          exact absurd hdl.symm hnz
        · rw [if_neg hs] at hdl
          exact ⟨hnz, ms, (hmem ms).mpr (Or.inr hms), hdl⟩
    · rintro ⟨hnz, ms, hms, hdl⟩
      by_cases hs : ms ∈ meshSlotsOf h (self.m_SolidBuckets.filter
          (fun c => decide (mat = NULL ∨ GetPolyMaterial h c = mat)))
      · exact Or.inl (Or.inr ⟨hnz, ms, hs, hdl⟩)
      · rcases (hmem ms).mp hms with hm | hm
        · exact absurd hm hs
        · refine Or.inr ⟨hnz, ms, hm, ?_⟩
          rw [a1 ms, if_neg hs]
          exact hdl

theorem ReleaseMaterials_spec (h : Heap) (self : RAS_BucketManager) (mat : Nat) :
    ReleaseMaterials h self mat = (selectedBuckets h self mat).map (GetPolyMaterial h) := by
  unfold ReleaseMaterials selectedBuckets
  rw [ReleaseMaterials_buckets_spec, ReleaseMaterials_buckets_spec, List.nil_append,
    List.filter_append, List.map_append]

theorem mem_meshSlotsOf (h : Heap) (l : List Nat) (ms : Nat) :
    ms ∈ meshSlotsOf h l ↔ ∃ b ∈ l, ms ∈ (h.materialBucket b).m_meshSlots := by
  unfold meshSlotsOf
  rw [List.mem_flatMap]

theorem mem_selectedBuckets (h : Heap) (self : RAS_BucketManager) (mat b : Nat) :
    b ∈ selectedBuckets h self mat
      ↔ b ∈ self.m_SolidBuckets ++ self.m_AlphaBuckets
        ∧ (mat = NULL ∨ GetPolyMaterial h b = mat) := by
  unfold selectedBuckets
  rw [List.mem_filter, decide_eq_true_eq]

/-! ## Lemmas on the order of the calls -/

theorem whileActivateMaterial_total_of (M : Materials) (D : Deformers)
    (cameratrans : MT_Transform) (bucket ms : Nat) (w0 x : RenderState)
    (hx : Frame w0 x)
    (hb : ∀ n, ∃ k, w0.rasty.accepts (n + k) (GetPolyMaterial w0.heap bucket) = false) :
    ∃ F r, (∀ fuel, F ≤ fuel → whileActivateMaterial M D cameratrans bucket ms fuel x = some r)
      ∧ Frame w0 r := by
  obtain ⟨k, hk⟩ := hb x.rasty.numSetMaterial
  have hk2 : x.rasty.accepts (x.rasty.numSetMaterial + k) (GetPolyMaterial x.heap bucket)
      = false := by
    unfold GetPolyMaterial
    rw [hx.accepts, hx.materialBucket]
    exact hk
  obtain ⟨r, hr⟩ := whileActivateMaterial_terminates M D cameratrans bucket ms k x hk2
  exact ⟨k + 1, r, hr, Frame_trans hx
    (whileActivateMaterial_frame M D cameratrans bucket ms (k + 1) x r
      (hr (k + 1) (Nat.le_refl _))).1⟩

theorem Frame_call (w : RenderState) (c : Call) (h : Call.isExternal c = true) :
    Frame w (w.call c) :=
  (DrawFrame_call w c h).1

theorem RenderSolidBuckets_slot_total_of (M : Materials) (D : Deformers)
    (cameratrans : MT_Transform) (bucket : Nat) (w0 x : RenderState) (ms : Nat)
    (hx : Frame w0 x)
    (hb : ∀ n, ∃ k, w0.rasty.accepts (n + k) (GetPolyMaterial w0.heap bucket) = false) :
    ∃ F r, (∀ fuel, F ≤ fuel →
        RenderSolidBuckets.slot M D cameratrans fuel bucket x ms = some r)
      ∧ Frame w0 r := by
  obtain ⟨F, r, hr, hf⟩ := whileActivateMaterial_total_of M D cameratrans bucket ms w0
    (x.call (Call.SetClientObject (x.heap.meshSlot ms).m_clientObj))
    (Frame_trans hx (Frame_call x _ rfl)) hb
  refine ⟨F, { r with heap := SetCulled r.heap ms true }, fun fuel hf2 => ?_,
    Frame_trans hf (DrawFrame_SetCulled r ms).1⟩
  unfold RenderSolidBuckets.slot
  rw [hr fuel hf2]
  rfl

theorem RenderSolidBuckets_array_total_of (M : Materials) (D : Deformers)
    (cameratrans : MT_Transform) (bucket : Nat) (w0 x : RenderState) (d : Nat)
    (hx : Frame w0 x)
    (hb : GetActiveMeshSlots x.heap d ≠ [] →
      ∀ n, ∃ k, w0.rasty.accepts (n + k) (GetPolyMaterial w0.heap bucket) = false) :
    ∃ F r, (∀ fuel, F ≤ fuel →
        RenderSolidBuckets.array M D cameratrans fuel bucket x d = some r)
      ∧ Frame w0 r := by
  by_cases hnum : GetNumActiveMeshSlots x.heap d = 0
  · refine ⟨0, x, fun fuel _ => ?_, hx⟩
    unfold RenderSolidBuckets.array
    rw [if_pos hnum]
  · have hne : GetActiveMeshSlots x.heap d ≠ [] := fun he => hnum (by
      unfold GetNumActiveMeshSlots
      unfold GetActiveMeshSlots at he
      rw [he]; rfl)
    obtain ⟨F, r, hr, hinv⟩ := forEach_total
      (fun fuel => RenderSolidBuckets.slot M D cameratrans fuel bucket)
      (fun y => Frame w0 y) (GetActiveMeshSlots x.heap d)
      (fun s _ y hy => RenderSolidBuckets_slot_total_of M D cameratrans bucket w0 y s hy
        (hb hne))
      (x.call (Call.BindPrimitives (GetDisplayArray x.heap d)))
      (Frame_trans hx (Frame_call x _ rfl))
    have hres : RenderSolidBuckets.array M D cameratrans F bucket x d
        = some { r with
            heap := RemoveActiveMeshSlots r.heap d
            calls := r.calls ++ [Call.UnbindPrimitives (GetDisplayArray x.heap d)] } := by
      unfold RenderSolidBuckets.array
      rw [if_neg hnum, hr F (Nat.le_refl _)]
      rfl
    refine ⟨F, _, fun fuel hf => ?_,
      Frame_trans hx (RenderSolidBuckets_array_spec M D cameratrans F bucket x d _ hres).1.1⟩
    unfold RenderSolidBuckets.array
    rw [if_neg hnum, hr fuel hf]
    rfl

theorem AcceptsFinitely_of_active (w0 x : RenderState) (self : RAS_BucketManager)
    (hfin : AcceptsFinitely w0 self) (hx : Frame w0 x) (b d : Nat)
    (hb : b ∈ self.m_SolidBuckets ++ self.m_AlphaBuckets)
    (hd : d ∈ GetDisplayArrayBucketList x.heap b)
    (hne : GetActiveMeshSlots x.heap d ≠ []) :
    ∀ n, ∃ k, w0.rasty.accepts (n + k) (GetPolyMaterial w0.heap b) = false := by
  refine hfin b hb ⟨d, ?_, ?_⟩
  · unfold GetDisplayArrayBucketList at hd ⊢
    rw [← hx.materialBucket]
    exact hd
  · rcases hx.active d with h1 | h1
    · rw [← h1]; exact hne
    · exact absurd h1 hne

theorem RenderSolidBuckets_bucket_total_of (M : Materials) (D : Deformers)
    (self : RAS_BucketManager) (cameratrans : MT_Transform) (w0 x : RenderState) (b : Nat)
    (hfin : AcceptsFinitely w0 self) (hx : Frame w0 x)
    (hb : b ∈ self.m_SolidBuckets ++ self.m_AlphaBuckets) :
    ∃ F r, (∀ fuel, F ≤ fuel →
        RenderSolidBuckets.bucket M D cameratrans fuel x b = some r)
      ∧ Frame w0 r :=
  forEach_total (fun fuel => RenderSolidBuckets.array M D cameratrans fuel b)
    (fun y => Frame w0 y) (GetDisplayArrayBucketList x.heap b)
    (fun d hd y hy => RenderSolidBuckets_array_total_of M D cameratrans b w0 y d hy
      (fun hne => AcceptsFinitely_of_active w0 y self hfin hy b d hb
        (by
          unfold GetDisplayArrayBucketList at hd ⊢
          rw [hy.materialBucket, ← hx.materialBucket]
          exact hd) hne))
    x hx

theorem RenderSolidBuckets_total_of (M : Materials) (D : Deformers)
    (self : RAS_BucketManager) (cameratrans : MT_Transform) (w0 x : RenderState)
    (hfin : AcceptsFinitely w0 self) (hx : Frame w0 x) :
    ∃ F r, (∀ fuel, F ≤ fuel → RenderSolidBuckets M D self cameratrans fuel x = some r)
      ∧ Frame w0 r :=
  forEach_total (fun fuel => RenderSolidBuckets.bucket M D cameratrans fuel)
    (fun y => Frame w0 y) self.m_SolidBuckets
    (fun b hb y hy => RenderSolidBuckets_bucket_total_of M D self cameratrans w0 y b hfin hy
      (List.mem_append_left _ hb))
    (x.call (Call.SetDepthMask true)) (Frame_trans hx (Frame_call x _ rfl))

theorem RenderAlphaBuckets_slot_total_of (M : Materials) (D : Deformers)
    (cameratrans : MT_Transform) (w0 x : RenderState) (sit : sortedmeshslot)
    (hx : Frame w0 x)
    (hb : ∀ n, ∃ k, w0.rasty.accepts (n + k) (GetPolyMaterial w0.heap sit.m_bucket) = false) :
    ∃ F r, (∀ fuel, F ≤ fuel → RenderAlphaBuckets.slot M D cameratrans fuel x sit = some r)
      ∧ Frame w0 r := by
  obtain ⟨F, r, hr, hf⟩ := whileActivateMaterial_total_of M D cameratrans sit.m_bucket
    sit.m_ms w0
    ((x.call (Call.SetClientObject (x.heap.meshSlot sit.m_ms).m_clientObj)).call
      (Call.BindPrimitives (x.heap.meshSlot sit.m_ms).m_displayArray))
    (Frame_trans
      (Frame_trans hx
        (Frame_call x (Call.SetClientObject (x.heap.meshSlot sit.m_ms).m_clientObj) rfl))
      (Frame_call _ (Call.BindPrimitives (x.heap.meshSlot sit.m_ms).m_displayArray) rfl)) hb
  have hres : RenderAlphaBuckets.slot M D cameratrans F x sit
      = some { r with
          heap := SetCulled r.heap sit.m_ms true
          calls := r.calls
            ++ [Call.UnbindPrimitives (x.heap.meshSlot sit.m_ms).m_displayArray] } := by
    unfold RenderAlphaBuckets.slot
    rw [hr F (Nat.le_refl _)]
    rfl
  refine ⟨F, _, fun fuel hf2 => ?_,
    Frame_trans hx (RenderAlphaBuckets_slot_spec M D cameratrans F x sit _ hres).1.1⟩
  unfold RenderAlphaBuckets.slot
  rw [hr fuel hf2]
  rfl

theorem RenderAlphaBuckets_total_of (M : Materials) (D : Deformers)
    (self : RAS_BucketManager) (cameratrans : MT_Transform) (w0 x : RenderState)
    (hfin : AcceptsFinitely w0 self) (hx : Frame w0 x)
    (hnd : (displayArrayBucketsOf w0.heap self.m_AlphaBuckets).Nodup) :
    ∃ F r, (∀ fuel, F ≤ fuel → RenderAlphaBuckets M D self cameratrans fuel x = some r)
      ∧ Frame w0 r := by
  have h0 : Frame w0 (RenderAlphaBuckets.depthMask x) :=
    Frame_trans hx (RenderAlphaBuckets_depthMask_frame x).1
  have hdabs : displayArrayBucketsOf (RenderAlphaBuckets.depthMask x).heap self.m_AlphaBuckets
      = displayArrayBucketsOf w0.heap self.m_AlphaBuckets := by
    unfold displayArrayBucketsOf GetDisplayArrayBucketList
    rw [h0.materialBucket]
  have hstart : Frame w0
      { RenderAlphaBuckets.depthMask x with
        heap :=
          (OrderBuckets (RenderAlphaBuckets.depthMask x).heap cameratrans self.m_AlphaBuckets
            [] true).1 } := by
    rw [OrderBuckets_heap]
    exact Frame_trans h0 (Frame_clearedArrays _ _)
  obtain ⟨F, r, hr, hinv⟩ := forEach_total
    (fun fuel => RenderAlphaBuckets.slot M D cameratrans fuel)
    (fun y => Frame w0 y)
    (OrderBuckets (RenderAlphaBuckets.depthMask x).heap cameratrans self.m_AlphaBuckets []
      true).2
    (fun sit hsit y hy => by
      have hq := mem_OrderBuckets (RenderAlphaBuckets.depthMask x).heap cameratrans
        self.m_AlphaBuckets [] true (by rw [hdabs]; exact hnd) sit hsit
      obtain ⟨_, hbk, d, hd, hms⟩ := mem_queued _ cameratrans self.m_AlphaBuckets sit hq
      exact RenderAlphaBuckets_slot_total_of M D cameratrans w0 y sit hy
        (AcceptsFinitely_of_active w0 (RenderAlphaBuckets.depthMask x) self hfin h0
          sit.m_bucket d (List.mem_append_right _ hbk) hd
          (List.ne_nil_of_mem hms)))
    _ hstart
  refine ⟨F, r.call (Call.SetDepthMask true), fun fuel hf => ?_,
    Frame_trans hinv (Frame_call r _ rfl)⟩
  unfold RenderAlphaBuckets
  rw [hr fuel hf]
  rfl

theorem Renderbuckets_total_of (M : Materials) (D : Deformers) (self : RAS_BucketManager)
    (cameratrans : MT_Transform) (w : RenderState) (hfin : AcceptsFinitely w self)
    (hnd : (displayArrayBucketsOf w.heap self.m_AlphaBuckets).Nodup) :
    ∃ F r, ∀ fuel, F ≤ fuel → Renderbuckets M D self cameratrans fuel w = some r := by
  obtain ⟨F1, r1, h1, hinv1⟩ := RenderSolidBuckets_total_of M D self cameratrans w
    (w.call Call.ClearCachingInfo) hfin (Frame_call w _ rfl)
  obtain ⟨F2, r2, h2, _⟩ := RenderAlphaBuckets_total_of M D self cameratrans w r1 hfin
    hinv1 hnd
  refine ⟨max F1 F2, Renderbuckets.finish self r2, fun fuel hf => ?_⟩
  unfold Renderbuckets
  rw [h1 fuel (le_trans (le_max_left F1 F2) hf)]
  simp only [Option.some_bind]
  rw [h2 fuel (le_trans (le_max_right F1 F2) hf)]
  rfl

/-! ## Lemmas on the draws of excluded buckets -/

theorem excludedFromPass_congr (M : Materials) (x y : RenderState) (b : Nat)
    (hm : y.rasty.m_drawingmode = x.rasty.m_drawingmode)
    (hb : y.heap.materialBucket = x.heap.materialBucket) :
    excludedFromPass M y b ↔ excludedFromPass M x b := by
  unfold excludedFromPass GetPolyMaterial
  rw [hm, hb]

theorem Drawn_refl (M : Materials) (x : RenderState) : Drawn M x x :=
  ⟨rfl, rfl, [], by simp, fun b ms h => absurd h (List.not_mem_nil _)⟩

theorem Drawn_trans {M : Materials} {x y z : RenderState} (h1 : Drawn M x y)
    (h2 : Drawn M y z) : Drawn M x z := by
  obtain ⟨m1, b1, made1, e1, d1⟩ := h1
  obtain ⟨m2, b2, made2, e2, d2⟩ := h2
  refine ⟨m2.trans m1, b2.trans b1, made1 ++ made2, by rw [e2, e1, List.append_assoc], ?_⟩
  intro b ms hmem
  rcases List.mem_append.mp hmem with hmem | hmem
  · exact d1 b ms hmem
  · exact fun hex => d2 b ms hmem ((excludedFromPass_congr M x y b m1 b1).mpr hex)

theorem Drawn_of_external (M : Materials) (x y : RenderState)
    (hm : y.rasty.m_drawingmode = x.rasty.m_drawingmode)
    (hb : y.heap.materialBucket = x.heap.materialBucket) (made : List Call)
    (hc : y.calls = x.calls ++ made) (hext : ∀ c ∈ made, Call.isExternal c = true) :
    Drawn M x y := by
  refine ⟨hm, hb, made, hc, ?_⟩
  intro b ms hmem
  have := hext _ hmem
  simp [Call.isExternal] at this

theorem Drawn_call (M : Materials) (x : RenderState) (c : Call)
    (h : Call.isExternal c = true) : Drawn M x (x.call c) :=
  Drawn_of_external M x (x.call c) rfl rfl [c] rfl
    (fun d hd => by rw [List.mem_singleton] at hd; rw [hd]; exact h)

theorem Drawn_of_calls_eq (M : Materials) (x y : RenderState)
    (hm : y.rasty.m_drawingmode = x.rasty.m_drawingmode)
    (hb : y.heap.materialBucket = x.heap.materialBucket) (hc : y.calls = x.calls) :
    Drawn M x y :=
  Drawn_of_external M x y hm hb [] (by rw [hc, List.append_nil])
    (fun c hc2 => absurd hc2 (List.not_mem_nil c))

theorem ActivateMaterial_true_not_excluded (M : Materials) (w : RenderState) (b : Nat)
    (cameratrans : MT_Transform) (h : (ActivateMaterial M w b cameratrans).2 = true) :
    ¬ excludedFromPass M w b := by
  intro hex
  unfold ActivateMaterial at h
  unfold excludedFromPass at hex
  rcases hex with h1 | h1
  · rw [if_pos h1] at h
    exact Bool.noConfusion h
  · have h0 : ¬ (w.rasty.m_drawingmode = KX_SHADOW
        ∧ M.CastsShadows (GetPolyMaterial w.heap b) = false) := fun h2 => h1.1 h2.1
    rw [if_neg h0, if_pos h1] at h
    exact Bool.noConfusion h

theorem loop_body_false_drawn (M : Materials) (cameratrans : MT_Transform) (bucket ms : Nat)
    (w : RenderState) :
    Drawn M w ((ActivateMaterial M w bucket cameratrans).1.call
      (Call.ActivateMaterial bucket ms false)) := by
  have hframe := loop_body_false M cameratrans bucket ms w
  obtain ⟨made, n, hst, hext, _⟩ := ActivateMaterial_state M w bucket cameratrans
  refine ⟨hframe.1.drawingmode, hframe.1.materialBucket,
    made ++ [Call.ActivateMaterial bucket ms false], ?_, ?_⟩
  · rw [hst]
    simp [RenderState.call]
  · intro b s hmem
    rcases List.mem_append.mp hmem with hmem | hmem
    · have := hext _ hmem
      simp [Call.isExternal] at this
    · simp at hmem

theorem loop_body_true_drawn (M : Materials) (D : Deformers) (cameratrans : MT_Transform)
    (bucket ms : Nat) (w : RenderState)
    (hacc : (ActivateMaterial M w bucket cameratrans).2 = true) :
    Drawn M w
      (RenderMeshSlot M D
        ((ActivateMaterial M w bucket cameratrans).1.call
          (Call.ActivateMaterial bucket ms true))
        bucket cameratrans ms) := by
  have hframe := loop_body_true M D cameratrans bucket ms w
  obtain ⟨made, n, hst, hext, _⟩ := ActivateMaterial_state M w bucket cameratrans
  obtain ⟨rest, hrest, hrext⟩ := RenderMeshSlot_calls M D
    ((ActivateMaterial M w bucket cameratrans).1.call (Call.ActivateMaterial bucket ms true))
    bucket ms
  refine ⟨hframe.1.drawingmode, hframe.1.materialBucket,
    made ++ Call.ActivateMaterial bucket ms true :: Call.RenderMeshSlot bucket ms :: rest,
    ?_, ?_⟩
  · unfold RenderMeshSlot
    rw [hrest]
    rw [hst]
    simp [RenderState.call]
  · intro b s hmem
    rcases List.mem_append.mp hmem with hmem | hmem
    · have := hext _ hmem
      simp [Call.isExternal] at this
    · rcases List.mem_cons.mp hmem with hmem | hmem
      · exact absurd hmem (by simp)
      · rcases List.mem_cons.mp hmem with hmem | hmem
        · have hb : b = bucket := by
            injection hmem
          rw [hb]
          exact ActivateMaterial_true_not_excluded M w bucket cameratrans hacc
        · have := hrext _ hmem
          simp [Call.isExternal] at this

theorem whileActivateMaterial_drawn (M : Materials) (D : Deformers)
    (cameratrans : MT_Transform) (bucket ms : Nat) :
    ∀ (fuel : Nat) (w r : RenderState),
      whileActivateMaterial M D cameratrans bucket ms fuel w = some r → Drawn M w r := by
  intro fuel
  induction fuel with
  | zero => intro w r h; simp [whileActivateMaterial] at h
  | succ fuel ih =>
    intro w r h
    unfold whileActivateMaterial at h
    split_ifs at h with hacc
    · exact Drawn_trans (loop_body_true_drawn M D cameratrans bucket ms w hacc) (ih _ _ h)
    · rw [Option.some.injEq] at h
      rw [← h]
      exact loop_body_false_drawn M cameratrans bucket ms w

theorem RenderSolidBuckets_drawn (M : Materials) (D : Deformers) (self : RAS_BucketManager)
    (cameratrans : MT_Transform) (fuel : Nat) (w r : RenderState)
    (h : RenderSolidBuckets M D self cameratrans fuel w = some r) : Drawn M w r := by
  have hslot : ∀ (bucket : Nat) (x : RenderState) (s : Nat) (y : RenderState),
      RenderSolidBuckets.slot M D cameratrans fuel bucket x s = some y → Drawn M x y := by
    intro bucket x s y hxy
    simp only [RenderSolidBuckets.slot, Option.map_eq_some'] at hxy
    obtain ⟨w1, h1, h2⟩ := hxy
    rw [← h2]
    exact Drawn_trans
      (Drawn_trans (Drawn_call M x (Call.SetClientObject (x.heap.meshSlot s).m_clientObj) rfl)
        (whileActivateMaterial_drawn M D cameratrans bucket s fuel _ _ h1))
      (Drawn_of_calls_eq M w1 _ rfl rfl rfl)
  have harray : ∀ (bucket : Nat) (x : RenderState) (d : Nat) (y : RenderState),
      RenderSolidBuckets.array M D cameratrans fuel bucket x d = some y → Drawn M x y := by
    intro bucket x d y hxy
    unfold RenderSolidBuckets.array at hxy
    split_ifs at hxy with hnum
    · rw [Option.some.injEq] at hxy
      rw [← hxy]
      exact Drawn_refl M x
    · simp only [Option.map_eq_some'] at hxy
      obtain ⟨w1, h1, h2⟩ := hxy
      obtain ⟨hd, _⟩ := forEach_spec (RenderSolidBuckets.slot M D cameratrans fuel bucket)
        (Drawn M) (fun _ _ => True) (Drawn_refl M) (fun _ _ _ => Drawn_trans)
        (fun _ _ _ _ _ => trivial) (GetActiveMeshSlots x.heap d)
        (fun s _ x2 y2 hxy2 => ⟨hslot bucket x2 s y2 hxy2, trivial⟩) _ _ h1
      rw [← h2]
      exact Drawn_trans
        (Drawn_trans (Drawn_call M x (Call.BindPrimitives (GetDisplayArray x.heap d)) rfl) hd)
        (Drawn_of_external M w1 _ rfl rfl [Call.UnbindPrimitives (GetDisplayArray x.heap d)]
          rfl (fun c hc => by rw [List.mem_singleton] at hc; rw [hc]; rfl))
  unfold RenderSolidBuckets at h
  obtain ⟨hd, _⟩ := forEach_spec (RenderSolidBuckets.bucket M D cameratrans fuel)
    (Drawn M) (fun _ _ => True) (Drawn_refl M) (fun _ _ _ => Drawn_trans)
    (fun _ _ _ _ _ => trivial) self.m_SolidBuckets
    (fun b _ x y hxy => by
      unfold RenderSolidBuckets.bucket at hxy
      exact ⟨(forEach_spec (RenderSolidBuckets.array M D cameratrans fuel b)
        (Drawn M) (fun _ _ => True) (Drawn_refl M) (fun _ _ _ => Drawn_trans)
        (fun _ _ _ _ _ => trivial) (GetDisplayArrayBucketList x.heap b)
        (fun d _ x2 y2 hxy2 => ⟨harray b x2 d y2 hxy2, trivial⟩) _ _ hxy).1, trivial⟩)
    _ _ h
  exact Drawn_trans (Drawn_call M w (Call.SetDepthMask true) rfl) hd

theorem RenderAlphaBuckets_drawn (M : Materials) (D : Deformers) (self : RAS_BucketManager)
    (cameratrans : MT_Transform) (fuel : Nat) (w r : RenderState)
    (h : RenderAlphaBuckets M D self cameratrans fuel w = some r) : Drawn M w r := by
  have hslot : ∀ (x : RenderState) (sit : sortedmeshslot) (y : RenderState),
      RenderAlphaBuckets.slot M D cameratrans fuel x sit = some y → Drawn M x y := by
    intro x sit y hxy
    simp only [RenderAlphaBuckets.slot, Option.map_eq_some'] at hxy
    obtain ⟨w1, h1, h2⟩ := hxy
    rw [← h2]
    exact Drawn_trans
      (Drawn_trans
        (Drawn_trans
          (Drawn_call M x (Call.SetClientObject (x.heap.meshSlot sit.m_ms).m_clientObj) rfl)
          (Drawn_call M _ (Call.BindPrimitives (x.heap.meshSlot sit.m_ms).m_displayArray)
            rfl))
        (whileActivateMaterial_drawn M D cameratrans sit.m_bucket sit.m_ms fuel _ _ h1))
      (Drawn_of_external M w1 _ rfl rfl
        [Call.UnbindPrimitives (x.heap.meshSlot sit.m_ms).m_displayArray] rfl
        (fun c hc => by rw [List.mem_singleton] at hc; rw [hc]; rfl))
  simp only [RenderAlphaBuckets, Option.map_eq_some'] at h
  obtain ⟨w1, h1, h2⟩ := h
  obtain ⟨hd, _⟩ := forEach_spec (RenderAlphaBuckets.slot M D cameratrans fuel)
    (Drawn M) (fun _ _ => True) (Drawn_refl M) (fun _ _ _ => Drawn_trans)
    (fun _ _ _ _ _ => trivial) _
    (fun s _ x y hxy => ⟨hslot x s y hxy, trivial⟩) _ _ h1
  have h0 : Drawn M w (RenderAlphaBuckets.depthMask w) := by
    unfold RenderAlphaBuckets.depthMask
    split_ifs
    · exact Drawn_call M w (Call.SetDepthMask false) rfl
    · exact Drawn_refl M w
  have hcl : Drawn M (RenderAlphaBuckets.depthMask w)
      { RenderAlphaBuckets.depthMask w with
        heap :=
          (OrderBuckets (RenderAlphaBuckets.depthMask w).heap cameratrans self.m_AlphaBuckets
            [] true).1 } := by
    refine Drawn_of_calls_eq M _ _ rfl ?_ rfl
    show (OrderBuckets (RenderAlphaBuckets.depthMask w).heap cameratrans self.m_AlphaBuckets
      [] true).1.materialBucket = _
    rw [OrderBuckets_heap, clearedArrays_materialBucket]
  rw [← h2]
  exact Drawn_trans (Drawn_trans (Drawn_trans h0 hcl) hd)
    (Drawn_call M w1 (Call.SetDepthMask true) rfl)

theorem finish_calls (self : RAS_BucketManager) (w : RenderState) :
    ∃ made, (Renderbuckets.finish self w).calls = w.calls ++ made
      ∧ (∀ ms, made.countP (Call.isRenderMeshSlot ms) = 0)
      ∧ (∀ ms b, made.countP (Call.isActivateMaterial ms b) = 0)
      ∧ ∀ b ms, Call.RenderMeshSlot b ms ∉ made := by
  have hgen : ∀ made : List Call,
      (∀ c ∈ made, Call.isSetModifiedFlag c = true ∨ c = Call.SetClientObject NULL) →
      (∀ ms, made.countP (Call.isRenderMeshSlot ms) = 0)
      ∧ (∀ ms b, made.countP (Call.isActivateMaterial ms b) = 0)
      ∧ ∀ b ms, Call.RenderMeshSlot b ms ∉ made := by
    intro made hmade
    refine ⟨?_, ?_, ?_⟩
    · intro ms
      rw [List.countP_eq_zero]
      intro c hc
      rcases hmade c hc with h1 | h1
      · cases c <;> simp_all [Call.isSetModifiedFlag, Call.isRenderMeshSlot]
      · rw [h1]; simp [Call.isRenderMeshSlot]
    · intro ms b
      rw [List.countP_eq_zero]
      intro c hc
      rcases hmade c hc with h1 | h1
      · cases c <;> simp_all [Call.isSetModifiedFlag, Call.isActivateMaterial]
      · rw [h1]; simp [Call.isActivateMaterial]
    · intro b ms hmem
      rcases hmade _ hmem with h1 | h1
      · simp [Call.isSetModifiedFlag] at h1
      · simp at h1
  by_cases hmode : w.rasty.m_drawingmode ≠ KX_SHADOW
  · obtain ⟨hcalls, _⟩ := finish_spec self w hmode
    refine ⟨_, hcalls, hgen _ ?_⟩
    intro c hc
    rcases List.mem_append.mp hc with hc | hc
    · obtain ⟨s, _, hs⟩ := List.mem_map.mp hc
      left
      rw [← hs]
      rfl
    · right
      exact List.mem_singleton.mp hc
  · refine ⟨[Call.SetClientObject NULL], ?_, hgen _ ?_⟩
    · unfold Renderbuckets.finish
      rw [if_neg hmode]
      rfl
    · intro c hc
      right
      exact List.mem_singleton.mp hc

/-! ## Lemmas on a device that accepts for ever -/

theorem ActivateMaterial_true_of_accepts (M : Materials) (w : RenderState) (b : Nat)
    (cameratrans : MT_Transform) (hacc : ∀ n mat, w.rasty.accepts n mat = true)
    (hne : ¬ excludedFromPass M w b) :
    (ActivateMaterial M w b cameratrans).2 = true := by
  unfold excludedFromPass at hne
  unfold ActivateMaterial
  have h1 : ¬ (w.rasty.m_drawingmode = KX_SHADOW
      ∧ M.CastsShadows (GetPolyMaterial w.heap b) = false) := fun h => hne (Or.inl h)
  have h2 : ¬ (w.rasty.m_drawingmode ≠ KX_SHADOW
      ∧ M.OnlyShadow (GetPolyMaterial w.heap b) = true) := fun h => hne (Or.inr h)
  have h3 : ¬ ((SetMaterial w (GetPolyMaterial w.heap b)).2 = false) := by
    simp [SetMaterial, hacc]
  rw [if_neg h1, if_neg h2, if_neg h3]

theorem whileActivateMaterial_diverges (M : Materials) (D : Deformers)
    (cameratrans : MT_Transform) (bucket ms : Nat) :
    ∀ (fuel : Nat) (x : RenderState), (∀ n mat, x.rasty.accepts n mat = true) →
      ¬ excludedFromPass M x bucket →
      whileActivateMaterial M D cameratrans bucket ms fuel x = none := by
  intro fuel
  induction fuel with
  | zero => intro x _ _; rfl
  | succ fuel ih =>
    intro x hacc hne
    have hframe := loop_body_true M D cameratrans bucket ms x
    unfold whileActivateMaterial
    rw [if_pos (ActivateMaterial_true_of_accepts M x bucket cameratrans hacc hne)]
    refine ih _ ?_ ?_
    · intro n mat
      rw [hframe.1.accepts]
      exact hacc n mat
    · exact fun hex => hne ((excludedFromPass_congr M x _ bucket hframe.1.drawingmode
        hframe.1.materialBucket).mp hex)

theorem forEach_fixed_or_none {α : Type} (body : RenderState → α → Option RenderState)
    (x : RenderState) :
    ∀ (l : List α), (∀ a ∈ l, body x a = some x ∨ body x a = none) →
      forEach body l x = some x ∨ forEach body l x = none := by
  intro l
  induction l with
  | nil => intro _; exact Or.inl rfl
  | cons a rest ih =>
    intro hbody
    simp only [forEach]
    rcases hbody a (List.mem_cons_self a rest) with h1 | h1
    · rw [h1, Option.some_bind]
      exact ih (fun b hb => hbody b (List.mem_cons_of_mem a hb))
    · rw [h1]
      exact Or.inr rfl

theorem forEach_none_of_fixed {α : Type} (body : RenderState → α → Option RenderState)
    (x : RenderState) :
    ∀ (l : List α), (∀ a ∈ l, body x a = some x ∨ body x a = none) →
      (∃ a ∈ l, body x a = none) → forEach body l x = none := by
  intro l
  induction l with
  | nil => intro _ ⟨a, ha, _⟩; exact absurd ha (List.not_mem_nil a)
  | cons a rest ih =>
    intro hbody ⟨b, hb, hnone⟩
    simp only [forEach]
    rcases hbody a (List.mem_cons_self a rest) with h1 | h1
    · rw [h1, Option.some_bind]
      rcases List.mem_cons.mp hb with hb2 | hb2
      · rw [hb2, h1] at hnone
        exact Option.noConfusion hnone
      · exact ih (fun c hc => hbody c (List.mem_cons_of_mem a hc)) ⟨b, hb2, hnone⟩
    · rw [h1]
      rfl

theorem RenderSolidBuckets_array_diverges (M : Materials) (D : Deformers)
    (cameratrans : MT_Transform) (fuel bucket : Nat) (x : RenderState) (d : Nat)
    (hacc : ∀ n mat, x.rasty.accepts n mat = true) (hne : ¬ excludedFromPass M x bucket) :
    (GetActiveMeshSlots x.heap d = [] →
      RenderSolidBuckets.array M D cameratrans fuel bucket x d = some x)
    ∧ (GetActiveMeshSlots x.heap d ≠ [] →
      RenderSolidBuckets.array M D cameratrans fuel bucket x d = none) := by
  constructor
  · intro hnil
    unfold RenderSolidBuckets.array
    rw [if_pos (by unfold GetNumActiveMeshSlots; unfold GetActiveMeshSlots at hnil
                   rw [hnil]; rfl)]
  · intro hnn
    have hnum : ¬ GetNumActiveMeshSlots x.heap d = 0 := fun h0 =>
      hnn (List.length_eq_zero.mp h0)
    unfold RenderSolidBuckets.array
    rw [if_neg hnum]
    obtain ⟨s, rest, hsplit⟩ := List.exists_cons_of_ne_nil hnn
    rw [hsplit]
    simp only [forEach]
    have hslot : RenderSolidBuckets.slot M D cameratrans fuel bucket
        (x.call (Call.BindPrimitives (GetDisplayArray x.heap d))) s = none := by
      unfold RenderSolidBuckets.slot
      have hdiv := whileActivateMaterial_diverges M D cameratrans bucket s fuel
        ((x.call (Call.BindPrimitives (GetDisplayArray x.heap d))).call
          (Call.SetClientObject
            ((x.call (Call.BindPrimitives (GetDisplayArray x.heap d))).heap.meshSlot
              s).m_clientObj))
        (fun n mat => hacc n mat) hne
      rw [hdiv]
      rfl
    rw [hslot]
    rfl

theorem RenderSolidBuckets_diverges (M : Materials) (D : Deformers)
    (self : RAS_BucketManager) (cameratrans : MT_Transform) (fuel : Nat) (w : RenderState)
    (hacc : ∀ n mat, w.rasty.accepts n mat = true)
    (hne : ∀ b ∈ self.m_SolidBuckets, ¬ excludedFromPass M w b)
    (hact : ∃ b ∈ self.m_SolidBuckets, ∃ d ∈ GetDisplayArrayBucketList w.heap b,
      GetActiveMeshSlots w.heap d ≠ []) :
    RenderSolidBuckets M D self cameratrans fuel w = none := by
  have hbucket : ∀ b ∈ self.m_SolidBuckets,
      (RenderSolidBuckets.bucket M D cameratrans fuel (w.call (Call.SetDepthMask true)) b
          = some (w.call (Call.SetDepthMask true))
        ∨ RenderSolidBuckets.bucket M D cameratrans fuel (w.call (Call.SetDepthMask true)) b
          = none)
      ∧ ((∃ d ∈ GetDisplayArrayBucketList w.heap b, GetActiveMeshSlots w.heap d ≠ []) →
        RenderSolidBuckets.bucket M D cameratrans fuel (w.call (Call.SetDepthMask true)) b
          = none) := by
    intro b hb
    have harr : ∀ d ∈ GetDisplayArrayBucketList (w.call (Call.SetDepthMask true)).heap b,
        RenderSolidBuckets.array M D cameratrans fuel b (w.call (Call.SetDepthMask true)) d
            = some (w.call (Call.SetDepthMask true))
          ∨ RenderSolidBuckets.array M D cameratrans fuel b (w.call (Call.SetDepthMask true)) d
            = none := by
      intro d _
      obtain ⟨h1, h2⟩ := RenderSolidBuckets_array_diverges M D cameratrans fuel b
        (w.call (Call.SetDepthMask true)) d (fun n mat => hacc n mat) (hne b hb)
      by_cases hnil : GetActiveMeshSlots (w.call (Call.SetDepthMask true)).heap d = []
      · exact Or.inl (h1 hnil)
      · exact Or.inr (h2 hnil)
    unfold RenderSolidBuckets.bucket
    refine ⟨forEach_fixed_or_none _ _ _ harr, ?_⟩
    rintro ⟨d, hd, hnn⟩
    refine forEach_none_of_fixed _ _ _ harr ⟨d, hd, ?_⟩
    exact (RenderSolidBuckets_array_diverges M D cameratrans fuel b
      (w.call (Call.SetDepthMask true)) d (fun n mat => hacc n mat) (hne b hb)).2 hnn
  obtain ⟨b, hb, hd⟩ := hact
  unfold RenderSolidBuckets
  exact forEach_none_of_fixed _ _ _ (fun c hc => (hbucket c hc).1)
    ⟨b, hb, (hbucket b hb).2 hd⟩

theorem backtofront_true_ne_nan (a b : sortedmeshslot) (h : backtofront a b = true) :
    a.m_z ≠ MT_Scalar.nan ∧ b.m_z ≠ MT_Scalar.nan := by
  obtain ⟨za, ma, ba⟩ := a
  obtain ⟨zb, mb, bb⟩ := b
  cases za <;> cases zb <;> simp [backtofront, MT_Scalar.lt, MT_Scalar.eq] at h ⊢

theorem fronttoback_true_ne_nan (a b : sortedmeshslot) (h : fronttoback a b = true) :
    a.m_z ≠ MT_Scalar.nan ∧ b.m_z ≠ MT_Scalar.nan := by
  obtain ⟨za, ma, ba⟩ := a
  obtain ⟨zb, mb, bb⟩ := b
  cases za <;> cases zb <;> simp [fronttoback, MT_Scalar.gt, MT_Scalar.eq] at h ⊢

theorem backtofront_irrefl (a : sortedmeshslot) : backtofront a a = false := by
  obtain ⟨za, ma, ba⟩ := a
  cases za <;> simp [backtofront, MT_Scalar.lt, MT_Scalar.eq]

theorem fronttoback_irrefl (a : sortedmeshslot) : fronttoback a a = false := by
  obtain ⟨za, ma, ba⟩ := a
  cases za <;> simp [fronttoback, MT_Scalar.gt, MT_Scalar.eq]

theorem fronttoback_eq_backtofront (a b : sortedmeshslot) :
    fronttoback a b = backtofront b a := by
  cases hba : backtofront b a
  · cases hab : fronttoback a b
    · rfl
    · obtain ⟨ha, hb⟩ := fronttoback_true_ne_nan a b hab
      rw [backtofront_false_iff b a hb ha] at hba
      rw [fronttoback_eq_true_iff a b ha hb] at hab
      omega
  · obtain ⟨hb, ha⟩ := backtofront_true_ne_nan b a hba
    rw [backtofront_eq_true_iff b a hb ha] at hba
    rw [fronttoback_eq_true_iff a b ha hb]
    omega

/-- With a NaN depth the comparator is no strict weak ordering and the result
of the sort need not be ordered: the entry of the mesh slot 13 at depth 3
stays before the entry of the mesh slot 11 at the same depth, with the entry
at the NaN depth between them, as the GNU library leaves them. -/
theorem std_sort_unordered_at_NaN_depth :
    std_sort backtofront [⟨3, 13, 1⟩, ⟨MT_Scalar.nan, 12, 1⟩, ⟨1, 10, 1⟩, ⟨3, 11, 1⟩]
      = [⟨1, 10, 1⟩, ⟨3, 13, 1⟩, ⟨MT_Scalar.nan, 12, 1⟩, ⟨3, 11, 1⟩] := by
  decide

/-! ## The properties of the specification -/

/-- C1, as stated, fails: mesh slots queued at depths 5, 2, 2, 8 leave
OrderBuckets with alpha=true at depths 2, 5, 8 in ascending order (2, 2, 5, 8),
and slots queued at depths 1, 3, 3 leave it as 1, 3, 3; neither sequence is
non-increasing in depth. -/
theorem C1_alpha_order_is_not_nonincreasing :
    (OrderBuckets heapDepths5228 identityCamera [1] [] true).2.map
        (fun e => slotDepth heapDepths5228 identityCamera e.m_ms) = [2, 2, 5, 8]
    ∧ ¬ List.Chain' (fun x y : MT_Scalar => MT_Scalar.le y x = true)
        ((OrderBuckets heapDepths5228 identityCamera [1] [] true).2.map
          (fun e => slotDepth heapDepths5228 identityCamera e.m_ms))
    ∧ (OrderBuckets heapDepths133 identityCamera [1] [] true).2.map
        (fun e => slotDepth heapDepths133 identityCamera e.m_ms) = [1, 3, 3]
    ∧ ¬ List.Chain' (fun x y : MT_Scalar => MT_Scalar.le y x = true)
        ((OrderBuckets heapDepths133 identityCamera [1] [] true).2.map
          (fun e => slotDepth heapDepths133 identityCamera e.m_ms)) := by
  have h1 : (OrderBuckets heapDepths5228 identityCamera [1] [] true).2.map
      (fun e => slotDepth heapDepths5228 identityCamera e.m_ms) = [2, 2, 5, 8] := by decide
  have h2 : (OrderBuckets heapDepths133 identityCamera [1] [] true).2.map
      (fun e => slotDepth heapDepths133 identityCamera e.m_ms) = [1, 3, 3] := by decide
  refine ⟨h1, ?_, h2, ?_⟩
  · rw [h1]
    intro hc
    simp only [List.chain'_cons] at hc
    exact absurd hc.2.1 (by decide)
  · rw [h2]
    intro hc
    simp only [List.chain'_cons] at hc
    exact absurd hc.1 (by decide)

/-- C1, amended: for every bucket collection and every camera transform whose
sequence produced by OrderBuckets with alpha=true has no entry at a NaN depth,
that sequence is non-decreasing in the depth `m_z` of its entries (the
comparator backtofront orders by ascending `m_z`); when no display array
bucket is listed twice in the collection, the depth of every entry is the dot
product of the third row of the camera basis with the world position of its
mesh slot, and the depth of every entry is at most the depth of every later
entry, in particular of the entry after it. -/
theorem C1_alpha_order_nondecreasing (h : Heap) (cameratrans : MT_Transform)
    (buckets : List Nat) (slots : List sortedmeshslot)
    (hnan : ∀ e ∈ (OrderBuckets h cameratrans buckets slots true).2, e.m_z ≠ MT_Scalar.nan) :
    (OrderBuckets h cameratrans buckets slots true).2.Pairwise
        (fun a b => MT_Scalar.le a.m_z b.m_z = true)
    ∧ ((displayArrayBucketsOf h buckets).Nodup →
        (∀ e ∈ (OrderBuckets h cameratrans buckets slots true).2,
          e.m_z = slotDepth h cameratrans e.m_ms)
        ∧ (OrderBuckets h cameratrans buckets slots true).2.Pairwise
            (fun a b => MT_Scalar.le (slotDepth h cameratrans a.m_ms)
              (slotDepth h cameratrans b.m_ms) = true)
        ∧ (OrderBuckets h cameratrans buckets slots true).2.Chain'
            (fun a b => MT_Scalar.le (slotDepth h cameratrans a.m_ms)
              (slotDepth h cameratrans b.m_ms) = true)) := by
  have hs := OrderBuckets_alpha_sorted h cameratrans buckets slots hnan
  have hle : (OrderBuckets h cameratrans buckets slots true).2.Pairwise
      (fun a b => MT_Scalar.le a.m_z b.m_z = true) := by
    refine hs.imp_of_mem ?_
    intro a b ha hb hab
    rw [MT_Scalar_le_iff _ _ (hnan a ha) (hnan b hb)]
    omega
  refine ⟨hle, fun hnd => ?_⟩
  have hz : ∀ e ∈ (OrderBuckets h cameratrans buckets slots true).2,
      e.m_z = slotDepth h cameratrans e.m_ms := fun e he =>
    (mem_queued h cameratrans buckets e (mem_OrderBuckets h cameratrans buckets slots true hnd e he)).1
  have hp : (OrderBuckets h cameratrans buckets slots true).2.Pairwise
      (fun a b => MT_Scalar.le (slotDepth h cameratrans a.m_ms)
        (slotDepth h cameratrans b.m_ms) = true) := by
    refine hle.imp_of_mem ?_
    intro a b ha hb hab
    rw [← hz a ha, ← hz b hb]
    exact hab
  exact ⟨hz, hp, List.Pairwise.chain' hp⟩

/-- Witness of C1 amended: the collection with slots at depths 5, 2, 2, 8. -/
theorem C1_alpha_order_nondecreasing_witness :
    (∀ e ∈ (OrderBuckets heapDepths5228 identityCamera [1] [] true).2, e.m_z ≠ MT_Scalar.nan)
    ∧ (displayArrayBucketsOf heapDepths5228 [1]).Nodup
    ∧ (OrderBuckets heapDepths5228 identityCamera [1] [] true).2.Chain'
        (fun a b => MT_Scalar.le (slotDepth heapDepths5228 identityCamera a.m_ms)
          (slotDepth heapDepths5228 identityCamera b.m_ms) = true) :=
  ⟨by decide, by decide,
    ((C1_alpha_order_nondecreasing heapDepths5228 identityCamera [1] [] (by decide)).2
      (by decide)).2.2⟩

/-- C2, as stated, fails: after the mesh slot 11 is activated twice, the
alpha-pass sequence holds two entries of equal depth with the same identity, so
the identity of the first is not lower than that of the second. -/
theorem C2_equal_depth_identity_not_strict :
    (OrderBuckets heapQueuedTwice identityCamera [1] [] true).2 = [⟨3, 11, 1⟩, ⟨3, 11, 1⟩]
    ∧ ¬ (OrderBuckets heapQueuedTwice identityCamera [1] [] true).2.Pairwise
        (fun a b => slotDepth heapQueuedTwice identityCamera a.m_ms
            = slotDepth heapQueuedTwice identityCamera b.m_ms → a.m_ms < b.m_ms) := by
  have h1 : (OrderBuckets heapQueuedTwice identityCamera [1] [] true).2
      = [⟨3, 11, 1⟩, ⟨3, 11, 1⟩] := by decide
  refine ⟨h1, ?_⟩
  rw [h1]
  simp

/-- C2, amended: in the alpha-pass sequence produced by OrderBuckets with
alpha=true, when no entry of the sequence is at a NaN depth, for every i < j
whose entries have equal depth the identity `m_ms` of entry i is not higher
than that of entry j, and it is lower unless both entries are the same mesh
slot, queued twice. This holds for the depth `m_z` carried by the entries and,
when no display array bucket is listed twice in the collection, for the depth
computed from the mesh slots; when moreover no mesh slot is queued twice the
identity of entry i is always the lower one. -/
theorem C2_equal_depth_ascending_identity (h : Heap) (cameratrans : MT_Transform)
    (buckets : List Nat) (slots : List sortedmeshslot)
    (hnan : ∀ e ∈ (OrderBuckets h cameratrans buckets slots true).2, e.m_z ≠ MT_Scalar.nan) :
    (OrderBuckets h cameratrans buckets slots true).2.Pairwise
        (fun a b => a.m_z = b.m_z → a.m_ms ≤ b.m_ms ∧ (a.m_ms ≠ b.m_ms → a.m_ms < b.m_ms))
    ∧ ((displayArrayBucketsOf h buckets).Nodup →
        (OrderBuckets h cameratrans buckets slots true).2.Pairwise
          (fun a b => slotDepth h cameratrans a.m_ms = slotDepth h cameratrans b.m_ms
            → a.m_ms ≤ b.m_ms ∧ (a.m_ms ≠ b.m_ms → a.m_ms < b.m_ms))
        ∧ ((activeMeshSlotsOf h buckets).Nodup →
            (OrderBuckets h cameratrans buckets slots true).2.Pairwise
              (fun a b => slotDepth h cameratrans a.m_ms = slotDepth h cameratrans b.m_ms
                → a.m_ms < b.m_ms))) := by
  have hs := OrderBuckets_alpha_sorted h cameratrans buckets slots hnan
  have hm : (OrderBuckets h cameratrans buckets slots true).2.Pairwise
      (fun a b => a.m_z = b.m_z → a.m_ms ≤ b.m_ms ∧ (a.m_ms ≠ b.m_ms → a.m_ms < b.m_ms)) := by
    refine hs.imp ?_
    intro a b hab heq
    rw [heq] at hab
    omega
  refine ⟨hm, fun hnd => ?_⟩
  have hz : ∀ e ∈ (OrderBuckets h cameratrans buckets slots true).2,
      e.m_z = slotDepth h cameratrans e.m_ms := fun e he =>
    (mem_queued h cameratrans buckets e (mem_OrderBuckets h cameratrans buckets slots true hnd e he)).1
  have hle : (OrderBuckets h cameratrans buckets slots true).2.Pairwise
      (fun a b => slotDepth h cameratrans a.m_ms = slotDepth h cameratrans b.m_ms
        → a.m_ms ≤ b.m_ms ∧ (a.m_ms ≠ b.m_ms → a.m_ms < b.m_ms)) := by
    refine hm.imp_of_mem ?_
    intro a b ha hb hab heq
    rw [← hz a ha, ← hz b hb] at heq
    exact hab heq
  refine ⟨hle, fun hdistinct => ?_⟩
  have hne : (OrderBuckets h cameratrans buckets slots true).2.Pairwise
      (fun a b => a.m_ms ≠ b.m_ms) := by
    have hperm : ((OrderBuckets h cameratrans buckets slots true).2.map (fun e => e.m_ms)).Perm
        (activeMeshSlotsOf h buckets) := by
      rw [OrderBuckets_eq h cameratrans buckets slots true hnd,
        ← map_ms_queued h (cameratrans.getBasis.get 2) buckets]
      exact (std_sort_perm _ _).map _
    have hn := hperm.nodup_iff.mpr hdistinct
    exact List.pairwise_map.mp hn
  refine (hle.and hne).imp ?_
  intro a b hab heq
  exact (hab.1 heq).2 hab.2

/-- Witness of C2 amended: the slots 12 and 13 of the first scenario share the
depth 2 and are among four distinct slots. -/
theorem C2_equal_depth_ascending_identity_witness :
    (∀ e ∈ (OrderBuckets heapDepths5228 identityCamera [1] [] true).2, e.m_z ≠ MT_Scalar.nan)
    ∧ (displayArrayBucketsOf heapDepths5228 [1]).Nodup
    ∧ (activeMeshSlotsOf heapDepths5228 [1]).Nodup
    ∧ (OrderBuckets heapDepths5228 identityCamera [1] [] true).2.Pairwise
        (fun a b => slotDepth heapDepths5228 identityCamera a.m_ms
            = slotDepth heapDepths5228 identityCamera b.m_ms → a.m_ms < b.m_ms) :=
  ⟨by decide, by decide, by decide,
    ((C2_equal_depth_ascending_identity heapDepths5228 identityCamera [1] [] (by decide)).2
      (by decide)).2 (by decide)⟩

/-- C3: for every bucket collection OrderBuckets produces a list whose length
is the total number of active mesh slots over all display array buckets of all
buckets of the collection; when no display array bucket is listed twice in the
collection the list is a permutation of the entries (depth of the slot, slot,
material bucket whose display array bucket queued it) of the active slots;
after the call every display array bucket of the collection has an empty set
of active slots. -/
theorem C3_OrderBuckets_collects_and_clears (h : Heap) (cameratrans : MT_Transform)
    (buckets : List Nat) (slots : List sortedmeshslot) (alpha : Bool) :
    (OrderBuckets h cameratrans buckets slots alpha).2.length = numActiveMeshSlots h buckets
    ∧ ((displayArrayBucketsOf h buckets).Nodup →
        (OrderBuckets h cameratrans buckets slots alpha).2.Perm
          (buckets.flatMap (fun bucket =>
            (GetDisplayArrayBucketList h bucket).flatMap (fun dab =>
              (GetActiveMeshSlots h dab).map (fun ms =>
                ({ m_z := slotDepth h cameratrans ms, m_ms := ms, m_bucket := bucket }
                  : sortedmeshslot))))))
    ∧ (∀ bucket ∈ buckets, ∀ dab ∈ GetDisplayArrayBucketList h bucket,
        GetActiveMeshSlots (OrderBuckets h cameratrans buckets slots alpha).1 dab = []
        ∧ GetNumActiveMeshSlots (OrderBuckets h cameratrans buckets slots alpha).1 dab = 0) := by
  refine ⟨OrderBuckets_length h cameratrans buckets slots alpha, ?_, ?_⟩
  · intro hnd
    rw [OrderBuckets_eq h cameratrans buckets slots alpha hnd]
    exact std_sort_perm _ _
  · intro bucket hb dab hd
    rw [OrderBuckets_heap]
    have hmem : dab ∈ displayArrayBucketsOf h buckets := by
      simp only [displayArrayBucketsOf, List.mem_flatMap]
      exact ⟨bucket, hb, hd⟩
    have hact : GetActiveMeshSlots (clearedArrays h (displayArrayBucketsOf h buckets)) dab = [] := by
      rw [getActive_clearedArrays, if_pos hmem]
    refine ⟨hact, ?_⟩
    have : GetNumActiveMeshSlots (clearedArrays h (displayArrayBucketsOf h buckets)) dab
        = (GetActiveMeshSlots (clearedArrays h (displayArrayBucketsOf h buckets)) dab).length := rfl
    rw [this, hact]; rfl

/-- Witness of C3: the collection with four queued slots. -/
theorem C3_OrderBuckets_collects_and_clears_witness :
    (displayArrayBucketsOf heapDepths5228 [1]).Nodup
    ∧ (OrderBuckets heapDepths5228 identityCamera [1] [] true).2.Perm
        [⟨5, 11, 1⟩, ⟨2, 12, 1⟩, ⟨2, 13, 1⟩, ⟨8, 14, 1⟩]
    ∧ GetNumActiveMeshSlots (OrderBuckets heapDepths5228 identityCamera [1] [] true).1 2 = 0 :=
  ⟨by decide,
    (C3_OrderBuckets_collects_and_clears heapDepths5228 identityCamera [1] [] true).2.1
      (by decide),
    ((C3_OrderBuckets_collects_and_clears heapDepths5228 identityCamera [1] [] true).2.2
      1 (by decide) 2 (by decide)).2⟩

/-- C4: with a material equality that is an equivalence relation and a
manager whose buckets are allocated, a second FindBucket(M1) returns the bucket
of the first, reports bucketCreated=false and leaves heap and collections as
the first call left them; and when M1 and M2 do not compare equal,
FindBucket(M1) followed by FindBucket(M2) returns two distinct buckets. -/
theorem C4_FindBucket_idempotent_and_injective (M : Materials) (h : Heap)
    (self : RAS_BucketManager) (M1 M2 : Nat)
    (hrefl : ∀ a, M.equals a a = true)
    (hsymm : ∀ a b, M.equals a b = true → M.equals b a = true)
    (htrans : ∀ a b c, M.equals a b = true → M.equals b c = true → M.equals a c = true)
    (hfresh : ∀ b ∈ self.m_SolidBuckets ++ self.m_AlphaBuckets, b < h.next) :
    ((FindBucket M (FindBucket M h self M1).heap (FindBucket M h self M1).manager M1).bucket
        = (FindBucket M h self M1).bucket
      ∧ (FindBucket M (FindBucket M h self M1).heap (FindBucket M h self M1).manager
          M1).bucketCreated = false
      ∧ (FindBucket M (FindBucket M h self M1).heap (FindBucket M h self M1).manager
          M1).manager = (FindBucket M h self M1).manager)
    ∧ (M.equals M1 M2 = false →
        (FindBucket M (FindBucket M h self M1).heap (FindBucket M h self M1).manager M2).bucket
          ≠ (FindBucket M h self M1).bucket) := by
  refine ⟨?_, ?_⟩
  · rw [FindBucket_again M h self M1 (hrefl M1) hfresh]
    exact ⟨rfl, rfl, rfl⟩
  · intro hne heq
    have hmem := FindBucket_bucket_mem M h self M1
    have hfresh1 := FindBucket_fresh M h self M1 hfresh
    have e1 := FindBucket_bucket_equals M h self M1 (hrefl M1)
    have e2 := FindBucket_bucket_equals M (FindBucket M h self M1).heap
      (FindBucket M h self M1).manager M2 (hrefl M2)
    rw [heq, FindBucket_material_frame M _ _ M2 _ (hfresh1 _ hmem)] at e2
    have := htrans _ _ _ (hsymm _ _ e1) e2
    rw [hne] at this
    exact Bool.noConfusion this

/-- Witness of C4: the manager with the bucket 1 of material 11; the lookups
of the material 12 (equal to 11 by value) and of the material 21. -/
theorem C4_FindBucket_idempotent_and_injective_witness :
    (FindBucket materialsByTens (FindBucket materialsByTens heapFourBuckets managerOne 12).heap
        (FindBucket materialsByTens heapFourBuckets managerOne 12).manager 12).bucket
      = (FindBucket materialsByTens heapFourBuckets managerOne 12).bucket
    ∧ (FindBucket materialsByTens (FindBucket materialsByTens heapFourBuckets managerOne 12).heap
        (FindBucket materialsByTens heapFourBuckets managerOne 12).manager 21).bucket
      ≠ (FindBucket materialsByTens heapFourBuckets managerOne 12).bucket :=
  ⟨(C4_FindBucket_idempotent_and_injective materialsByTens heapFourBuckets managerOne 12 21
      (fun a => by simp [materialsByTens])
      (fun a b => by simp only [materialsByTens, decide_eq_true_eq]; exact Eq.symm)
      (fun a b c => by simp only [materialsByTens, decide_eq_true_eq]; exact Eq.trans)
      (by decide)).1.1,
    (C4_FindBucket_idempotent_and_injective materialsByTens heapFourBuckets managerOne 12 21
      (fun a => by simp [materialsByTens])
      (fun a b => by simp only [materialsByTens, decide_eq_true_eq]; exact Eq.symm)
      (fun a b c => by simp only [materialsByTens, decide_eq_true_eq]; exact Eq.trans)
      (by decide)).2 (by decide)⟩

/-- C5: when a bucket of the solid collection, or failing that of the alpha
collection, has a material that compares equal to the argument, FindBucket
returns the first such bucket, sets bucketCreated=false and changes neither
the collections nor the heap; otherwise it sets bucketCreated=true and appends
one new bucket holding the material to the alpha collection when the material
reports alpha blending and to the solid collection when it does not, leaving
the other collection unchanged. -/
theorem C5_FindBucket_finds_or_creates (M : Materials) (h : Heap) (self : RAS_BucketManager)
    (material : Nat) :
    (∀ pre b post, self.m_SolidBuckets = pre ++ b :: post →
        (∀ x ∈ pre, M.equals (GetPolyMaterial h x) material = false) →
        M.equals (GetPolyMaterial h b) material = true →
        (FindBucket M h self material).bucket = b
        ∧ (FindBucket M h self material).bucketCreated = false
        ∧ (FindBucket M h self material).manager = self
        ∧ (FindBucket M h self material).heap = h)
    ∧ (∀ pre b post,
        (∀ x ∈ self.m_SolidBuckets, M.equals (GetPolyMaterial h x) material = false) →
        self.m_AlphaBuckets = pre ++ b :: post →
        (∀ x ∈ pre, M.equals (GetPolyMaterial h x) material = false) →
        M.equals (GetPolyMaterial h b) material = true →
        (FindBucket M h self material).bucket = b
        ∧ (FindBucket M h self material).bucketCreated = false
        ∧ (FindBucket M h self material).manager = self
        ∧ (FindBucket M h self material).heap = h)
    ∧ ((∀ x ∈ self.m_SolidBuckets, M.equals (GetPolyMaterial h x) material = false) →
        (∀ x ∈ self.m_AlphaBuckets, M.equals (GetPolyMaterial h x) material = false) →
        (FindBucket M h self material).bucketCreated = true
        ∧ (FindBucket M h self material).bucket = h.next
        ∧ (FindBucket M h self material).heap.materialBucket
              (FindBucket M h self material).bucket
            = { m_material := material, m_meshSlots := [], m_displayArrayBucketList := [] }
        ∧ (M.IsAlpha material = true →
            (FindBucket M h self material).manager.m_AlphaBuckets
                = self.m_AlphaBuckets ++ [(FindBucket M h self material).bucket]
            ∧ (FindBucket M h self material).manager.m_SolidBuckets = self.m_SolidBuckets)
        ∧ (M.IsAlpha material = false →
            (FindBucket M h self material).manager.m_SolidBuckets
                = self.m_SolidBuckets ++ [(FindBucket M h self material).bucket]
            ∧ (FindBucket M h self material).manager.m_AlphaBuckets = self.m_AlphaBuckets)) := by
  refine ⟨?_, ?_, ?_⟩
  · intro pre b post hl hpre hb
    rw [FindBucket_of_solid M h self material b (find?_first hl hpre hb)]
    exact ⟨rfl, rfl, rfl, rfl⟩
  · intro pre b post hs hl hpre hb
    rw [FindBucket_of_alpha M h self material b (find?_none_of_false hs) (find?_first hl hpre hb)]
    exact ⟨rfl, rfl, rfl, rfl⟩
  · intro hs ha
    rw [FindBucket_of_none M h self material (find?_none_of_false hs) (find?_none_of_false ha)]
    have hobj : (new_RAS_MaterialBucket h material).1.materialBucket h.next
        = { m_material := material, m_meshSlots := [], m_displayArrayBucketList := [] } := by
      simp [new_RAS_MaterialBucket, RAS_MaterialBucket.ctor, operator_new, store]
    by_cases halpha : M.IsAlpha material = true
    · rw [if_pos halpha]
      refine ⟨rfl, rfl, hobj, fun _ => ⟨rfl, rfl⟩, fun hf => ?_⟩
      rw [halpha] at hf; exact Bool.noConfusion hf
    · rw [if_neg halpha]
      exact ⟨rfl, rfl, hobj, fun ht => absurd ht halpha, fun _ => ⟨rfl, rfl⟩⟩

/-- Witness of C5: in the manager with the solid buckets 1, 2, 3, 4 the lookup
of the material 12 returns the bucket 1, whose material 11 is equal by value;
the lookup of the alpha material 21 creates the bucket 5 in the alpha
collection. -/
theorem C5_FindBucket_finds_or_creates_witness :
    ((FindBucket materialsByTens heapFourBuckets managerFourSolid 12).bucket = 1
      ∧ (FindBucket materialsByTens heapFourBuckets managerFourSolid 12).bucketCreated = false)
    ∧ ((FindBucket materialsByTens heapFourBuckets managerFourSolid 21).bucketCreated = true
      ∧ (FindBucket materialsByTens heapFourBuckets managerFourSolid 21).manager.m_AlphaBuckets
          = [5]) :=
  ⟨⟨((C5_FindBucket_finds_or_creates materialsByTens heapFourBuckets managerFourSolid 12).1
        [] 1 [2, 3, 4] rfl (by decide) (by decide)).1,
     ((C5_FindBucket_finds_or_creates materialsByTens heapFourBuckets managerFourSolid 12).1
        [] 1 [2, 3, 4] rfl (by decide) (by decide)).2.1⟩,
   ⟨((C5_FindBucket_finds_or_creates materialsByTens heapFourBuckets managerFourSolid 21).2.2
        (by decide) (by decide)).1,
     (((C5_FindBucket_finds_or_creates materialsByTens heapFourBuckets managerFourSolid 21).2.2
        (by decide) (by decide)).2.2.2.1 (by decide)).1.trans (by decide)⟩⟩

/-- C6, as stated, fails for MergeBucketManager: two managers that each map
a material to one bucket (bucket 1 with material 11, bucket 2 with material 12,
the materials equal by value) are merged into a manager with two distinct
buckets whose materials compare equal. -/
theorem C6_merge_breaks_uniqueness :
    MaterialsUnique materialsByTens heapFourBuckets managerOne
    ∧ MaterialsUnique materialsByTens heapFourBuckets managerTwo
    ∧ (MergeBucketManager managerOne managerTwo).1.m_SolidBuckets = [1, 2]
    ∧ materialsByTens.equals (GetPolyMaterial heapFourBuckets 1)
        (GetPolyMaterial heapFourBuckets 2) = true
    ∧ ¬ MaterialsUnique materialsByTens heapFourBuckets
        (MergeBucketManager managerOne managerTwo).1 := by
  decide

/-- C6, amended: with a symmetric material equality, the invariant that no two
distinct buckets of the solid and alpha collections have materials that compare
equal holds for a newly constructed manager and is preserved by FindBucket (on
a manager whose buckets are allocated) and by RemoveMaterial;
MergeBucketManager preserves it when, and only when, no bucket of the other
manager has a material that compares equal to the material of a different
bucket of this manager: the merged manager satisfies the invariant if and only
if both managers satisfy it and no such pair of buckets exists. -/
theorem C6_materials_unique_invariant (M : Materials) (h : Heap)
    (self other : RAS_BucketManager) (material mat : Nat)
    (hsymm : ∀ a b, M.equals a b = true → M.equals b a = true) :
    MaterialsUnique M h RAS_BucketManager.ctor
    ∧ (MaterialsUnique M h self →
        (∀ b ∈ self.m_SolidBuckets ++ self.m_AlphaBuckets, b < h.next) →
        MaterialsUnique M (FindBucket M h self material).heap
          (FindBucket M h self material).manager)
    ∧ (MaterialsUnique M h self →
        MaterialsUnique M (RemoveMaterial h self mat).1 (RemoveMaterial h self mat).2)
    ∧ (MaterialsUnique M h self → MaterialsUnique M h other →
        (∀ a ∈ self.m_SolidBuckets ++ self.m_AlphaBuckets,
          ∀ b ∈ other.m_SolidBuckets ++ other.m_AlphaBuckets,
            a ≠ b → M.equals (GetPolyMaterial h a) (GetPolyMaterial h b) = false) →
        MaterialsUnique M h (MergeBucketManager self other).1
        ∧ MaterialsUnique M h (MergeBucketManager self other).2)
    ∧ (MaterialsUnique M h (MergeBucketManager self other).1
        ↔ MaterialsUnique M h self ∧ MaterialsUnique M h other
          ∧ ∀ a ∈ self.m_SolidBuckets ++ self.m_AlphaBuckets,
              ∀ b ∈ other.m_SolidBuckets ++ other.m_AlphaBuckets,
                a ≠ b → M.equals (GetPolyMaterial h a) (GetPolyMaterial h b) = false) := by
  have hflip : ∀ x y, M.equals x y = false → M.equals y x = false := by
    intro x y hxy
    cases hyx : M.equals y x with
    | false => rfl
    | true => rw [hsymm y x hyx] at hxy; exact Bool.noConfusion hxy
  have hsplit : ∀ x, x ∈ (MergeBucketManager self other).1.m_SolidBuckets
        ++ (MergeBucketManager self other).1.m_AlphaBuckets ↔
      x ∈ self.m_SolidBuckets ++ self.m_AlphaBuckets
        ∨ x ∈ other.m_SolidBuckets ++ other.m_AlphaBuckets := by
    intro x
    simp only [MergeBucketManager, List.mem_append]
    tauto
  have hmerge : MaterialsUnique M h self → MaterialsUnique M h other →
      (∀ a ∈ self.m_SolidBuckets ++ self.m_AlphaBuckets,
        ∀ b ∈ other.m_SolidBuckets ++ other.m_AlphaBuckets,
          a ≠ b → M.equals (GetPolyMaterial h a) (GetPolyMaterial h b) = false) →
      MaterialsUnique M h (MergeBucketManager self other).1 := by
    intro hself hother hcross a ha b hb hab
    rcases (hsplit a).mp ha with ha | ha <;> rcases (hsplit b).mp hb with hb | hb
    · exact hself a ha b hb hab
    · exact hcross a ha b hb hab
    · exact hflip _ _ (hcross b hb a ha (Ne.symm hab))
    · exact hother a ha b hb hab
  refine ⟨?_, ?_, ?_, ?_, ?_⟩
  · intro a ha; simp [RAS_BucketManager.ctor] at ha
  · intro hinv hfresh
    rcases FindBucket_cases M h self material with ⟨b, _, _, heq⟩ | ⟨hnone, heq⟩
    · rw [heq]; exact hinv
    · have hnew := GetPolyMaterial_new_self h material
      have hp : (new_RAS_MaterialBucket h material).2 = h.next := rfl
      rw [hp] at hnew
      have hold : ∀ x ∈ self.m_SolidBuckets ++ self.m_AlphaBuckets,
          GetPolyMaterial (new_RAS_MaterialBucket h material).1 x = GetPolyMaterial h x :=
        fun x hx => GetPolyMaterial_new_other h material x (Nat.ne_of_lt (hfresh x hx))
      have key : ∀ a, (a ∈ self.m_SolidBuckets ++ self.m_AlphaBuckets ∨ a = h.next) →
          ∀ b, (b ∈ self.m_SolidBuckets ++ self.m_AlphaBuckets ∨ b = h.next) → a ≠ b →
          M.equals (GetPolyMaterial (new_RAS_MaterialBucket h material).1 a)
            (GetPolyMaterial (new_RAS_MaterialBucket h material).1 b) = false := by
        intro a ha b hb hab
        rcases ha with ha | ha <;> rcases hb with hb | hb
        · rw [hold a ha, hold b hb]; exact hinv a ha b hb hab
        · rw [hold a ha, hb, hnew]; exact hnone a ha
        · rw [ha, hnew, hold b hb]; exact hflip _ _ (hnone b hb)
        · exact absurd (ha.trans hb.symm) hab
      rw [heq]
      split
      · intro a ha b hb hab
        refine key a ?_ b ?_ hab
        · simp only [List.mem_append, List.mem_singleton] at ha ⊢; tauto
        · simp only [List.mem_append, List.mem_singleton] at hb ⊢; tauto
      · intro a ha b hb hab
        refine key a ?_ b ?_ hab
        · simp only [List.mem_append, List.mem_singleton] at ha ⊢; tauto
        · simp only [List.mem_append, List.mem_singleton] at hb ⊢; tauto
  · intro hinv
    have hg : ∀ b, GetPolyMaterial (RemoveMaterial h self mat).1 b = GetPolyMaterial h b := by
      intro b
      unfold GetPolyMaterial RemoveMaterial
      rw [RemoveMaterial_loop_materialBucket, RemoveMaterial_loop_materialBucket]
    have hsub : ∀ a ∈ (RemoveMaterial h self mat).2.m_SolidBuckets
          ++ (RemoveMaterial h self mat).2.m_AlphaBuckets,
        a ∈ self.m_SolidBuckets ++ self.m_AlphaBuckets := by
      intro a ha
      have hs : (RemoveMaterial h self mat).2.m_SolidBuckets
          = self.m_SolidBuckets.filter (fun b => decide (GetPolyMaterial h b ≠ mat)) :=
        RemoveMaterial_loop_zero mat h self.m_SolidBuckets
      have hal : (RemoveMaterial h self mat).2.m_AlphaBuckets
          = self.m_AlphaBuckets.filter
              (fun b => decide (GetPolyMaterial
                (RemoveMaterial.loop mat h self.m_SolidBuckets 0).1 b ≠ mat)) :=
        RemoveMaterial_loop_zero mat _ self.m_AlphaBuckets
      rw [hs, hal] at ha
      rcases List.mem_append.mp ha with ha | ha
      · exact List.mem_append_left _ (List.mem_of_mem_filter ha)
      · exact List.mem_append_right _ (List.mem_of_mem_filter ha)
    intro a ha b hb hab
    rw [hg a, hg b]
    exact hinv a (hsub a ha) b (hsub b hb) hab
  · intro hself hother hcross
    refine ⟨hmerge hself hother hcross, ?_⟩
    intro a ha; simp [MergeBucketManager] at ha
  · constructor
    · intro hm
      refine ⟨?_, ?_, ?_⟩
      · intro a ha b hb hab
        exact hm a ((hsplit a).mpr (Or.inl ha)) b ((hsplit b).mpr (Or.inl hb)) hab
      · intro a ha b hb hab
        exact hm a ((hsplit a).mpr (Or.inr ha)) b ((hsplit b).mpr (Or.inr hb)) hab
      · intro a ha b hb hab
        exact hm a ((hsplit a).mpr (Or.inl ha)) b ((hsplit b).mpr (Or.inr hb)) hab
    · intro hall
      exact hmerge hall.1 hall.2.1 hall.2.2

/-- Witness of C6 amended, on the manager with the solid buckets 1 and 2
(materials 5 and 11) and the alpha bucket 3 (material 21): the lookup of the
new alpha material 45 appends the bucket 5 and keeps the invariant; the
removal of the material 11 leaves the solid bucket 1 and keeps the invariant;
the merge with the manager of the bucket 4 (material 31), which shares no
material with it, gives the collections 1, 2 and 3, 4 and keeps the invariant,
and from the invariant of the merged manager the absence of an equal pair
follows; the merge of the managers of the buckets 1 and 2 of
`heapFourBuckets`, whose materials 11 and 12 compare equal, does not keep
it. -/
theorem C6_materials_unique_invariant_witness :
    MaterialsUnique materialsByTens heapDistinctMaterials managerThree
    ∧ MaterialsUnique materialsByTens heapDistinctMaterials managerFourth
    ∧ (FindBucket materialsByTens heapDistinctMaterials managerThree 45).manager
        = { m_SolidBuckets := [1, 2], m_AlphaBuckets := [3, 5] }
    ∧ MaterialsUnique materialsByTens
        (FindBucket materialsByTens heapDistinctMaterials managerThree 45).heap
        (FindBucket materialsByTens heapDistinctMaterials managerThree 45).manager
    ∧ (RemoveMaterial heapDistinctMaterials managerThree 11).2.m_SolidBuckets = [1]
    ∧ MaterialsUnique materialsByTens
        (RemoveMaterial heapDistinctMaterials managerThree 11).1
        (RemoveMaterial heapDistinctMaterials managerThree 11).2
    ∧ (MergeBucketManager managerThree managerFourth).1
        = { m_SolidBuckets := [1, 2], m_AlphaBuckets := [3, 4] }
    ∧ MaterialsUnique materialsByTens heapDistinctMaterials
        (MergeBucketManager managerThree managerFourth).1
    ∧ (∀ a ∈ managerThree.m_SolidBuckets ++ managerThree.m_AlphaBuckets,
        ∀ b ∈ managerFourth.m_SolidBuckets ++ managerFourth.m_AlphaBuckets,
          a ≠ b → materialsByTens.equals (GetPolyMaterial heapDistinctMaterials a)
            (GetPolyMaterial heapDistinctMaterials b) = false)
    ∧ MaterialsUnique materialsByTens heapFourBuckets managerOne
    ∧ MaterialsUnique materialsByTens heapFourBuckets managerTwo
    ∧ ¬ MaterialsUnique materialsByTens heapFourBuckets
        (MergeBucketManager managerOne managerTwo).1 := by
  have hsymm : ∀ a b, materialsByTens.equals a b = true → materialsByTens.equals b a = true :=
    fun a b => by simp only [materialsByTens, decide_eq_true_eq]; exact Eq.symm
  have h3 := C6_materials_unique_invariant materialsByTens heapDistinctMaterials
    managerThree managerFourth 45 11 hsymm
  have h4 := C6_materials_unique_invariant materialsByTens heapFourBuckets
    managerOne managerTwo 45 11 hsymm
  have hself : MaterialsUnique materialsByTens heapDistinctMaterials managerThree := by
    decide
  have hother : MaterialsUnique materialsByTens heapDistinctMaterials managerFourth := by
    decide
  have hmerged := (h3.2.2.2.1 hself hother (by decide)).1
  have hremoved : (RemoveMaterial heapDistinctMaterials managerThree 11).2.m_SolidBuckets
      = [1] :=
    (RemoveMaterial_loop_zero 11 heapDistinctMaterials managerThree.m_SolidBuckets).trans
      (by decide)
  refine ⟨hself, hother, by decide, h3.2.1 hself (by decide), hremoved, h3.2.2.1 hself, rfl,
    hmerged, (h3.2.2.2.2.mp hmerged).2.2, by decide, by decide, ?_⟩
  intro hu
  have hcross := (h4.2.2.2.2.mp hu).2.2
  have hfalse := hcross 1 (by decide) 2 (by decide) (by decide)
  exact absurd hfalse (by decide)

/-- C7, as stated, fails for N = 2: of two replicas of the display array
bucket 2 (created at the addresses 20 and 22), the first Release already
destroys the replica 20, and the two calls of Release result in two destruction
events, not one. -/
theorem C7_two_replicas_two_destructions :
    (replicas heapOneArrayBucket 2 2).2 = [20, 22]
    ∧ destroyedArrayBuckets
        (releaseAll (replicas heapOneArrayBucket 2 2).1
          ((replicas heapOneArrayBucket 2 2).2.take 1)).destroyed = [20]
    ∧ destroyedArrayBuckets
        (releaseAll (replicas heapOneArrayBucket 2 2).1
          (replicas heapOneArrayBucket 2 2).2).destroyed = [20, 22]
    ∧ (destroyedArrayBuckets
        (releaseAll (replicas heapOneArrayBucket 2 2).1
          (replicas heapOneArrayBucket 2 2).2).destroyed).length ≠ 1 := by
  decide

/-- C7, amended: for every N, every replica created by GetReplica has its own
reference count 1, so each Release of a replica handle destroys that replica:
creating N replicas of an allocated display array bucket destroys nothing, and
after Release has been called on the first k of the N handles (k <= N) exactly
those k replicas have been destroyed, one per call and in the order of the
calls; releasing all N handles results in N destruction events, and the
original bucket is not among the destroyed. -/
theorem C7_each_release_destroys_its_replica (h : Heap) (b N : Nat) (hb : b < h.next) :
    (replicas h b N).2.length = N
    ∧ (replicas h b N).2.Nodup
    ∧ b ∉ (replicas h b N).2
    ∧ destroyedArrayBuckets (replicas h b N).1.destroyed = destroyedArrayBuckets h.destroyed
    ∧ (∀ k ≤ N,
        destroyedArrayBuckets
            (releaseAll (replicas h b N).1 ((replicas h b N).2.take k)).destroyed
          = destroyedArrayBuckets h.destroyed ++ (replicas h b N).2.take k)
    ∧ (destroyedArrayBuckets (releaseAll (replicas h b N).1 (replicas h b N).2).destroyed).length
        = (destroyedArrayBuckets h.destroyed).length + N := by
  obtain ⟨hlen, hnd, hge, hone, hdes, _⟩ := replicas_spec b N h
  have hall : ∀ l, l.Sublist (replicas h b N).2 →
      destroyedArrayBuckets (releaseAll (replicas h b N).1 l).destroyed
        = destroyedArrayBuckets h.destroyed ++ l := by
    intro l hl
    rw [releaseAll_destroyedArrayBuckets l _ (hnd.sublist hl)
      (fun p hp => hone p (hl.subset hp)), hdes]
  refine ⟨hlen, hnd, ?_, by rw [hdes], ?_, ?_⟩
  · intro hmem
    have := hge b hmem
    omega
  · intro k _
    exact hall _ (List.take_sublist k _)
  · rw [hall _ (List.Sublist.refl _), List.length_append, hlen]

/-- Witness of C7 amended: three replicas of the display array bucket 2. -/
theorem C7_each_release_destroys_its_replica_witness :
    (2 : Nat) < heapOneArrayBucket.next
    ∧ (destroyedArrayBuckets
        (releaseAll (replicas heapOneArrayBucket 2 3).1
          (replicas heapOneArrayBucket 2 3).2).destroyed).length = 3 :=
  ⟨by decide,
    (C7_each_release_destroys_its_replica heapOneArrayBucket 2 3 (by decide)).2.2.2.2.2⟩

/-- C8: for a display array bucket whose reference count r is at least 1 (and
a value of the unsigned counter): AddRef returns the same bucket and makes the
count r + 1 (as long as r + 1 is a value of the counter); Release makes it
r - 1; if the count is then zero it destroys the bucket (the destructor
unregisters it from the child list of its parent, then frees its display array)
and returns NULL, otherwise it returns the bucket and destroys nothing. After
construction and k calls of AddRef the first k calls of Release destroy nothing
and return the bucket, and call k + 1 destroys the bucket and its display
array. -/
theorem C8_AddRef_Release_contract (h : Heap) (p : Nat) (hp : p ≠ NULL)
    (hr : 1 ≤ GetRefCount h p) (hU : GetRefCount h p < UINT_SIZE) :
    ((AddRef h p).2 = p
      ∧ (GetRefCount h p + 1 < UINT_SIZE →
          GetRefCount (AddRef h p).1 p = GetRefCount h p + 1))
    ∧ GetRefCount (Release h p).1 p = GetRefCount h p - 1
    ∧ (GetRefCount h p = 1 →
        (Release h p).2 = NULL
        ∧ (Release h p).1.live p = false
        ∧ (Release h p).1.destroyed
            = h.destroyed
              ++ (if GetDisplayArray h p ≠ NULL then
                    [Destroyed.displayArray (GetDisplayArray h p)] else [])
              ++ [Destroyed.displayArrayBucket p]
        ∧ GetDisplayArrayBucketList (Release h p).1 (h.displayArrayBucket p).m_bucket
            = (GetDisplayArrayBucketList h (h.displayArrayBucket p).m_bucket).erase p
        ∧ (GetDisplayArray h p ≠ NULL → (Release h p).1.live (GetDisplayArray h p) = false)
        ∧ RAS_DisplayArrayBucket.dtor (Release.decrement h p) p
            = if GetDisplayArray h p ≠ NULL then
                delete_RAS_DisplayArray
                  (RemoveDisplayArrayBucket (Release.decrement h p)
                    (h.displayArrayBucket p).m_bucket p)
                  (GetDisplayArray h p)
              else
                RemoveDisplayArrayBucket (Release.decrement h p)
                  (h.displayArrayBucket p).m_bucket p)
    ∧ (GetRefCount h p ≠ 1 →
        (Release h p).2 = p ∧ (Release h p).2 ≠ NULL
        ∧ (Release h p).1.live = h.live
        ∧ (Release h p).1.destroyed = h.destroyed
        ∧ (Release h p).1.materialBucket = h.materialBucket)
    ∧ (∀ (h0 : Heap) (bucket array k : Nat), 0 < h0.next → k + 1 < UINT_SIZE →
        (∀ j ≤ k,
          (releases (addRefs (new_RAS_DisplayArrayBucket h0 bucket array).1 h0.next k)
              h0.next j).destroyed = h0.destroyed
          ∧ (releases (addRefs (new_RAS_DisplayArrayBucket h0 bucket array).1 h0.next k)
              h0.next j).live h0.next = true
          ∧ GetRefCount (releases (addRefs (new_RAS_DisplayArrayBucket h0 bucket array).1
              h0.next k) h0.next j) h0.next = k + 1 - j)
        ∧ (∀ j < k,
          (Release (releases (addRefs (new_RAS_DisplayArrayBucket h0 bucket array).1 h0.next k)
              h0.next j) h0.next).2 = h0.next)
        ∧ (Release (releases (addRefs (new_RAS_DisplayArrayBucket h0 bucket array).1 h0.next k)
              h0.next k) h0.next).2 = NULL
        ∧ (Release (releases (addRefs (new_RAS_DisplayArrayBucket h0 bucket array).1 h0.next k)
              h0.next k) h0.next).1.live h0.next = false
        ∧ (Release (releases (addRefs (new_RAS_DisplayArrayBucket h0 bucket array).1 h0.next k)
              h0.next k) h0.next).1.destroyed
            = h0.destroyed
              ++ (if array ≠ NULL then [Destroyed.displayArray array] else [])
              ++ [Destroyed.displayArrayBucket h0.next]) := by
  refine ⟨⟨rfl, fun hmax => ?_⟩, ?_, ?_, ?_, ?_⟩
  · rw [AddRef_eq h p hmax]
    exact GetRefCount_setRefCount _ _ _
  · by_cases h1 : GetRefCount h p = 1
    · rw [Release_of_last h p h1, h1]
      unfold GetRefCount
      rw [displayArrayBucket_delete_RAS_DisplayArrayBucket]
      exact GetRefCount_setRefCount h p 0
    · rw [Release_of_more h p (by omega) hU]
      exact GetRefCount_setRefCount _ _ _
  · intro h1
    have hd := decrement_eq h p (by omega) hU
    rw [h1] at hd
    have harr : GetDisplayArray (setRefCount h p 0) p = GetDisplayArray h p := by
      simp [GetDisplayArray, setRefCount, store]
    have hpar : ((setRefCount h p 0).displayArrayBucket p).m_bucket
        = (h.displayArrayBucket p).m_bucket := by
      simp [setRefCount, store]
    rw [Release_of_last h p h1]
    refine ⟨rfl, ?_, ?_, ?_, ?_, ?_⟩
    · rw [live_delete_RAS_DisplayArrayBucket]; simp [store]
    · rw [destroyed_delete_RAS_DisplayArrayBucket, harr]; rfl
    · unfold GetDisplayArrayBucketList
      rw [materialBucket_delete_RAS_DisplayArrayBucket, hpar]
      simp [RemoveDisplayArrayBucket, setRefCount, store]
    · intro hnn
      rw [live_delete_RAS_DisplayArrayBucket, harr]
      simp only [hnn, ne_eq, not_false_eq_true, if_true]
      unfold store
      split <;> simp
    · rw [hd]
      unfold RAS_DisplayArrayBucket.dtor
      rw [hpar]
      have harr2 : ((setRefCount h p 0).displayArrayBucket p).m_displayArray
          = GetDisplayArray h p := harr
      rw [harr2]
  · intro h1
    rw [Release_of_more h p (by omega) hU]
    exact ⟨rfl, hp, rfl, rfl, rfl⟩
  · intro h0 bucket array k hnext hk
    have hc : GetRefCount (new_RAS_DisplayArrayBucket h0 bucket array).1 h0.next = 1 := by
      simp [GetRefCount, new_RAS_DisplayArrayBucket, RAS_DisplayArrayBucket.ctor,
        AddDisplayArrayBucket, operator_new, store]
    have hdes : (new_RAS_DisplayArrayBucket h0 bucket array).1.destroyed = h0.destroyed := rfl
    have hlive : (new_RAS_DisplayArrayBucket h0 bucket array).1.live h0.next = true := by
      simp [new_RAS_DisplayArrayBucket, RAS_DisplayArrayBucket.ctor,
        AddDisplayArrayBucket, operator_new, store]
    have harr : GetDisplayArray (new_RAS_DisplayArrayBucket h0 bucket array).1 h0.next
        = array := by
      simp [GetDisplayArray, new_RAS_DisplayArrayBucket, RAS_DisplayArrayBucket.ctor,
        AddDisplayArrayBucket, operator_new, store]
    have hadd := addRefs_eq (new_RAS_DisplayArrayBucket h0 bucket array).1 h0.next k
      (by rw [hc]; omega)
    rw [hc] at hadd
    have hrel : ∀ j ≤ k,
        releases (addRefs (new_RAS_DisplayArrayBucket h0 bucket array).1 h0.next k) h0.next j
          = setRefCount (new_RAS_DisplayArrayBucket h0 bucket array).1 h0.next (1 + k - j) := by
      intro j hj
      rw [hadd, releases_eq _ _ (by rw [GetRefCount_setRefCount]; omega) j
        (by rw [GetRefCount_setRefCount]; omega)]
      rw [GetRefCount_setRefCount, setRefCount_setRefCount]
    refine ⟨?_, ?_, ?_, ?_, ?_⟩
    · intro j hj
      rw [hrel j hj]
      refine ⟨hdes, hlive, ?_⟩
      rw [GetRefCount_setRefCount]; omega
    · intro j hj
      rw [hrel j (by omega),
        Release_of_more _ _ (by rw [GetRefCount_setRefCount]; omega)
          (by rw [GetRefCount_setRefCount]; omega)]
    · rw [hrel k (Nat.le_refl k),
        Release_of_last _ _ (by rw [GetRefCount_setRefCount]; omega)]
    · rw [hrel k (Nat.le_refl k),
        Release_of_last _ _ (by rw [GetRefCount_setRefCount]; omega),
        live_delete_RAS_DisplayArrayBucket]
      simp [store]
    · rw [hrel k (Nat.le_refl k),
        Release_of_last _ _ (by rw [GetRefCount_setRefCount]; omega),
        destroyed_delete_RAS_DisplayArrayBucket, setRefCount_setRefCount]
      have harr0 : GetDisplayArray
          (setRefCount (new_RAS_DisplayArrayBucket h0 bucket array).1 h0.next 0) h0.next
          = array := by
        simp [GetDisplayArray, setRefCount, new_RAS_DisplayArrayBucket,
          RAS_DisplayArrayBucket.ctor, AddDisplayArrayBucket, operator_new, store]
      rw [harr0]
      rfl

/-- Witness of C8: the display array bucket 2 with three handles, and a
display array bucket constructed at the address 20 for the display array 4,
with two further handles from AddRef. -/
theorem C8_AddRef_Release_contract_witness :
    GetRefCount (AddRef heapOneArrayBucket 2).1 2 = 4
    ∧ (Release heapOneArrayBucket 2).2 = 2
    ∧ (Release (new_RAS_DisplayArrayBucket heapOneArrayBucket 1 4).1 20).2 = NULL
    ∧ (Release (releases (addRefs (new_RAS_DisplayArrayBucket heapOneArrayBucket 1 4).1 20 2)
          20 1) 20).2 = 20
    ∧ (Release (releases (addRefs (new_RAS_DisplayArrayBucket heapOneArrayBucket 1 4).1 20 2)
          20 2) 20).1.destroyed
        = [Destroyed.displayArray 4, Destroyed.displayArrayBucket 20] :=
  ⟨(C8_AddRef_Release_contract heapOneArrayBucket 2 (by decide) (by decide) (by decide)).1.2
      (by decide),
    ((C8_AddRef_Release_contract heapOneArrayBucket 2 (by decide) (by decide)
      (by decide)).2.2.2.1 (by decide)).1,
    ((C8_AddRef_Release_contract (new_RAS_DisplayArrayBucket heapOneArrayBucket 1 4).1 20
      (by decide) (by decide) (by decide)).2.2.1 (by decide)).1,
    (C8_AddRef_Release_contract heapOneArrayBucket 2 (by decide) (by decide)
      (by decide)).2.2.2.2 heapOneArrayBucket 1 4 2 (by decide) (by decide) |>.2.1 1 (by decide),
    (C8_AddRef_Release_contract heapOneArrayBucket 2 (by decide) (by decide)
      (by decide)).2.2.2.2 heapOneArrayBucket 1 4 2 (by decide) (by decide) |>.2.2.2.2⟩

/-- C9: for every allocated display array bucket `b` whose display array, if
any, is allocated, GetReplica returns a new bucket distinct from `b` with
refcount 1, no active mesh slots, the same parent and a display array that is
a new copy of that of `b` (another address, equal content; none if `b` has
none); the child list of the parent becomes the old list with the replica
appended; the refcount, the active mesh slots and the display array of `b` are
unchanged. -/
theorem C9_GetReplica_independent_copy (h : Heap) (b : Nat) (hb : b < h.next)
    (ha : GetDisplayArray h b < h.next) :
    (GetReplica h b).2 ≠ b
    ∧ GetRefCount (GetReplica h b).1 (GetReplica h b).2 = 1
    ∧ GetActiveMeshSlots (GetReplica h b).1 (GetReplica h b).2 = []
    ∧ ((GetReplica h b).1.displayArrayBucket (GetReplica h b).2).m_bucket
        = (h.displayArrayBucket b).m_bucket
    ∧ (GetDisplayArray h b = NULL → GetDisplayArray (GetReplica h b).1 (GetReplica h b).2 = NULL)
    ∧ (GetDisplayArray h b ≠ NULL →
        GetDisplayArray (GetReplica h b).1 (GetReplica h b).2 ≠ NULL
        ∧ GetDisplayArray (GetReplica h b).1 (GetReplica h b).2 ≠ GetDisplayArray h b
        ∧ (GetReplica h b).1.displayArray (GetDisplayArray (GetReplica h b).1 (GetReplica h b).2)
            = h.displayArray (GetDisplayArray h b))
    ∧ GetDisplayArrayBucketList (GetReplica h b).1 (h.displayArrayBucket b).m_bucket
        = GetDisplayArrayBucketList h (h.displayArrayBucket b).m_bucket ++ [(GetReplica h b).2]
    ∧ (GetReplica h b).1.displayArrayBucket b = h.displayArrayBucket b
    ∧ (GetReplica h b).1.displayArray (GetDisplayArray h b)
        = h.displayArray (GetDisplayArray h b)
    ∧ (GetReplica h b).1.live (GetReplica h b).2 = true := by
  have hobj := GetReplica_object h b
  have hne : b ≠ h.next := Nat.ne_of_lt hb
  unfold GetDisplayArray at ha ⊢
  refine ⟨fun e => hne (e.symm.trans (GetReplica_replica h b)), ?_, ?_, ?_, ?_, ?_, ?_, ?_, ?_, ?_⟩
  · unfold GetRefCount; rw [GetReplica_replica, hobj]
  · unfold GetActiveMeshSlots; rw [GetReplica_replica, hobj]
  · rw [GetReplica_replica, hobj]
  · intro hnull
    rw [GetReplica_replica, hobj]
    simp [hnull]
  · intro hnn
    rw [GetReplica_replica, hobj, GetReplica_displayArray]
    simp only [hnn, ne_eq, not_false_eq_true, if_true]
    refine ⟨?_, ?_, ?_⟩
    · simp [NULL]
    · omega
    · simp [store]
  · unfold GetDisplayArrayBucketList
    rw [GetReplica_parent, GetReplica_replica]
    simp [store]
  · exact GetReplica_frame h b b hne
  · rw [GetReplica_displayArray]
    split
    · have : (h.displayArrayBucket b).m_displayArray ≠ h.next + 1 := by omega
      simp [store, this]
    · rfl
  · rw [GetReplica_live, GetReplica_replica]
    split <;> simp [store]

/-- Witness of C9: the replica of the display array bucket 2, which has three
handles, two active mesh slots and the display array 4. -/
theorem C9_GetReplica_independent_copy_witness :
    (GetReplica heapOneArrayBucket 2).2 ≠ 2
    ∧ GetRefCount (GetReplica heapOneArrayBucket 2).1 (GetReplica heapOneArrayBucket 2).2 = 1
    ∧ GetDisplayArray (GetReplica heapOneArrayBucket 2).1 (GetReplica heapOneArrayBucket 2).2
        ≠ GetDisplayArray heapOneArrayBucket 2
    ∧ GetDisplayArrayBucketList (GetReplica heapOneArrayBucket 2).1 1 = [2, 20]
    ∧ GetRefCount (GetReplica heapOneArrayBucket 2).1 2 = 3 :=
  ⟨(C9_GetReplica_independent_copy heapOneArrayBucket 2 (by decide) (by decide)).1,
    (C9_GetReplica_independent_copy heapOneArrayBucket 2 (by decide) (by decide)).2.1,
    ((C9_GetReplica_independent_copy heapOneArrayBucket 2 (by decide) (by decide)).2.2.2.2.2.1
      (by decide)).2.1,
    (C9_GetReplica_independent_copy heapOneArrayBucket 2 (by decide)
      (by decide)).2.2.2.2.2.2.1.trans (by decide),
    by decide⟩

/-- C10: after RemoveMaterial(mat) the solid collection is the former solid
collection without the buckets whose material pointer is `mat`, in the same
relative order, and likewise the alpha collection; a bucket whose material
compares equal to `mat` by value without being the identical object remains. -/
theorem C10_RemoveMaterial_removes_identical (h : Heap) (self : RAS_BucketManager) (mat : Nat) :
    (RemoveMaterial h self mat).2.m_SolidBuckets
        = self.m_SolidBuckets.filter (fun b => decide (GetPolyMaterial h b ≠ mat))
    ∧ (RemoveMaterial h self mat).2.m_AlphaBuckets
        = self.m_AlphaBuckets.filter (fun b => decide (GetPolyMaterial h b ≠ mat))
    ∧ (∀ (M : Materials), ∀ b ∈ self.m_SolidBuckets,
        M.equals (GetPolyMaterial h b) mat = true → GetPolyMaterial h b ≠ mat →
        b ∈ (RemoveMaterial h self mat).2.m_SolidBuckets)
    ∧ (∀ (M : Materials), ∀ b ∈ self.m_AlphaBuckets,
        M.equals (GetPolyMaterial h b) mat = true → GetPolyMaterial h b ≠ mat →
        b ∈ (RemoveMaterial h self mat).2.m_AlphaBuckets) := by
  have hs : (RemoveMaterial h self mat).2.m_SolidBuckets
      = self.m_SolidBuckets.filter (fun b => decide (GetPolyMaterial h b ≠ mat)) :=
    RemoveMaterial_loop_zero mat h self.m_SolidBuckets
  have ha : (RemoveMaterial h self mat).2.m_AlphaBuckets
      = self.m_AlphaBuckets.filter (fun b => decide (GetPolyMaterial h b ≠ mat)) := by
    have := RemoveMaterial_loop_zero mat (RemoveMaterial.loop mat h self.m_SolidBuckets 0).1
      self.m_AlphaBuckets
    have hg : ∀ b, GetPolyMaterial (RemoveMaterial.loop mat h self.m_SolidBuckets 0).1 b
        = GetPolyMaterial h b := by
      intro b; unfold GetPolyMaterial; rw [RemoveMaterial_loop_materialBucket]
    simp only [hg] at this
    exact this
  refine ⟨hs, ha, ?_, ?_⟩
  · intro M b hb _ hne
    rw [hs, List.mem_filter]
    exact ⟨hb, by simpa using hne⟩
  · intro M b hb _ hne
    rw [ha, List.mem_filter]
    exact ⟨hb, by simpa using hne⟩

/-- Witness of C10: removing the material 11 from the solid collection
1, 2, 3, 4 (the buckets 3 and 4 are adjacent matches) leaves the bucket 2,
whose material 12 is equal to 11 by value. -/
theorem C10_RemoveMaterial_removes_identical_witness :
    (RemoveMaterial heapFourBuckets managerFourSolid 11).2.m_SolidBuckets = [2]
    ∧ materialsByTens.equals (GetPolyMaterial heapFourBuckets 2) 11 = true
    ∧ 2 ∈ (RemoveMaterial heapFourBuckets managerFourSolid 11).2.m_SolidBuckets :=
  ⟨(C10_RemoveMaterial_removes_identical heapFourBuckets managerFourSolid 11).1.trans
      (by decide),
    by decide,
    (C10_RemoveMaterial_removes_identical heapFourBuckets managerFourSolid 11).2.2.1
      materialsByTens 2 (by decide) (by decide) (by decide)⟩

/-- C11: for two distinct managers A and B, after A.MergeBucketManager(B) the
manager B has no solid and no alpha bucket, the solid collection of A is its
old solid collection followed by the old solid collection of B, in order, and
likewise the alpha collection; so the counts of A are the sums of the counts
before the merge, every bucket is kept once and none changes its kind; the
other managers are unchanged. -/
theorem C11_MergeBucketManager_concatenates (m : Nat → RAS_BucketManager) (a b : Nat)
    (hab : a ≠ b) :
    (MergeBucketManager.inStore m a b b).m_SolidBuckets = []
    ∧ (MergeBucketManager.inStore m a b b).m_AlphaBuckets = []
    ∧ (MergeBucketManager.inStore m a b a).m_SolidBuckets
        = (m a).m_SolidBuckets ++ (m b).m_SolidBuckets
    ∧ (MergeBucketManager.inStore m a b a).m_AlphaBuckets
        = (m a).m_AlphaBuckets ++ (m b).m_AlphaBuckets
    ∧ (MergeBucketManager.inStore m a b a).m_SolidBuckets.length
        = (m a).m_SolidBuckets.length + (m b).m_SolidBuckets.length
    ∧ (MergeBucketManager.inStore m a b a).m_AlphaBuckets.length
        = (m a).m_AlphaBuckets.length + (m b).m_AlphaBuckets.length
    ∧ MergeBucketManager.inStore m a b a = (MergeBucketManager (m a) (m b)).1
    ∧ MergeBucketManager.inStore m a b b = (MergeBucketManager (m a) (m b)).2
    ∧ (∀ c, c ≠ a → c ≠ b → MergeBucketManager.inStore m a b c = m c) := by
  have hba : b ≠ a := fun e => hab e.symm
  have ha : MergeBucketManager.inStore m a b a = (MergeBucketManager (m a) (m b)).1 := by
    simp [MergeBucketManager.inStore, MergeBucketManager, store, hab, hba]
  have hb : MergeBucketManager.inStore m a b b = (MergeBucketManager (m a) (m b)).2 := by
    simp [MergeBucketManager.inStore, MergeBucketManager, store, hab, hba]
  refine ⟨?_, ?_, ?_, ?_, ?_, ?_, ha, hb, ?_⟩
  · rw [hb]; rfl
  · rw [hb]; rfl
  · rw [ha]; rfl
  · rw [ha]; rfl
  · rw [ha]; simp [MergeBucketManager]
  · rw [ha]; simp [MergeBucketManager]
  · intro c hca hcb
    simp [MergeBucketManager.inStore, store, hca, hcb]

/-- Witness of C11: the manager at 200 merged into the manager at 100. -/
theorem C11_MergeBucketManager_concatenates_witness :
    (100 : Nat) ≠ 200
    ∧ MergeBucketManager.inStore storeTwoManagers 100 200 200
        = { m_SolidBuckets := [], m_AlphaBuckets := [] }
    ∧ (MergeBucketManager.inStore storeTwoManagers 100 200 100).m_SolidBuckets = [1, 2, 3]
    ∧ (MergeBucketManager.inStore storeTwoManagers 100 200 100).m_AlphaBuckets = [5, 6, 7] :=
  ⟨by decide,
    (C11_MergeBucketManager_concatenates storeTwoManagers 100 200 (by decide)).2.2.2.2.2.2.2.1,
    (C11_MergeBucketManager_concatenates storeTwoManagers 100 200 (by decide)).2.2.1,
    (C11_MergeBucketManager_concatenates storeTwoManagers 100 200 (by decide)).2.2.2.1⟩

/-- C14, as stated, fails: the distinct mesh slots 11, whose depth is NaN,
and 12, at depth 3, are queued in one display array bucket; with the active
mesh slots in the order 11, 12 OrderBuckets leaves them in that order, with
the active mesh slots in the order 12, 11 it leaves them in this other order,
for alpha=true and for alpha=false: every comparison with the NaN depth is
false, so the sort moves nothing. -/
theorem C14_order_depends_on_iteration_order_at_NaN_depth :
    heapDepthNaNPermuted.meshSlot = heapDepthNaN.meshSlot
    ∧ heapDepthNaNPermuted.materialBucket = heapDepthNaN.materialBucket
    ∧ (GetActiveMeshSlots heapDepthNaNPermuted 2).Perm (GetActiveMeshSlots heapDepthNaN 2)
    ∧ (displayArrayBucketsOf heapDepthNaN [1]).Nodup
    ∧ (activeMeshSlotsOf heapDepthNaN [1]).Nodup
    ∧ slotDepth heapDepthNaN identityCamera 11 = MT_Scalar.nan
    ∧ (OrderBuckets heapDepthNaN identityCamera [1] [] true).2
        = [⟨MT_Scalar.nan, 11, 1⟩, ⟨3, 12, 1⟩]
    ∧ (OrderBuckets heapDepthNaNPermuted identityCamera [1] [] true).2
        = [⟨3, 12, 1⟩, ⟨MT_Scalar.nan, 11, 1⟩]
    ∧ (OrderBuckets heapDepthNaN identityCamera [1] [] false).2
        = [⟨MT_Scalar.nan, 11, 1⟩, ⟨3, 12, 1⟩]
    ∧ (OrderBuckets heapDepthNaNPermuted identityCamera [1] [] false).2
        = [⟨3, 12, 1⟩, ⟨MT_Scalar.nan, 11, 1⟩]
    ∧ (OrderBuckets heapDepthNaNPermuted identityCamera [1] [] true).2
        ≠ (OrderBuckets heapDepthNaN identityCamera [1] [] true).2
    ∧ (OrderBuckets heapDepthNaNPermuted identityCamera [1] [] false).2
        ≠ (OrderBuckets heapDepthNaN identityCamera [1] [] false).2 := by
  refine ⟨rfl, rfl, by decide, by decide, by decide, by decide, by decide, by decide,
    by decide, by decide, by decide, by decide⟩

/-- C14, amended: the sequence produced by OrderBuckets does not depend on the
order of the containers when no entry of it is at a NaN depth: when the active
mesh slots are pairwise distinct (and no display array bucket is listed
twice), permuting the buckets of the collection, the display array buckets of
each bucket and the active mesh slots of each display array bucket yields the
same output sequence on the same machine, for alpha=true and for
alpha=false. -/
theorem C14_OrderBuckets_independent_of_iteration_order (h k : Heap)
    (cameratrans : MT_Transform) (buckets permuted : List Nat)
    (slots slots2 : List sortedmeshslot) (alpha : Bool)
    (hms : k.meshSlot = h.meshSlot)
    (hfp : k.fp = h.fp)
    (hb : permuted.Perm buckets)
    (hd : ∀ b, (GetDisplayArrayBucketList k b).Perm (GetDisplayArrayBucketList h b))
    (ha : ∀ d, (GetActiveMeshSlots k d).Perm (GetActiveMeshSlots h d))
    (hnd : (displayArrayBucketsOf h buckets).Nodup)
    (hdistinct : (activeMeshSlotsOf h buckets).Nodup)
    (hnan : ∀ e ∈ (OrderBuckets h cameratrans buckets slots alpha).2, e.m_z ≠ MT_Scalar.nan) :
    (OrderBuckets k cameratrans permuted slots2 alpha).2
      = (OrderBuckets h cameratrans buckets slots alpha).2 := by
  have hnd2 : (displayArrayBucketsOf k permuted).Nodup :=
    (displayArrayBucketsOf_perm h k buckets permuted hb hd).nodup_iff.mpr hnd
  have hq := queued_perm h k (cameratrans.getBasis.get 2) buckets permuted hms hfp hb hd ha
  have hmap : ((queued k (cameratrans.getBasis.get 2) permuted).map (fun e => e.m_ms)).Nodup := by
    refine (hq.map _).nodup_iff.mpr ?_
    rw [map_ms_queued]
    exact hdistinct
  rw [OrderBuckets_eq h cameratrans buckets slots alpha hnd] at hnan
  have hnan2 : ∀ e ∈ queued k (cameratrans.getBasis.get 2) permuted, e.m_z ≠ MT_Scalar.nan :=
    fun e he => hnan e ((std_sort_perm _ _).mem_iff.mpr (hq.mem_iff.mp he))
  rw [OrderBuckets_eq h cameratrans buckets slots alpha hnd,
    OrderBuckets_eq k cameratrans permuted slots2 alpha hnd2]
  exact std_sort_perm_eq alpha _ _ hq hnan2 hmap

/-- Witness of C14 amended: the four slots at depths 5, 2, 2, 8 queued in two
different orders. -/
theorem C14_OrderBuckets_independent_of_iteration_order_witness :
    GetActiveMeshSlots heapDepths5228Permuted 2 ≠ GetActiveMeshSlots heapDepths5228 2
    ∧ (∀ e ∈ (OrderBuckets heapDepths5228 identityCamera [1] [] true).2,
        e.m_z ≠ MT_Scalar.nan)
    ∧ (∀ e ∈ (OrderBuckets heapDepths5228 identityCamera [1] [] false).2,
        e.m_z ≠ MT_Scalar.nan)
    ∧ (OrderBuckets heapDepths5228Permuted identityCamera [1] [] true).2
        = (OrderBuckets heapDepths5228 identityCamera [1] [] true).2
    ∧ (OrderBuckets heapDepths5228Permuted identityCamera [1] [] false).2
        = (OrderBuckets heapDepths5228 identityCamera [1] [] false).2 :=
  ⟨by decide, by decide, by decide,
    C14_OrderBuckets_independent_of_iteration_order heapDepths5228 heapDepths5228Permuted
      identityCamera [1] [1] [] [] true rfl rfl (List.Perm.refl _) (fun _ => List.Perm.refl _)
      (fun d => by
        by_cases hd2 : d = 2
        · subst hd2; decide
        · simp [GetActiveMeshSlots, heapDepths5228Permuted, heapDepths5228, hd2])
      (by decide) (by decide) (by decide),
    C14_OrderBuckets_independent_of_iteration_order heapDepths5228 heapDepths5228Permuted
      identityCamera [1] [1] [] [] false rfl rfl (List.Perm.refl _) (fun _ => List.Perm.refl _)
      (fun d => by
        by_cases hd2 : d = 2
        · subst hd2; decide
        · simp [GetActiveMeshSlots, heapDepths5228Permuted, heapDepths5228, hd2])
      (by decide) (by decide) (by decide)⟩

/-- C17: when a child display array bucket of the material bucket has the
display array `a`, FindDisplayArrayBucket(a) returns the first such child and
changes nothing (the child list and the reference count of the child are as
before); otherwise it returns a new display array bucket with reference count
1, no active mesh slot and the display array `a`, and the child list becomes
the old list with the new bucket appended. So a second
FindDisplayArrayBucket(a) returns the bucket of the first call and changes
nothing (the children being allocated). -/
theorem C17_FindDisplayArrayBucket_finds_or_creates (h : Heap) (self a : Nat) :
    (∀ pre d post, GetDisplayArrayBucketList h self = pre ++ d :: post →
        (∀ x ∈ pre, GetDisplayArray h x ≠ a) → GetDisplayArray h d = a →
        (FindDisplayArrayBucket h self a).2 = d
        ∧ (FindDisplayArrayBucket h self a).1 = h)
    ∧ ((∀ x ∈ GetDisplayArrayBucketList h self, GetDisplayArray h x ≠ a) →
        (FindDisplayArrayBucket h self a).2 = h.next
        ∧ (FindDisplayArrayBucket h self a).1.displayArrayBucket
              (FindDisplayArrayBucket h self a).2
            = { m_refcount := 1, m_bucket := self, m_displayArray := a,
                m_activeMeshSlots := [] }
        ∧ GetDisplayArrayBucketList (FindDisplayArrayBucket h self a).1 self
            = GetDisplayArrayBucketList h self ++ [(FindDisplayArrayBucket h self a).2])
    ∧ ((∀ x ∈ GetDisplayArrayBucketList h self, x < h.next) →
        FindDisplayArrayBucket (FindDisplayArrayBucket h self a).1 self a
          = ((FindDisplayArrayBucket h self a).1, (FindDisplayArrayBucket h self a).2)) := by
  refine ⟨?_, ?_, ?_⟩
  · intro pre d post hl hpre hd
    have hf : (GetDisplayArrayBucketList h self).find?
        (fun x => decide (GetDisplayArray h x = a)) = some d :=
      find?_first hl (fun x hx => by simpa using hpre x hx) (by simpa using hd)
    rw [FindDisplayArrayBucket_of_some h self a d hf]
    exact ⟨rfl, rfl⟩
  · intro hnone
    have hf : (GetDisplayArrayBucketList h self).find?
        (fun x => decide (GetDisplayArray h x = a)) = none :=
      find?_none_of_false (fun x hx => by simpa using hnone x hx)
    rw [FindDisplayArrayBucket_of_none h self a hf]
    refine ⟨rfl, new_RAS_DisplayArrayBucket_object h self a, ?_⟩
    rw [new_RAS_DisplayArrayBucket_list, if_pos rfl]
    rfl
  · intro hfresh
    cases hf : (GetDisplayArrayBucketList h self).find?
        (fun x => decide (GetDisplayArray h x = a)) with
    | some d =>
      rw [FindDisplayArrayBucket_of_some h self a d hf]
      exact FindDisplayArrayBucket_of_some h self a d hf
    | none =>
      rw [FindDisplayArrayBucket_of_none h self a hf]
      apply FindDisplayArrayBucket_of_some
      rw [new_RAS_DisplayArrayBucket_list, if_pos rfl, List.find?_append]
      have hold : (GetDisplayArrayBucketList h self).find?
          (fun x => decide
            (GetDisplayArray (new_RAS_DisplayArrayBucket h self a).1 x = a)) = none := by
        rw [← hf]
        apply find?_congr_mem
        intro x hx
        unfold GetDisplayArray
        rw [new_RAS_DisplayArrayBucket_frame h self a x (Nat.ne_of_lt (hfresh x hx))]
      rw [hold]
      have hnew : GetDisplayArray (new_RAS_DisplayArrayBucket h self a).1 h.next = a := by
        unfold GetDisplayArray
        rw [new_RAS_DisplayArrayBucket_object]
      simp [List.find?_cons, hnew]
      rfl

/-- Witness of C17: in the bucket with the children 2 (display array 4) and 3
(display array 5), the display array 5 is found in the child 3, and the display
array 9 gets the new child 20. -/
theorem C17_FindDisplayArrayBucket_finds_or_creates_witness :
    (FindDisplayArrayBucket heapTwoArrayBuckets 1 5).2 = 3
    ∧ (FindDisplayArrayBucket heapTwoArrayBuckets 1 9).2 = 20
    ∧ GetDisplayArrayBucketList (FindDisplayArrayBucket heapTwoArrayBuckets 1 9).1 1
        = [2, 3, 20]
    ∧ (FindDisplayArrayBucket (FindDisplayArrayBucket heapTwoArrayBuckets 1 9).1 1 9).2 = 20 :=
  ⟨((C17_FindDisplayArrayBucket_finds_or_creates heapTwoArrayBuckets 1 5).1 [2] 3 []
      (by decide) (by decide) (by decide)).1,
    ((C17_FindDisplayArrayBucket_finds_or_creates heapTwoArrayBuckets 1 9).2.1 (by decide)).1,
    ((C17_FindDisplayArrayBucket_finds_or_creates heapTwoArrayBuckets 1 9).2.1
      (by decide)).2.2.trans (by decide),
    (congrArg Prod.snd
      ((C17_FindDisplayArrayBucket_finds_or_creates heapTwoArrayBuckets 1 9).2.2
        (by decide))).trans (by decide)⟩

/-- C18: RemoveMesh of a mesh slot that is not in the list of the material
bucket changes nothing and destroys nothing; RemoveMesh of a mesh slot of the
list erases its first occurrence (the list is one shorter, the other slots keep
their order) and destroys the slot. RemoveDisplayArrayBucket does the same on
the child list and destroys nothing. -/
theorem C18_RemoveMesh_tolerates_absent (h : Heap) (self s : Nat) :
    (s ∉ (h.materialBucket self).m_meshSlots → RemoveMesh h self s = h)
    ∧ (∀ pre post, (h.materialBucket self).m_meshSlots = pre ++ s :: post → s ∉ pre →
        ((RemoveMesh h self s).materialBucket self).m_meshSlots = pre ++ post
        ∧ ((RemoveMesh h self s).materialBucket self).m_meshSlots.length + 1
            = (h.materialBucket self).m_meshSlots.length
        ∧ (RemoveMesh h self s).destroyed = h.destroyed ++ [Destroyed.meshSlot s]
        ∧ (RemoveMesh h self s).live s = false)
    ∧ (s ∉ GetDisplayArrayBucketList h self → RemoveDisplayArrayBucket h self s = h)
    ∧ (∀ pre post, GetDisplayArrayBucketList h self = pre ++ s :: post → s ∉ pre →
        GetDisplayArrayBucketList (RemoveDisplayArrayBucket h self s) self = pre ++ post
        ∧ (GetDisplayArrayBucketList (RemoveDisplayArrayBucket h self s) self).length + 1
            = (GetDisplayArrayBucketList h self).length)
    ∧ (RemoveDisplayArrayBucket h self s).destroyed = h.destroyed
    ∧ (RemoveDisplayArrayBucket h self s).live = h.live := by
  refine ⟨?_, ?_, ?_, ?_, rfl, rfl⟩
  · intro hs
    unfold RemoveMesh
    rw [if_neg hs]
  · intro pre post hl hpre
    have hmem : s ∈ (h.materialBucket self).m_meshSlots := by rw [hl]; simp
    have hlist : ((RemoveMesh h self s).materialBucket self).m_meshSlots = pre ++ post := by
      unfold RemoveMesh
      rw [if_pos hmem]
      simp only [delete_RAS_MeshSlot, store, if_true]
      exact erase_first_occurrence hl hpre
    refine ⟨hlist, ?_, ?_, ?_⟩
    · rw [hlist, hl]; simp; omega
    · unfold RemoveMesh; rw [if_pos hmem]; rfl
    · unfold RemoveMesh; rw [if_pos hmem]; simp [delete_RAS_MeshSlot, store]
  · intro hs
    unfold GetDisplayArrayBucketList at hs
    unfold RemoveDisplayArrayBucket
    rw [List.erase_of_not_mem hs]
    have : store h.materialBucket self (h.materialBucket self) = h.materialBucket :=
      store_self _ _
    simp [this]
  · intro pre post hl hpre
    have hlist : GetDisplayArrayBucketList (RemoveDisplayArrayBucket h self s) self
        = pre ++ post := by
      unfold GetDisplayArrayBucketList at hl ⊢
      simp only [RemoveDisplayArrayBucket, store, if_true]
      exact erase_first_occurrence hl hpre
    refine ⟨hlist, ?_⟩
    rw [hlist, hl]; simp; omega

/-- Witness of C18: in the bucket that owns the mesh slots 11, 12, 11,
RemoveMesh(11) leaves 12, 11, RemoveMesh(13) changes nothing, and
RemoveDisplayArrayBucket(3) leaves the child 2. -/
theorem C18_RemoveMesh_tolerates_absent_witness :
    RemoveMesh heapTwoArrayBuckets 1 13 = heapTwoArrayBuckets
    ∧ ((RemoveMesh heapTwoArrayBuckets 1 11).materialBucket 1).m_meshSlots = [12, 11]
    ∧ (RemoveMesh heapTwoArrayBuckets 1 11).destroyed = [Destroyed.meshSlot 11]
    ∧ GetDisplayArrayBucketList (RemoveDisplayArrayBucket heapTwoArrayBuckets 1 3) 1 = [2] :=
  ⟨(C18_RemoveMesh_tolerates_absent heapTwoArrayBuckets 1 13).1 (by decide),
    ((C18_RemoveMesh_tolerates_absent heapTwoArrayBuckets 1 11).2.1 [] [12, 11]
      (by decide) (by decide)).1,
    ((C18_RemoveMesh_tolerates_absent heapTwoArrayBuckets 1 11).2.1 [] [12, 11]
      (by decide) (by decide)).2.2.1,
    ((C18_RemoveMesh_tolerates_absent heapTwoArrayBuckets 1 3).2.2.2.1 [2] []
      (by decide) (by decide)).1⟩

/-- C19: the invariant of a display array bucket (reference count at least 1,
registered once in the child list of its parent and in no other child list),
for every bucket of a set `S` of display array buckets that have it: the
constructor and GetReplica establish it for the new bucket and keep it for the
buckets of `S` (the registered and the given buckets being allocated); AddRef
(below the range of the counter), a Release that does not bring the count to
zero, FindDisplayArrayBucket, ActivateMesh and RemoveActiveMeshSlots keep it; a
Release that brings the count to zero removes the bucket from the child list of
its parent and keeps the invariant of the other buckets. -/
theorem C19_array_bucket_invariant (h : Heap) (S : Nat → Prop)
    (hinv : ∀ p, S p → ArrayBucketInvariant h p) :
    (∀ bucket array, ChildrenAllocated h → (∀ p, S p → p < h.next) →
        ∀ p, S p ∨ p = (new_RAS_DisplayArrayBucket h bucket array).2 →
          ArrayBucketInvariant (new_RAS_DisplayArrayBucket h bucket array).1 p)
    ∧ (∀ b, ChildrenAllocated h → (∀ p, S p → p < h.next) →
        ∀ p, S p ∨ p = (GetReplica h b).2 → ArrayBucketInvariant (GetReplica h b).1 p)
    ∧ (∀ q, GetRefCount h q + 1 < UINT_SIZE →
        ∀ p, S p → ArrayBucketInvariant (AddRef h q).1 p)
    ∧ (∀ q, 2 ≤ GetRefCount h q → GetRefCount h q < UINT_SIZE →
        ∀ p, S p → ArrayBucketInvariant (Release h q).1 p)
    ∧ (∀ q, S q → GetRefCount h q = 1 →
        q ∉ GetDisplayArrayBucketList (Release h q).1 (h.displayArrayBucket q).m_bucket
        ∧ ∀ p, S p → p ≠ q → ArrayBucketInvariant (Release h q).1 p)
    ∧ (∀ self a, ChildrenAllocated h → (∀ p, S p → p < h.next) →
        (∀ p, S p → ArrayBucketInvariant (FindDisplayArrayBucket h self a).1 p)
        ∧ ((∀ x ∈ GetDisplayArrayBucketList h self, GetDisplayArray h x ≠ a) →
            ArrayBucketInvariant (FindDisplayArrayBucket h self a).1
              (FindDisplayArrayBucket h self a).2))
    ∧ (∀ q s, ∀ p, S p → ArrayBucketInvariant (ActivateMesh h q s) p)
    ∧ (∀ q, ∀ p, S p → ArrayBucketInvariant (RemoveActiveMeshSlots h q) p) := by
  -- the constructor
  have hctor : ∀ bucket array, ChildrenAllocated h → (∀ p, S p → p < h.next) →
      ∀ p, S p ∨ p = h.next →
        ArrayBucketInvariant (new_RAS_DisplayArrayBucket h bucket array).1 p := by
    intro bucket array halloc hS p hp
    have hnotin : ∀ b, h.next ∉ GetDisplayArrayBucketList h b :=
      fun b hm => Nat.lt_irrefl _ (halloc b _ hm)
    rcases hp with hp | hp
    · have hne : p ≠ h.next := Nat.ne_of_lt (hS p hp)
      refine ArrayBucketInvariant_of_count h _ p ?_ ?_ ?_ (hinv p hp)
      · unfold GetRefCount
        rw [new_RAS_DisplayArrayBucket_frame h bucket array p hne]
        exact (hinv p hp).1
      · rw [new_RAS_DisplayArrayBucket_frame h bucket array p hne]
      · intro b
        rw [new_RAS_DisplayArrayBucket_list]
        split
        · next hb => rw [hb, count_append_singleton_ne _ _ _ hne]
        · rfl
    · subst hp
      have hobj := new_RAS_DisplayArrayBucket_object h bucket array
      refine ⟨?_, ?_, ?_⟩
      · unfold GetRefCount; rw [hobj]
      · rw [hobj, new_RAS_DisplayArrayBucket_list, if_pos rfl, List.count_append,
          List.count_eq_zero.mpr (hnotin bucket)]
        simp
      · intro b hb
        rw [hobj] at hb
        rw [new_RAS_DisplayArrayBucket_list, if_neg hb]
        exact hnotin b
  refine ⟨hctor, ?_, ?_, ?_, ?_, ?_, ?_, ?_⟩
  · -- GetReplica
    intro d halloc hS p hp
    have hnotin : ∀ b, h.next ∉ GetDisplayArrayBucketList h b :=
      fun b hm => Nat.lt_irrefl _ (halloc b _ hm)
    rw [GetReplica_replica] at hp
    rcases hp with hp | hp
    · have hne : p ≠ h.next := Nat.ne_of_lt (hS p hp)
      refine ArrayBucketInvariant_of_count h _ p ?_ ?_ ?_ (hinv p hp)
      · unfold GetRefCount
        rw [GetReplica_frame h d p hne]
        exact (hinv p hp).1
      · rw [GetReplica_frame h d p hne]
      · intro b
        rw [GetReplica_list]
        split
        · rw [count_append_singleton_ne _ _ _ hne]
        · rfl
    · subst hp
      have hobj := GetReplica_object h d
      refine ⟨?_, ?_, ?_⟩
      · unfold GetRefCount; rw [hobj]
      · rw [hobj, GetReplica_list, if_pos rfl, List.count_append,
          List.count_eq_zero.mpr (hnotin _)]
        simp
      · intro b hb
        rw [hobj] at hb
        rw [GetReplica_list, if_neg hb]
        exact hnotin b
  · -- AddRef
    intro q hmax p hp
    rw [AddRef_eq h q hmax]
    refine ArrayBucketInvariant_of_count h _ p ?_ ?_ (fun b => rfl) (hinv p hp)
    · have := (hinv p hp).1
      by_cases hpq : p = q
      · subst hpq; rw [GetRefCount_setRefCount]; omega
      · simpa [GetRefCount, setRefCount, store, hpq] using this
    · by_cases hpq : p = q
      · subst hpq; simp [setRefCount, store]
      · simp [setRefCount, store, hpq]
  · -- a Release that leaves handles
    intro q h2 hU p hp
    rw [Release_of_more h q h2 hU]
    refine ArrayBucketInvariant_of_count h _ p ?_ ?_ (fun b => rfl) (hinv p hp)
    · have := (hinv p hp).1
      by_cases hpq : p = q
      · subst hpq; rw [GetRefCount_setRefCount]; omega
      · simpa [GetRefCount, setRefCount, store, hpq] using this
    · by_cases hpq : p = q
      · subst hpq; simp [setRefCount, store]
      · simp [setRefCount, store, hpq]
  · -- the last Release
    intro q hq h1
    refine ⟨?_, ?_⟩
    · rw [Release_last_list h q _ h1, if_pos rfl, ← List.count_eq_zero,
        List.count_erase_self, (hinv q hq).2.1]
    · intro p hp hpq
      have hobj : (Release h q).1.displayArrayBucket p = h.displayArrayBucket p :=
        Release_last_frame h q p h1 hpq
      refine ArrayBucketInvariant_of_count h _ p ?_ ?_ ?_ (hinv p hp)
      · unfold GetRefCount; rw [hobj]; exact (hinv p hp).1
      · rw [hobj]
      · intro b
        rw [Release_last_list h q b h1]
        split
        · rw [List.count_erase_of_ne hpq]
        · rfl
  · -- FindDisplayArrayBucket
    intro self a halloc hS
    cases hf : (GetDisplayArrayBucketList h self).find?
        (fun x => decide (GetDisplayArray h x = a)) with
    | some d =>
      rw [FindDisplayArrayBucket_of_some h self a d hf]
      refine ⟨hinv, ?_⟩
      intro hnone
      have hd : d ∈ GetDisplayArrayBucketList h self := List.mem_of_find?_eq_some hf
      have := (List.find?_eq_some.mp hf).1
      exact absurd (by simpa using this) (hnone d hd)
    | none =>
      rw [FindDisplayArrayBucket_of_none h self a hf]
      exact ⟨fun p hp => hctor self a halloc hS p (Or.inl hp),
        fun _ => hctor self a halloc hS h.next (Or.inr rfl)⟩
  · -- ActivateMesh
    intro q s p hp
    refine ArrayBucketInvariant_of_count h _ p ?_ ?_ (fun b => rfl) (hinv p hp)
    · have := (hinv p hp).1
      by_cases hpq : p = q
      · subst hpq; simpa [GetRefCount, ActivateMesh, store] using this
      · simpa [GetRefCount, ActivateMesh, store, hpq] using this
    · by_cases hpq : p = q
      · subst hpq; simp [ActivateMesh, store]
      · simp [ActivateMesh, store, hpq]
  · -- RemoveActiveMeshSlots
    intro q p hp
    refine ArrayBucketInvariant_of_count h _ p ?_ ?_ (fun b => rfl) (hinv p hp)
    · have := (hinv p hp).1
      by_cases hpq : p = q
      · subst hpq; simpa [GetRefCount, RemoveActiveMeshSlots, store] using this
      · simpa [GetRefCount, RemoveActiveMeshSlots, store, hpq] using this
    · by_cases hpq : p = q
      · subst hpq; simp [RemoveActiveMeshSlots, store]
      · simp [RemoveActiveMeshSlots, store, hpq]

/-- Witness of C19: the display array buckets 2 (two handles) and 3 (one
handle) of the material bucket 1. -/
theorem C19_array_bucket_invariant_witness :
    ArrayBucketInvariant (GetReplica heapTwoArrayBuckets 2).1 20
    ∧ ArrayBucketInvariant (GetReplica heapTwoArrayBuckets 2).1 3
    ∧ ArrayBucketInvariant (AddRef heapTwoArrayBuckets 2).1 2
    ∧ ArrayBucketInvariant (Release heapTwoArrayBuckets 2).1 2
    ∧ 3 ∉ GetDisplayArrayBucketList (Release heapTwoArrayBuckets 3).1 1
    ∧ ArrayBucketInvariant (Release heapTwoArrayBuckets 3).1 2 :=
  ⟨(C19_array_bucket_invariant heapTwoArrayBuckets (fun p => p = 2 ∨ p = 3)
      heapTwoArrayBuckets_invariant).2.1 2 heapTwoArrayBuckets_allocated
      (fun p hp => by
        have h20 : heapTwoArrayBuckets.next = 20 := rfl
        rcases hp with rfl | rfl <;> omega)
      20 (Or.inr rfl),
    (C19_array_bucket_invariant heapTwoArrayBuckets (fun p => p = 2 ∨ p = 3)
      heapTwoArrayBuckets_invariant).2.1 2 heapTwoArrayBuckets_allocated
      (fun p hp => by
        have h20 : heapTwoArrayBuckets.next = 20 := rfl
        rcases hp with rfl | rfl <;> omega)
      3 (Or.inl (Or.inr rfl)),
    (C19_array_bucket_invariant heapTwoArrayBuckets (fun p => p = 2 ∨ p = 3)
      heapTwoArrayBuckets_invariant).2.2.1 2 (by decide) 2 (Or.inl rfl),
    (C19_array_bucket_invariant heapTwoArrayBuckets (fun p => p = 2 ∨ p = 3)
      heapTwoArrayBuckets_invariant).2.2.2.1 2 (by decide) (by decide) 2 (Or.inl rfl),
    ((C19_array_bucket_invariant heapTwoArrayBuckets (fun p => p = 2 ∨ p = 3)
      heapTwoArrayBuckets_invariant).2.2.2.2.1 3 (Or.inr rfl) (by decide)).1,
    ((C19_array_bucket_invariant heapTwoArrayBuckets (fun p => p = 2 ∨ p = 3)
      heapTwoArrayBuckets_invariant).2.2.2.2.1 3 (Or.inr rfl) (by decide)).2 2 (Or.inl rfl)
      (by decide)⟩

/-- C15: `ActivateMaterial` returns false without any call on the
device (no `SetMaterial`, no `ProcessLighting`, the state is unchanged) when
the device is in the shadow pass and the material does not cast shadows, or
when the device is in another mode and the material is shadow-only. In every
other case it calls `SetMaterial` exactly once, returns the answer of the
device, and calls `ProcessLighting` with the result of `UsesLighting`, once,
exactly when it returns true. -/
theorem C15_ActivateMaterial_contract (M : Materials) (w : RenderState) (self : Nat)
    (cameratrans : MT_Transform) :
    ((w.rasty.m_drawingmode = KX_SHADOW ∧ M.CastsShadows (GetPolyMaterial w.heap self) = false)
        ∨ (w.rasty.m_drawingmode ≠ KX_SHADOW ∧ M.OnlyShadow (GetPolyMaterial w.heap self) = true) →
      ActivateMaterial M w self cameratrans = (w, false))
    ∧ (¬ ((w.rasty.m_drawingmode = KX_SHADOW
            ∧ M.CastsShadows (GetPolyMaterial w.heap self) = false)
          ∨ (w.rasty.m_drawingmode ≠ KX_SHADOW
            ∧ M.OnlyShadow (GetPolyMaterial w.heap self) = true)) →
        (ActivateMaterial M w self cameratrans).2
            = w.rasty.accepts w.rasty.numSetMaterial (GetPolyMaterial w.heap self)
        ∧ (ActivateMaterial M w self cameratrans).1.rasty.numSetMaterial
            = w.rasty.numSetMaterial + 1
        ∧ (ActivateMaterial M w self cameratrans).1.calls
            = w.calls
              ++ Call.SetMaterial (GetPolyMaterial w.heap self)
                  (w.rasty.accepts w.rasty.numSetMaterial (GetPolyMaterial w.heap self))
                :: (if (ActivateMaterial M w self cameratrans).2 = true then
                      [Call.ProcessLighting (M.UsesLighting (GetPolyMaterial w.heap self))]
                    else [])
        ∧ (ActivateMaterial M w self cameratrans).1.heap = w.heap
        ∧ (ActivateMaterial M w self cameratrans).1.modifiedFlag = w.modifiedFlag
        ∧ (ActivateMaterial M w self cameratrans).1.rasty.accepts = w.rasty.accepts
        ∧ (ActivateMaterial M w self cameratrans).1.rasty.m_drawingmode
            = w.rasty.m_drawingmode) := by
  constructor
  · intro hw
    unfold ActivateMaterial
    rcases hw with hw | hw
    · rw [if_pos hw]
    · have h1 : ¬ (w.rasty.m_drawingmode = KX_SHADOW
          ∧ M.CastsShadows (GetPolyMaterial w.heap self) = false) := fun h => hw.1 h.1
      rw [if_neg h1, if_pos hw]
  · intro hw
    have h1 : ¬ (w.rasty.m_drawingmode = KX_SHADOW
        ∧ M.CastsShadows (GetPolyMaterial w.heap self) = false) := fun h => hw (Or.inl h)
    have h2 : ¬ (w.rasty.m_drawingmode ≠ KX_SHADOW
        ∧ M.OnlyShadow (GetPolyMaterial w.heap self) = true) := fun h => hw (Or.inr h)
    unfold ActivateMaterial
    rw [if_neg h1, if_neg h2]
    cases hacc : w.rasty.accepts w.rasty.numSetMaterial (GetPolyMaterial w.heap self) <;>
      simp [SetMaterial, RenderState.call, hacc]

/-- Witness of C15 on the frame `stateOfFrame`: the material 10 of the solid
bucket 1 is not excluded from the pass, the device is called once and
accepts, and lighting is configured. -/
theorem C15_ActivateMaterial_contract_witness :
    (ActivateMaterial materialsOfFrame stateOfFrame 1 identityCamera).2 = true
    ∧ (ActivateMaterial materialsOfFrame stateOfFrame 1 identityCamera).1.calls
        = [Call.SetMaterial 10 true, Call.ProcessLighting true]
    ∧ ActivateMaterial materialsOfFrame stateOfShadowPass 1 identityCamera
        = (stateOfShadowPass, false) := by
  have h := C15_ActivateMaterial_contract materialsOfFrame stateOfFrame 1 identityCamera
  have hn : ¬ ((stateOfFrame.rasty.m_drawingmode = KX_SHADOW
        ∧ materialsOfFrame.CastsShadows (GetPolyMaterial stateOfFrame.heap 1) = false)
      ∨ (stateOfFrame.rasty.m_drawingmode ≠ KX_SHADOW
        ∧ materialsOfFrame.OnlyShadow (GetPolyMaterial stateOfFrame.heap 1) = true)) := by
    decide
  have h2 := h.2 hn
  refine ⟨?_, ?_, ?_⟩
  · rw [h2.1]; decide
  · rw [h2.2.2.1, h2.1]; decide
  · exact (C15_ActivateMaterial_contract materialsOfFrame stateOfShadowPass 1
      identityCamera).1 (Or.inl (by decide))

/-- C16: after `RenderMeshSlot` the flag `m_bDisplayList` of the mesh
slot is false if and only if the slot has a deformer that is dynamic, or the
slot has no display list and the device is in the shadow pass, or the material
is depth sorted (`IsZSort`), or the material uses the object color and the
object color flag of the slot is set, or the slot has a derived mesh; in every
other case the flag is true. The condition does not read the previous value
of the flag. -/
theorem C16_RenderMeshSlot_display_list_flag (M : Materials) (D : Deformers)
    (w : RenderState) (self : Nat) (cameratrans : MT_Transform) (ms : Nat) :
    (((RenderMeshSlot M D w self cameratrans ms).heap.meshSlot ms).m_bDisplayList = false ↔
      ((w.heap.meshSlot ms).m_pDeformer ≠ NULL
          ∧ D.IsDynamic (w.heap.meshSlot ms).m_pDeformer = true)
        ∨ ((w.heap.meshSlot ms).m_DisplayList = NULL ∧ w.rasty.m_drawingmode = KX_SHADOW)
        ∨ M.IsZSort (GetPolyMaterial w.heap self) = true
        ∨ (M.UsesObjectColor (GetPolyMaterial w.heap self) = true
          ∧ (w.heap.meshSlot ms).m_bObjectColor = true)
        ∨ (w.heap.meshSlot ms).m_pDerivedMesh ≠ NULL)
    ∧ (((RenderMeshSlot M D w self cameratrans ms).heap.meshSlot ms).m_bDisplayList = true ↔
      ¬ (((w.heap.meshSlot ms).m_pDeformer ≠ NULL
          ∧ D.IsDynamic (w.heap.meshSlot ms).m_pDeformer = true)
        ∨ ((w.heap.meshSlot ms).m_DisplayList = NULL ∧ w.rasty.m_drawingmode = KX_SHADOW)
        ∨ M.IsZSort (GetPolyMaterial w.heap self) = true
        ∨ (M.UsesObjectColor (GetPolyMaterial w.heap self) = true
          ∧ (w.heap.meshSlot ms).m_bObjectColor = true)
        ∨ (w.heap.meshSlot ms).m_pDerivedMesh ≠ NULL)) := by
  have hflag : ((RenderMeshSlot M D w self cameratrans ms).heap.meshSlot ms).m_bDisplayList
      = RenderMeshSlot.displayList M D w self ms := by
    simp [RenderMeshSlot, store]
  rw [hflag]
  unfold RenderMeshSlot.displayList RAS_MaterialBucket.IsZSort GetPolyMaterial
  by_cases h1 : (w.heap.meshSlot ms).m_pDeformer ≠ NULL
      ∧ D.IsDynamic (w.heap.meshSlot ms).m_pDeformer = true
  · simp [h1]
  · by_cases h2 : (w.heap.meshSlot ms).m_DisplayList = NULL ∧ w.rasty.m_drawingmode = KX_SHADOW
    · simp [h2]
    · by_cases h3 : M.IsZSort (w.heap.materialBucket self).m_material = true
      · simp [h3]
      · by_cases h4 : M.UsesObjectColor (w.heap.materialBucket self).m_material = true
            ∧ (w.heap.meshSlot ms).m_bObjectColor = true
        · simp [h4]
        · by_cases h5 : (w.heap.meshSlot ms).m_pDerivedMesh ≠ NULL
          · simp [h5]
          · rw [if_neg h1, if_neg h2, if_neg h3, if_neg h4, if_neg h5]
            have hnone : ¬ (((w.heap.meshSlot ms).m_pDeformer ≠ NULL
                  ∧ D.IsDynamic (w.heap.meshSlot ms).m_pDeformer = true)
                ∨ ((w.heap.meshSlot ms).m_DisplayList = NULL
                  ∧ w.rasty.m_drawingmode = KX_SHADOW)
                ∨ M.IsZSort (w.heap.materialBucket self).m_material = true
                ∨ (M.UsesObjectColor (w.heap.materialBucket self).m_material = true
                  ∧ (w.heap.meshSlot ms).m_bObjectColor = true)
                ∨ (w.heap.meshSlot ms).m_pDerivedMesh ≠ NULL) := by
              intro h
              rcases h with h | h | h | h | h
              · exact h1 h
              · exact h2 h
              · exact h3 h
              · exact h4 h
              · exact h5 h
            exact ⟨⟨fun h => absurd h (by decide), fun h => absurd h hnone⟩,
              ⟨fun _ => hnone, fun _ => rfl⟩⟩

/-- C12, as stated, fails: in the shadow pass, with a material that
does not cast shadows, the active mesh slots 11 and 12 of the solid bucket 1
are not drawn at all (`RenderMeshSlot` is never issued); and on a device that
accepts the material twice in a row the mesh slot 11 is drawn twice. -/
theorem C12_counterexample_not_drawn_exactly_once :
    1 ∈ managerOfFrame.m_SolidBuckets
    ∧ 3 ∈ GetDisplayArrayBucketList stateOfShadowPass.heap 1
    ∧ 11 ∈ GetActiveMeshSlots stateOfShadowPass.heap 3
    ∧ (RenderSolidBuckets materialsOfFrame {} managerOfFrame identityCamera 1
          stateOfShadowPass).map (fun r => r.calls)
        = some [Call.SetDepthMask true, Call.BindPrimitives 30, Call.SetClientObject 61,
            Call.ActivateMaterial 1 11 false, Call.SetClientObject 62,
            Call.ActivateMaterial 1 12 false, Call.UnbindPrimitives 30]
    ∧ (RenderSolidBuckets materialsOfFrame {} managerOfFrame identityCamera 1
          stateOfShadowPass).map (fun r => r.calls.countP (Call.isRenderMeshSlot 11))
        = some 0
    ∧ (RenderSolidBuckets materialsOfFrame {} managerOfFrame identityCamera 3
          { stateOfFrame with rasty := twoPassDevice }).map
          (fun r => r.calls.countP (Call.isRenderMeshSlot 11))
        = some 2 := by
  decide

/-- C12, amended: whatever the order of the solid buckets and the state of the
device, when `RenderSolidBuckets` returns, `RenderMeshSlot` has been issued
for a mesh slot exactly as many times as `ActivateMaterial` returned true in
the loop of that mesh slot (not at all when the material is excluded from the
pass or rejected at once, several times when the device accepts it several
times); the loop of a mesh slot has been run and has ended exactly once for
every entry of the mesh slot in the lists of active mesh slots (no display
array bucket being listed twice), and every active mesh slot of every display
array bucket of every solid bucket is marked culled. The pass returns as soon
as the device does not accept a material for ever. -/
theorem C12_RenderSolidBuckets_draws_once_per_activation (M : Materials) (D : Deformers)
    (self : RAS_BucketManager) (cameratrans : MT_Transform) (w : RenderState) :
    (∀ fuel r, RenderSolidBuckets M D self cameratrans fuel w = some r →
      (∃ made, r.calls = w.calls ++ made
        ∧ (∀ ms, made.countP (Call.isRenderMeshSlot ms)
            = made.countP (Call.isActivateMaterial ms true))
        ∧ ((displayArrayBucketsOf w.heap self.m_SolidBuckets).Nodup →
            ∀ ms, loopsEnded ms made
              = (activeMeshSlotsOf w.heap self.m_SolidBuckets).count ms))
      ∧ ∀ b ∈ self.m_SolidBuckets, ∀ d ∈ GetDisplayArrayBucketList w.heap b,
          ∀ ms ∈ GetActiveMeshSlots w.heap d, (r.heap.meshSlot ms).m_bCulled = true)
    ∧ (EventuallyRejects w.rasty →
        ∃ F r, ∀ fuel, F ≤ fuel → RenderSolidBuckets M D self cameratrans fuel w = some r) := by
  constructor
  · intro fuel r h
    obtain ⟨hframe, hq⟩ := RenderSolidBuckets_spec M D self cameratrans fuel w r h
    obtain ⟨made, hmade, _, hcount⟩ := hframe.1.calls
    refine ⟨⟨made, hmade, hcount, ?_⟩, ?_⟩
    · intro hnd ms
      have hended := RenderSolidBuckets_ended M D self cameratrans fuel w r ms hnd h
      rw [hmade] at hended
      unfold loopsEnded at hended ⊢
      rw [List.countP_append] at hended
      omega
    · intro b hb d hd ms hms
      have hd2 : d ∈ GetDisplayArrayBucketList r.heap b := by
        unfold GetDisplayArrayBucketList at hd ⊢
        rw [hframe.1.materialBucket]
        exact hd
      have hempty := hq b hb d hd2
      rcases hframe.2 d with h1 | ⟨_, h1⟩
      · rw [hempty] at h1
        rw [← h1] at hms
        exact absurd hms (List.not_mem_nil ms)
      · exact h1 ms hms
  · intro hev
    obtain ⟨F, r, hr, _⟩ := RenderSolidBuckets_total M D self cameratrans w hev
    exact ⟨F, r, hr⟩

/-- Witness of C12 on the frame `stateOfFrame`: the solid pass returns with
two tests per loop, the loops of the mesh slots 11 and 12 are run once each,
and both mesh slots are culled. -/
theorem C12_RenderSolidBuckets_draws_once_per_activation_witness :
    (∃ r, RenderSolidBuckets materialsOfFrame {} managerOfFrame identityCamera 2 stateOfFrame
        = some r
      ∧ (∃ made, r.calls = stateOfFrame.calls ++ made
          ∧ (∀ ms, made.countP (Call.isRenderMeshSlot ms)
              = made.countP (Call.isActivateMaterial ms true))
          ∧ loopsEnded 11 made = 1 ∧ loopsEnded 12 made = 1)
      ∧ (r.heap.meshSlot 11).m_bCulled = true ∧ (r.heap.meshSlot 12).m_bCulled = true)
    ∧ ∃ F r, ∀ fuel, F ≤ fuel →
        RenderSolidBuckets materialsOfFrame {} managerOfFrame identityCamera fuel stateOfFrame
          = some r := by
  have hthm := C12_RenderSolidBuckets_draws_once_per_activation materialsOfFrame {}
    managerOfFrame identityCamera stateOfFrame
  have hsome : (RenderSolidBuckets materialsOfFrame {} managerOfFrame identityCamera 2
      stateOfFrame).isSome = true := by decide
  obtain ⟨r, hr⟩ := Option.isSome_iff_exists.mp hsome
  obtain ⟨⟨made, hmade, hcount, hloops⟩, hculled⟩ := hthm.1 2 r hr
  exact ⟨⟨r, hr, ⟨made, hmade, hcount, (hloops (by decide) 11).trans (by decide),
      (hloops (by decide) 12).trans (by decide)⟩,
    hculled 1 (by decide) 3 (by decide) 11 (by decide),
    hculled 1 (by decide) 3 (by decide) 12 (by decide)⟩, hthm.2 singlePassDevice_rejects⟩

/-- C13: after a render pass the lists of active mesh slots are empty.
When `RenderSolidBuckets` returns, every display array bucket of every solid
bucket has no active mesh slot; when `RenderAlphaBuckets` returns, every
display array bucket of every alpha bucket has none; when `Renderbuckets`
returns, in any drawing mode, every display array bucket of every bucket of
both collections has none. The passes return as soon as the device does not
accept a material for ever. -/
theorem C13_active_mesh_slots_empty_after_render_pass (M : Materials) (D : Deformers)
    (self : RAS_BucketManager) (cameratrans : MT_Transform) (w : RenderState) :
    (∀ fuel r, RenderSolidBuckets M D self cameratrans fuel w = some r →
      ∀ b ∈ self.m_SolidBuckets,
        GetDisplayArrayBucketList r.heap b = GetDisplayArrayBucketList w.heap b
        ∧ ∀ d ∈ GetDisplayArrayBucketList r.heap b, GetNumActiveMeshSlots r.heap d = 0)
    ∧ (∀ fuel r, RenderAlphaBuckets M D self cameratrans fuel w = some r →
      ∀ b ∈ self.m_AlphaBuckets,
        GetDisplayArrayBucketList r.heap b = GetDisplayArrayBucketList w.heap b
        ∧ ∀ d ∈ GetDisplayArrayBucketList r.heap b, GetNumActiveMeshSlots r.heap d = 0)
    ∧ (∀ fuel r, Renderbuckets M D self cameratrans fuel w = some r →
      ∀ b ∈ self.m_SolidBuckets ++ self.m_AlphaBuckets,
        GetDisplayArrayBucketList r.heap b = GetDisplayArrayBucketList w.heap b
        ∧ ∀ d ∈ GetDisplayArrayBucketList r.heap b, GetNumActiveMeshSlots r.heap d = 0)
    ∧ (EventuallyRejects w.rasty →
        ∃ F, ∀ fuel, F ≤ fuel →
          (RenderSolidBuckets M D self cameratrans fuel w).isSome = true
          ∧ (RenderAlphaBuckets M D self cameratrans fuel w).isSome = true
          ∧ (Renderbuckets M D self cameratrans fuel w).isSome = true) := by
  refine ⟨?_, ?_, ?_, ?_⟩
  · intro fuel r h b hb
    obtain ⟨hframe, hq⟩ := RenderSolidBuckets_spec M D self cameratrans fuel w r h
    refine ⟨by unfold GetDisplayArrayBucketList; rw [hframe.1.materialBucket], ?_⟩
    intro d hd
    unfold GetNumActiveMeshSlots
    have := hq b hb d hd
    unfold GetActiveMeshSlots at this
    rw [this]; rfl
  · intro fuel r h b hb
    obtain ⟨hframe, hq⟩ := RenderAlphaBuckets_spec M D self cameratrans fuel w r h
    refine ⟨by unfold GetDisplayArrayBucketList; rw [hframe.materialBucket], ?_⟩
    intro d hd
    unfold GetNumActiveMeshSlots
    have := hq b hb d hd
    unfold GetActiveMeshSlots at this
    rw [this]; rfl
  · intro fuel r h b hb
    obtain ⟨r2, hr, hframe, hq⟩ := Renderbuckets_spec M D self cameratrans fuel w r h
    have hheap : r.heap = r2.heap := by rw [hr]; exact finish_heap self r2
    refine ⟨by unfold GetDisplayArrayBucketList; rw [hheap, hframe.materialBucket], ?_⟩
    intro d hd
    rw [hheap] at hd ⊢
    unfold GetNumActiveMeshSlots
    have := hq b hb d hd
    unfold GetActiveMeshSlots at this
    rw [this]; rfl
  · intro hev
    obtain ⟨F1, r1, h1, _⟩ := RenderSolidBuckets_total M D self cameratrans w hev
    obtain ⟨F2, r2, h2, _⟩ := RenderAlphaBuckets_total M D self cameratrans w hev
    obtain ⟨F3, r3, h3⟩ := Renderbuckets_total M D self cameratrans w hev
    refine ⟨max F1 (max F2 F3), fun fuel hf => ?_⟩
    have hf1 : F1 ≤ fuel := le_trans (le_max_left _ _) hf
    have hf2 : F2 ≤ fuel := le_trans (le_trans (le_max_left _ _) (le_max_right _ _)) hf
    have hf3 : F3 ≤ fuel := le_trans (le_trans (le_max_right _ _) (le_max_right _ _)) hf
    rw [h1 fuel hf1, h2 fuel hf2, h3 fuel hf3]
    exact ⟨rfl, rfl, rfl⟩

/-- Witness of C13 on the frame `stateOfFrame`: `Renderbuckets` returns with
two tests per loop, and the display array buckets 3 (of the solid bucket 1)
and 4 (of the alpha bucket 2) have no active mesh slot afterwards. -/
theorem C13_active_mesh_slots_empty_after_render_pass_witness :
    (∃ r, Renderbuckets materialsOfFrame {} managerOfFrame identityCamera 2 stateOfFrame
        = some r
      ∧ GetNumActiveMeshSlots r.heap 3 = 0 ∧ GetNumActiveMeshSlots r.heap 4 = 0)
    ∧ GetNumActiveMeshSlots stateOfFrame.heap 3 = 2
    ∧ ∃ F, ∀ fuel, F ≤ fuel →
        (RenderSolidBuckets materialsOfFrame {} managerOfFrame identityCamera fuel
            stateOfFrame).isSome = true
        ∧ (RenderAlphaBuckets materialsOfFrame {} managerOfFrame identityCamera fuel
            stateOfFrame).isSome = true
        ∧ (Renderbuckets materialsOfFrame {} managerOfFrame identityCamera fuel
            stateOfFrame).isSome = true := by
  have hthm := C13_active_mesh_slots_empty_after_render_pass materialsOfFrame {}
    managerOfFrame identityCamera stateOfFrame
  have hsome : (Renderbuckets materialsOfFrame {} managerOfFrame identityCamera 2
      stateOfFrame).isSome = true := by decide
  obtain ⟨r, hr⟩ := Option.isSome_iff_exists.mp hsome
  have h3 := hthm.2.2.1 2 r hr 1 (by decide)
  have h4 := hthm.2.2.1 2 r hr 2 (by decide)
  refine ⟨⟨r, hr, h3.2 3 ?_, h4.2 4 ?_⟩, by decide, hthm.2.2.2 singlePassDevice_rejects⟩
  · rw [h3.1]; decide
  · rw [h4.1]; decide

/-- C20, as stated, fails: outside the shadow pass, the mesh object
50 is referenced by the two mesh slots 11 and 12 of the solid bucket 1, and
`Renderbuckets` calls `SetModifiedFlag(0)` on it twice in the frame. -/
theorem C20_counterexample_reset_twice_for_shared_mesh :
    stateOfFrame.rasty.m_drawingmode ≠ KX_SHADOW
    ∧ (stateOfFrame.heap.meshSlot 11).m_mesh = 50
    ∧ (stateOfFrame.heap.meshSlot 12).m_mesh = 50
    ∧ meshSlotsOf stateOfFrame.heap
        (managerOfFrame.m_SolidBuckets ++ managerOfFrame.m_AlphaBuckets) = [11, 12, 13]
    ∧ (Renderbuckets materialsOfFrame {} managerOfFrame identityCamera 2 stateOfFrame).map
          (fun r => r.calls.count (Call.SetModifiedFlag 50 0))
        = some 2
    ∧ (Renderbuckets materialsOfFrame {} managerOfFrame identityCamera 2 stateOfFrame).map
          (fun r => r.calls.filter Call.isSetModifiedFlag)
        = some [Call.SetModifiedFlag 50 0, Call.SetModifiedFlag 50 0,
            Call.SetModifiedFlag 51 0] := by
  decide

/-- C20, amended: in a `Renderbuckets` call outside the shadow pass,
`SetModifiedFlag(0)` is performed once for every mesh slot of every bucket of
the solid and alpha collections, in the order of the collections, and nowhere
else in the frame: a mesh object is reset as many times as there are mesh
slots that reference it, its flag is 0 afterwards, and the flag of a mesh
object that no mesh slot references is left as it was. The resets come after
both passes: the calls of the frame are the calls of the solid pass and the
alpha pass, none of which is a `SetModifiedFlag` and which leave every flag as
it was, then the resets, one per mesh slot, then `SetClientObject(NULL)`. The
call returns as soon as the device does not accept a material for ever. -/
theorem C20_SetModifiedFlag_once_per_mesh_slot (M : Materials) (D : Deformers)
    (self : RAS_BucketManager) (cameratrans : MT_Transform) (w : RenderState)
    (hmode : w.rasty.m_drawingmode ≠ KX_SHADOW) :
    (∀ fuel r, Renderbuckets M D self cameratrans fuel w = some r →
      ∃ made, r.calls = w.calls ++ made
        ∧ made.filter Call.isSetModifiedFlag
            = (meshSlotsOf w.heap (self.m_SolidBuckets ++ self.m_AlphaBuckets)).map
                (fun s => Call.SetModifiedFlag (w.heap.meshSlot s).m_mesh 0)
        ∧ (∀ mesh, made.count (Call.SetModifiedFlag mesh 0)
            = (meshSlotsOf w.heap (self.m_SolidBuckets ++ self.m_AlphaBuckets)).countP
                (fun s => decide ((w.heap.meshSlot s).m_mesh = mesh)))
        ∧ (∀ s ∈ meshSlotsOf w.heap (self.m_SolidBuckets ++ self.m_AlphaBuckets),
            r.modifiedFlag (w.heap.meshSlot s).m_mesh = 0)
        ∧ (∀ mesh,
            (∀ s ∈ meshSlotsOf w.heap (self.m_SolidBuckets ++ self.m_AlphaBuckets),
              (w.heap.meshSlot s).m_mesh ≠ mesh) →
            r.modifiedFlag mesh = w.modifiedFlag mesh)
        ∧ ∃ r2 passes,
            (RenderSolidBuckets M D self cameratrans fuel (w.call Call.ClearCachingInfo)).bind
                (RenderAlphaBuckets M D self cameratrans fuel) = some r2
            ∧ r2.calls = w.calls ++ passes
            ∧ passes.filter Call.isSetModifiedFlag = []
            ∧ r2.modifiedFlag = w.modifiedFlag
            ∧ made = passes
                ++ (meshSlotsOf w.heap (self.m_SolidBuckets ++ self.m_AlphaBuckets)).map
                    (fun s => Call.SetModifiedFlag (w.heap.meshSlot s).m_mesh 0)
                ++ [Call.SetClientObject NULL])
    ∧ (EventuallyRejects w.rasty →
        ∃ F r, ∀ fuel, F ≤ fuel → Renderbuckets M D self cameratrans fuel w = some r) := by
  constructor
  · intro fuel r h
    obtain ⟨r2, hpasses, hr, hframe⟩ := Renderbuckets_passes M D self cameratrans fuel w r h
    obtain ⟨made0, hmade0, hfilter0, _⟩ := hframe.calls
    have hmode2 : r2.rasty.m_drawingmode ≠ KX_SHADOW := by
      rw [hframe.drawingmode]; exact hmode
    obtain ⟨hcalls, hflags⟩ := finish_spec self r2 hmode2
    have hslots : meshSlotsOf r2.heap (self.m_SolidBuckets ++ self.m_AlphaBuckets)
        = meshSlotsOf w.heap (self.m_SolidBuckets ++ self.m_AlphaBuckets) := by
      unfold meshSlotsOf
      rw [hframe.materialBucket]
    have hmesh : (fun s => (r2.heap.meshSlot s).m_mesh) = (fun s => (w.heap.meshSlot s).m_mesh) :=
      funext hframe.mesh
    have hreset : (fun s => Call.SetModifiedFlag (r2.heap.meshSlot s).m_mesh 0)
        = (fun s => Call.SetModifiedFlag (w.heap.meshSlot s).m_mesh 0) := by
      funext s
      rw [hframe.mesh s]
    rw [hslots, hreset, hmade0, List.append_assoc] at hcalls
    rw [hslots, hmesh, hframe.modifiedFlag] at hflags
    rw [← hr] at hcalls hflags
    have hfilter : (made0
          ++ ((meshSlotsOf w.heap (self.m_SolidBuckets ++ self.m_AlphaBuckets)).map
              (fun s => Call.SetModifiedFlag (w.heap.meshSlot s).m_mesh 0)
            ++ [Call.SetClientObject NULL])).filter Call.isSetModifiedFlag
        = (meshSlotsOf w.heap (self.m_SolidBuckets ++ self.m_AlphaBuckets)).map
            (fun s => Call.SetModifiedFlag (w.heap.meshSlot s).m_mesh 0) := by
      rw [List.filter_append, List.filter_append, hfilter0, List.nil_append]
      have h1 : ((meshSlotsOf w.heap (self.m_SolidBuckets ++ self.m_AlphaBuckets)).map
            (fun s => Call.SetModifiedFlag (w.heap.meshSlot s).m_mesh 0)).filter
              Call.isSetModifiedFlag
          = (meshSlotsOf w.heap (self.m_SolidBuckets ++ self.m_AlphaBuckets)).map
              (fun s => Call.SetModifiedFlag (w.heap.meshSlot s).m_mesh 0) := by
        rw [List.filter_eq_self]
        intro c hc
        obtain ⟨s, _, hs⟩ := List.mem_map.mp hc
        rw [← hs]
        rfl
      rw [h1]
      simp [Call.isSetModifiedFlag]
    refine ⟨_, hcalls, hfilter, ?_, ?_, ?_, ?_⟩
    · intro mesh
      have hp : Call.isSetModifiedFlag (Call.SetModifiedFlag mesh 0) = true := rfl
      rw [← List.count_filter hp, hfilter, List.count_eq_countP, List.countP_map]
      apply List.countP_congr
      intro s _
      simp
    · intro s hs
      rw [hflags]
      rw [if_pos (List.mem_map.mpr ⟨s, hs, rfl⟩)]
    · intro mesh hno
      rw [hflags]
      rw [if_neg]
      intro hmem
      obtain ⟨s, hs, hsm⟩ := List.mem_map.mp hmem
      exact hno s hs hsm
    · exact ⟨r2, made0, hpasses, hmade0, hfilter0, hframe.modifiedFlag,
        (List.append_assoc _ _ _).symm⟩
  · intro hev
    exact Renderbuckets_total M D self cameratrans w hev

/-- Witness of C20 on the frame `stateOfFrame`: the mesh object 50 of the
mesh slots 11 and 12 is reset twice, the mesh object 51 once, the three resets
follow the calls of the two passes and precede `SetClientObject(NULL)`, and
both flags are 0 afterwards. -/
theorem C20_SetModifiedFlag_once_per_mesh_slot_witness :
    stateOfFrame.rasty.m_drawingmode ≠ KX_SHADOW
    ∧ stateOfFrame.modifiedFlag 50 = 1
    ∧ (∃ r, Renderbuckets materialsOfFrame {} managerOfFrame identityCamera 2 stateOfFrame
          = some r
        ∧ (∃ made, r.calls = stateOfFrame.calls ++ made
            ∧ made.count (Call.SetModifiedFlag 50 0) = 2
            ∧ made.count (Call.SetModifiedFlag 51 0) = 1
            ∧ ∃ passes, passes.filter Call.isSetModifiedFlag = []
                ∧ made = passes ++ [Call.SetModifiedFlag 50 0, Call.SetModifiedFlag 50 0,
                    Call.SetModifiedFlag 51 0] ++ [Call.SetClientObject NULL])
        ∧ r.modifiedFlag 50 = 0 ∧ r.modifiedFlag 51 = 0)
    ∧ ∃ F r, ∀ fuel, F ≤ fuel →
        Renderbuckets materialsOfFrame {} managerOfFrame identityCamera fuel stateOfFrame
          = some r := by
  have hthm := C20_SetModifiedFlag_once_per_mesh_slot materialsOfFrame {} managerOfFrame
    identityCamera stateOfFrame (by decide)
  have hsome : (Renderbuckets materialsOfFrame {} managerOfFrame identityCamera 2
      stateOfFrame).isSome = true := by decide
  obtain ⟨r, hr⟩ := Option.isSome_iff_exists.mp hsome
  obtain ⟨made, hmade, _, hcount, hzero, _, _, passes, _, _, hnone, _, hpos⟩ := hthm.1 2 r hr
  have hresets : (meshSlotsOf stateOfFrame.heap
        (managerOfFrame.m_SolidBuckets ++ managerOfFrame.m_AlphaBuckets)).map
          (fun s => Call.SetModifiedFlag (stateOfFrame.heap.meshSlot s).m_mesh 0)
      = [Call.SetModifiedFlag 50 0, Call.SetModifiedFlag 50 0, Call.SetModifiedFlag 51 0] := by
    decide
  rw [hresets] at hpos
  refine ⟨by decide, by decide, ⟨r, hr, ⟨made, hmade, ?_, ?_, passes, hnone, hpos⟩, ?_, ?_⟩,
    hthm.2 singlePassDevice_rejects⟩
  · rw [hcount 50]; decide
  · rw [hcount 51]; decide
  · exact hzero 11 (by decide)
  · exact hzero 13 (by decide)

/-- C24: the comparators `backtofront` and `fronttoback` are strict total
orders on the keys (depth, mesh slot identity) when the depth ranges over the
numbers, which are linearly ordered: each is irreflexive and transitive and
`fronttoback(a, b)` is `backtofront(b, a)` (these three for every depth); for
two entries whose depth is not NaN exactly one of `cmp(a, b)`, `cmp(b, a)` and
"same depth and same mesh slot" holds, and entries whose depth is not NaN and
that neither comparator orders are equivalent (which is transitive). -/
theorem C24_comparators_strict_total_orders (a b c : sortedmeshslot) :
    backtofront a a = false
    ∧ fronttoback a a = false
    ∧ (backtofront a b = true → backtofront b c = true → backtofront a c = true)
    ∧ (fronttoback a b = true → fronttoback b c = true → fronttoback a c = true)
    ∧ (a.m_z ≠ MT_Scalar.nan → b.m_z ≠ MT_Scalar.nan →
        (backtofront a b = true ∧ backtofront b a = false
          ∧ ¬ (a.m_z = b.m_z ∧ a.m_ms = b.m_ms))
        ∨ (backtofront a b = false ∧ backtofront b a = true
          ∧ ¬ (a.m_z = b.m_z ∧ a.m_ms = b.m_ms))
        ∨ (backtofront a b = false ∧ backtofront b a = false
          ∧ (a.m_z = b.m_z ∧ a.m_ms = b.m_ms)))
    ∧ (a.m_z ≠ MT_Scalar.nan → b.m_z ≠ MT_Scalar.nan →
        (fronttoback a b = true ∧ fronttoback b a = false
          ∧ ¬ (a.m_z = b.m_z ∧ a.m_ms = b.m_ms))
        ∨ (fronttoback a b = false ∧ fronttoback b a = true
          ∧ ¬ (a.m_z = b.m_z ∧ a.m_ms = b.m_ms))
        ∨ (fronttoback a b = false ∧ fronttoback b a = false
          ∧ (a.m_z = b.m_z ∧ a.m_ms = b.m_ms)))
    ∧ (a.m_z ≠ MT_Scalar.nan → b.m_z ≠ MT_Scalar.nan → c.m_z ≠ MT_Scalar.nan →
        backtofront a b = false → backtofront b a = false →
        backtofront b c = false → backtofront c b = false →
        backtofront a c = false ∧ backtofront c a = false)
    ∧ (a.m_z ≠ MT_Scalar.nan → b.m_z ≠ MT_Scalar.nan → c.m_z ≠ MT_Scalar.nan →
        fronttoback a b = false → fronttoback b a = false →
        fronttoback b c = false → fronttoback c b = false →
        fronttoback a c = false ∧ fronttoback c a = false)
    ∧ fronttoback a b = backtofront b a := by
  refine ⟨backtofront_irrefl a, fronttoback_irrefl a, ?_, ?_, ?_, ?_, ?_, ?_,
    fronttoback_eq_backtofront a b⟩
  · intro h1 h2
    obtain ⟨ha, hb⟩ := backtofront_true_ne_nan a b h1
    obtain ⟨_, hc⟩ := backtofront_true_ne_nan b c h2
    rw [backtofront_eq_true_iff a b ha hb] at h1
    rw [backtofront_eq_true_iff b c hb hc] at h2
    rw [backtofront_eq_true_iff a c ha hc]
    omega
  · intro h1 h2
    obtain ⟨ha, hb⟩ := fronttoback_true_ne_nan a b h1
    obtain ⟨_, hc⟩ := fronttoback_true_ne_nan b c h2
    rw [fronttoback_eq_true_iff a b ha hb] at h1
    rw [fronttoback_eq_true_iff b c hb hc] at h2
    rw [fronttoback_eq_true_iff a c ha hc]
    omega
  · intro ha hb
    rw [backtofront_eq_true_iff a b ha hb, backtofront_eq_true_iff b a hb ha,
      backtofront_false_iff a b ha hb, backtofront_false_iff b a hb ha,
      MT_Scalar_val_inj _ _ ha hb]
    omega
  · intro ha hb
    rw [fronttoback_eq_true_iff a b ha hb, fronttoback_eq_true_iff b a hb ha,
      fronttoback_false_iff a b ha hb, fronttoback_false_iff b a hb ha,
      MT_Scalar_val_inj _ _ ha hb]
    omega
  · intro ha hb hc h1 h2 h3 h4
    rw [backtofront_false_iff a b ha hb] at h1
    rw [backtofront_false_iff b a hb ha] at h2
    rw [backtofront_false_iff b c hb hc] at h3
    rw [backtofront_false_iff c b hc hb] at h4
    rw [backtofront_false_iff a c ha hc, backtofront_false_iff c a hc ha]
    omega
  · intro ha hb hc h1 h2 h3 h4
    rw [fronttoback_false_iff a b ha hb] at h1
    rw [fronttoback_false_iff b a hb ha] at h2
    rw [fronttoback_false_iff b c hb hc] at h3
    rw [fronttoback_false_iff c b hc hb] at h4
    rw [fronttoback_false_iff a c ha hc, fronttoback_false_iff c a hc ha]
    omega

/-- Witness of C24: the entries at depths 2, 5 and 8 are in `backtofront`
order and in reverse `fronttoback` order; of two distinct entries at depth 2
the one of the lower mesh slot is before the other and not after it; the
entries of the mesh slot 12 at depth 2 in the buckets 1 and 3 are not ordered,
as neither is with the entry in the bucket 2. -/
theorem C24_comparators_strict_total_orders_witness :
    backtofront ⟨2, 12, 1⟩ ⟨5, 11, 1⟩ = true
    ∧ backtofront ⟨5, 11, 1⟩ ⟨8, 14, 1⟩ = true
    ∧ backtofront ⟨2, 12, 1⟩ ⟨8, 14, 1⟩ = true
    ∧ fronttoback ⟨8, 14, 1⟩ ⟨5, 11, 1⟩ = true
    ∧ fronttoback ⟨5, 11, 1⟩ ⟨2, 12, 1⟩ = true
    ∧ fronttoback ⟨8, 14, 1⟩ ⟨2, 12, 1⟩ = true
    ∧ (2 : MT_Scalar) ≠ MT_Scalar.nan
    ∧ ((backtofront ⟨2, 12, 1⟩ ⟨2, 13, 1⟩ = true ∧ backtofront ⟨2, 13, 1⟩ ⟨2, 12, 1⟩ = false
          ∧ ¬ ((2 : MT_Scalar) = 2 ∧ 12 = 13))
        ∨ (backtofront ⟨2, 12, 1⟩ ⟨2, 13, 1⟩ = false ∧ backtofront ⟨2, 13, 1⟩ ⟨2, 12, 1⟩ = true
          ∧ ¬ ((2 : MT_Scalar) = 2 ∧ 12 = 13))
        ∨ (backtofront ⟨2, 12, 1⟩ ⟨2, 13, 1⟩ = false ∧ backtofront ⟨2, 13, 1⟩ ⟨2, 12, 1⟩ = false
          ∧ ((2 : MT_Scalar) = 2 ∧ 12 = 13)))
    ∧ (backtofront ⟨2, 12, 1⟩ ⟨2, 12, 3⟩ = false ∧ backtofront ⟨2, 12, 3⟩ ⟨2, 12, 1⟩ = false) :=
  ⟨by decide, by decide,
    (C24_comparators_strict_total_orders ⟨2, 12, 1⟩ ⟨5, 11, 1⟩ ⟨8, 14, 1⟩).2.2.1
      (by decide) (by decide),
    by decide, by decide,
    (C24_comparators_strict_total_orders ⟨8, 14, 1⟩ ⟨5, 11, 1⟩ ⟨2, 12, 1⟩).2.2.2.1
      (by decide) (by decide),
    by decide,
    (C24_comparators_strict_total_orders ⟨2, 12, 1⟩ ⟨2, 13, 1⟩ ⟨8, 14, 1⟩).2.2.2.2.1
      (by decide) (by decide),
    (C24_comparators_strict_total_orders ⟨2, 12, 1⟩ ⟨2, 12, 2⟩ ⟨2, 12, 3⟩).2.2.2.2.2.2.1
      (by decide) (by decide) (by decide) (by decide) (by decide) (by decide) (by decide)⟩

/-- C26: the list of active mesh slots of a display array bucket only grows
at its end between two clears and is not de-duplicated. After the mesh slots
of a list are activated in order the list of active mesh slots is the former
list followed by them, and `GetNumActiveMeshSlots` is the former count plus
their number; after the constructor, after `GetReplica` and after
`RemoveActiveMeshSlots` the former list is empty, so the count is the number
of activations since then. Activating a mesh slot twice queues it twice, and
the solid pass then runs the loop of that mesh slot at least twice.
`RemoveActiveMeshSlots` sets the count to 0 and changes neither the reference
count nor the display array; activations change neither of them, nor any other
display array bucket. -/
theorem C26_active_mesh_slots_append_only (h : Heap) (d : Nat) (slots : List Nat) :
    GetActiveMeshSlots (activateAll h d slots) d = GetActiveMeshSlots h d ++ slots
    ∧ GetNumActiveMeshSlots (activateAll h d slots) d
        = GetNumActiveMeshSlots h d + slots.length
    ∧ (∀ bucket array,
        GetActiveMeshSlots
            (activateAll (new_RAS_DisplayArrayBucket h bucket array).1
              (new_RAS_DisplayArrayBucket h bucket array).2 slots)
            (new_RAS_DisplayArrayBucket h bucket array).2 = slots
        ∧ GetNumActiveMeshSlots
            (activateAll (new_RAS_DisplayArrayBucket h bucket array).1
              (new_RAS_DisplayArrayBucket h bucket array).2 slots)
            (new_RAS_DisplayArrayBucket h bucket array).2 = slots.length)
    ∧ (GetActiveMeshSlots (activateAll (GetReplica h d).1 (GetReplica h d).2 slots)
          (GetReplica h d).2 = slots
        ∧ GetNumActiveMeshSlots (activateAll (GetReplica h d).1 (GetReplica h d).2 slots)
            (GetReplica h d).2 = slots.length)
    ∧ (GetActiveMeshSlots (activateAll (RemoveActiveMeshSlots h d) d slots) d = slots
        ∧ GetNumActiveMeshSlots (activateAll (RemoveActiveMeshSlots h d) d slots) d
            = slots.length)
    ∧ (∀ s, GetActiveMeshSlots (ActivateMesh (ActivateMesh h d s) d s) d
          = GetActiveMeshSlots h d ++ [s, s])
    ∧ (∀ (M : Materials) (D : Deformers) (self : RAS_BucketManager)
        (cameratrans : MT_Transform) (fuel : Nat) (w r : RenderState) (s : Nat),
        w.heap = ActivateMesh (ActivateMesh h d s) d s →
        d ∈ displayArrayBucketsOf w.heap self.m_SolidBuckets →
        (displayArrayBucketsOf w.heap self.m_SolidBuckets).Nodup →
        RenderSolidBuckets M D self cameratrans fuel w = some r →
        loopsEnded s w.calls + 2 ≤ loopsEnded s r.calls)
    ∧ (GetNumActiveMeshSlots (RemoveActiveMeshSlots h d) d = 0
        ∧ GetRefCount (RemoveActiveMeshSlots h d) d = GetRefCount h d
        ∧ GetDisplayArray (RemoveActiveMeshSlots h d) d = GetDisplayArray h d
        ∧ ∀ e, e ≠ d →
            (RemoveActiveMeshSlots h d).displayArrayBucket e = h.displayArrayBucket e)
    ∧ (GetRefCount (activateAll h d slots) d = GetRefCount h d
        ∧ GetDisplayArray (activateAll h d slots) d = GetDisplayArray h d
        ∧ ∀ e, e ≠ d → (activateAll h d slots).displayArrayBucket e = h.displayArrayBucket e) := by
  have hnum : ∀ (k : Heap) (e : Nat),
      GetNumActiveMeshSlots k e = (GetActiveMeshSlots k e).length := fun _ _ => rfl
  have hall : ∀ (k : Heap) (e : Nat), GetActiveMeshSlots k e = [] →
      GetActiveMeshSlots (activateAll k e slots) e = slots
      ∧ GetNumActiveMeshSlots (activateAll k e slots) e = slots.length := by
    intro k e hk
    have h1 := getActive_activateAll e slots k e
    rw [if_pos rfl, hk, List.nil_append] at h1
    exact ⟨h1, by rw [hnum, h1]⟩
  refine ⟨?_, ?_, ?_, ?_, ?_, ?_, ?_, ?_, ?_⟩
  · rw [getActive_activateAll, if_pos rfl]
  · rw [hnum, hnum, getActive_activateAll, if_pos rfl, List.length_append]
  · intro bucket array
    refine hall _ _ ?_
    show ((new_RAS_DisplayArrayBucket h bucket array).1.displayArrayBucket h.next).m_activeMeshSlots
      = []
    rw [new_RAS_DisplayArrayBucket_object]
  · refine hall _ _ ?_
    show ((GetReplica h d).1.displayArrayBucket h.next).m_activeMeshSlots = []
    rw [GetReplica_object]
  · refine hall _ _ ?_
    rw [getActive_remove, if_pos rfl]
  · intro s
    rw [getActive_ActivateMesh, if_pos rfl, getActive_ActivateMesh, if_pos rfl,
      List.append_assoc]
    rfl
  · intro M D self cameratrans fuel w r s hw hd hnd hr
    rw [RenderSolidBuckets_ended M D self cameratrans fuel w r s hnd hr]
    have hcount : 2 ≤ (GetActiveMeshSlots w.heap d).count s := by
      rw [hw, getActive_ActivateMesh, if_pos rfl, getActive_ActivateMesh, if_pos rfl,
        List.append_assoc, List.count_append]
      have : List.count s ([s] ++ [s]) = 2 := by simp
      omega
    have hle : (GetActiveMeshSlots w.heap d).count s
        ≤ (activeMeshSlotsOf w.heap self.m_SolidBuckets).count s := by
      unfold activeMeshSlotsOf
      obtain ⟨pre, post, hsplit⟩ := List.append_of_mem hd
      rw [hsplit, List.flatMap_append, List.flatMap_cons, List.count_append, List.count_append]
      omega
    omega
  · refine ⟨?_, ?_, ?_, ?_⟩
    · rw [hnum, getActive_remove, if_pos rfl]; rfl
    · simp [GetRefCount, RemoveActiveMeshSlots, store]
    · simp [GetDisplayArray, RemoveActiveMeshSlots, store]
    · intro e he
      simp [RemoveActiveMeshSlots, store, he]
  · obtain ⟨h1, h2, _, _, h5⟩ := activateAll_frame d slots h
    exact ⟨h1, h2, h5⟩

/-- Witness of C26 on the frame `stateOfFrame`: the mesh slot 11 is activated
once more on the display array bucket 3, whose active mesh slots are then 11,
12, 11; the solid pass then ends the loop of the mesh slot 11 twice and draws
it twice. -/
theorem C26_active_mesh_slots_append_only_witness :
    GetActiveMeshSlots (activateAll heapOfFrame 3 [11]) 3 = [11, 12, 11]
    ∧ GetNumActiveMeshSlots (activateAll heapOfFrame 3 [11]) 3 = 3
    ∧ GetNumActiveMeshSlots (RemoveActiveMeshSlots heapOfFrame 3) 3 = 0
    ∧ (RenderSolidBuckets materialsOfFrame {} managerOfFrame identityCamera 2
          stateQueuedTwice).map
        (fun r => (loopsEnded 11 r.calls, r.calls.countP (Call.isRenderMeshSlot 11)))
        = some (2, 2)
    ∧ ∃ r, RenderSolidBuckets materialsOfFrame {} managerOfFrame identityCamera 2
          { heap := ActivateMesh (ActivateMesh (RemoveActiveMeshSlots heapOfFrame 3) 3 11) 3 11
            rasty := singlePassDevice } = some r
        ∧ loopsEnded 11 [] + 2 ≤ loopsEnded 11 r.calls := by
  have hsome : (RenderSolidBuckets materialsOfFrame {} managerOfFrame identityCamera 2
      { heap := ActivateMesh (ActivateMesh (RemoveActiveMeshSlots heapOfFrame 3) 3 11) 3 11
        rasty := singlePassDevice }).isSome = true := by decide
  obtain ⟨r, hr⟩ := Option.isSome_iff_exists.mp hsome
  exact ⟨(C26_active_mesh_slots_append_only heapOfFrame 3 [11]).1.trans (by decide),
    (C26_active_mesh_slots_append_only heapOfFrame 3 [11]).2.1.trans (by decide),
    (C26_active_mesh_slots_append_only heapOfFrame 3 [11]).2.2.2.2.2.2.2.1.1,
    by decide,
    r, hr,
    (C26_active_mesh_slots_append_only (RemoveActiveMeshSlots heapOfFrame 3) 3
        []).2.2.2.2.2.2.1
      materialsOfFrame {} managerOfFrame identityCamera 2
      { heap := ActivateMesh (ActivateMesh (RemoveActiveMeshSlots heapOfFrame 3) 3 11) 3 11
        rasty := singlePassDevice }
      r 11 rfl (by decide) (by decide) hr⟩

/-- C21: when `Renderbuckets` returns and the device is not in the shadow
pass, the modified flag of the mesh object of every mesh slot (active or not)
of every solid and alpha bucket is 0. When the device is in the shadow pass,
`Renderbuckets` calls `SetModifiedFlag` on no mesh object: the flags are those
the two render passes left, which are those before the call. The buckets,
their mesh slots and the mesh objects of the mesh slots are those before the
call. The call returns as soon as the device does not accept a material for
ever. -/
theorem C21_Renderbuckets_resets_modified_flags (M : Materials) (D : Deformers)
    (self : RAS_BucketManager) (cameratrans : MT_Transform) (w : RenderState) :
    (∀ fuel r, Renderbuckets M D self cameratrans fuel w = some r →
      r.rasty.m_drawingmode = w.rasty.m_drawingmode
      ∧ r.heap.materialBucket = w.heap.materialBucket
      ∧ (∀ ms, (r.heap.meshSlot ms).m_mesh = (w.heap.meshSlot ms).m_mesh)
      ∧ (w.rasty.m_drawingmode ≠ KX_SHADOW →
          ∀ b ∈ self.m_SolidBuckets ++ self.m_AlphaBuckets,
            ∀ ms ∈ (r.heap.materialBucket b).m_meshSlots,
              r.modifiedFlag (r.heap.meshSlot ms).m_mesh = 0)
      ∧ (w.rasty.m_drawingmode = KX_SHADOW →
          (∀ r2, (RenderSolidBuckets M D self cameratrans fuel
                (w.call Call.ClearCachingInfo)).bind
              (RenderAlphaBuckets M D self cameratrans fuel) = some r2 →
            r.modifiedFlag = r2.modifiedFlag)
          ∧ r.modifiedFlag = w.modifiedFlag
          ∧ ∃ made, r.calls = w.calls ++ made ∧ made.filter Call.isSetModifiedFlag = []))
    ∧ (EventuallyRejects w.rasty →
        ∃ F r, ∀ fuel, F ≤ fuel → Renderbuckets M D self cameratrans fuel w = some r) := by
  constructor
  · intro fuel r h
    obtain ⟨r2, hbind, hr, hframe⟩ := Renderbuckets_passes M D self cameratrans fuel w r h
    have hheap : r.heap = r2.heap := by rw [hr]; exact finish_heap self r2
    have hrasty : r.rasty = r2.rasty := by rw [hr]; exact finish_rasty self r2
    refine ⟨by rw [hrasty]; exact hframe.drawingmode,
      by rw [hheap]; exact hframe.materialBucket,
      fun ms => by rw [hheap]; exact hframe.mesh ms, ?_, ?_⟩
    · intro hmode b hb ms hms
      have hmode2 : r2.rasty.m_drawingmode ≠ KX_SHADOW := by
        rw [hframe.drawingmode]; exact hmode
      obtain ⟨_, hflags⟩ := finish_spec self r2 hmode2
      rw [hheap] at hms ⊢
      rw [hr, hflags, if_pos]
      refine List.mem_map.mpr ⟨ms, ?_, rfl⟩
      unfold meshSlotsOf
      rw [List.mem_flatMap]
      exact ⟨b, hb, hms⟩
    · intro hmode
      have hmode2 : ¬ r2.rasty.m_drawingmode ≠ KX_SHADOW := by
        rw [hframe.drawingmode]; exact fun hne => hne hmode
      have hfin : r = r2.call (Call.SetClientObject NULL) := by
        rw [hr]
        unfold Renderbuckets.finish
        rw [if_neg hmode2]
      refine ⟨?_, ?_, ?_⟩
      · intro r2b hb
        rw [hbind, Option.some.injEq] at hb
        rw [← hb, hfin]
        rfl
      · rw [hfin]
        exact hframe.modifiedFlag
      · obtain ⟨made, hmade, hfilter, _⟩ := hframe.calls
        refine ⟨made ++ [Call.SetClientObject NULL], ?_, ?_⟩
        · rw [hfin]
          show r2.calls ++ [Call.SetClientObject NULL] = _
          rw [hmade, List.append_assoc]
        · rw [List.filter_append, hfilter]
          rfl
  · intro hev
    exact Renderbuckets_total M D self cameratrans w hev

/-- Witness of C21: on the frame `stateOfFrame` (mode `KX_SOLID`) the flags
of the mesh objects of the mesh slots 11 and 13, which were 1, are 0 when
`Renderbuckets` returns; in the shadow pass the flags are left as they
were. -/
theorem C21_Renderbuckets_resets_modified_flags_witness :
    stateOfFrame.modifiedFlag (stateOfFrame.heap.meshSlot 11).m_mesh = 1
    ∧ (∃ r, Renderbuckets materialsOfFrame {} managerOfFrame identityCamera 2 stateOfFrame
          = some r
        ∧ r.modifiedFlag (r.heap.meshSlot 11).m_mesh = 0
        ∧ r.modifiedFlag (r.heap.meshSlot 13).m_mesh = 0)
    ∧ (∃ r, Renderbuckets materialsOfFrame {} managerOfFrame identityCamera 2
          { stateOfFrame with rasty := { singlePassDevice with m_drawingmode := KX_SHADOW } }
          = some r
        ∧ r.modifiedFlag = stateOfFrame.modifiedFlag)
    ∧ ∃ F r, ∀ fuel, F ≤ fuel →
        Renderbuckets materialsOfFrame {} managerOfFrame identityCamera fuel stateOfFrame
          = some r := by
  have hthm := C21_Renderbuckets_resets_modified_flags materialsOfFrame {} managerOfFrame
    identityCamera stateOfFrame
  have hsome : (Renderbuckets materialsOfFrame {} managerOfFrame identityCamera 2
      stateOfFrame).isSome = true := by decide
  obtain ⟨r, hr⟩ := Option.isSome_iff_exists.mp hsome
  obtain ⟨_, hmb, _, hzero, _⟩ := hthm.1 2 r hr
  have hsome2 : (Renderbuckets materialsOfFrame {} managerOfFrame identityCamera 2
      { stateOfFrame with
        rasty := { singlePassDevice with m_drawingmode := KX_SHADOW } }).isSome = true := by
    decide
  obtain ⟨q, hq⟩ := Option.isSome_iff_exists.mp hsome2
  obtain ⟨_, _, _, _, hshadow⟩ :=
    (C21_Renderbuckets_resets_modified_flags materialsOfFrame {} managerOfFrame
      identityCamera
      { stateOfFrame with rasty := { singlePassDevice with m_drawingmode := KX_SHADOW } }).1
      2 q hq
  refine ⟨by decide, ⟨r, hr, hzero (by decide) 1 (by decide) 11 ?_,
    hzero (by decide) 2 (by decide) 13 ?_⟩, ⟨q, hq, (hshadow rfl).2.1⟩,
    hthm.2 singlePassDevice_rejects⟩
  · rw [hmb]; decide
  · rw [hmb]; decide

/-- C22: `ReleaseDisplayLists(mat)` and `ReleaseMaterials(mat)` select the
buckets by the same rule, `selectedBuckets`: with `mat = NULL` every bucket of
both collections, otherwise the buckets whose material pointer is `mat`
(whatever the equality by value of materials says). `ReleaseMaterials` calls
`ReleaseMaterial` on the materials of the selected buckets, in order. After
`ReleaseDisplayLists(NULL)` every mesh slot of every bucket has no display
list; after `ReleaseDisplayLists(mat)` with `mat` not NULL the mesh slots of
the buckets whose material is `mat` have no display list and every other mesh
slot is unchanged. `Release` is called on the display lists that were set in
the mesh slots of the selected buckets, and on nothing else. Only the display
list pointers of mesh slots change: the buckets, their lists and the rest of
the heap are unchanged. -/
theorem C22_release_selects_by_material_pointer (h : Heap) (self : RAS_BucketManager)
    (mat : Nat) :
    ReleaseMaterials h self mat = (selectedBuckets h self mat).map (GetPolyMaterial h)
    ∧ (∀ ms, (ReleaseDisplayLists h self mat).1.meshSlot ms
        = if ms ∈ meshSlotsOf h (selectedBuckets h self mat)
          then { (h.meshSlot ms) with m_DisplayList := NULL }
          else h.meshSlot ms)
    ∧ (∀ dl, dl ∈ (ReleaseDisplayLists h self mat).2
        ↔ dl ≠ NULL ∧ ∃ ms ∈ meshSlotsOf h (selectedBuckets h self mat),
            (h.meshSlot ms).m_DisplayList = dl)
    ∧ (mat = NULL →
        selectedBuckets h self mat = self.m_SolidBuckets ++ self.m_AlphaBuckets
        ∧ ∀ b ∈ self.m_SolidBuckets ++ self.m_AlphaBuckets,
            ∀ ms ∈ (h.materialBucket b).m_meshSlots,
              ((ReleaseDisplayLists h self mat).1.meshSlot ms).m_DisplayList = NULL)
    ∧ (mat ≠ NULL →
        (∀ b, b ∈ selectedBuckets h self mat
          ↔ b ∈ self.m_SolidBuckets ++ self.m_AlphaBuckets ∧ GetPolyMaterial h b = mat)
        ∧ (∀ b ∈ self.m_SolidBuckets ++ self.m_AlphaBuckets, GetPolyMaterial h b = mat →
            ∀ ms ∈ (h.materialBucket b).m_meshSlots,
              ((ReleaseDisplayLists h self mat).1.meshSlot ms).m_DisplayList = NULL)
        ∧ (∀ ms,
            (∀ b ∈ self.m_SolidBuckets ++ self.m_AlphaBuckets, GetPolyMaterial h b = mat →
              ms ∉ (h.materialBucket b).m_meshSlots) →
            (ReleaseDisplayLists h self mat).1.meshSlot ms = h.meshSlot ms)
        ∧ ∀ (M : Materials) (b : Nat), M.equals mat (GetPolyMaterial h b) = true →
            GetPolyMaterial h b ≠ mat → b ∉ selectedBuckets h self mat)
    ∧ (ReleaseDisplayLists h self mat).1.materialBucket = h.materialBucket
    ∧ (ReleaseDisplayLists h self mat).1.displayArrayBucket = h.displayArrayBucket
    ∧ (ReleaseDisplayLists h self mat).1.displayArray = h.displayArray
    ∧ (ReleaseDisplayLists h self mat).1.live = h.live
    ∧ (ReleaseDisplayLists h self mat).1.next = h.next
    ∧ (ReleaseDisplayLists h self mat).1.destroyed = h.destroyed := by
  obtain ⟨h1, h2, h3, h4, h5, h6, h7, h8⟩ := ReleaseDisplayLists_spec h self mat
  refine ⟨ReleaseMaterials_spec h self mat, h1, h8, ?_, ?_, h2, h3, h4, h5, h6, h7⟩
  · intro hnull
    have hsel : selectedBuckets h self mat = self.m_SolidBuckets ++ self.m_AlphaBuckets := by
      unfold selectedBuckets
      rw [List.filter_eq_self]
      intro b _
      exact decide_eq_true (Or.inl hnull)
    refine ⟨hsel, ?_⟩
    intro b hb ms hms
    rw [h1 ms, if_pos]
    rw [hsel, mem_meshSlotsOf]
    exact ⟨b, hb, hms⟩
  · intro hmat
    have hiff : ∀ b, b ∈ selectedBuckets h self mat
        ↔ b ∈ self.m_SolidBuckets ++ self.m_AlphaBuckets ∧ GetPolyMaterial h b = mat := by
      intro b
      rw [mem_selectedBuckets]
      constructor
      · rintro ⟨hb, hm | hm⟩
        · exact absurd hm hmat
        · exact ⟨hb, hm⟩
      · rintro ⟨hb, hm⟩
        exact ⟨hb, Or.inr hm⟩
    refine ⟨hiff, ?_, ?_, ?_⟩
    · intro b hb hm ms hms
      rw [h1 ms, if_pos]
      rw [mem_meshSlotsOf]
      exact ⟨b, (hiff b).mpr ⟨hb, hm⟩, hms⟩
    · intro ms hno
      rw [h1 ms, if_neg]
      rw [mem_meshSlotsOf]
      rintro ⟨b, hb, hms⟩
      obtain ⟨hb1, hb2⟩ := (hiff b).mp hb
      exact hno b hb1 hb2 hms
    · intro M b _ hne hb
      exact hne ((hiff b).mp hb).2

/-- Witness of C22: in the manager with the solid buckets 1 (material 10,
mesh slots 11 and 12) and 2 (material 11, mesh slot 13) and the alpha bucket
3, `ReleaseMaterials(10)` releases the material 10 only and
`ReleaseDisplayLists(10)` clears the display lists of the mesh slots 11 and
12 and leaves the mesh slot 13 as it was, also when the materials 10 and 11
are equal by value; with NULL all three buckets are selected. -/
theorem C22_release_selects_by_material_pointer_witness :
    ReleaseMaterials heapOfDisplayLists managerOfDisplayLists 10 = [10]
    ∧ ReleaseMaterials heapOfDisplayLists managerOfDisplayLists NULL = [10, 11, 20]
    ∧ ((ReleaseDisplayLists heapOfDisplayLists managerOfDisplayLists 10).1.meshSlot 11).m_DisplayList
        = NULL
    ∧ (ReleaseDisplayLists heapOfDisplayLists managerOfDisplayLists 10).1.meshSlot 13
        = heapOfDisplayLists.meshSlot 13
    ∧ (heapOfDisplayLists.meshSlot 13).m_DisplayList = 73
    ∧ 2 ∉ selectedBuckets heapOfDisplayLists managerOfDisplayLists 10
    ∧ ((ReleaseDisplayLists heapOfDisplayLists managerOfDisplayLists NULL).1.meshSlot 13).m_DisplayList
        = NULL
    ∧ (ReleaseDisplayLists heapOfDisplayLists managerOfDisplayLists 10).2 = [71, 72] :=
  ⟨(C22_release_selects_by_material_pointer heapOfDisplayLists managerOfDisplayLists 10).1.trans
      (by decide),
    (C22_release_selects_by_material_pointer heapOfDisplayLists managerOfDisplayLists
      NULL).1.trans (by decide),
    ((C22_release_selects_by_material_pointer heapOfDisplayLists managerOfDisplayLists
      10).2.2.2.2.1 (by decide)).2.1 1 (by decide) (by decide) 11 (by decide),
    ((C22_release_selects_by_material_pointer heapOfDisplayLists managerOfDisplayLists
      10).2.2.2.2.1 (by decide)).2.2.1 13 (by decide),
    by decide,
    ((C22_release_selects_by_material_pointer heapOfDisplayLists managerOfDisplayLists
      10).2.2.2.2.1 (by decide)).2.2.2
        { equals := fun _ _ => true, IsAlpha := fun _ => false } 2 rfl (by decide),
    ((C22_release_selects_by_material_pointer heapOfDisplayLists managerOfDisplayLists
      NULL).2.2.2.1 rfl).2 2 (by decide) 13 (by decide),
    by decide⟩

/-- C25: if for every bucket with an active mesh slot the device accepts the
material only finitely many times in succession (no display array bucket
being listed twice in the alpha collection), `Renderbuckets` returns; when it
returns, `RenderMeshSlot` has been issued for every mesh slot exactly as many
times as `ActivateMaterial` returned true in the loops of that mesh slot, and
never for a bucket whose material the pass type excludes. The loop has no
other bound: on a device that accepts every material for ever, with an active
mesh slot in a solid bucket and no solid material excluded from the pass,
`Renderbuckets` does not return, whatever the number of tests allowed. -/
theorem C25_Renderbuckets_terminates_when_device_rejects (M : Materials) (D : Deformers)
    (self : RAS_BucketManager) (cameratrans : MT_Transform) (w : RenderState) :
    (AcceptsFinitely w self → (displayArrayBucketsOf w.heap self.m_AlphaBuckets).Nodup →
      ∃ F r, ∀ fuel, F ≤ fuel → Renderbuckets M D self cameratrans fuel w = some r)
    ∧ (∀ fuel r, Renderbuckets M D self cameratrans fuel w = some r →
      ∃ made, r.calls = w.calls ++ made
        ∧ (∀ ms, made.countP (Call.isRenderMeshSlot ms)
            = made.countP (Call.isActivateMaterial ms true))
        ∧ ∀ b ms, Call.RenderMeshSlot b ms ∈ made → ¬ excludedFromPass M w b)
    ∧ ((∀ n mat, w.rasty.accepts n mat = true) →
        (∀ b ∈ self.m_SolidBuckets, ¬ excludedFromPass M w b) →
        (∃ b ∈ self.m_SolidBuckets, ∃ d ∈ GetDisplayArrayBucketList w.heap b,
          GetActiveMeshSlots w.heap d ≠ []) →
        ∀ fuel, Renderbuckets M D self cameratrans fuel w = none) := by
  refine ⟨?_, ?_, ?_⟩
  · intro hfin hnd
    exact Renderbuckets_total_of M D self cameratrans w hfin hnd
  · intro fuel r h
    obtain ⟨r2, hbind, hr, hframe⟩ := Renderbuckets_passes M D self cameratrans fuel w r h
    simp only [Option.bind_eq_some] at hbind
    obtain ⟨r1, h1, h2⟩ := hbind
    have hdrawn : Drawn M w r2 :=
      Drawn_trans
        (Drawn_trans (Drawn_call M w Call.ClearCachingInfo rfl)
          (RenderSolidBuckets_drawn M D self cameratrans fuel _ r1 h1))
        (RenderAlphaBuckets_drawn M D self cameratrans fuel r1 r2 h2)
    obtain ⟨mf, hmf, _, hcount⟩ := hframe.calls
    obtain ⟨_, _, md, hmd, hex⟩ := hdrawn
    have hsame : md = mf := List.append_cancel_left (hmd.symm.trans hmf)
    obtain ⟨made3, h3, hr3, ha3, hn3⟩ := finish_calls self r2
    refine ⟨mf ++ made3, ?_, ?_, ?_⟩
    · rw [hr, h3, hmf, List.append_assoc]
    · intro ms
      rw [List.countP_append, List.countP_append, hcount ms, hr3 ms, ha3 ms true]
    · intro b ms hmem
      rcases List.mem_append.mp hmem with hmem | hmem
      · rw [← hsame] at hmem
        exact hex b ms hmem
      · exact absurd hmem (hn3 b ms)
  · intro hacc hne hact fuel
    unfold Renderbuckets
    have hdiv := RenderSolidBuckets_diverges M D self cameratrans fuel
      (w.call Call.ClearCachingInfo) hacc hne hact
    rw [hdiv]
    rfl

/-- Witness of C25: on the frame `stateOfFrame` the device rejects every
second call and `Renderbuckets` returns; in the shadow pass the bucket 1,
whose material does not cast shadows, is not drawn; on a device that accepts
every call `Renderbuckets` does not return. -/
theorem C25_Renderbuckets_terminates_when_device_rejects_witness :
    (∃ F r, ∀ fuel, F ≤ fuel →
        Renderbuckets materialsOfFrame {} managerOfFrame identityCamera fuel stateOfFrame
          = some r)
    ∧ (∃ r, Renderbuckets materialsOfFrame {} managerOfFrame identityCamera 2 stateOfShadowPass
          = some r
        ∧ ∃ made, r.calls = stateOfShadowPass.calls ++ made
            ∧ (∀ ms, made.countP (Call.isRenderMeshSlot ms)
                = made.countP (Call.isActivateMaterial ms true))
            ∧ Call.RenderMeshSlot 1 11 ∉ made)
    ∧ ∀ fuel, Renderbuckets materialsOfFrame {} managerOfFrame identityCamera fuel
        { stateOfFrame with rasty := acceptingDevice } = none := by
  have hfin : AcceptsFinitely stateOfFrame managerOfFrame :=
    fun b _ _ n => singlePassDevice_rejects (GetPolyMaterial stateOfFrame.heap b) n
  have hsome : (Renderbuckets materialsOfFrame {} managerOfFrame identityCamera 2
      stateOfShadowPass).isSome = true := by decide
  obtain ⟨r, hr⟩ := Option.isSome_iff_exists.mp hsome
  obtain ⟨made, hmade, hcount, hex⟩ :=
    (C25_Renderbuckets_terminates_when_device_rejects materialsOfFrame {} managerOfFrame
      identityCamera stateOfShadowPass).2.1 2 r hr
  refine ⟨(C25_Renderbuckets_terminates_when_device_rejects materialsOfFrame {} managerOfFrame
      identityCamera stateOfFrame).1 hfin (by decide),
    ⟨r, hr, made, hmade, hcount, fun hmem => hex 1 11 hmem ?_⟩, ?_⟩
  · unfold excludedFromPass
    decide
  · refine (C25_Renderbuckets_terminates_when_device_rejects materialsOfFrame {}
      managerOfFrame identityCamera { stateOfFrame with rasty := acceptingDevice }).2.2
      (fun _ _ => rfl) ?_ ⟨1, by decide, 3, by decide, by decide⟩
    intro b hb
    have hb1 : b = 1 := by simpa [managerOfFrame] using hb
    rw [hb1]
    unfold excludedFromPass
    decide

end RAS
